import Mathlib

/-! # NASCOM-2 emulator: a shallow embedding of the Z80 core, memory bus and port bus

The C++ sources keep the whole machine in file-scope variables.  Here they are
the fields of one record that every operation takes and returns.

Integer conventions.  A `uint16_t` variable is a `Nat` that every assignment
reduces modulo 65536; a `uint8_t` parameter is reduced modulo 256 where the
callee receives it; the `unsigned int` temporaries of `z80step` are 32 bits
wide, so a subtraction or negation wraps modulo 2^32.  A signed `int` that
may be negative is carried as its 32-bit two's-complement bit pattern, which
is what every use in the sources (mask, narrowing conversion, addition to a
16-bit register) observes.  A decrement of a 16-bit variable is the addition
of 65535 modulo 65536; constants are written as the first operand of a sum.
-/

namespace Nascom

/-! ## Machine state -/

/-- The registers of `z80-simulator.cpp`, the `ram` array of `memory.cpp`, the
keyboard scanner of `ports.cpp`, and the bytes written to standard output. -/
structure State where
  AF : Nat
  BC : Nat
  DE : Nat
  HL : Nat
  ir : Nat
  ix : Nat
  iy : Nat
  SP : Nat
  PC : Nat
  IFF : Nat
  AFalt : Nat
  BCalt : Nat
  DEalt : Nat
  HLalt : Nat
  ram : Nat → Nat
  keyMatrix : Nat → Nat
  keyRow : Nat
  prevPort : Nat
  out : List Nat

/-- Bitwise complement of a 32-bit `int`, as a bit pattern. -/
def bnot (x : Nat) : Nat := 0xFFFFFFFF - x

/-- Subtraction on 32-bit integers, wrapping modulo 2^32. -/
def sub32 (a b : Nat) : Nat := (0x100000000 + a - b) % 0x100000000

/-- C truth value of a condition. -/
def b2n (c : Bool) : Nat := if c then 1 else 0

/-- The value of `(signed char) v` for a byte `v`, as a 32-bit pattern. -/
def schar (v : Nat) : Nat := if v % 256 < 128 then v % 256 else 0xFFFFFF00 + v % 256

/-! ## memory.cpp -/

/-- `printable`: clamp a character into the printable range. -/
def printable (ch : Nat) : Nat := max ((ch % 256) &&& 0x7f) 0x20

/-- One displayed row of `updateScreen`: 48 characters starting at
`screen[y*64]`, where `screen = &ram[0x80a]`. -/
def screenRow (ram : Nat → Nat) (y : Nat) : List Nat :=
  (List.range 48).map (fun x => printable (ram (0x80a + y * 64 + x)))

/-- The bytes `updateScreen` sends to standard output: cursor home, line 15,
then lines 0 to 14, each followed by a newline. -/
def frame (ram : Nat → Nat) : List Nat :=
  [0x1b, 0x5b, 0x48] ++ (screenRow ram 15 ++ [0x0a]) ++
    ((List.range 15).map (fun y => screenRow ram y ++ [0x0a])).flatten

/-- `updateScreen`. -/
def updateScreen (s : State) : State := { s with out := s.out ++ frame s.ram }

/-- `readRam`: the parameter is a `uint16_t` and the result a `uint8_t`. -/
def readRam (s : State) (addr : Nat) : Nat := s.ram (addr % 65536) % 256

/-- `writeRam`: the store is guarded by the ROM windows, and a write into
`[0x800, 0x800+1024]` redraws the screen. -/
def writeRam (s : State) (addr val : Nat) : State :=
  let addr := addr % 65536
  let val := val % 256
  let s1 : State :=
    if 0x800 ≤ addr ∧ addr < 0xe000 then
      { s with ram := fun a => if a = addr then val else s.ram a }
    else s
  if 0x800 ≤ addr ∧ addr ≤ 0x800 + 1024 then updateScreen s1 else s1

/-! ## ports.cpp -/

/-- `portOut`. -/
def portOut (s : State) (port value : Nat) : State :=
  let port := port % 256
  let value := value % 256
  if port = 0 then
    let highToLow := (s.prevPort &&& bnot value) % 256
    let s1 : State :=
      if (highToLow &&& 0x01) ≠ 0 ∧ s.keyRow < 9 then
        { s with keyRow := (s.keyRow + 1) % 256 }
      else s
    let s2 : State :=
      if (highToLow &&& 0x02) ≠ 0 then { s1 with keyRow := 0 } else s1
    { s2 with prevPort := value }
  else s

/-- `portIn`.  `keyMatrix` is indexed by `keyRow` exactly as in the source;
the array has nine elements, and the index is not checked. -/
def portIn (s : State) (port : Nat) : Nat :=
  let port := port % 256
  if port = 0 then (bnot (s.keyMatrix s.keyRow)) % 256 else 0

/-! ## z80-simulator.cpp: helpers -/

def lowDigit (val : Nat) : Nat := (val % 256) &&& 0x0f
def highDigit (val : Nat) : Nat := ((val % 256) >>> 4) &&& 0x0f
def lowReg (val : Nat) : Nat := val &&& 0x00ff
def highReg (val : Nat) : Nat := (val >>> 8) &&& 0x00ff

/-- The macro `SetlowReg(x, v)`: the new value of `x`. -/
def SetlowReg (x v : Nat) : Nat := ((x &&& 0xff00) ||| (v &&& 0xff)) % 65536

/-- The macro `SethighReg(x, v)`: the new value of `x`. -/
def SethighReg (x v : Nat) : Nat := ((x &&& 0xff) ||| ((v &&& 0xff) <<< 8)) % 65536

def CarryFlag : Nat := 0x01
def SubFlag : Nat := 0x02
def ParityFlag : Nat := 0x04
def HalfFlag : Nat := 0x10
def ZeroFlag : Nat := 0x40
def SignFlag : Nat := 0x80

/-- `setFlag`: the new value of `AF`.  With `val` false the source evaluates
`AF & ~flag` and discards it, so `AF` keeps its value. -/
def setFlag (AF flag : Nat) (val : Bool) : Nat :=
  if val then (AF ||| flag) % 65536 else AF

/-- `testFlag` on a given `AF`. -/
def testFlag (AF flag : Nat) : Bool := decide ((AF &&& flag) ≠ 0)

/-- `readWord`. -/
def readWord (s : State) (addr : Nat) : Nat :=
  (readRam s addr ||| (readRam s (addr % 65536 + 1) <<< 8)) % 65536

/-- `writeWord`. -/
def writeWord (s : State) (addr val : Nat) : State :=
  let addr := addr % 65536
  let val := val % 65536
  let s := writeRam s addr (val &&& 0xff)
  writeRam s (addr + 1) (val >>> 8)

/-- `push`. -/
def push (s : State) (val : Nat) : State :=
  let val := val % 65536
  let s : State := { s with SP := (65535 + s.SP) % 65536 }
  let s := writeRam s s.SP (val >>> 8)
  let s : State := { s with SP := (65535 + s.SP) % 65536 }
  writeRam s s.SP (val &&& 0xff)

/-- `pop`: the popped word and the new state. -/
def pop (s : State) : Nat × State :=
  let val := readRam s s.SP
  let s : State := { s with SP := (s.SP + 1) % 65536 }
  let val := (val ||| (readRam s s.SP <<< 8)) % 65536
  let s : State := { s with SP := (s.SP + 1) % 65536 }
  (val, s)

/-- `conditionalJump`. -/
def conditionalJump (s : State) (cond : Bool) : State :=
  if cond then { s with PC := readWord s s.PC }
  else { s with PC := (s.PC + 2) % 65536 }

/-- `conditionalCall`. -/
def conditionalCall (s : State) (cond : Bool) : State :=
  if cond then
    let adrr := readWord s s.PC
    let s := push s (s.PC + 2)
    { s with PC := adrr }
  else { s with PC := (s.PC + 2) % 65536 }

/-- The loop of `parity`: each round clears the lowest set bit of `val` and
flips `p`.  A byte has at most eight set bits, so eight rounds reach
`val = 0`. -/
def parityLoop : Nat → Nat → Bool → Bool
  | 0, _, p => p
  | fuel + 1, val, p =>
    if val ≠ 0 then parityLoop fuel (val &&& (val - 1)) (!p) else p

/-- `parity`. -/
def parity (val : Nat) : Nat :=
  if parityLoop 8 (val % 256) true then 0x04 else 0x00

/-- The body of the template `swap(T a, T b)`, acting on the function's own
parameters: the values of `a` and `b` when it returns. -/
def swapLocals (a b : Nat) : Nat × Nat :=
  let tmp := a
  let a := b
  let b := tmp
  (a, b)

/-- A call `swap(x, y)`: the values of the caller's `x` and `y` after the
call.  Both parameters of the template are passed by value, so the exchange
is made on copies that are dropped on return. -/
def swap (x y : Nat) : Nat × Nat :=
  let _locals := swapLocals x y
  (x, y)

/-! ## z80-simulator.cpp: flag computations shared by several opcodes

Each of the following is one block of statements that the source repeats,
character for character, for every register operand. -/

/-- Flags of the 8-bit `INC`: `temp` is the incremented value. -/
def incAF (AF temp : Nat) : Nat :=
  ((AF &&& bnot 0xfe) ||| (temp &&& 0xa8) |||
    ((if (temp &&& 0xff) = 0 then 1 else 0) <<< 6) |||
    ((if (temp &&& 0xf) = 0 then 1 else 0) <<< 4) |||
    ((if temp = 0x80 then 1 else 0) <<< 2)) % 65536

/-- Flags of the 8-bit `DEC`: `temp` is the decremented value. -/
def decAF (AF temp : Nat) : Nat :=
  ((AF &&& bnot 0xfe) ||| (temp &&& 0xa8) |||
    ((if (temp &&& 0xff) = 0 then 1 else 0) <<< 6) |||
    ((if (temp &&& 0xf) = 0xf then 1 else 0) <<< 4) |||
    ((if temp = 0x7f then 1 else 0) <<< 2) ||| 2) % 65536

/-- `R += 0x100; temp = highReg(R); AF = ...` (INC B, D, H, IXYH): new `R`, new `AF`. -/
def incHigh (R AF : Nat) : Nat × Nat :=
  let R1 := (0x100 + R) % 65536
  (R1, incAF AF (highReg R1))

/-- `R -= 0x100; temp = highReg(R); AF = ...` (DEC B, D, H, IXYH). -/
def decHigh (R AF : Nat) : Nat × Nat :=
  let R1 := (0xff00 + R) % 65536
  (R1, decAF AF (highReg R1))

/-- `temp = lowReg(R)+1; SetlowReg(R, temp); AF = ...` (INC C, E, L, IXYL). -/
def incLow (R AF : Nat) : Nat × Nat :=
  let temp := lowReg R + 1
  (SetlowReg R temp, incAF AF temp)

/-- `temp = lowReg(R)-1; SetlowReg(R, temp); AF = ...` (DEC C, E, L, IXYL). -/
def decLow (R AF : Nat) : Nat × Nat :=
  let temp := sub32 (lowReg R) 1
  (SetlowReg R temp, decAF AF temp)

/-- `ADD A,x` and `ADC A,x`: the new `AF`; `cin` is 0 or `testFlag(CarryFlag)`. -/
def addAF (AF temp cin : Nat) : Nat :=
  let acu := highReg AF
  let sum := acu + temp + cin
  let cbits := acu ^^^ temp ^^^ sum
  (((sum &&& 0xff) <<< 8) ||| (sum &&& 0xa8) |||
    ((if (sum &&& 0xff) = 0 then 1 else 0) <<< 6) ||| (cbits &&& 0x10) |||
    (((cbits >>> 6) ^^^ (cbits >>> 5)) &&& 4) |||
    ((cbits >>> 8) &&& 1)) % 65536

/-- `SUB x` and `SBC A,x`: the new `AF`; `cin` is 0 or `testFlag(CarryFlag)`. -/
def subAF (AF temp cin : Nat) : Nat :=
  let acu := highReg AF
  let sum := sub32 (sub32 acu temp) cin
  let cbits := acu ^^^ temp ^^^ sum
  (((sum &&& 0xff) <<< 8) ||| (sum &&& 0xa8) |||
    ((if (sum &&& 0xff) = 0 then 1 else 0) <<< 6) ||| (cbits &&& 0x10) |||
    (((cbits >>> 6) ^^^ (cbits >>> 5)) &&& 4) ||| 2 |||
    ((cbits >>> 8) &&& 1)) % 65536

/-- `CP x`: the new `AF`. -/
def cpAF (AF temp : Nat) : Nat :=
  let AF1 := ((AF &&& bnot 0x28) ||| (temp &&& 0x28)) % 65536
  let acu := highReg AF1
  let sum := sub32 acu temp
  let cbits := acu ^^^ temp ^^^ sum
  ((AF1 &&& bnot 0xff) ||| (sum &&& 0x80) |||
    ((if (sum &&& 0xff) = 0 then 1 else 0) <<< 6) ||| (temp &&& 0x28) |||
    (((cbits >>> 6) ^^^ (cbits >>> 5)) &&& 4) ||| 2 |||
    (cbits &&& 0x10) ||| ((cbits >>> 8) &&& 1)) % 65536

/-- `AND x`: the new `AF` from the result byte `sum`. -/
def andAF (sum : Nat) : Nat :=
  ((sum <<< 8) ||| (sum &&& 0xa8) ||| ((if sum = 0 then 1 else 0) <<< 6) |||
    0x10 ||| parity sum) % 65536

/-- `XOR x` and `OR x`: the new `AF` from the result byte `sum`. -/
def orAF (sum : Nat) : Nat :=
  ((sum <<< 8) ||| (sum &&& 0xa8) ||| ((if sum = 0 then 1 else 0) <<< 6) |||
    parity sum) % 65536

/-- `ADD HL,rp` and `ADD IXY,rp`: the new first operand and the new `AF`.
The operands are the values after `R0 &= 0xffff; R1 &= 0xffff`. -/
def add16 (R0 R1 AF : Nat) : Nat × Nat :=
  let sum := R0 + R1
  let cbits := (R0 ^^^ R1 ^^^ sum) >>> 8
  (sum % 65536,
   ((AF &&& bnot 0x3b) ||| ((sum >>> 8) &&& 0x28) |||
    (cbits &&& 0x10) ||| ((cbits >>> 8) &&& 1)) % 65536)

/-- `ADC HL,rp`: the new `HL` and the new `AF`. -/
def adc16 (R0 R1 AF : Nat) : Nat × Nat :=
  let sum := R0 + R1 + b2n (testFlag AF CarryFlag)
  let cbits := (R0 ^^^ R1 ^^^ sum) >>> 8
  (sum % 65536,
   ((AF &&& bnot 0xff) ||| ((sum >>> 8) &&& 0xa8) |||
    ((if (sum &&& 0xffff) = 0 then 1 else 0) <<< 6) |||
    (((cbits >>> 6) ^^^ (cbits >>> 5)) &&& 4) |||
    (cbits &&& 0x10) ||| ((cbits >>> 8) &&& 1)) % 65536)

/-- `SBC HL,rp`: the new `HL` and the new `AF`. -/
def sbc16 (R0 R1 AF : Nat) : Nat × Nat :=
  let sum := sub32 (sub32 R0 R1) (b2n (testFlag AF CarryFlag))
  let cbits := (R0 ^^^ R1 ^^^ sum) >>> 8
  (sum % 65536,
   ((AF &&& bnot 0xff) ||| ((sum >>> 8) &&& 0xa8) |||
    ((if (sum &&& 0xffff) = 0 then 1 else 0) <<< 6) |||
    (((cbits >>> 6) ^^^ (cbits >>> 5)) &&& 4) |||
    (cbits &&& 0x10) ||| 2 ||| ((cbits >>> 8) &&& 1)) % 65536)

/-- `IN r,(C)`: the flags from the byte read. -/
def inAF (AF temp : Nat) : Nat :=
  ((AF &&& bnot 0xfe) ||| (temp &&& 0xa8) |||
    ((if (temp &&& 0xff) = 0 then 1 else 0) <<< 6) ||| parity temp) % 65536

/-- `DAA`: the new `AF`. -/
def daaAF (AF : Nat) : Nat :=
  let acu := highReg AF
  let temp := lowDigit acu
  let cbits := b2n (testFlag AF CarryFlag)
  let r : Nat × Nat :=
    if testFlag AF SubFlag then
      let hd : Bool := decide (cbits ≠ 0) || decide (acu > 0x99)
      let r1 : Nat × Nat :=
        if testFlag AF HalfFlag || decide (temp > 9) then
          let AF1 := if temp > 5 then setFlag AF HalfFlag false else AF
          (AF1, (sub32 acu 6) &&& 0xff)
        else (AF, acu)
      if hd then (r1.1, sub32 r1.2 0x160) else r1
    else
      let r1 : Nat × Nat :=
        if testFlag AF HalfFlag || decide (temp > 9) then
          (setFlag AF HalfFlag (decide (temp > 9)), acu + 6)
        else (AF, acu)
      if cbits ≠ 0 ∨ (r1.2 &&& 0x1f0) > 0x90 then (r1.1, r1.2 + 0x60) else r1
  let AF1 := r.1
  let cbits := cbits ||| ((r.2 >>> 8) &&& 1)
  let acu := r.2 &&& 0xff
  ((acu <<< 8) ||| (acu &&& 0xa8) ||| ((if acu = 0 then 1 else 0) <<< 6) |||
    (AF1 &&& 0x12) ||| parity acu ||| cbits) % 65536

/-- The flags written by `CPI`, `CPD`, `CPIR` and `CPDR`; `op` is the
truth value of "BC is not zero after the decrement". -/
def cpiAF (AF acu temp op : Nat) : Nat :=
  let sum := sub32 acu temp
  let cbits := acu ^^^ temp ^^^ sum
  let AF1 := ((AF &&& bnot 0xfe) ||| (sum &&& 0x80) |||
    ((if (sum &&& 0xff) = 0 then 1 else 0) <<< 6) |||
    (((sub32 sum ((cbits &&& 16) >>> 4)) &&& 2) <<< 4) ||| (cbits &&& 16) |||
    ((sub32 sum ((cbits >>> 4) &&& 1)) &&& 8) |||
    (op <<< 2) ||| 2) % 65536
  if (sum &&& 15) = 8 ∧ (cbits &&& 16) ≠ 0 then (AF1 &&& bnot 8) % 65536 else AF1

/-- `temp = readWord(PC); writeWord(temp, v); PC += 2`. -/
def storeWordAbs (s : State) (v : Nat) : State :=
  let temp := readWord s s.PC
  let s := writeWord s temp v
  { s with PC := (s.PC + 2) % 65536 }

/-- `temp = readWord(PC); v = readWord(temp); PC += 2`: the word `v` and the
state with `PC` advanced. -/
def loadWordAbs (s : State) : Nat × State :=
  let temp := readWord s s.PC
  (readWord s temp, { s with PC := (s.PC + 2) % 65536 })

/-- `adr = IXY + (signed char) readRam(PC); ++PC`: the address and the state
with `PC` advanced.  `adr` is an `unsigned int`; every use converts it to
a 16-bit address. -/
def indexAdr (s : State) (IXY : Nat) : Nat × State :=
  ((IXY + schar (readRam s s.PC)) % 0x100000000, { s with PC := (s.PC + 1) % 65536 })

/-! ## z80-simulator.cpp: the `0xCB` group -/

/-- `cb_prefix`.  The three `switch` statements in order: fetch the operand
selected by the low three bits of the opcode, compute, write the result back
to the same place. -/
def cb_prefix (s : State) (adr : Nat) : State :=
  let adr := adr % 65536
  let op := readRam s s.PC
  let s : State := { s with PC := (s.PC + 1) % 65536 }
  let acu :=
    if (op &&& 7) = 0 then highReg s.BC
    else if (op &&& 7) = 1 then lowReg s.BC
    else if (op &&& 7) = 2 then highReg s.DE
    else if (op &&& 7) = 3 then lowReg s.DE
    else if (op &&& 7) = 4 then highReg s.HL
    else if (op &&& 7) = 5 then lowReg s.HL
    else if (op &&& 7) = 6 then readRam s adr
    else highReg s.AF
  let cf := b2n (testFlag s.AF CarryFlag)
  let bit := 1 <<< ((op >>> 3) &&& 7)
  let r : Nat × Nat :=
    if (op &&& 0xc0) = 0x00 then
      /- shift/rotate: `tc` is `(temp, cbits)` -/
      let tc : Nat × Nat :=
        if (op &&& 0x38) = 0x00 then /- RLC -/
          let temp := (acu <<< 1) ||| (acu >>> 7); (temp, temp &&& 1)
        else if (op &&& 0x38) = 0x08 then /- RRC -/
          let temp := (acu >>> 1) ||| (acu <<< 7); (temp, temp &&& 0x80)
        else if (op &&& 0x38) = 0x10 then /- RL -/
          ((acu <<< 1) ||| cf, acu &&& 0x80)
        else if (op &&& 0x38) = 0x18 then /- RR -/
          ((acu >>> 1) ||| (cf <<< 7), acu &&& 1)
        else if (op &&& 0x38) = 0x20 then /- SLA -/
          (acu <<< 1, acu &&& 0x80)
        else if (op &&& 0x38) = 0x28 then /- SRA -/
          ((acu >>> 1) ||| (acu &&& 0x80), acu &&& 1)
        else if (op &&& 0x38) = 0x30 then /- SLIA -/
          ((acu <<< 1) ||| 1, acu &&& 0x80)
        else /- SRL -/
          (acu >>> 1, acu &&& 1)
      (tc.1,
       ((s.AF &&& bnot 0xff) ||| (tc.1 &&& 0xa8) |||
        ((if (tc.1 &&& 0xff) = 0 then 1 else 0) <<< 6) |||
        parity tc.1 ||| (if tc.2 ≠ 0 then 1 else 0)) % 65536)
    else if (op &&& 0xc0) = 0x40 then /- BIT -/
      let AF1 :=
        if (acu &&& bit) ≠ 0 then
          ((s.AF &&& bnot 0xfe) ||| 0x10 |||
            ((if (op &&& 0x38) = 0x38 then 1 else 0) <<< 7)) % 65536
        else ((s.AF &&& bnot 0xfe) ||| 0x54) % 65536
      let AF2 := if (op &&& 7) ≠ 6 then (AF1 ||| (acu &&& 0x28)) % 65536 else AF1
      (acu, AF2)
    else if (op &&& 0xc0) = 0x80 then /- RES -/
      (acu &&& bnot bit, s.AF)
    else /- SET -/
      (acu ||| bit, s.AF)
  let temp := r.1
  let s : State := { s with AF := r.2 }
  if (op &&& 7) = 0 then { s with BC := SethighReg s.BC temp }
  else if (op &&& 7) = 1 then { s with BC := SetlowReg s.BC temp }
  else if (op &&& 7) = 2 then { s with DE := SethighReg s.DE temp }
  else if (op &&& 7) = 3 then { s with DE := SetlowReg s.DE temp }
  else if (op &&& 7) = 4 then { s with HL := SethighReg s.HL temp }
  else if (op &&& 7) = 5 then { s with HL := SetlowReg s.HL temp }
  else if (op &&& 7) = 6 then writeRam s adr temp
  else { s with AF := SethighReg s.AF temp }

/-! ## z80-simulator.cpp: the `0xDD` / `0xFD` group -/

/-- Opcodes `0x00` to `0x0F` of the `switch` of `dfd_prefix`; `none` when the
opcode has no case there. -/
def dfd0 (op : Nat) (s : State) (IXY : Nat) : Option (State × Nat) :=
  if op = 0x09 then /- ADD IXY,BC -/
    some (let r := add16 (IXY &&& 0xffff) (s.BC &&& 0xffff) s.AF; ({ s with BC := s.BC &&& 0xffff, AF := r.2 }, r.1))
  else none

/-- Opcodes `0x10` to `0x1F` of the `switch` of `dfd_prefix`; `none` when the
opcode has no case there. -/
def dfd1 (op : Nat) (s : State) (IXY : Nat) : Option (State × Nat) :=
  if op = 0x19 then /- ADD IXY,DE -/
    some (let r := add16 (IXY &&& 0xffff) (s.DE &&& 0xffff) s.AF; ({ s with DE := s.DE &&& 0xffff, AF := r.2 }, r.1))
  else none

/-- Opcodes `0x20` to `0x2F` of the `switch` of `dfd_prefix`; `none` when the
opcode has no case there. -/
def dfd2 (op : Nat) (s : State) (IXY : Nat) : Option (State × Nat) :=
  if op = 0x21 then /- LD IXY,nnnn -/
    some (({ s with PC := (s.PC + 2) % 65536 }, readWord s s.PC))
  else if op = 0x22 then /- LD (nnnn),IXY -/
    some ((storeWordAbs s IXY, IXY))
  else if op = 0x23 then /- INC IXY -/
    some ((s, (IXY + 1) % 65536))
  else if op = 0x24 then /- INC IXYH -/
    some (let r := incHigh IXY s.AF; ({ s with AF := r.2 }, r.1))
  else if op = 0x25 then /- DEC IXYH -/
    some (let r := decHigh IXY s.AF; ({ s with AF := r.2 }, r.1))
  else if op = 0x26 then /- LD IXYH,nn -/
    some (({ s with PC := (s.PC + 1) % 65536 }, SethighReg IXY (readRam s s.PC)))
  else if op = 0x29 then /- ADD IXY,IXY -/
    some (let r := add16 (IXY &&& 0xffff) (IXY &&& 0xffff) s.AF; ({ s with AF := r.2 }, r.1))
  else if op = 0x2A then /- LD IXY,(nnnn) -/
    some (let r := loadWordAbs s; (r.2, r.1))
  else if op = 0x2B then /- DEC IXY -/
    some ((s, (65535 + IXY) % 65536))
  else if op = 0x2C then /- INC IXYL -/
    some (let r := incLow IXY s.AF; ({ s with AF := r.2 }, r.1))
  else if op = 0x2D then /- DEC IXYL -/
    some (let r := decLow IXY s.AF; ({ s with AF := r.2 }, r.1))
  else if op = 0x2E then /- LD IXYL,nn -/
    some (({ s with PC := (s.PC + 1) % 65536 }, SetlowReg IXY (readRam s s.PC)))
  else none

/-- Opcodes `0x30` to `0x3F` of the `switch` of `dfd_prefix`; `none` when the
opcode has no case there. -/
def dfd3 (op : Nat) (s : State) (IXY : Nat) : Option (State × Nat) :=
  if op = 0x34 then /- INC (IXY+dd) -/
    some (let a := indexAdr s IXY; let temp := readRam a.2 a.1 + 1; let s1 := writeRam a.2 a.1 temp; ({ s1 with AF := incAF s1.AF temp }, IXY))
  else if op = 0x35 then /- DEC (IXY+dd) -/
    some (let a := indexAdr s IXY; let temp := sub32 (readRam a.2 a.1) 1; let s1 := writeRam a.2 a.1 temp; ({ s1 with AF := decAF s1.AF temp }, IXY))
  else if op = 0x36 then /- LD (IXY+dd),nn -/
    some (let a := indexAdr s IXY; let s1 := writeRam a.2 a.1 (readRam a.2 a.2.PC); ({ s1 with PC := (s1.PC + 1) % 65536 }, IXY))
  else if op = 0x39 then /- ADD IXY,SP -/
    some (let r := add16 (IXY &&& 0xffff) (s.SP &&& 0xffff) s.AF; ({ s with SP := s.SP &&& 0xffff, AF := r.2 }, r.1))
  else none

/-- Opcodes `0x40` to `0x4F` of the `switch` of `dfd_prefix`; `none` when the
opcode has no case there. -/
def dfd4 (op : Nat) (s : State) (IXY : Nat) : Option (State × Nat) :=
  if op = 0x44 then /- LD B,IXYH -/
    some (({ s with BC := SethighReg s.BC (highReg IXY) }, IXY))
  else if op = 0x45 then /- LD B,IXYL -/
    some (({ s with BC := SethighReg s.BC (lowReg IXY) }, IXY))
  else if op = 0x46 then /- LD B,(IXY+dd) -/
    some (let a := indexAdr s IXY; ({ a.2 with BC := SethighReg a.2.BC (readRam a.2 a.1) }, IXY))
  else if op = 0x4C then /- LD C,IXYH -/
    some (({ s with BC := SetlowReg s.BC (highReg IXY) }, IXY))
  else if op = 0x4D then /- LD C,IXYL -/
    some (({ s with BC := SetlowReg s.BC (lowReg IXY) }, IXY))
  else if op = 0x4E then /- LD C,(IXY+dd) -/
    some (let a := indexAdr s IXY; ({ a.2 with BC := SetlowReg a.2.BC (readRam a.2 a.1) }, IXY))
  else none

/-- Opcodes `0x50` to `0x5F` of the `switch` of `dfd_prefix`; `none` when the
opcode has no case there. -/
def dfd5 (op : Nat) (s : State) (IXY : Nat) : Option (State × Nat) :=
  if op = 0x54 then /- LD D,IXYH -/
    some (({ s with DE := SethighReg s.DE (highReg IXY) }, IXY))
  else if op = 0x55 then /- LD D,IXYL -/
    some (({ s with DE := SethighReg s.DE (lowReg IXY) }, IXY))
  else if op = 0x56 then /- LD D,(IXY+dd) -/
    some (let a := indexAdr s IXY; ({ a.2 with DE := SethighReg a.2.DE (readRam a.2 a.1) }, IXY))
  else if op = 0x5C then /- LD E,H -/
    some (({ s with DE := SetlowReg s.DE (highReg IXY) }, IXY))
  else if op = 0x5D then /- LD E,L -/
    some (({ s with DE := SetlowReg s.DE (lowReg IXY) }, IXY))
  else if op = 0x5E then /- LD E,(IXY+dd) -/
    some (let a := indexAdr s IXY; ({ a.2 with DE := SetlowReg a.2.DE (readRam a.2 a.1) }, IXY))
  else none

/-- Opcodes `0x60` to `0x6F` of the `switch` of `dfd_prefix`; `none` when the
opcode has no case there. -/
def dfd6 (op : Nat) (s : State) (IXY : Nat) : Option (State × Nat) :=
  if op = 0x60 then /- LD IXYH,B -/
    some ((s, SethighReg IXY (highReg s.BC)))
  else if op = 0x61 then /- LD IXYH,C -/
    some ((s, SethighReg IXY (lowReg s.BC)))
  else if op = 0x62 then /- LD IXYH,D -/
    some ((s, SethighReg IXY (highReg s.DE)))
  else if op = 0x63 then /- LD IXYH,E -/
    some ((s, SethighReg IXY (lowReg s.DE)))
  else if op = 0x64 then /- LD IXYH,IXYH -/
    some ((s, IXY))
  else if op = 0x65 then /- LD IXYH,IXYL -/
    some ((s, SethighReg IXY (lowReg IXY)))
  else if op = 0x66 then /- LD H,(IXY+dd) -/
    some (let a := indexAdr s IXY; ({ a.2 with HL := SethighReg a.2.HL (readRam a.2 a.1) }, IXY))
  else if op = 0x67 then /- LD IXYH,A -/
    some ((s, SethighReg IXY (highReg s.AF)))
  else if op = 0x68 then /- LD IXYL,B -/
    some ((s, SetlowReg IXY (highReg s.BC)))
  else if op = 0x69 then /- LD IXYL,C -/
    some ((s, SetlowReg IXY (lowReg s.BC)))
  else if op = 0x6A then /- LD IXYL,D -/
    some ((s, SetlowReg IXY (highReg s.DE)))
  else if op = 0x6B then /- LD IXYL,E -/
    some ((s, SetlowReg IXY (lowReg s.DE)))
  else if op = 0x6C then /- LD IXYL,IXYH -/
    some ((s, SetlowReg IXY (highReg IXY)))
  else if op = 0x6D then /- LD IXYL,IXYL -/
    some ((s, IXY))
  else if op = 0x6E then /- LD L,(IXY+dd) -/
    some (let a := indexAdr s IXY; ({ a.2 with HL := SetlowReg a.2.HL (readRam a.2 a.1) }, IXY))
  else if op = 0x6F then /- LD IXYL,A -/
    some ((s, SetlowReg IXY (highReg s.AF)))
  else none

/-- Opcodes `0x70` to `0x7F` of the `switch` of `dfd_prefix`; `none` when the
opcode has no case there. -/
def dfd7 (op : Nat) (s : State) (IXY : Nat) : Option (State × Nat) :=
  if op = 0x70 then /- LD (IXY+dd),B -/
    some (let a := indexAdr s IXY; (writeRam a.2 a.1 (highReg a.2.BC), IXY))
  else if op = 0x71 then /- LD (IXY+dd),C -/
    some (let a := indexAdr s IXY; (writeRam a.2 a.1 (lowReg a.2.BC), IXY))
  else if op = 0x72 then /- LD (IXY+dd),D -/
    some (let a := indexAdr s IXY; (writeRam a.2 a.1 (highReg a.2.DE), IXY))
  else if op = 0x73 then /- LD (IXY+dd),E -/
    some (let a := indexAdr s IXY; (writeRam a.2 a.1 (lowReg a.2.DE), IXY))
  else if op = 0x74 then /- LD (IXY+dd),H -/
    some (let a := indexAdr s IXY; (writeRam a.2 a.1 (highReg a.2.HL), IXY))
  else if op = 0x75 then /- LD (IXY+dd),L -/
    some (let a := indexAdr s IXY; (writeRam a.2 a.1 (lowReg a.2.HL), IXY))
  else if op = 0x77 then /- LD (IXY+dd),A -/
    some (let a := indexAdr s IXY; (writeRam a.2 a.1 (highReg a.2.AF), IXY))
  else if op = 0x7C then /- LD A,IXYH -/
    some (({ s with AF := SethighReg s.AF (highReg IXY) }, IXY))
  else if op = 0x7D then /- LD A,IXYL -/
    some (({ s with AF := SethighReg s.AF (lowReg IXY) }, IXY))
  else if op = 0x7E then /- LD A,(IXY+dd) -/
    some (let a := indexAdr s IXY; ({ a.2 with AF := SethighReg a.2.AF (readRam a.2 a.1) }, IXY))
  else none

/-- Opcodes `0x80` to `0x8F` of the `switch` of `dfd_prefix`; `none` when the
opcode has no case there. -/
def dfd8 (op : Nat) (s : State) (IXY : Nat) : Option (State × Nat) :=
  if op = 0x84 then /- ADD A,IXYH -/
    some (({ s with AF := addAF s.AF (highReg IXY) 0 }, IXY))
  else if op = 0x85 then /- ADD A,IXYL -/
    some (({ s with AF := addAF s.AF (lowReg IXY) 0 }, IXY))
  else if op = 0x86 then /- ADD A,(IXY+dd) -/
    some (let a := indexAdr s IXY; ({ a.2 with AF := addAF a.2.AF (readRam a.2 a.1) 0 }, IXY))
  else if op = 0x8C then /- ADC A,IXYH -/
    some (({ s with AF := addAF s.AF (highReg IXY) (b2n (testFlag s.AF CarryFlag)) }, IXY))
  else if op = 0x8D then /- ADC A,IXYL -/
    some (({ s with AF := addAF s.AF (lowReg IXY) (b2n (testFlag s.AF CarryFlag)) }, IXY))
  else if op = 0x8E then /- ADC A,(IXY+dd) -/
    some (let a := indexAdr s IXY; ({ a.2 with AF := addAF a.2.AF (readRam a.2 a.1) (b2n (testFlag a.2.AF CarryFlag)) }, IXY))
  else none

/-- Opcodes `0x90` to `0x9F` of the `switch` of `dfd_prefix`; `none` when the
opcode has no case there. -/
def dfd9 (op : Nat) (s : State) (IXY : Nat) : Option (State × Nat) :=
  if op = 0x94 then /- SUB IXYH -/
    some (({ s with AF := subAF s.AF (highReg IXY) 0 }, IXY))
  else if op = 0x95 then /- SUB IXYL -/
    some (({ s with AF := subAF s.AF (lowReg IXY) 0 }, IXY))
  else if op = 0x96 then /- SUB (IXY+dd) -/
    some (let a := indexAdr s IXY; ({ a.2 with AF := subAF a.2.AF (readRam a.2 a.1) 0 }, IXY))
  else if op = 0x9C then /- SBC A,IXYH -/
    some (({ s with AF := subAF s.AF (highReg IXY) (b2n (testFlag s.AF CarryFlag)) }, IXY))
  else if op = 0x9D then /- SBC A,IXYL -/
    some (({ s with AF := subAF s.AF (lowReg IXY) (b2n (testFlag s.AF CarryFlag)) }, IXY))
  else if op = 0x9E then /- SBC A,(IXY+dd) -/
    some (let a := indexAdr s IXY; ({ a.2 with AF := subAF a.2.AF (readRam a.2 a.1) (b2n (testFlag a.2.AF CarryFlag)) }, IXY))
  else none

/-- Opcodes `0xA0` to `0xAF` of the `switch` of `dfd_prefix`; `none` when the
opcode has no case there. -/
def dfdA (op : Nat) (s : State) (IXY : Nat) : Option (State × Nat) :=
  if op = 0xA4 then /- AND IXYH -/
    some (({ s with AF := andAF (((s.AF &&& IXY) >>> 8) &&& 0xff) }, IXY))
  else if op = 0xA5 then /- AND IXYL -/
    some (({ s with AF := andAF (((s.AF >>> 8) &&& IXY) &&& 0xff) }, IXY))
  else if op = 0xA6 then /- AND (IXY+dd) -/
    some (let a := indexAdr s IXY; ({ a.2 with AF := andAF (((a.2.AF >>> 8) &&& readRam a.2 a.1) &&& 0xff) }, IXY))
  else if op = 0xAC then /- XOR IXYH -/
    some (({ s with AF := orAF (((s.AF ^^^ IXY) >>> 8) &&& 0xff) }, IXY))
  else if op = 0xAD then /- XOR IXYL -/
    some (({ s with AF := orAF (((s.AF >>> 8) ^^^ IXY) &&& 0xff) }, IXY))
  else if op = 0xAE then /- XOR (IXY+dd) -/
    some (let a := indexAdr s IXY; ({ a.2 with AF := orAF (((a.2.AF >>> 8) ^^^ readRam a.2 a.1) &&& 0xff) }, IXY))
  else none

/-- Opcodes `0xB0` to `0xBF` of the `switch` of `dfd_prefix`; `none` when the
opcode has no case there. -/
def dfdB (op : Nat) (s : State) (IXY : Nat) : Option (State × Nat) :=
  if op = 0xB4 then /- OR IXYH -/
    some (({ s with AF := orAF (((s.AF ||| IXY) >>> 8) &&& 0xff) }, IXY))
  else if op = 0xB5 then /- OR IXYL -/
    some (({ s with AF := orAF (((s.AF >>> 8) ||| IXY) &&& 0xff) }, IXY))
  else if op = 0xB6 then /- OR (IXY+dd) -/
    some (let a := indexAdr s IXY; ({ a.2 with AF := orAF (((a.2.AF >>> 8) ||| readRam a.2 a.1) &&& 0xff) }, IXY))
  else if op = 0xBC then /- CP IXYH -/
    some (({ s with AF := cpAF s.AF (highReg IXY) }, IXY))
  else if op = 0xBD then /- CP IXYL -/
    some (({ s with AF := cpAF s.AF (lowReg IXY) }, IXY))
  else if op = 0xBE then /- CP (IXY+dd) -/
    some (let a := indexAdr s IXY; ({ a.2 with AF := cpAF a.2.AF (readRam a.2 a.1) }, IXY))
  else none

/-- Opcodes `0xC0` to `0xCF` of the `switch` of `dfd_prefix`; `none` when the
opcode has no case there. -/
def dfdC (op : Nat) (s : State) (IXY : Nat) : Option (State × Nat) :=
  if op = 0xCB then /- CB prefix -/
    some (let a := indexAdr s IXY; ( cb_prefix a.2 a.1, IXY))
  else none

/-- Opcodes `0xE0` to `0xEF` of the `switch` of `dfd_prefix`; `none` when the
opcode has no case there. -/
def dfdE (op : Nat) (s : State) (IXY : Nat) : Option (State × Nat) :=
  if op = 0xE1 then /- pop IXY -/
    some (let r := pop s; (r.2, r.1))
  else if op = 0xE3 then /- EX (SP),IXY -/
    some (let temp := IXY; let r := pop s; (push r.2 temp, r.1))
  else if op = 0xE5 then /- push IXY -/
    some ((push s IXY, IXY))
  else if op = 0xE9 then /- JP (IXY) -/
    some (({ s with PC := IXY }, IXY))
  else none

/-- Opcodes `0xF0` to `0xFF` of the `switch` of `dfd_prefix`; `none` when the
opcode has no case there. -/
def dfdF (op : Nat) (s : State) (IXY : Nat) : Option (State × Nat) :=
  if op = 0xF9 then /- LD SP,IXY -/
    some (({ s with SP := IXY }, IXY))
  else none

/-- The `switch` of `dfd_prefix` on the opcode `op` already fetched: the
state after the instruction and the final value of the parameter `IXY`.  An
opcode without a case takes the `default`: `PC--`. -/
def dfdExec (op : Nat) (s : State) (IXY : Nat) : State × Nat :=
  let r : Option (State × Nat) :=
    if op < 0x10 then dfd0 op s IXY
    else if op < 0x20 then dfd1 op s IXY
    else if op < 0x30 then dfd2 op s IXY
    else if op < 0x40 then dfd3 op s IXY
    else if op < 0x50 then dfd4 op s IXY
    else if op < 0x60 then dfd5 op s IXY
    else if op < 0x70 then dfd6 op s IXY
    else if op < 0x80 then dfd7 op s IXY
    else if op < 0x90 then dfd8 op s IXY
    else if op < 0xA0 then dfd9 op s IXY
    else if op < 0xB0 then dfdA op s IXY
    else if op < 0xC0 then dfdB op s IXY
    else if op < 0xD0 then dfdC op s IXY
    else if op < 0xE0 then none
    else if op < 0xF0 then dfdE op s IXY
    else dfdF op s IXY
  match r with
  | some x => x
  | none => ({ s with PC := (65535 + s.PC) % 65536 }, IXY)

/-- `dfd_prefix`: `switch (++PC, op = readRam(PC-1))`.  The result is the
state after the prefixed instruction and the returned value of the by-value
parameter `IXY`, which the caller stores into `ix` or `iy`. -/
def dfd_prefix (s : State) (IXY : Nat) : State × Nat :=
  let s : State := { s with PC := (s.PC + 1) % 65536 }
  dfdExec (readRam s (65535 + s.PC)) s IXY

/-! ## z80-simulator.cpp: the `0xED` group -/

/-- Opcodes `0x40` to `0x4F` of the `switch` after `0xED`; `none` when the
opcode has no case there. -/
def ed4 (op : Nat) (s : State) : Option State :=
  if op = 0x40 then /- IN B,(C) -/
    some (let temp := portIn s (lowReg s.BC); { s with BC := SethighReg s.BC (temp), AF := inAF s.AF temp })
  else if op = 0x41 then /- OUT (C),B -/
    some (portOut s (lowReg s.BC) s.BC)
  else if op = 0x42 then /- SBC HL,BC -/
    some (let r := sbc16 (s.HL &&& 0xffff) (s.BC &&& 0xffff) s.AF; { s with HL := r.1, BC := s.BC &&& 0xffff, AF := r.2 })
  else if op = 0x43 then /- LD (nnnn),BC -/
    some (storeWordAbs s s.BC)
  else if op = 0x44 then /- NEG -/
    some (let temp := highReg s.AF; let AF1 := ((sub32 0 (s.AF &&& 0xff00)) &&& 0xff00) % 65536; { s with AF := (AF1 ||| (((AF1 >>> 8) &&& 0xa8) ||| ((if (AF1 &&& 0xff00) = 0 then 1 else 0) <<< 6) ||| ((if (temp &&& 0x0f) ≠ 0 then 1 else 0) <<< 4) ||| ((if temp = 0x80 then 1 else 0) <<< 2) ||| 2 ||| (if temp ≠ 0 then 1 else 0))) % 65536 })
  else if op = 0x45 then /- RETN -/
    some (let s1 : State := { s with IFF := (s.IFF ||| (s.IFF >>> 1)) % 65536 }; let r := pop s1; { r.2 with PC := r.1 })
  else if op = 0x46 then /- IM 0 -/
    some (s)
  else if op = 0x47 then /- LD I,A -/
    some ({ s with ir := ((s.ir &&& 255) ||| (s.AF &&& bnot 255)) % 65536 })
  else if op = 0x48 then /- IN C,(C) -/
    some (let temp := portIn s (lowReg s.BC); { s with BC := SetlowReg s.BC (temp), AF := inAF s.AF temp })
  else if op = 0x49 then /- OUT (C),C -/
    some (portOut s (lowReg s.BC) s.BC)
  else if op = 0x4A then /- ADC HL,BC -/
    some (let r := adc16 (s.HL &&& 0xffff) (s.BC &&& 0xffff) s.AF; { s with HL := r.1, BC := s.BC &&& 0xffff, AF := r.2 })
  else if op = 0x4B then /- LD BC,(nnnn) -/
    some (let r := loadWordAbs s; { r.2 with BC := r.1 })
  else if op = 0x4D then /- RETI -/
    some (let s1 : State := { s with IFF := (s.IFF ||| (s.IFF >>> 1)) % 65536 }; let r := pop s1; { r.2 with PC := r.1 })
  else if op = 0x4F then /- LD R,A -/
    some ({ s with ir := ((s.ir &&& bnot 255) ||| ((s.AF >>> 8) &&& 255)) % 65536 })
  else none

/-- Opcodes `0x50` to `0x5F` of the `switch` after `0xED`; `none` when the
opcode has no case there. -/
def ed5 (op : Nat) (s : State) : Option State :=
  if op = 0x50 then /- IN D,(C) -/
    some (let temp := portIn s (lowReg s.BC); { s with DE := SethighReg s.DE (temp), AF := inAF s.AF temp })
  else if op = 0x51 then /- OUT (C),D -/
    some (portOut s (lowReg s.BC) s.DE)
  else if op = 0x52 then /- SBC HL,DE -/
    some (let r := sbc16 (s.HL &&& 0xffff) (s.DE &&& 0xffff) s.AF; { s with HL := r.1, DE := s.DE &&& 0xffff, AF := r.2 })
  else if op = 0x53 then /- LD (nnnn),DE -/
    some (storeWordAbs s s.DE)
  else if op = 0x56 then /- IM 1 -/
    some (s)
  else if op = 0x57 then /- LD A,I -/
    some ({ s with AF := ((s.AF &&& 0x29) ||| (s.ir &&& bnot 255) ||| ((s.ir >>> 8) &&& 0x80) ||| ((if (s.ir &&& bnot 255) = 0 then 1 else 0) <<< 6) ||| ((s.IFF &&& 2) <<< 1)) % 65536 })
  else if op = 0x58 then /- IN E,(C) -/
    some (let temp := portIn s (lowReg s.BC); { s with DE := SetlowReg s.DE (temp), AF := inAF s.AF temp })
  else if op = 0x59 then /- OUT (C),E -/
    some (portOut s (lowReg s.BC) s.DE)
  else if op = 0x5A then /- ADC HL,DE -/
    some (let r := adc16 (s.HL &&& 0xffff) (s.DE &&& 0xffff) s.AF; { s with HL := r.1, DE := s.DE &&& 0xffff, AF := r.2 })
  else if op = 0x5B then /- LD DE,(nnnn) -/
    some (let r := loadWordAbs s; { r.2 with DE := r.1 })
  else if op = 0x5E then /- IM 2 -/
    some (s)
  else if op = 0x5F then /- LD A,R -/
    some ({ s with AF := ((s.AF &&& 0x29) ||| ((s.ir &&& 255) <<< 8) ||| (s.ir &&& 0x80) ||| ((if (s.ir &&& 255) = 0 then 1 else 0) <<< 6) ||| ((s.IFF &&& 2) <<< 1)) % 65536 })
  else none

/-- Opcodes `0x60` to `0x6F` of the `switch` after `0xED`; `none` when the
opcode has no case there. -/
def ed6 (op : Nat) (s : State) : Option State :=
  if op = 0x60 then /- IN H,(C) -/
    some (let temp := portIn s (lowReg s.BC); { s with HL := SethighReg s.HL (temp), AF := inAF s.AF temp })
  else if op = 0x61 then /- OUT (C),H -/
    some (portOut s (lowReg s.BC) s.HL)
  else if op = 0x62 then /- SBC HL,HL -/
    some (let r := sbc16 (s.HL &&& 0xffff) (s.HL &&& 0xffff) s.AF; { s with HL := r.1, AF := r.2 })
  else if op = 0x63 then /- LD (nnnn),HL -/
    some (storeWordAbs s s.HL)
  else if op = 0x67 then /- RRD -/
    some (let temp := readRam s s.HL; let acu := highReg s.AF; let s1 := writeRam s s.HL (highDigit temp ||| (lowDigit acu <<< 4)); let acu := (acu &&& 0xf0) ||| lowDigit temp; { s1 with AF := ((acu <<< 8) ||| (acu &&& 0xa8) ||| ((if (acu &&& 0xff) = 0 then 1 else 0) <<< 6) ||| parity acu ||| (s1.AF &&& 1)) % 65536 })
  else if op = 0x68 then /- IN L,(C) -/
    some (let temp := portIn s (lowReg s.BC); { s with HL := SetlowReg s.HL (temp), AF := inAF s.AF temp })
  else if op = 0x69 then /- OUT (C),L -/
    some (portOut s (lowReg s.BC) s.HL)
  else if op = 0x6A then /- ADC HL,HL -/
    some (let r := adc16 (s.HL &&& 0xffff) (s.HL &&& 0xffff) s.AF; { s with HL := r.1, AF := r.2 })
  else if op = 0x6B then /- LD HL,(nnnn) -/
    some (let r := loadWordAbs s; { r.2 with HL := r.1 })
  else if op = 0x6F then /- RLD -/
    some (let temp := readRam s s.HL; let acu := highReg s.AF; let s1 := writeRam s s.HL ((lowDigit temp <<< 4) ||| lowDigit acu); let acu := (acu &&& 0xf0) ||| highDigit temp; { s1 with AF := ((acu <<< 8) ||| (acu &&& 0xa8) ||| ((if (acu &&& 0xff) = 0 then 1 else 0) <<< 6) ||| parity acu ||| (s1.AF &&& 1)) % 65536 })
  else none

/-- Opcodes `0x70` to `0x7F` of the `switch` after `0xED`; `none` when the
opcode has no case there. -/
def ed7 (op : Nat) (s : State) : Option State :=
  if op = 0x70 then /- IN (C) -/
    some (let temp := portIn s (lowReg s.BC); let temp := SetlowReg temp temp; { s with AF := inAF s.AF temp })
  else if op = 0x71 then /- OUT (C),0 -/
    some (portOut s (lowReg s.BC) 0)
  else if op = 0x72 then /- SBC HL,SP -/
    some (let r := sbc16 (s.HL &&& 0xffff) (s.SP &&& 0xffff) s.AF; { s with HL := r.1, SP := s.SP &&& 0xffff, AF := r.2 })
  else if op = 0x73 then /- LD (nnnn),SP -/
    some (storeWordAbs s s.SP)
  else if op = 0x78 then /- IN A,(C) -/
    some (let temp := portIn s (lowReg s.BC); { s with AF := inAF (SethighReg s.AF temp) temp })
  else if op = 0x79 then /- OUT (C),A -/
    some (portOut s (lowReg s.BC) s.AF)
  else if op = 0x7A then /- ADC HL,SP -/
    some (let r := adc16 (s.HL &&& 0xffff) (s.SP &&& 0xffff) s.AF; { s with HL := r.1, SP := s.SP &&& 0xffff, AF := r.2 })
  else if op = 0x7B then /- LD SP,(nnnn) -/
    some (let r := loadWordAbs s; { r.2 with SP := r.1 })
  else none

/-- Opcodes `0xA0` to `0xAF` of the `switch` after `0xED`; `none` when the
opcode has no case there. -/
def edA (op : Nat) (s : State) : Option State :=
  if op = 0xA0 then /- LDI -/
    some (let acu := readRam s s.HL; let s1 : State := { s with HL := (s.HL + 1) % 65536 }; let s2 := writeRam s1 s1.DE acu; let s3 : State := { s2 with DE := (s2.DE + 1) % 65536 }; let acu := acu + highReg s3.AF; let BC1 := (65535 + s3.BC) % 65536; { s3 with BC := BC1, AF := ((s3.AF &&& bnot 0x3e) ||| (acu &&& 8) ||| ((acu &&& 2) <<< 4) ||| ((if (BC1 &&& 0xffff) ≠ 0 then 1 else 0) <<< 2)) % 65536 })
  else if op = 0xA1 then /- CPI -/
    some (let acu := highReg s.AF; let temp := readRam s s.HL; let BC1 := (65535 + s.BC) % 65536; { s with HL := (s.HL + 1) % 65536, BC := BC1, AF := cpiAF s.AF acu temp (if (BC1 &&& 0xffff) ≠ 0 then 1 else 0) })
  else if op = 0xA2 then /- INI -/
    some (let s1 := writeRam s s.HL (portIn s (lowReg s.BC)); let s2 : State := { s1 with HL := (s1.HL + 1) % 65536 }; let AF1 := setFlag s2.AF SubFlag true; let BC1 := (65535 + s2.BC) % 65536; { s2 with BC := BC1, AF := setFlag AF1 ParityFlag (decide ((BC1 &&& 0xffff) ≠ 0)) })
  else if op = 0xA3 then /- OUTI -/
    some (let s1 := portOut s (lowReg s.BC) (readRam s s.HL); let s2 : State := { s1 with HL := (s1.HL + 1) % 65536 }; let AF1 := setFlag s2.AF SubFlag true; let BC1 := SethighReg s2.BC (sub32 (lowReg s2.BC) 1); { s2 with BC := BC1, AF := setFlag AF1 ZeroFlag (decide (lowReg BC1 = 0)) })
  else if op = 0xA8 then /- LDD -/
    some (let acu := readRam s s.HL; let s1 : State := { s with HL := (65535 + s.HL) % 65536 }; let s2 := writeRam s1 s1.DE acu; let s3 : State := { s2 with DE := (65535 + s2.DE) % 65536 }; let acu := acu + highReg s3.AF; let BC1 := (65535 + s3.BC) % 65536; { s3 with BC := BC1, AF := ((s3.AF &&& bnot 0x3e) ||| (acu &&& 8) ||| ((acu &&& 2) <<< 4) ||| ((if (BC1 &&& 0xffff) ≠ 0 then 1 else 0) <<< 2)) % 65536 })
  else if op = 0xA9 then /- CPD -/
    some (let acu := highReg s.AF; let temp := readRam s s.HL; let BC1 := (65535 + s.BC) % 65536; { s with HL := (65535 + s.HL) % 65536, BC := BC1, AF := cpiAF s.AF acu temp (if (BC1 &&& 0xffff) ≠ 0 then 1 else 0) })
  else if op = 0xAA then /- IND -/
    some (let s1 := writeRam s s.HL (portIn s (lowReg s.BC)); let s2 : State := { s1 with HL := (65535 + s1.HL) % 65536 }; let AF1 := setFlag s2.AF SubFlag true; let BC1 := SethighReg s2.BC (sub32 (lowReg s2.BC) 1); { s2 with BC := BC1, AF := setFlag AF1 ZeroFlag (decide (lowReg BC1 = 0)) })
  else if op = 0xAB then /- OUTD -/
    some (let s1 := portOut s (lowReg s.BC) (readRam s s.HL); let s2 : State := { s1 with HL := (65535 + s1.HL) % 65536 }; let AF1 := setFlag s2.AF SubFlag true; let BC1 := SethighReg s2.BC (sub32 (lowReg s2.BC) 1); { s2 with BC := BC1, AF := setFlag AF1 ZeroFlag (decide (lowReg BC1 = 0)) })
  else none

/-! ### Block-repeat loops

Each `do … while` loop of the source is a function that runs one round and
calls itself while the loop condition holds.  The first argument bounds the
number of rounds; `none` means the bound was reached before the loop
condition became false. -/

/-- One round of the loop of `LDIR` (`d = 1`) and `LDDR` (`d = 65535`), up to
and including `--BC`: the byte moved and the new state. -/
def ldxrRound (d : Nat) (s : State) : Nat × State :=
  let acu := readRam s s.HL
  let s1 : State := { s with HL := (d + s.HL) % 65536 }
  let s2 := writeRam s1 s1.DE acu
  let s3 : State := { s2 with DE := (d + s2.DE) % 65536 }
  (acu, { s3 with BC := (65535 + s3.BC) % 65536 })

/-- The loop of `LDIR` and `LDDR`: the last byte moved and the state when
`--BC` reaches zero. -/
def ldxrLoop (d : Nat) : Nat → State → Option (Nat × State)
  | 0, _ => none
  | fuel + 1, s =>
    let r := ldxrRound d s
    if r.2.BC ≠ 0 then ldxrLoop d fuel r.2 else some r

/-- `LDIR` and `LDDR`. -/
def ldxr (d : Nat) (fuel : Nat) (s : State) : Option State :=
  let s : State := { s with BC := s.BC &&& 0xffff }
  match ldxrLoop d fuel s with
  | none => none
  | some (acu, s1) =>
    let acu := acu + highReg s1.AF
    some { s1 with AF := ((s1.AF &&& bnot 0x3e) ||| (acu &&& 8) ||| ((acu &&& 2) <<< 4)) % 65536 }

/-- One round of the loop of `CPIR` (`d = 1`) and `CPDR` (`d = 65535`):
`temp`, `op`, `sum` and the new state. -/
def cpxrRound (d : Nat) (acu : Nat) (s : State) : Nat × Nat × Nat × State :=
  let temp := readRam s s.HL
  let s1 : State := { s with HL := (d + s.HL) % 65536 }
  let s2 : State := { s1 with BC := (65535 + s1.BC) % 65536 }
  let op := if s2.BC ≠ 0 then 1 else 0
  let sum := sub32 acu temp
  (temp, op, sum, s2)

/-- The loop of `CPIR` and `CPDR`: `temp`, `op` and the state when the loop
is left. -/
def cpxrLoop (d : Nat) (acu : Nat) : Nat → State → Option (Nat × Nat × State)
  | 0, _ => none
  | fuel + 1, s =>
    let r := cpxrRound d acu s
    if r.2.1 ≠ 0 ∧ r.2.2.1 ≠ 0 then cpxrLoop d acu fuel r.2.2.2
    else some (r.1, r.2.1, r.2.2.2)

/-- `CPIR` and `CPDR`. -/
def cpxr (d : Nat) (fuel : Nat) (s : State) : Option State :=
  let acu := highReg s.AF
  let s : State := { s with BC := s.BC &&& 0xffff }
  match cpxrLoop d acu fuel s with
  | none => none
  | some (temp, op, s1) => some { s1 with AF := cpiAF s1.AF acu temp op }

/-- One round of the loop of `INIR` (`d = 1`) and `INDR` (`d = 65535`). -/
def inxrRound (d : Nat) (s : State) : State :=
  let s1 := writeRam s s.HL (portIn s (lowReg s.BC))
  { s1 with HL := (d + s1.HL) % 65536 }

/-- The loop of `INIR` and `INDR`; `temp` is the 32-bit loop counter. -/
def inxrLoop (d : Nat) : Nat → Nat → State → Option State
  | 0, _, _ => none
  | fuel + 1, temp, s =>
    let s2 := inxrRound d s
    let temp1 := sub32 temp 1
    if temp1 ≠ 0 then inxrLoop d fuel temp1 s2 else some s2

/-- One round of the loop of `OTIR` (`d = 1`) and `OTDR` (`d = 65535`). -/
def otxrRound (d : Nat) (s : State) : State :=
  let s1 := portOut s (lowReg s.BC) (readRam s s.HL)
  { s1 with HL := (d + s1.HL) % 65536 }

/-- The loop of `OTIR` and `OTDR`; `temp` is the 32-bit loop counter. -/
def otxrLoop (d : Nat) : Nat → Nat → State → Option State
  | 0, _, _ => none
  | fuel + 1, temp, s =>
    let s2 := otxrRound d s
    let temp1 := sub32 temp 1
    if temp1 ≠ 0 then otxrLoop d fuel temp1 s2 else some s2

/-- The statements after the loop of `INIR`, `INDR`, `OTIR`, `OTDR`. -/
def blockIoEnd (s : State) : State :=
  let s1 : State := { s with BC := SethighReg s.BC 0 }
  let AF1 := setFlag s1.AF SubFlag true
  { s1 with AF := setFlag AF1 ZeroFlag true }

/-- `INIR` and `INDR`. -/
def inxr (d : Nat) (fuel : Nat) (s : State) : Option State :=
  (inxrLoop d fuel (highReg s.BC) s).map blockIoEnd

/-- `OTIR` and `OTDR`. -/
def otxr (d : Nat) (fuel : Nat) (s : State) : Option State :=
  (otxrLoop d fuel (highReg s.BC) s).map blockIoEnd

/-- The cases of the `switch` after `0xED` that have no loop, on the opcode
`op` already fetched.  An opcode without a case takes the `default`:
`if (0x40 <= op && op <= 0x7f) PC--`. -/
def edPlain (op : Nat) (s : State) : State :=
  let r : Option State :=
    if op < 0x40 then none
    else if op < 0x50 then ed4 op s
    else if op < 0x60 then ed5 op s
    else if op < 0x70 then ed6 op s
    else if op < 0x80 then ed7 op s
    else if op < 0xA0 then none
    else if op < 0xB0 then edA op s
    else none
  match r with
  | some s1 => s1
  | none =>
    if 0x40 ≤ op ∧ op ≤ 0x7f then { s with PC := (65535 + s.PC) % 65536 }
    else s

/-- The `switch` after `0xED` on the opcode `op` already fetched. -/
def edExec (fuel : Nat) (op : Nat) (s : State) : Option State :=
  if op = 0xB0 then /- LDIR -/ ldxr 1 fuel s
  else if op = 0xB1 then /- CPIR -/ cpxr 1 fuel s
  else if op = 0xB2 then /- INIR -/ inxr 1 fuel s
  else if op = 0xB3 then /- OTIR -/ otxr 1 fuel s
  else if op = 0xB8 then /- LDDR -/ ldxr 65535 fuel s
  else if op = 0xB9 then /- CPDR -/ cpxr 65535 fuel s
  else if op = 0xBA then /- INDR -/ inxr 65535 fuel s
  else if op = 0xBB then /- OTDR -/ otxr 65535 fuel s
  else some (edPlain op s)

/-- `case 0xED` of `z80step`: `switch (++PC, op = readRam(PC-1))`. -/
def ed_prefix (fuel : Nat) (s : State) : Option State :=
  let s : State := { s with PC := (s.PC + 1) % 65536 }
  edExec fuel (readRam s (65535 + s.PC)) s

/-! ## z80-simulator.cpp: `z80step` -/

/-- Opcodes `0x00` to `0x0F` of the main `switch` of `z80step`. -/
def main0 (op : Nat) (s : State) : State :=
  if op = 0x00 then /- NOP -/
    s
  else if op = 0x01 then /- LD BC,nnnn -/
    { s with BC := readWord s s.PC, PC := (s.PC + 2) % 65536 }
  else if op = 0x02 then /- LD (BC),A -/
    writeRam s s.BC (highReg s.AF)
  else if op = 0x03 then /- INC BC -/
    { s with BC := (s.BC + 1) % 65536 }
  else if op = 0x04 then /- INC B -/
    let r := incHigh s.BC s.AF; { s with BC := r.1, AF := r.2 }
  else if op = 0x05 then /- DEC B -/
    let r := decHigh s.BC s.AF; { s with BC := r.1, AF := r.2 }
  else if op = 0x06 then /- LD B,nn -/
    { s with BC := SethighReg s.BC (readRam s s.PC), PC := (s.PC + 1) % 65536 }
  else if op = 0x07 then /- RLCA -/
    { s with AF := (((s.AF >>> 7) &&& 0x0128) ||| ((s.AF <<< 1) &&& bnot 0x1ff) ||| (s.AF &&& 0xc4) ||| ((s.AF >>> 15) &&& 1)) % 65536 }
  else if op = 0x08 then /- EX AF,AF' -/
    let r := swap s.AF s.AFalt; { s with AF := r.1, AFalt := r.2 }
  else if op = 0x09 then /- ADD HL,BC -/
    let r := add16 (s.HL &&& 0xffff) (s.BC &&& 0xffff) s.AF; { s with HL := r.1, BC := s.BC &&& 0xffff, AF := r.2 }
  else if op = 0x0A then /- LD A,(BC) -/
    { s with AF := SethighReg s.AF (readRam s s.BC) }
  else if op = 0x0B then /- DEC BC -/
    { s with BC := (65535 + s.BC) % 65536 }
  else if op = 0x0C then /- INC C -/
    let r := incLow s.BC s.AF; { s with BC := r.1, AF := r.2 }
  else if op = 0x0D then /- DEC C -/
    let r := decLow s.BC s.AF; { s with BC := r.1, AF := r.2 }
  else if op = 0x0E then /- LD C,nn -/
    { s with BC := SetlowReg s.BC (readRam s s.PC), PC := (s.PC + 1) % 65536 }
  else if op = 0x0F then /- RRCA -/
    let temp := highReg s.AF; let sum := temp >>> 1; { s with AF := (((temp &&& 1) <<< 15) ||| (sum <<< 8) ||| (sum &&& 0x28) ||| (s.AF &&& 0xc4) ||| (temp &&& 1)) % 65536 }
  else s

/-- Opcodes `0x10` to `0x1F` of the main `switch` of `z80step`. -/
def main1 (op : Nat) (s : State) : State :=
  if op = 0x10 then /- DJNZ dd -/
    let BC1 := (0xff00 + s.BC) % 65536; { s with BC := BC1, PC := (s.PC + (if (BC1 &&& 0xff00) ≠ 0 then schar (readRam s s.PC) + 1 else 1)) % 65536 }
  else if op = 0x11 then /- LD DE,nnnn -/
    { s with DE := readWord s s.PC, PC := (s.PC + 2) % 65536 }
  else if op = 0x12 then /- LD (DE),A -/
    writeRam s s.DE (highReg s.AF)
  else if op = 0x13 then /- INC DE -/
    { s with DE := (s.DE + 1) % 65536 }
  else if op = 0x14 then /- INC D -/
    let r := incHigh s.DE s.AF; { s with DE := r.1, AF := r.2 }
  else if op = 0x15 then /- DEC D -/
    let r := decHigh s.DE s.AF; { s with DE := r.1, AF := r.2 }
  else if op = 0x16 then /- LD D,nn -/
    { s with DE := SethighReg s.DE (readRam s s.PC), PC := (s.PC + 1) % 65536 }
  else if op = 0x17 then /- RLA -/
    { s with AF := (((s.AF <<< 8) &&& 0x0100) ||| ((s.AF >>> 7) &&& 0x28) ||| ((s.AF <<< 1) &&& bnot 0x01ff) ||| (s.AF &&& 0xc4) ||| ((s.AF >>> 15) &&& 1)) % 65536 }
  else if op = 0x18 then /- JR dd -/
    { s with PC := (s.PC + (schar (readRam s s.PC) + 1)) % 65536 }
  else if op = 0x19 then /- ADD HL,DE -/
    let r := add16 (s.HL &&& 0xffff) (s.DE &&& 0xffff) s.AF; { s with HL := r.1, DE := s.DE &&& 0xffff, AF := r.2 }
  else if op = 0x1A then /- LD A,(DE) -/
    { s with AF := SethighReg s.AF (readRam s s.DE) }
  else if op = 0x1B then /- DEC DE -/
    { s with DE := (65535 + s.DE) % 65536 }
  else if op = 0x1C then /- INC E -/
    let r := incLow s.DE s.AF; { s with DE := r.1, AF := r.2 }
  else if op = 0x1D then /- DEC E -/
    let r := decLow s.DE s.AF; { s with DE := r.1, AF := r.2 }
  else if op = 0x1E then /- LD E,nn -/
    { s with DE := SetlowReg s.DE (readRam s s.PC), PC := (s.PC + 1) % 65536 }
  else if op = 0x1F then /- RRA -/
    let temp := highReg s.AF; let sum := temp >>> 1; { s with AF := (((s.AF &&& 1) <<< 15) ||| (sum <<< 8) ||| (sum &&& 0x28) ||| (s.AF &&& 0xc4) ||| (temp &&& 1)) % 65536 }
  else s

/-- Opcodes `0x20` to `0x2F` of the main `switch` of `z80step`. -/
def main2 (op : Nat) (s : State) : State :=
  if op = 0x20 then /- JR NZ,dd -/
    { s with PC := (s.PC + (if !testFlag s.AF ZeroFlag then schar (readRam s s.PC) + 1 else 1)) % 65536 }
  else if op = 0x21 then /- LD HL,nnnn -/
    { s with HL := readWord s s.PC, PC := (s.PC + 2) % 65536 }
  else if op = 0x22 then /- LD (nnnn),HL -/
    storeWordAbs s s.HL
  else if op = 0x23 then /- INC HL -/
    { s with HL := (s.HL + 1) % 65536 }
  else if op = 0x24 then /- INC H -/
    let r := incHigh s.HL s.AF; { s with HL := r.1, AF := r.2 }
  else if op = 0x25 then /- DEC H -/
    let r := decHigh s.HL s.AF; { s with HL := r.1, AF := r.2 }
  else if op = 0x26 then /- LD H,nn -/
    { s with HL := SethighReg s.HL (readRam s s.PC), PC := (s.PC + 1) % 65536 }
  else if op = 0x27 then /- DAA -/
    { s with AF := daaAF s.AF }
  else if op = 0x28 then /- JR Z,dd -/
    { s with PC := (s.PC + (if testFlag s.AF ZeroFlag then schar (readRam s s.PC) + 1 else 1)) % 65536 }
  else if op = 0x29 then /- ADD HL,HL -/
    let r := add16 (s.HL &&& 0xffff) (s.HL &&& 0xffff) s.AF; { s with HL := r.1, AF := r.2 }
  else if op = 0x2A then /- LD HL,(nnnn) -/
    let r := loadWordAbs s; { r.2 with HL := r.1 }
  else if op = 0x2B then /- DEC HL -/
    { s with HL := (65535 + s.HL) % 65536 }
  else if op = 0x2C then /- INC L -/
    let r := incLow s.HL s.AF; { s with HL := r.1, AF := r.2 }
  else if op = 0x2D then /- DEC L -/
    let r := decLow s.HL s.AF; { s with HL := r.1, AF := r.2 }
  else if op = 0x2E then /- LD L,nn -/
    { s with HL := SetlowReg s.HL (readRam s s.PC), PC := (s.PC + 1) % 65536 }
  else if op = 0x2F then /- CPL -/
    { s with AF := ((bnot s.AF &&& bnot 0xff) ||| (s.AF &&& 0xc5) ||| ((bnot s.AF >>> 8) &&& 0x28) ||| 0x12) % 65536 }
  else s

/-- Opcodes `0x30` to `0x3F` of the main `switch` of `z80step`. -/
def main3 (op : Nat) (s : State) : State :=
  if op = 0x30 then /- JR NC,dd -/
    { s with PC := (s.PC + (if !testFlag s.AF CarryFlag then schar (readRam s s.PC) + 1 else 1)) % 65536 }
  else if op = 0x31 then /- LD SP,nnnn -/
    { s with SP := readWord s s.PC, PC := (s.PC + 2) % 65536 }
  else if op = 0x32 then /- LD (nnnn),A -/
    let temp := readWord s s.PC; let s1 := writeRam s temp (highReg s.AF); { s1 with PC := (s1.PC + 2) % 65536 }
  else if op = 0x33 then /- INC SP -/
    { s with SP := (s.SP + 1) % 65536 }
  else if op = 0x34 then /- INC (HL) -/
    let temp := readRam s s.HL + 1; let s1 := writeRam s s.HL temp; { s1 with AF := incAF s1.AF temp }
  else if op = 0x35 then /- DEC (HL) -/
    let temp := sub32 (readRam s s.HL) 1; let s1 := writeRam s s.HL temp; { s1 with AF := decAF s1.AF temp }
  else if op = 0x36 then /- LD (HL),nn -/
    let s1 := writeRam s s.HL (readRam s s.PC); { s1 with PC := (s1.PC + 1) % 65536 }
  else if op = 0x37 then /- SCF -/
    { s with AF := ((s.AF &&& bnot 0x3b) ||| ((s.AF >>> 8) &&& 0x28) ||| 1) % 65536 }
  else if op = 0x38 then /- JR C,dd -/
    { s with PC := (s.PC + (if testFlag s.AF CarryFlag then schar (readRam s s.PC) + 1 else 1)) % 65536 }
  else if op = 0x39 then /- ADD HL,SP -/
    let r := add16 (s.HL &&& 0xffff) (s.SP &&& 0xffff) s.AF; { s with HL := r.1, SP := s.SP &&& 0xffff, AF := r.2 }
  else if op = 0x3A then /- LD A,(nnnn) -/
    let temp := readWord s s.PC; { s with AF := SethighReg s.AF (readRam s temp), PC := (s.PC + 2) % 65536 }
  else if op = 0x3B then /- DEC SP -/
    { s with SP := (65535 + s.SP) % 65536 }
  else if op = 0x3C then /- INC A -/
    let AF1 := (0x100 + s.AF) % 65536; { s with AF := incAF AF1 (highReg AF1) }
  else if op = 0x3D then /- DEC A -/
    let AF1 := (0xff00 + s.AF) % 65536; { s with AF := decAF AF1 (highReg AF1) }
  else if op = 0x3E then /- LD A,nn -/
    { s with AF := SethighReg s.AF (readRam s s.PC), PC := (s.PC + 1) % 65536 }
  else if op = 0x3F then /- CCF -/
    { s with AF := ((s.AF &&& bnot 0x3b) ||| ((s.AF >>> 8) &&& 0x28) ||| ((s.AF &&& 1) <<< 4) ||| (bnot s.AF &&& 1)) % 65536 }
  else s

/-- Opcodes `0x40` to `0x4F` of the main `switch` of `z80step`. -/
def main4 (op : Nat) (s : State) : State :=
  if op = 0x40 then /- LD B,B -/
    s
  else if op = 0x41 then /- LD B,C -/
    { s with BC := ((s.BC &&& 255) ||| ((s.BC &&& 255) <<< 8)) % 65536 }
  else if op = 0x42 then /- LD B,D -/
    { s with BC := ((s.BC &&& 255) ||| (s.DE &&& bnot 255)) % 65536 }
  else if op = 0x43 then /- LD B,E -/
    { s with BC := ((s.BC &&& 255) ||| ((s.DE &&& 255) <<< 8)) % 65536 }
  else if op = 0x44 then /- LD B,H -/
    { s with BC := ((s.BC &&& 255) ||| (s.HL &&& bnot 255)) % 65536 }
  else if op = 0x45 then /- LD B,L -/
    { s with BC := ((s.BC &&& 255) ||| ((s.HL &&& 255) <<< 8)) % 65536 }
  else if op = 0x46 then /- LD B,(HL) -/
    { s with BC := SethighReg s.BC (readRam s s.HL) }
  else if op = 0x47 then /- LD B,A -/
    { s with BC := ((s.BC &&& 255) ||| (s.AF &&& bnot 255)) % 65536 }
  else if op = 0x48 then /- LD C,B -/
    { s with BC := ((s.BC &&& bnot 255) ||| ((s.BC >>> 8) &&& 255)) % 65536 }
  else if op = 0x49 then /- LD C,C -/
    s
  else if op = 0x4A then /- LD C,D -/
    { s with BC := ((s.BC &&& bnot 255) ||| ((s.DE >>> 8) &&& 255)) % 65536 }
  else if op = 0x4B then /- LD C,E -/
    { s with BC := ((s.BC &&& bnot 255) ||| (s.DE &&& 255)) % 65536 }
  else if op = 0x4C then /- LD C,H -/
    { s with BC := ((s.BC &&& bnot 255) ||| ((s.HL >>> 8) &&& 255)) % 65536 }
  else if op = 0x4D then /- LD C,L -/
    { s with BC := ((s.BC &&& bnot 255) ||| (s.HL &&& 255)) % 65536 }
  else if op = 0x4E then /- LD C,(HL) -/
    { s with BC := SetlowReg s.BC (readRam s s.HL) }
  else if op = 0x4F then /- LD C,A -/
    { s with BC := ((s.BC &&& bnot 255) ||| ((s.AF >>> 8) &&& 255)) % 65536 }
  else s

/-- Opcodes `0x50` to `0x5F` of the main `switch` of `z80step`. -/
def main5 (op : Nat) (s : State) : State :=
  if op = 0x50 then /- LD D,B -/
    { s with DE := ((s.DE &&& 255) ||| (s.BC &&& bnot 255)) % 65536 }
  else if op = 0x51 then /- LD D,C -/
    { s with DE := ((s.DE &&& 255) ||| ((s.BC &&& 255) <<< 8)) % 65536 }
  else if op = 0x52 then /- LD D,D -/
    s
  else if op = 0x53 then /- LD D,E -/
    { s with DE := ((s.DE &&& 255) ||| ((s.DE &&& 255) <<< 8)) % 65536 }
  else if op = 0x54 then /- LD D,H -/
    { s with DE := ((s.DE &&& 255) ||| (s.HL &&& bnot 255)) % 65536 }
  else if op = 0x55 then /- LD D,L -/
    { s with DE := ((s.DE &&& 255) ||| ((s.HL &&& 255) <<< 8)) % 65536 }
  else if op = 0x56 then /- LD D,(HL) -/
    { s with DE := SethighReg s.DE (readRam s s.HL) }
  else if op = 0x57 then /- LD D,A -/
    { s with DE := ((s.DE &&& 255) ||| (s.AF &&& bnot 255)) % 65536 }
  else if op = 0x58 then /- LD E,B -/
    { s with DE := ((s.DE &&& bnot 255) ||| ((s.BC >>> 8) &&& 255)) % 65536 }
  else if op = 0x59 then /- LD E,C -/
    { s with DE := ((s.DE &&& bnot 255) ||| (s.BC &&& 255)) % 65536 }
  else if op = 0x5A then /- LD E,D -/
    { s with DE := ((s.DE &&& bnot 255) ||| ((s.DE >>> 8) &&& 255)) % 65536 }
  else if op = 0x5B then /- LD E,E -/
    s
  else if op = 0x5C then /- LD E,H -/
    { s with DE := ((s.DE &&& bnot 255) ||| ((s.HL >>> 8) &&& 255)) % 65536 }
  else if op = 0x5D then /- LD E,L -/
    { s with DE := ((s.DE &&& bnot 255) ||| (s.HL &&& 255)) % 65536 }
  else if op = 0x5E then /- LD E,(HL) -/
    { s with DE := SetlowReg s.DE (readRam s s.HL) }
  else if op = 0x5F then /- LD E,A -/
    { s with DE := ((s.DE &&& bnot 255) ||| ((s.AF >>> 8) &&& 255)) % 65536 }
  else s

/-- Opcodes `0x60` to `0x6F` of the main `switch` of `z80step`. -/
def main6 (op : Nat) (s : State) : State :=
  if op = 0x60 then /- LD H,B -/
    { s with HL := ((s.HL &&& 255) ||| (s.BC &&& bnot 255)) % 65536 }
  else if op = 0x61 then /- LD H,C -/
    { s with HL := ((s.HL &&& 255) ||| ((s.BC &&& 255) <<< 8)) % 65536 }
  else if op = 0x62 then /- LD H,D -/
    { s with HL := ((s.HL &&& 255) ||| (s.DE &&& bnot 255)) % 65536 }
  else if op = 0x63 then /- LD H,E -/
    { s with HL := ((s.HL &&& 255) ||| ((s.DE &&& 255) <<< 8)) % 65536 }
  else if op = 0x64 then /- LD H,H -/
    s
  else if op = 0x65 then /- LD H,L -/
    { s with HL := ((s.HL &&& 255) ||| ((s.HL &&& 255) <<< 8)) % 65536 }
  else if op = 0x66 then /- LD H,(HL) -/
    { s with HL := SethighReg s.HL (readRam s s.HL) }
  else if op = 0x67 then /- LD H,A -/
    { s with HL := ((s.HL &&& 255) ||| (s.AF &&& bnot 255)) % 65536 }
  else if op = 0x68 then /- LD L,B -/
    { s with HL := ((s.HL &&& bnot 255) ||| ((s.BC >>> 8) &&& 255)) % 65536 }
  else if op = 0x69 then /- LD L,C -/
    { s with HL := ((s.HL &&& bnot 255) ||| (s.BC &&& 255)) % 65536 }
  else if op = 0x6A then /- LD L,D -/
    { s with HL := ((s.HL &&& bnot 255) ||| ((s.DE >>> 8) &&& 255)) % 65536 }
  else if op = 0x6B then /- LD L,E -/
    { s with HL := ((s.HL &&& bnot 255) ||| (s.DE &&& 255)) % 65536 }
  else if op = 0x6C then /- LD L,H -/
    { s with HL := ((s.HL &&& bnot 255) ||| ((s.HL >>> 8) &&& 255)) % 65536 }
  else if op = 0x6D then /- LD L,L -/
    s
  else if op = 0x6E then /- LD L,(HL) -/
    { s with HL := SetlowReg s.HL (readRam s s.HL) }
  else if op = 0x6F then /- LD L,A -/
    { s with HL := ((s.HL &&& bnot 255) ||| ((s.AF >>> 8) &&& 255)) % 65536 }
  else s

/-- Opcodes `0x70` to `0x7F` of the main `switch` of `z80step`. -/
def main7 (op : Nat) (s : State) : State :=
  if op = 0x70 then /- LD (HL),B -/
    writeRam s s.HL (highReg s.BC)
  else if op = 0x71 then /- LD (HL),C -/
    writeRam s s.HL (lowReg s.BC)
  else if op = 0x72 then /- LD (HL),D -/
    writeRam s s.HL (highReg s.DE)
  else if op = 0x73 then /- LD (HL),E -/
    writeRam s s.HL (lowReg s.DE)
  else if op = 0x74 then /- LD (HL),H -/
    writeRam s s.HL (highReg s.HL)
  else if op = 0x75 then /- LD (HL),L -/
    writeRam s s.HL (lowReg s.HL)
  else if op = 0x76 then /- HALT -/
    s
  else if op = 0x77 then /- LD (HL),A -/
    writeRam s s.HL (highReg s.AF)
  else if op = 0x78 then /- LD A,B -/
    { s with AF := ((s.AF &&& 255) ||| (s.BC &&& bnot 255)) % 65536 }
  else if op = 0x79 then /- LD A,C -/
    { s with AF := ((s.AF &&& 255) ||| ((s.BC &&& 255) <<< 8)) % 65536 }
  else if op = 0x7A then /- LD A,D -/
    { s with AF := ((s.AF &&& 255) ||| (s.DE &&& bnot 255)) % 65536 }
  else if op = 0x7B then /- LD A,E -/
    { s with AF := ((s.AF &&& 255) ||| ((s.DE &&& 255) <<< 8)) % 65536 }
  else if op = 0x7C then /- LD A,H -/
    { s with AF := ((s.AF &&& 255) ||| (s.HL &&& bnot 255)) % 65536 }
  else if op = 0x7D then /- LD A,L -/
    { s with AF := ((s.AF &&& 255) ||| ((s.HL &&& 255) <<< 8)) % 65536 }
  else if op = 0x7E then /- LD A,(HL) -/
    { s with AF := SethighReg s.AF (readRam s s.HL) }
  else if op = 0x7F then /- LD A,A -/
    s
  else s

/-- Opcodes `0x80` to `0x8F` of the main `switch` of `z80step`. -/
def main8 (op : Nat) (s : State) : State :=
  if op = 0x80 then /- ADD A,B -/
    { s with AF := addAF s.AF (highReg s.BC) 0 }
  else if op = 0x81 then /- ADD A,C -/
    { s with AF := addAF s.AF (lowReg s.BC) 0 }
  else if op = 0x82 then /- ADD A,D -/
    { s with AF := addAF s.AF (highReg s.DE) 0 }
  else if op = 0x83 then /- ADD A,E -/
    { s with AF := addAF s.AF (lowReg s.DE) 0 }
  else if op = 0x84 then /- ADD A,H -/
    { s with AF := addAF s.AF (highReg s.HL) 0 }
  else if op = 0x85 then /- ADD A,L -/
    { s with AF := addAF s.AF (lowReg s.HL) 0 }
  else if op = 0x86 then /- ADD A,(HL) -/
    { s with AF := addAF s.AF (readRam s s.HL) 0 }
  else if op = 0x87 then /- ADD A,A -/
    { s with AF := addAF s.AF (highReg s.AF) 0 }
  else if op = 0x88 then /- ADC A,B -/
    { s with AF := addAF s.AF (highReg s.BC) (b2n (testFlag s.AF CarryFlag)) }
  else if op = 0x89 then /- ADC A,C -/
    { s with AF := addAF s.AF (lowReg s.BC) (b2n (testFlag s.AF CarryFlag)) }
  else if op = 0x8A then /- ADC A,D -/
    { s with AF := addAF s.AF (highReg s.DE) (b2n (testFlag s.AF CarryFlag)) }
  else if op = 0x8B then /- ADC A,E -/
    { s with AF := addAF s.AF (lowReg s.DE) (b2n (testFlag s.AF CarryFlag)) }
  else if op = 0x8C then /- ADC A,H -/
    { s with AF := addAF s.AF (highReg s.HL) (b2n (testFlag s.AF CarryFlag)) }
  else if op = 0x8D then /- ADC A,L -/
    { s with AF := addAF s.AF (lowReg s.HL) (b2n (testFlag s.AF CarryFlag)) }
  else if op = 0x8E then /- ADC A,(HL) -/
    { s with AF := addAF s.AF (readRam s s.HL) (b2n (testFlag s.AF CarryFlag)) }
  else if op = 0x8F then /- ADC A,A -/
    { s with AF := addAF s.AF (highReg s.AF) (b2n (testFlag s.AF CarryFlag)) }
  else s

/-- Opcodes `0x90` to `0x9F` of the main `switch` of `z80step`. -/
def main9 (op : Nat) (s : State) : State :=
  if op = 0x90 then /- SUB B -/
    { s with AF := subAF s.AF (highReg s.BC) 0 }
  else if op = 0x91 then /- SUB C -/
    { s with AF := subAF s.AF (lowReg s.BC) 0 }
  else if op = 0x92 then /- SUB D -/
    { s with AF := subAF s.AF (highReg s.DE) 0 }
  else if op = 0x93 then /- SUB E -/
    { s with AF := subAF s.AF (lowReg s.DE) 0 }
  else if op = 0x94 then /- SUB H -/
    { s with AF := subAF s.AF (highReg s.HL) 0 }
  else if op = 0x95 then /- SUB L -/
    { s with AF := subAF s.AF (lowReg s.HL) 0 }
  else if op = 0x96 then /- SUB (HL) -/
    { s with AF := subAF s.AF (readRam s s.HL) 0 }
  else if op = 0x97 then /- SUB A -/
    { s with AF := subAF s.AF (highReg s.AF) 0 }
  else if op = 0x98 then /- SBC A,B -/
    { s with AF := subAF s.AF (highReg s.BC) (b2n (testFlag s.AF CarryFlag)) }
  else if op = 0x99 then /- SBC A,C -/
    { s with AF := subAF s.AF (lowReg s.BC) (b2n (testFlag s.AF CarryFlag)) }
  else if op = 0x9A then /- SBC A,D -/
    { s with AF := subAF s.AF (highReg s.DE) (b2n (testFlag s.AF CarryFlag)) }
  else if op = 0x9B then /- SBC A,E -/
    { s with AF := subAF s.AF (lowReg s.DE) (b2n (testFlag s.AF CarryFlag)) }
  else if op = 0x9C then /- SBC A,H -/
    { s with AF := subAF s.AF (highReg s.HL) (b2n (testFlag s.AF CarryFlag)) }
  else if op = 0x9D then /- SBC A,L -/
    { s with AF := subAF s.AF (lowReg s.HL) (b2n (testFlag s.AF CarryFlag)) }
  else if op = 0x9E then /- SBC A,(HL) -/
    { s with AF := subAF s.AF (readRam s s.HL) (b2n (testFlag s.AF CarryFlag)) }
  else if op = 0x9F then /- SBC A,A -/
    { s with AF := subAF s.AF (highReg s.AF) (b2n (testFlag s.AF CarryFlag)) }
  else s

/-- Opcodes `0xA0` to `0xAF` of the main `switch` of `z80step`. -/
def mainA (op : Nat) (s : State) : State :=
  if op = 0xA0 then /- AND B -/
    { s with AF := andAF (((s.AF &&& s.BC) >>> 8) &&& 0xff) }
  else if op = 0xA1 then /- AND C -/
    { s with AF := andAF (((s.AF >>> 8) &&& s.BC) &&& 0xff) }
  else if op = 0xA2 then /- AND D -/
    { s with AF := andAF (((s.AF &&& s.DE) >>> 8) &&& 0xff) }
  else if op = 0xA3 then /- AND E -/
    { s with AF := andAF (((s.AF >>> 8) &&& s.DE) &&& 0xff) }
  else if op = 0xA4 then /- AND H -/
    { s with AF := andAF (((s.AF &&& s.HL) >>> 8) &&& 0xff) }
  else if op = 0xA5 then /- AND L -/
    { s with AF := andAF (((s.AF >>> 8) &&& s.HL) &&& 0xff) }
  else if op = 0xA6 then /- AND (HL) -/
    { s with AF := andAF (((s.AF >>> 8) &&& readRam s s.HL) &&& 0xff) }
  else if op = 0xA7 then /- AND A -/
    { s with AF := andAF (((s.AF &&& s.AF) >>> 8) &&& 0xff) }
  else if op = 0xA8 then /- XOR B -/
    { s with AF := orAF (((s.AF ^^^ s.BC) >>> 8) &&& 0xff) }
  else if op = 0xA9 then /- XOR C -/
    { s with AF := orAF (((s.AF >>> 8) ^^^ s.BC) &&& 0xff) }
  else if op = 0xAA then /- XOR D -/
    { s with AF := orAF (((s.AF ^^^ s.DE) >>> 8) &&& 0xff) }
  else if op = 0xAB then /- XOR E -/
    { s with AF := orAF (((s.AF >>> 8) ^^^ s.DE) &&& 0xff) }
  else if op = 0xAC then /- XOR H -/
    { s with AF := orAF (((s.AF ^^^ s.HL) >>> 8) &&& 0xff) }
  else if op = 0xAD then /- XOR L -/
    { s with AF := orAF (((s.AF >>> 8) ^^^ s.HL) &&& 0xff) }
  else if op = 0xAE then /- XOR (HL) -/
    { s with AF := orAF (((s.AF >>> 8) ^^^ readRam s s.HL) &&& 0xff) }
  else if op = 0xAF then /- XOR A -/
    { s with AF := orAF (((s.AF ^^^ s.AF) >>> 8) &&& 0xff) }
  else s

/-- Opcodes `0xB0` to `0xBF` of the main `switch` of `z80step`. -/
def mainB (op : Nat) (s : State) : State :=
  if op = 0xB0 then /- OR B -/
    { s with AF := orAF (((s.AF ||| s.BC) >>> 8) &&& 0xff) }
  else if op = 0xB1 then /- OR C -/
    { s with AF := orAF (((s.AF >>> 8) ||| s.BC) &&& 0xff) }
  else if op = 0xB2 then /- OR D -/
    { s with AF := orAF (((s.AF ||| s.DE) >>> 8) &&& 0xff) }
  else if op = 0xB3 then /- OR E -/
    { s with AF := orAF (((s.AF >>> 8) ||| s.DE) &&& 0xff) }
  else if op = 0xB4 then /- OR H -/
    { s with AF := orAF (((s.AF ||| s.HL) >>> 8) &&& 0xff) }
  else if op = 0xB5 then /- OR L -/
    { s with AF := orAF (((s.AF >>> 8) ||| s.HL) &&& 0xff) }
  else if op = 0xB6 then /- OR (HL) -/
    { s with AF := orAF (((s.AF >>> 8) ||| readRam s s.HL) &&& 0xff) }
  else if op = 0xB7 then /- OR A -/
    { s with AF := orAF (((s.AF ||| s.AF) >>> 8) &&& 0xff) }
  else if op = 0xB8 then /- CP B -/
    { s with AF := cpAF s.AF (highReg s.BC) }
  else if op = 0xB9 then /- CP C -/
    { s with AF := cpAF s.AF (lowReg s.BC) }
  else if op = 0xBA then /- CP D -/
    { s with AF := cpAF s.AF (highReg s.DE) }
  else if op = 0xBB then /- CP E -/
    { s with AF := cpAF s.AF (lowReg s.DE) }
  else if op = 0xBC then /- CP H -/
    { s with AF := cpAF s.AF (highReg s.HL) }
  else if op = 0xBD then /- CP L -/
    { s with AF := cpAF s.AF (lowReg s.HL) }
  else if op = 0xBE then /- CP (HL) -/
    { s with AF := cpAF s.AF (readRam s s.HL) }
  else if op = 0xBF then /- CP A -/
    { s with AF := cpAF s.AF (highReg s.AF) }
  else s

/-- Opcodes `0xC0` to `0xCF` of the main `switch` of `z80step`. -/
def mainC (op : Nat) (s : State) : State :=
  if op = 0xC0 then /- RET NZ -/
    if !testFlag s.AF ZeroFlag then (let r := pop s; { r.2 with PC := r.1 }) else s
  else if op = 0xC1 then /- pop BC -/
    let r := pop s; { r.2 with BC := r.1 }
  else if op = 0xC2 then /- JP NZ,nnnn -/
    conditionalJump s (!testFlag s.AF ZeroFlag)
  else if op = 0xC3 then /- JP nnnn -/
    conditionalJump s true
  else if op = 0xC4 then /- CALL NZ,nnnn -/
    conditionalCall s (!testFlag s.AF ZeroFlag)
  else if op = 0xC5 then /- push BC -/
    push s s.BC
  else if op = 0xC6 then /- ADD A,nn -/
    { s with AF := addAF s.AF (readRam s s.PC) 0, PC := (s.PC + 1) % 65536 }
  else if op = 0xC7 then /- RST 0 -/
    let s1 := push s s.PC; { s1 with PC := 0x00 }
  else if op = 0xC8 then /- RET Z -/
    if testFlag s.AF ZeroFlag then (let r := pop s; { r.2 with PC := r.1 }) else s
  else if op = 0xC9 then /- RET -/
    let r := pop s; { r.2 with PC := r.1 }
  else if op = 0xCA then /- JP Z,nnnn -/
    conditionalJump s (testFlag s.AF ZeroFlag)
  else if op = 0xCB then /- CB prefix -/
     cb_prefix s s.HL
  else if op = 0xCC then /- CALL Z,nnnn -/
    conditionalCall s (testFlag s.AF ZeroFlag)
  else if op = 0xCD then /- CALL nnnn -/
    conditionalCall s true
  else if op = 0xCE then /- ADC A,nn -/
    { s with AF := addAF s.AF (readRam s s.PC) (b2n (testFlag s.AF CarryFlag)), PC := (s.PC + 1) % 65536 }
  else if op = 0xCF then /- RST 8 -/
    let s1 := push s s.PC; { s1 with PC := 0x08 }
  else s

/-- Opcodes `0xD0` to `0xDF` of the main `switch` of `z80step`. -/
def mainD (op : Nat) (s : State) : State :=
  if op = 0xD0 then /- RET NC -/
    if !testFlag s.AF CarryFlag then (let r := pop s; { r.2 with PC := r.1 }) else s
  else if op = 0xD1 then /- pop DE -/
    let r := pop s; { r.2 with DE := r.1 }
  else if op = 0xD2 then /- JP NC,nnnn -/
    conditionalJump s (!testFlag s.AF CarryFlag)
  else if op = 0xD3 then /- OUT (nn),A -/
    let s1 := portOut s (readRam s s.PC) (highReg s.AF); { s1 with PC := (s1.PC + 1) % 65536 }
  else if op = 0xD4 then /- CALL NC,nnnn -/
    conditionalCall s (!testFlag s.AF CarryFlag)
  else if op = 0xD5 then /- push DE -/
    push s s.DE
  else if op = 0xD6 then /- SUB nn -/
    { s with AF := subAF s.AF (readRam s s.PC) 0, PC := (s.PC + 1) % 65536 }
  else if op = 0xD7 then /- RST 10H -/
    let s1 := push s s.PC; { s1 with PC := 0x10 }
  else if op = 0xD8 then /- RET C -/
    if testFlag s.AF CarryFlag then (let r := pop s; { r.2 with PC := r.1 }) else s
  else if op = 0xD9 then /- EXX -/
    let r0 := swap s.BC s.BCalt; let r1 := swap s.DE s.DEalt; let r2 := swap s.HL s.HLalt; { s with BC := r0.1, BCalt := r0.2, DE := r1.1, DEalt := r1.2, HL := r2.1, HLalt := r2.2 }
  else if op = 0xDA then /- JP C,nnnn -/
    conditionalJump s (testFlag s.AF CarryFlag)
  else if op = 0xDB then /- IN A,(nn) -/
    { s with AF := SethighReg s.AF (portIn s (readRam s s.PC)), PC := (s.PC + 1) % 65536 }
  else if op = 0xDC then /- CALL C,nnnn -/
    conditionalCall s (testFlag s.AF CarryFlag)
  else if op = 0xDD then /- DD prefix -/
    let r := dfd_prefix s s.ix; { r.1 with ix := r.2 }
  else if op = 0xDE then /- SBC A,nn -/
    { s with AF := subAF s.AF (readRam s s.PC) (b2n (testFlag s.AF CarryFlag)), PC := (s.PC + 1) % 65536 }
  else if op = 0xDF then /- RST 18H -/
    let s1 := push s s.PC; { s1 with PC := 0x18 }
  else s

/-- Opcodes `0xE0` to `0xEF` of the main `switch` of `z80step`. -/
def mainE (op : Nat) (s : State) : State :=
  if op = 0xE0 then /- RET PO -/
    if !testFlag s.AF ParityFlag then (let r := pop s; { r.2 with PC := r.1 }) else s
  else if op = 0xE1 then /- pop HL -/
    let r := pop s; { r.2 with HL := r.1 }
  else if op = 0xE2 then /- JP PO,nnnn -/
    conditionalJump s (!testFlag s.AF ParityFlag)
  else if op = 0xE3 then /- EX (SP),HL -/
    let temp := s.HL; let r := pop s; let s1 : State := { r.2 with HL := r.1 }; push s1 temp
  else if op = 0xE4 then /- CALL PO,nnnn -/
    conditionalCall s (!testFlag s.AF ParityFlag)
  else if op = 0xE5 then /- push HL -/
    push s s.HL
  else if op = 0xE6 then /- AND nn -/
    { s with AF := andAF (((s.AF >>> 8) &&& readRam s s.PC) &&& 0xff), PC := (s.PC + 1) % 65536 }
  else if op = 0xE7 then /- RST 20H -/
    let s1 := push s s.PC; { s1 with PC := 0x20 }
  else if op = 0xE8 then /- RET PE -/
    if testFlag s.AF ParityFlag then (let r := pop s; { r.2 with PC := r.1 }) else s
  else if op = 0xE9 then /- JP (HL) -/
    { s with PC := s.HL }
  else if op = 0xEA then /- JP PE,nnnn -/
    conditionalJump s (testFlag s.AF ParityFlag)
  else if op = 0xEB then /- EX DE,HL -/
    let temp := s.HL; { s with HL := s.DE, DE := temp }
  else if op = 0xEC then /- CALL PE,nnnn -/
    conditionalCall s (testFlag s.AF ParityFlag)
  else if op = 0xEE then /- XOR nn -/
    { s with AF := orAF (((s.AF >>> 8) ^^^ readRam s s.PC) &&& 0xff), PC := (s.PC + 1) % 65536 }
  else if op = 0xEF then /- RST 28H -/
    let s1 := push s s.PC; { s1 with PC := 0x28 }
  else s

/-- Opcodes `0xF0` to `0xFF` of the main `switch` of `z80step`. -/
def mainF (op : Nat) (s : State) : State :=
  if op = 0xF0 then /- RET P -/
    if !testFlag s.AF SignFlag then (let r := pop s; { r.2 with PC := r.1 }) else s
  else if op = 0xF1 then /- pop AF -/
    let r := pop s; { r.2 with AF := r.1 }
  else if op = 0xF2 then /- JP P,nnnn -/
    conditionalJump s (!testFlag s.AF SignFlag)
  else if op = 0xF3 then /- DI -/
    { s with IFF := 0 }
  else if op = 0xF4 then /- CALL P,nnnn -/
    conditionalCall s (!testFlag s.AF SignFlag)
  else if op = 0xF5 then /- push AF -/
    push s s.AF
  else if op = 0xF6 then /- OR nn -/
    { s with AF := orAF (((s.AF >>> 8) ||| readRam s s.PC) &&& 0xff), PC := (s.PC + 1) % 65536 }
  else if op = 0xF7 then /- RST 30H -/
    let s1 := push s s.PC; { s1 with PC := 0x30 }
  else if op = 0xF8 then /- RET M -/
    if testFlag s.AF SignFlag then (let r := pop s; { r.2 with PC := r.1 }) else s
  else if op = 0xF9 then /- LD SP,HL -/
    { s with SP := s.HL }
  else if op = 0xFA then /- JP M,nnnn -/
    conditionalJump s (testFlag s.AF SignFlag)
  else if op = 0xFB then /- EI -/
    { s with IFF := 3 }
  else if op = 0xFC then /- CALL M,nnnn -/
    conditionalCall s (testFlag s.AF SignFlag)
  else if op = 0xFD then /- FD prefix -/
    let r := dfd_prefix s s.iy; { r.1 with iy := r.2 }
  else if op = 0xFE then /- CP nn -/
    { s with AF := cpAF s.AF (readRam s s.PC), PC := (s.PC + 1) % 65536 }
  else if op = 0xFF then /- RST 38H -/
    let s1 := push s s.PC; { s1 with PC := 0x38 }
  else s

/-- The main `switch` of `z80step` for every opcode except `0xED`.  All 256
byte values have a case in the source; the sixteen groups are consulted by
the high nibble of the opcode. -/
def z80main (op : Nat) (s : State) : State :=
  if op < 0x10 then main0 op s
  else if op < 0x20 then main1 op s
  else if op < 0x30 then main2 op s
  else if op < 0x40 then main3 op s
  else if op < 0x50 then main4 op s
  else if op < 0x60 then main5 op s
  else if op < 0x70 then main6 op s
  else if op < 0x80 then main7 op s
  else if op < 0x90 then main8 op s
  else if op < 0xA0 then main9 op s
  else if op < 0xB0 then mainA op s
  else if op < 0xC0 then mainB op s
  else if op < 0xD0 then mainC op s
  else if op < 0xE0 then mainD op s
  else if op < 0xF0 then mainE op s
  else mainF op s

/-- `z80step`: fetch the opcode at `PC`, advance `PC`, execute.  `fuel`
bounds the rounds of a block-repeat loop (see `ldxrLoop`); no other
instruction consults it. -/
def z80step (fuel : Nat) (s : State) : Option State :=
  let s : State := { s with PC := (s.PC + 1) % 65536 }
  let op := readRam s (65535 + s.PC)
  if op = 0xED then ed_prefix fuel s else some (z80main op s)

/-- Rounds that suffice for every block-repeat loop: the loop counter of
`INIR`, `INDR`, `OTIR` and `OTDR` is a 32-bit `unsigned int`. -/
def stepFuel : Nat := 0x100000000

/-! ## Specification-side definitions and scenario states

Definitions the statements below are written with: properties restated from
the specification, forms of the arithmetic that evaluate quickly, counters of
loop rounds, the three stages of `cb_prefix` taken one by one, the lists of
opcodes the prefix decoders have a `case` for, and the concrete states the
scenarios run on. -/

/-- A state with every register zero, an all-zero memory, no key pressed and
nothing drawn. -/
def zeroState : State :=
  { AF := 0, BC := 0, DE := 0, HL := 0, ir := 0, ix := 0, iy := 0, SP := 0, PC := 0,
    IFF := 0, AFalt := 0, BCalt := 0, DEalt := 0, HLalt := 0, ram := fun _ => 0,
    keyMatrix := fun _ => 0, keyRow := 0, prevPort := 0, out := [] }

/-- A memory image given by a list of `(address, byte)` pairs; every other
cell is zero. -/
def memOf (l : List (Nat × Nat)) : Nat → Nat := fun a => (l.lookup a).getD 0

/-- A state about to execute `EX AF,AF'` twice, with distinct values in the
two accumulator banks. -/
def exAfState : State :=
  { zeroState with
    AF := 0x1234, AFalt := 0x5678, PC := 0x1000,
    ram := memOf [(0x1000, 0x08), (0x1001, 0x08)] }

/-- A state about to execute `EXX` twice, with distinct values in the two
register banks. -/
def exxState : State :=
  { zeroState with
    BC := 0x1111, DE := 0x3333, HL := 0x5555, BCalt := 0x2222, DEalt := 0x4444,
    HLalt := 0x6666, PC := 0x1000, ram := memOf [(0x1000, 0xD9), (0x1001, 0xD9)] }

/-- `p` holds for every number below `n`. -/
def allBelow : Nat → (Nat → Bool) → Bool
  | 0, _ => true
  | n + 1, p => p n && allBelow n p

/-- The value `ADD` must leave in `AF` for accumulator `a`, operand `b` and
carry-in `c`, written with sums, quotients and remainders, one line each for
the result byte and the bits S, Z, 5, H, 3, P/V, N and C. -/
def addSpec (a b c : Nat) : Nat :=
  256 * ((a + b + c) % 256) +
  128 * ((a + b + c) % 256 / 128) +
  64 * (1 - (255 + (a + b + c) % 256) / 256) +
  32 * ((a + b + c) % 256 / 32 % 2) +
  16 * ((a % 16 + b % 16 + c) / 16) +
  8 * ((a + b + c) % 256 / 8 % 2) +
  4 * (((a % 128 + b % 128 + c) / 128 + (a + b + c) / 256) % 2) +
  2 * 0 +
  (a + b + c) / 256

/-- The value `SUB` must leave in `AF` for accumulator `a`, operand `b` and
borrow-in `c`, written with sums, quotients and remainders, one line each for
the result byte and the bits S, Z, 5, H, 3, P/V, N and C. -/
def subSpec (a b c : Nat) : Nat :=
  256 * ((512 + a - (b + c)) % 256) +
  128 * ((512 + a - (b + c)) % 256 / 128) +
  64 * (1 - (255 + (512 + a - (b + c)) % 256) / 256) +
  32 * ((512 + a - (b + c)) % 256 / 32 % 2) +
  16 * ((15 + (b % 16 + c) - a % 16) / 16) +
  8 * ((512 + a - (b + c)) % 256 / 8 % 2) +
  4 * (((127 + (b % 128 + c) - a % 128) / 128 + (255 + (b + c) - a) / 256) % 2) +
  2 * 1 +
  (255 + (b + c) - a) / 256

/-- The expression of `addAF` on the primitive operations of `Nat`. -/
def addRaw (a b c : Nat) : Nat :=
  (Nat.mod (Nat.lor (Nat.lor (Nat.lor (Nat.lor (Nat.lor (Nat.shiftLeft (Nat.land (Nat.add (Nat.add a b) c) 255) 8) (Nat.land (Nat.add (Nat.add a b) c) 168)) (Nat.shiftLeft (cond (Nat.beq (Nat.land (Nat.add (Nat.add a b) c) 255) 0) 1 0) 6)) (Nat.land (Nat.xor (Nat.xor a b) (Nat.add (Nat.add a b) c)) 16)) (Nat.land (Nat.xor (Nat.shiftRight (Nat.xor (Nat.xor a b) (Nat.add (Nat.add a b) c)) 6) (Nat.shiftRight (Nat.xor (Nat.xor a b) (Nat.add (Nat.add a b) c)) 5)) 4)) (Nat.land (Nat.shiftRight (Nat.xor (Nat.xor a b) (Nat.add (Nat.add a b) c)) 8) 1)) 65536)

/-- The expression of `subAF` on the primitive operations of `Nat`. -/
def subRaw (a b c : Nat) : Nat :=
  (Nat.mod (Nat.lor (Nat.lor (Nat.lor (Nat.lor (Nat.lor (Nat.lor (Nat.shiftLeft (Nat.land (Nat.mod (Nat.sub (Nat.add 4294967296 (Nat.mod (Nat.sub (Nat.add 4294967296 a) b) 4294967296)) c) 4294967296) 255) 8) (Nat.land (Nat.mod (Nat.sub (Nat.add 4294967296 (Nat.mod (Nat.sub (Nat.add 4294967296 a) b) 4294967296)) c) 4294967296) 168)) (Nat.shiftLeft (cond (Nat.beq (Nat.land (Nat.mod (Nat.sub (Nat.add 4294967296 (Nat.mod (Nat.sub (Nat.add 4294967296 a) b) 4294967296)) c) 4294967296) 255) 0) 1 0) 6)) (Nat.land (Nat.xor (Nat.xor a b) (Nat.mod (Nat.sub (Nat.add 4294967296 (Nat.mod (Nat.sub (Nat.add 4294967296 a) b) 4294967296)) c) 4294967296)) 16)) (Nat.land (Nat.xor (Nat.shiftRight (Nat.xor (Nat.xor a b) (Nat.mod (Nat.sub (Nat.add 4294967296 (Nat.mod (Nat.sub (Nat.add 4294967296 a) b) 4294967296)) c) 4294967296)) 6) (Nat.shiftRight (Nat.xor (Nat.xor a b) (Nat.mod (Nat.sub (Nat.add 4294967296 (Nat.mod (Nat.sub (Nat.add 4294967296 a) b) 4294967296)) c) 4294967296)) 5)) 4)) 2) (Nat.land (Nat.shiftRight (Nat.xor (Nat.xor a b) (Nat.mod (Nat.sub (Nat.add 4294967296 (Nat.mod (Nat.sub (Nat.add 4294967296 a) b) 4294967296)) c) 4294967296)) 8) 1)) 65536)

/-- `addSpec` on the primitive operations of `Nat`. -/
def addSpecRaw (a b c : Nat) : Nat :=
  (Nat.add (Nat.add (Nat.add (Nat.add (Nat.add (Nat.add (Nat.add (Nat.add (Nat.mul 256 (Nat.mod (Nat.add (Nat.add a b) c) 256)) (Nat.mul 128 (Nat.div (Nat.mod (Nat.add (Nat.add a b) c) 256) 128))) (Nat.mul 64 (Nat.sub 1 (Nat.div (Nat.add 255 (Nat.mod (Nat.add (Nat.add a b) c) 256)) 256)))) (Nat.mul 32 (Nat.mod (Nat.div (Nat.mod (Nat.add (Nat.add a b) c) 256) 32) 2))) (Nat.mul 16 (Nat.div (Nat.add (Nat.add (Nat.mod a 16) (Nat.mod b 16)) c) 16))) (Nat.mul 8 (Nat.mod (Nat.div (Nat.mod (Nat.add (Nat.add a b) c) 256) 8) 2))) (Nat.mul 4 (Nat.mod (Nat.add (Nat.div (Nat.add (Nat.add (Nat.mod a 128) (Nat.mod b 128)) c) 128) (Nat.div (Nat.add (Nat.add a b) c) 256)) 2))) (Nat.mul 2 0)) (Nat.div (Nat.add (Nat.add a b) c) 256))

/-- `subSpec` on the primitive operations of `Nat`. -/
def subSpecRaw (a b c : Nat) : Nat :=
  (Nat.add (Nat.add (Nat.add (Nat.add (Nat.add (Nat.add (Nat.add (Nat.add (Nat.mul 256 (Nat.mod (Nat.sub (Nat.add 512 a) (Nat.add b c)) 256)) (Nat.mul 128 (Nat.div (Nat.mod (Nat.sub (Nat.add 512 a) (Nat.add b c)) 256) 128))) (Nat.mul 64 (Nat.sub 1 (Nat.div (Nat.add 255 (Nat.mod (Nat.sub (Nat.add 512 a) (Nat.add b c)) 256)) 256)))) (Nat.mul 32 (Nat.mod (Nat.div (Nat.mod (Nat.sub (Nat.add 512 a) (Nat.add b c)) 256) 32) 2))) (Nat.mul 16 (Nat.div (Nat.sub (Nat.add 15 (Nat.add (Nat.mod b 16) c)) (Nat.mod a 16)) 16))) (Nat.mul 8 (Nat.mod (Nat.div (Nat.mod (Nat.sub (Nat.add 512 a) (Nat.add b c)) 256) 8) 2))) (Nat.mul 4 (Nat.mod (Nat.add (Nat.div (Nat.sub (Nat.add 127 (Nat.add (Nat.mod b 128) c)) (Nat.mod a 128)) 128) (Nat.div (Nat.sub (Nat.add 255 (Nat.add b c)) a) 256)) 2))) (Nat.mul 2 1)) (Nat.div (Nat.sub (Nat.add 255 (Nat.add b c)) a) 256))

/-- A byte read as a signed 8-bit value. -/
def signed8 (x : Nat) : Int := if x < 128 then (x : Int) else (x : Int) - 256

/-- A state about to execute `ADD A,B` with `A = 0x0F`, `B = 0x01`. -/
def addState : State :=
  { zeroState with AF := 0x0F00, BC := 0x0100, PC := 0x1000, ram := memOf [(0x1000, 0x80)] }

/-- A state about to execute `SUB 0x01` with `A = 0x00`. -/
def subState : State :=
  { zeroState with AF := 0x0000, PC := 0x1000, ram := memOf [(0x1000, 0xD6), (0x1001, 0x01)] }

/-- The condition a `CALL` opcode tests, by the Z80 encoding: `0xCD` is
unconditional, and bits 5..3 of a conditional `CALL cc,nn` select NZ, Z, NC,
C, PO, PE, P, M, where Z, C, P/V and S are bits 6, 0, 2 and 7 of `F`. -/
def callCondition (op AF : Nat) : Bool :=
  if op = 0xCD then true
  else if (op >>> 3) &&& 7 = 0 then !AF.testBit 6
  else if (op >>> 3) &&& 7 = 1 then AF.testBit 6
  else if (op >>> 3) &&& 7 = 2 then !AF.testBit 0
  else if (op >>> 3) &&& 7 = 3 then AF.testBit 0
  else if (op >>> 3) &&& 7 = 4 then !AF.testBit 2
  else if (op >>> 3) &&& 7 = 5 then AF.testBit 2
  else if (op >>> 3) &&& 7 = 6 then !AF.testBit 7
  else AF.testBit 7

/-- The nine `CALL` opcodes. -/
def callOpcodes : List Nat := [0xC4, 0xCC, 0xCD, 0xD4, 0xDC, 0xE4, 0xEC, 0xF4, 0xFC]

/-- The state of the conditional-call scenario: `CALL Z,0x1234` at `0x1000`
with `Z` set and `SP = 0x4000`. -/
def callState : State :=
  { zeroState with
    AF := 0x0040, SP := 0x4000, PC := 0x1000,
    ram := memOf [(0x1000, 0xCC), (0x1001, 0x34), (0x1002, 0x12)] }

/-- Rounds a `do … while (--n)` loop runs on a counter of `w` values that
starts at `n`: `n` itself, or `w` when it starts at zero. -/
def rounds (w n : Nat) : Nat := if n = 0 then w else n

/-- `n` rounds of the block-move loop. -/
def ldxrIter (d : Nat) : Nat → State → State
  | 0, s => s
  | n + 1, s => ldxrIter d n (ldxrRound d s).2

/-- The spec scenario of `LDIR`: three bytes at `0x2000` to be copied to
`0x3000`, the instruction at `0x1000`. -/
def ldirState : State :=
  { zeroState with
    HL := 0x2000, DE := 0x3000, BC := 0x0003, PC := 0x1000,
    ram := memOf [(0x1000, 0xED), (0x1001, 0xB0),
                  (0x2000, 0xAA), (0x2001, 0xBB), (0x2002, 0xCC)] }

/-- `LDIR` about to run with `BC = 0`: one byte `0xAA` at `HL = 0x2000`, the
destination `DE = 0x3000` holding zero, the instruction at `0x1000`. -/
def ldirZeroState : State :=
  { zeroState with
    HL := 0x2000, DE := 0x3000, BC := 0x0000, PC := 0x1000,
    ram := memOf [(0x1000, 0xED), (0x1001, 0xB0), (0x2000, 0xAA)] }

/-- A state about to execute `HALT` at `0x1000`; the byte after it is a
`NOP`. -/
def haltState : State :=
  { zeroState with PC := 0x1000, ram := memOf [(0x1000, 0x76), (0x1001, 0x00)] }

/-- The first `switch` of `cb_prefix`: the operand selected by `t`, the low
three bits of the opcode. -/
def cbOperand (t : Nat) (s : State) (adr : Nat) : Nat :=
  if t = 0 then highReg s.BC
  else if t = 1 then lowReg s.BC
  else if t = 2 then highReg s.DE
  else if t = 3 then lowReg s.DE
  else if t = 4 then highReg s.HL
  else if t = 5 then lowReg s.HL
  else if t = 6 then readRam s adr
  else highReg s.AF

/-- The second `switch` of `cb_prefix`: `temp` and the new `AF` for the opcode
`op`, the operand `acu` and the old `AF`. -/
def cbCompute (op acu AF : Nat) : Nat × Nat :=
  let cf := b2n (testFlag AF CarryFlag)
  let bit := 1 <<< ((op >>> 3) &&& 7)
  if (op &&& 0xc0) = 0x00 then
    let tc : Nat × Nat :=
      if (op &&& 0x38) = 0x00 then /- RLC -/
        let temp := (acu <<< 1) ||| (acu >>> 7); (temp, temp &&& 1)
      else if (op &&& 0x38) = 0x08 then /- RRC -/
        let temp := (acu >>> 1) ||| (acu <<< 7); (temp, temp &&& 0x80)
      else if (op &&& 0x38) = 0x10 then /- RL -/
        ((acu <<< 1) ||| cf, acu &&& 0x80)
      else if (op &&& 0x38) = 0x18 then /- RR -/
        ((acu >>> 1) ||| (cf <<< 7), acu &&& 1)
      else if (op &&& 0x38) = 0x20 then /- SLA -/
        (acu <<< 1, acu &&& 0x80)
      else if (op &&& 0x38) = 0x28 then /- SRA -/
        ((acu >>> 1) ||| (acu &&& 0x80), acu &&& 1)
      else if (op &&& 0x38) = 0x30 then /- SLIA -/
        ((acu <<< 1) ||| 1, acu &&& 0x80)
      else /- SRL -/
        (acu >>> 1, acu &&& 1)
    (tc.1,
     ((AF &&& bnot 0xff) ||| (tc.1 &&& 0xa8) |||
      ((if (tc.1 &&& 0xff) = 0 then 1 else 0) <<< 6) |||
      parity tc.1 ||| (if tc.2 ≠ 0 then 1 else 0)) % 65536)
  else if (op &&& 0xc0) = 0x40 then /- BIT -/
    let AF1 :=
      if (acu &&& bit) ≠ 0 then
        ((AF &&& bnot 0xfe) ||| 0x10 |||
          ((if (op &&& 0x38) = 0x38 then 1 else 0) <<< 7)) % 65536
      else ((AF &&& bnot 0xfe) ||| 0x54) % 65536
    let AF2 := if (op &&& 7) ≠ 6 then (AF1 ||| (acu &&& 0x28)) % 65536 else AF1
    (acu, AF2)
  else if (op &&& 0xc0) = 0x80 then /- RES -/
    (acu &&& bnot bit, AF)
  else /- SET -/
    (acu ||| bit, AF)

/-- The third `switch` of `cb_prefix`: `temp` stored where the operand came
from. -/
def cbStore (t : Nat) (s : State) (adr temp : Nat) : State :=
  if t = 0 then { s with BC := SethighReg s.BC temp }
  else if t = 1 then { s with BC := SetlowReg s.BC temp }
  else if t = 2 then { s with DE := SethighReg s.DE temp }
  else if t = 3 then { s with DE := SetlowReg s.DE temp }
  else if t = 4 then { s with HL := SethighReg s.HL temp }
  else if t = 5 then { s with HL := SetlowReg s.HL temp }
  else if t = 6 then writeRam s adr temp
  else { s with AF := SethighReg s.AF temp }

/-- The number of 1 bits of a byte. -/
def popcount (r : Nat) : Nat := ((List.range 8).filter (fun i => r.testBit i)).length

/-- One round of the loop of `parity` on `val`: the lowest set bit is
cleared. -/
def clearLowest (val : Nat) : Nat := val &&& (val - 1)

/-- The spec scenario of `SET`/`RES`: `SET 0,A` then `RES 0,A` at `0x1000`,
with `A = 0x00`, `F = 0xD7` and `HL = 0x2000`. -/
def setResState : State :=
  { zeroState with
    AF := 0x00D7, HL := 0x2000, PC := 0x1000,
    ram := memOf [(0x1000, 0xCB), (0x1001, 0xC7), (0x1002, 0xCB), (0x1003, 0x87)] }

/-- The spec scenario of `LD A,(IX+d)`: `IX = 0x2000`, the byte `0x42` at
`0x2005`, `DD 7E 05` at `0x1000`, and the flag byte `0xD7`. -/
def ldIxState : State :=
  { zeroState with
    AF := 0x00D7, ix := 0x2000, PC := 0x1000,
    ram := memOf [(0x1000, 0xDD), (0x1001, 0x7E), (0x1002, 0x05), (0x2005, 0x42)] }

/-- The same with `IY = 0x2085` and the displacement `0x80`, that is `-128`. -/
def ldIyState : State :=
  { zeroState with
    AF := 0x00D7, iy := 0x2085, PC := 0x1000,
    ram := memOf [(0x1000, 0xFD), (0x1001, 0x7E), (0x1002, 0x80), (0x2005, 0x42)] }

/-- The opcodes that have a `case` in the `switch` of `dfd_prefix`. -/
def dfdOpcodes : List Nat :=
  [0x09, 0x19, 0x21, 0x22, 0x23, 0x24, 0x25, 0x26, 0x29, 0x2A, 0x2B, 0x2C, 0x2D, 0x2E,
   0x34, 0x35, 0x36, 0x39, 0x44, 0x45, 0x46, 0x4C, 0x4D, 0x4E, 0x54, 0x55, 0x56, 0x5C,
   0x5D, 0x5E, 0x60, 0x61, 0x62, 0x63, 0x64, 0x65, 0x66, 0x67, 0x68, 0x69, 0x6A, 0x6B,
   0x6C, 0x6D, 0x6E, 0x6F, 0x70, 0x71, 0x72, 0x73, 0x74, 0x75, 0x77, 0x7C, 0x7D, 0x7E,
   0x84, 0x85, 0x86, 0x8C, 0x8D, 0x8E, 0x94, 0x95, 0x96, 0x9C, 0x9D, 0x9E, 0xA4, 0xA5,
   0xA6, 0xAC, 0xAD, 0xAE, 0xB4, 0xB5, 0xB6, 0xBC, 0xBD, 0xBE, 0xCB, 0xE1, 0xE3, 0xE5,
   0xE9, 0xF9]

/-- The opcodes that have a `case` in the `switch` after `0xED`. -/
def edOpcodes : List Nat :=
  [0x40, 0x41, 0x42, 0x43, 0x44, 0x45, 0x46, 0x47, 0x48, 0x49, 0x4A, 0x4B, 0x4D, 0x4F,
   0x50, 0x51, 0x52, 0x53, 0x56, 0x57, 0x58, 0x59, 0x5A, 0x5B, 0x5E, 0x5F, 0x60, 0x61,
   0x62, 0x63, 0x67, 0x68, 0x69, 0x6A, 0x6B, 0x6F, 0x70, 0x71, 0x72, 0x73, 0x78, 0x79,
   0x7A, 0x7B, 0xA0, 0xA1, 0xA2, 0xA3, 0xA8, 0xA9, 0xAA, 0xAB, 0xB0, 0xB1, 0xB2, 0xB3,
   0xB8, 0xB9, 0xBA, 0xBB]

/-- `DD 00` at `0x1000`: the byte after the prefix is `NOP`, which the IX/IY
decoder does not implement. -/
def ddNopState : State :=
  { zeroState with
    AF := 0x12D7, ix := 0x2000, PC := 0x1000, ram := memOf [(0x1000, 0xDD), (0x1001, 0x00)] }

/-- `ED 4C` at `0x1000`, an opcode of the range `0x40..0x7F` without a
`case`. -/
def edRewindState : State :=
  { zeroState with AF := 0x12D7, PC := 0x1000, ram := memOf [(0x1000, 0xED), (0x1001, 0x4C)] }

/-- `ED 00` at `0x1000`, an opcode outside `0x40..0x7F` without a `case`. -/
def edSkipState : State :=
  { zeroState with AF := 0x12D7, PC := 0x1000, ram := memOf [(0x1000, 0xED), (0x1001, 0x00)] }

/-- `DD CB 05 C0` (`SET 0` with the low bits selecting `B`) at `0x1000`, with
`IX = 0x2000`, `B = 0x80` and the byte `0x00` at `0x2005`. -/
def ddcbRegState : State :=
  { zeroState with
    BC := 0x8000, ix := 0x2000, PC := 0x1000,
    ram := memOf [(0x1000, 0xDD), (0x1001, 0xCB), (0x1002, 0x05), (0x1003, 0xC0)] }

/-- `FD CB 05 C6` (`SET 0,(IY+5)`) at `0x1000`, with `IY = 0x2000` and the
byte `0x00` at `0x2005`. -/
def ddcbMemState : State :=
  { zeroState with
    BC := 0x8000, iy := 0x2000, PC := 0x1000,
    ram := memOf [(0x1000, 0xFD), (0x1001, 0xCB), (0x1002, 0x05), (0x1003, 0xC6)] }

/-- The packed-BCD encoding of `n mod 100`: tens in the high digit, units in
the low digit. -/
def bcd (n : Nat) : Nat := 16 * (n / 10 % 10) + n % 10

/-- The number a packed-BCD byte stands for. -/
def bcdValue (x : Nat) : Nat := 10 * (x / 16) + x % 16

/-- The check of one pair of packed-BCD operands, `n` and `m` being the
numbers they stand for: the accumulator and the carry after `ADD` then `DAA`,
and after `SUB` then `DAA`. -/
def daaCheck (n m : Nat) : Bool :=
  Nat.beq (daaAF (addRaw (bcd n) (bcd m) 0) &&& 0xFF01)
    (256 * bcd ((n + m) % 100) + (if 100 ≤ n + m then 1 else 0)) &&
  Nat.beq (daaAF (subRaw (bcd n) (bcd m) 0) &&& 0xFF01)
    (256 * bcd ((100 + n - m) % 100) + (if n < m then 1 else 0))

/-- The spec scenario of `DAA`: `A = 0x15`, `B = 0x27`, `F = 0`, and
`ADD A,B`, `DAA` at `0x1000`. -/
def daaState : State :=
  { zeroState with
    AF := 0x1500, BC := 0x2700, PC := 0x1000, ram := memOf [(0x1000, 0x80), (0x1001, 0x27)] }

/-- `A = 0x15`, `B = 0x27`, and `SUB B`, `DAA` at `0x1000`. -/
def daaSubState : State :=
  { zeroState with
    AF := 0x1500, BC := 0x2700, PC := 0x1000, ram := memOf [(0x1000, 0x90), (0x1001, 0x27)] }

/-- A sequence of calls `portOut(port, value)`, oldest first, each given as
the pair of its arguments. -/
def portWrites (s : State) (ws : List (Nat × Nat)) : State :=
  ws.foldl (fun t w => portOut t w.1 w.2) s

/-- The row index after `OUT` of `v` to port 0, in the words of the
specification: `p` is the byte written before. -/
def nextRow (row p v : Nat) : Nat :=
  if p.testBit 1 = true ∧ v.testBit 1 = false then 0
  else if p.testBit 0 = true ∧ v.testBit 0 = false then min (row + 1) 9
  else row

/-- A scanner state in the middle of a scan: row 4 selected, `0x03` written
last. -/
def scanState : State := { zeroState with keyRow := 4, prevPort := 0x03 }

/-- Nine strobes of bit 0 of port 0: `OUT` of `0x01` then of `0x00`, nine
times. -/
def nineStrobes : List (Nat × Nat) := (List.replicate 9 [(0, 1), (0, 0)]).flatten

/-- A key matrix whose nine rows are all zero, with the byte `0xA5` next to
them at index 9. -/
def pastMatrix : Nat → Nat := fun i => if i = 9 then 0xA5 else 0

/-- `ED op` at `0x1000` with the scanner in `scanState` and the given register
pairs. -/
def outState (op AF BC DE HL : Nat) : State :=
  { scanState with
    PC := 0x1000, AF := AF, BC := BC, DE := DE, HL := HL,
    ram := memOf [(0x1000, 0xED), (0x1001, op)] }

/-- The register pair whose low byte `OUT (C),r` passes to `portOut`, for the
opcode `0x41 + 8k`. -/
def outPair (k : Nat) (s : State) : Nat :=
  if k = 0 ∨ k = 1 then s.BC
  else if k = 2 ∨ k = 3 then s.DE
  else if k = 4 ∨ k = 5 then s.HL
  else s.AF

/-- `ED op` at `0x1000` with `B = 0x01`, `C = 0x10`, `HL = 0x2000`, the flag
byte zero and the byte `0x55` at `0x2000`. -/
def blockIoState (op : Nat) : State :=
  { zeroState with
    PC := 0x1000, BC := 0x0110, HL := 0x2000,
    ram := memOf [(0x1000, 0xED), (0x1001, op), (0x2000, 0x55)] }

/-- A memory image with the letter `A` at `0x0BC0 = 0x0800 + 15*64` and zero
everywhere else. -/
def letterRam : Nat → Nat := memOf [(0x0BC0, 0x41)]

/-- A memory image with the letter `A` at `0x0BCA`, the letter `B` at `0x080A`
and the byte `0xC3` at `0x084B`. -/
def marginRam : Nat → Nat := memOf [(0x0BCA, 0x41), (0x080A, 0x42), (0x084B, 0xC3)]

/-- The number of elements of the array `ram` of `memory.cpp`. -/
def ramSize : Nat := 64 * 1024

/-- The subscripts of the eight assignments `ram[addr+i] = v[i]` that
`loadNasFile` makes for one record.  `addr` is a `uint16_t`, promoted to `int`
in `addr+i`, so the sum is not reduced modulo 65536. -/
def nasSubscripts (addr : Nat) : List Nat :=
  (List.range 8).map (fun i => addr % 65536 + i)

/-- The eight assignments `ram[addr+i] = v[i]` of `loadNasFile` for one
record whose fields `sscanf` has read into `addr` and `v[0..7]`, on storage
indexed by the subscript of the assignment: the array `ram` is the part below
`ramSize`. -/
def loadNasRecord (ram : Nat → Nat) (addr : Nat) (v : List Nat) : Nat → Nat :=
  (List.range 8).foldl
    (fun r i => fun a => if a = addr % 65536 + i then v.getD i 0 % 256 else r a) ram

/-- The bits that `BIT` puts into the flag byte after clearing all of it but
the carry: the two branches on the tested bit, then the copy of bits 5 and 3
of the operand, which the source makes for `(op&7) != 6` only. -/
def bitBits (op acu : Nat) : Nat :=
  (if (acu &&& (1 <<< ((op >>> 3) &&& 7))) ≠ 0 then
      0x10 ||| ((if (op &&& 0x38) = 0x38 then 1 else 0) <<< 7)
    else 0x54) |||
  (if (op &&& 7) ≠ 6 then acu &&& 0x28 else 0)

/-- The facts about `bitBits` on `BIT b,t` and the operand byte `a`, as a
check. -/
def bitCheck (b t a : Nat) : Bool :=
  let op := 0x40 + 8 * b + t
  let X := bitBits op a
  Nat.beq (op &&& 7) t && Nat.beq (op &&& 0xc0) 0x40 &&
  (decide (X &&& 0x40 ≠ 0) == !a.testBit b) &&
  (decide (X &&& 0x04 ≠ 0) == !a.testBit b) &&
  decide (X &&& 0x10 ≠ 0) && !decide (X &&& 0x02 ≠ 0) && Nat.beq (X &&& 0x01) 0 &&
  (decide (X &&& 0x80 ≠ 0) == (decide (b = 7) && a.testBit b)) &&
  Nat.beq (X &&& 0x28) (if t = 6 then 0 else a &&& 0x28)

/-- `CB op` at `0x1000` with `HL = 0x2000`, the byte `0x29` at `0x2000`,
`A = 0x29` and the flag byte `0x01`. -/
def bitState (op : Nat) : State :=
  { zeroState with
    PC := 0x1000, AF := 0x2901, HL := 0x2000,
    ram := memOf [(0x1000, 0xCB), (0x1001, op), (0x2000, 0x29)] }

/-- The rotate and shift group in the words of the specification: the byte
written back and the bit shifted out, for the operation numbered `k` (RLC,
RRC, RL, RR, SLA, SRA, SLL, SRL), the operand byte `v` and the carry-in
`c`. -/
def rotSpec (k v c : Nat) : Nat × Nat :=
  if k = 0 then ((2 * v) % 256 + v / 128, v / 128)
  else if k = 1 then (v / 2 + 128 * (v % 2), v % 2)
  else if k = 2 then ((2 * v + c) % 256, v / 128)
  else if k = 3 then (v / 2 + 128 * c, v % 2)
  else if k = 4 then ((2 * v) % 256, v / 128)
  else if k = 5 then (v / 2 + (v &&& 0x80), v % 2)
  else if k = 6 then ((2 * v + 1) % 256, v / 128)
  else (v / 2, v % 2)

/-- The flag byte of the rotate and shift group in the words of the
specification: S, Y, X are bits 7, 5, 3 of the result `r`, Z is set iff `r` is
zero, P/V iff `r` has an even number of 1 bits, C is the bit shifted out, and
H and N are clear. -/
def rotFlagSpec (r cout : Nat) : Nat :=
  (r &&& 0xa8) ||| (if r = 0 then 0x40 else 0) |||
    (if popcount r % 2 = 0 then 0x04 else 0) ||| cout

/-- The comparison of `cb_prefix` on the operation `k`, the operand `v` and
the carry `c` with `rotSpec` and `rotFlagSpec`. -/
def rotCheck (k v c : Nat) : Bool :=
  Nat.beq ((cbCompute (8 * k) v c).1 &&& 0xff) (rotSpec k v c).1 &&
  Nat.beq (lowReg (cbCompute (8 * k) v c).2)
    (rotFlagSpec (rotSpec k v c).1 (rotSpec k v c).2)

/-- `CB op` at `0x1000` with `B = 0x81`, `HL = 0x2000`, the byte `0x81` at
`0x2000`, `A = 0x55` and the flag byte `0x01` (carry set). -/
def rotState (op : Nat) : State :=
  { zeroState with
    PC := 0x1000, AF := 0x5501, BC := 0x8100, HL := 0x2000,
    ram := memOf [(0x1000, 0xCB), (0x1001, op), (0x2000, 0x81)] }

/-- The 8-bit register numbered `t` in an opcode: B, C, D, E, H, L for 0 to 5
and A for 7 (6 names `(HL)`, which is no register). -/
def reg8 (t : Nat) (s : State) : Nat :=
  if t = 0 then highReg s.BC
  else if t = 1 then lowReg s.BC
  else if t = 2 then highReg s.DE
  else if t = 3 then lowReg s.DE
  else if t = 4 then highReg s.HL
  else if t = 5 then lowReg s.HL
  else highReg s.AF

/-- The comparison of the flags of `INC` on the register value `v`, where the
code passes `temp` to the flag computation, with those of `ADD A,1` on the
accumulator value `v`. -/
def incCheck (v temp : Nat) : Bool :=
  Nat.beq (incAF 0 temp &&& 0xfe) (addRaw v 1 0 &&& 0xfe) &&
  Nat.beq (incAF 0 temp &&& 0x01) 0 && Nat.beq (incAF 0 temp &&& 0xff00) 0 &&
  (decide (incAF 0 temp &&& 0x04 ≠ 0) == decide ((v + 1) % 256 = 0x80))

/-- The comparison of the flags of `DEC` on the register value `v`, where the
code passes `temp` to the flag computation, with those of `SUB 1` on the
accumulator value `v`. -/
def decCheck (v temp : Nat) : Bool :=
  Nat.beq (decAF 0 temp &&& 0xfe) (subRaw v 1 0 &&& 0xfe) &&
  Nat.beq (decAF 0 temp &&& 0x01) 0 && Nat.beq (decAF 0 temp &&& 0xff00) 0 &&
  (decide (decAF 0 temp &&& 0x04 ≠ 0) == decide ((v + 255) % 256 = 0x7F))

/-- The opcode `op` at `0x1000` with the given `BC` and `AF`. -/
def incState (op BC AF : Nat) : State :=
  { zeroState with PC := 0x1000, BC := BC, AF := AF, ram := memOf [(0x1000, op)] }

/-- The register pair numbered `p` in the opcode of `ADD HL,rp`: BC, DE, HL,
SP. -/
def regPair (p : Nat) (s : State) : Nat :=
  if p = 0 then s.BC else if p = 1 then s.DE else if p = 2 then s.HL else s.SP

/-- The opcode `op` at `0x1000` with the given `HL`, `BC` and `AF`. -/
def addHlState (op HL BC AF : Nat) : State :=
  { zeroState with PC := 0x1000, HL := HL, BC := BC, AF := AF, ram := memOf [(0x1000, op)] }

/-- The flag byte of `AND`, `XOR` and `OR` in the words of the specification:
S, Y, X are bits 7, 5, 3 of the result `r`, Z is set iff `r` is zero, H is
`h` (1 for `AND`, 0 for `XOR` and `OR`), P/V is set iff `r` has an even number
of 1 bits, and N and C are clear. -/
def logicFlagSpec (r h : Nat) : Nat :=
  (r &&& 0xa8) ||| (if r = 0 then 0x40 else 0) ||| (16 * h) |||
    (if popcount r % 2 = 0 then 0x04 else 0)

/-- The opcode `op` and the byte `n` at `0x1000`, with the given `AF`, `BC`
and `HL`, and the byte `m` at `0x2000`. -/
def aluState (op n AF BC HL m : Nat) : State :=
  { zeroState with
    PC := 0x1000, AF := AF, BC := BC, HL := HL,
    ram := memOf [(0x1000, op), (0x1001, n), (0x2000, m)] }

/-- The word `NEG` leaves in `AF`, as the source computes it, from the
accumulator value `a`: in the source the accumulator is taken in place as
`AF & 0xff00`, which is `a << 8`, and as `temp = highReg(AF)`, which is
`a`. -/
def negWord (a : Nat) : Nat :=
  let temp := a
  let AF1 := ((sub32 0 (a <<< 8)) &&& 0xff00) % 65536
  (AF1 ||| (((AF1 >>> 8) &&& 0xa8) ||| ((if (AF1 &&& 0xff00) = 0 then 1 else 0) <<< 6) |||
    ((if (temp &&& 0x0f) ≠ 0 then 1 else 0) <<< 4) ||| ((if temp = 0x80 then 1 else 0) <<< 2) |||
    2 ||| (if temp ≠ 0 then 1 else 0))) % 65536

/-- `ED op` at `0x1000` with the given `AF`, `HL`, `SP`, `IFF` and the bytes
`m` at `0x2000` and `lo`, `hi` at `0x3000`, `0x3001`. -/
def edState (op AF HL SP IFF m lo hi : Nat) : State :=
  { zeroState with
    PC := 0x1000, AF := AF, HL := HL, SP := SP, IFF := IFF,
    ram := memOf [(0x1000, 0xED), (0x1001, op), (0x2000, m), (0x3000, lo), (0x3001, hi)] }

/-- A state about to execute `ED op1` and then `ED op2` at `0x1000`, with the
accumulator and flags `AF` and the byte `m` at `HL = 0x2000`. -/
def digitState (op1 op2 AF m : Nat) : State :=
  { zeroState with
    PC := 0x1000, AF := AF, HL := 0x2000,
    ram := memOf [(0x1000, 0xED), (0x1001, op1), (0x1002, 0xED), (0x1003, op2), (0x2000, m)] }

/-- What `BIT` keeps: the eight-bit registers B, C, D, E, H, L, A (numbered
`k` = 0..5 and 7 as in the opcodes), `IX`, `IY`, `SP` and every memory byte
are in `r` what they are in `s`. -/
def bitKeeps (s r : State) : Prop :=
  (∀ k, k < 8 → k ≠ 6 → cbOperand k r 0 = cbOperand k s 0) ∧
  r.ix = s.ix ∧ r.iy = s.iy ∧ r.SP = s.SP ∧ ∀ a, readRam r a = readRam s a

/-- `DD CB 05 op` or `FD CB 05 op` (`pre` = `0xDD`, `0xFD`) at `0x1000`, with
every register pair holding a different value and the byte `0x29` at
`0x2005`. -/
def bitIndexState (pre op : Nat) : State :=
  { zeroState with
    AF := 0x2901, BC := 0x1234, DE := 0x5678, HL := 0x9ABC, ix := 0x2000, iy := 0x2000,
    SP := 0x4000, PC := 0x1000,
    ram := memOf [(0x1000, pre), (0x1001, 0xCB), (0x1002, 0x05), (0x1003, op),
                  (0x2005, 0x29)] }

/-- The field `g` of the state of a decoder result, when there is one, is
`x`. -/
def keepsPair (g : State → Nat) (x : Nat) (o : Option (State × Nat)) : Prop :=
  ∀ r, o = some r → g r.1 = x

/-- The field `g` of an optional state, when there is one, satisfies `P`. -/
def keepsOpt (P : State → Prop) (o : Option State) : Prop :=
  ∀ r, o = some r → P r

/-- What a step may do to the interrupt latch whose value was `x`: leave it,
clear it (`DI`), set both bits (`EI`), or copy bit 1 onto bit 0
(`IFF |= IFF >> 1` of `RETN` and `RETI`). -/
def iffNext (x : Nat) (r : State) : Prop :=
  r.IFF = x ∨ r.IFF = 0 ∨ r.IFF = 3 ∨ r.IFF = (x ||| (x >>> 1)) % 65536

/-- `pre op` (`pre` = `0xDD` or `0xFD`) at `0x1000` with `IX = 0x1111`,
`IY = 0x2222`, `HL = 0x3333`, `SP = 0x4000` and the word `0xBEEF` on top of
the stack. -/
def indexState (pre op : Nat) : State :=
  { zeroState with
    HL := 0x3333, ix := 0x1111, iy := 0x2222, SP := 0x4000, PC := 0x1000,
    ram := memOf [(0x1000, pre), (0x1001, op), (0x4000, 0xEF), (0x4001, 0xBE)] }

/-- The zero-initialised CPU over the memory image `ram`. -/
def cpuInit (ram : Nat → Nat) : State := { zeroState with ram := ram }

/-- A run of the emulator: one `z80step` for every element of `kms`, the
keyboard matrix the port sees during that step. -/
def run (fuel : Nat) : List (Nat → Nat) → State → Option State
  | [], s => some s
  | km :: rest, s => (z80step fuel { s with keyMatrix := km }).bind (run fuel rest)

/-- `EI` at `0x0000` followed by `RETN`. -/
def eiRetnRam : Nat → Nat := memOf [(0x0000, 0xFB), (0x0001, 0xED), (0x0002, 0x45)]

/-- What `INIR`, `OTIR`, `INDR` and `OTDR` leave in `s'` when the step from
`s` makes `n` rounds of the loop body `f` that moves `HL` by `d`: `n`
transfers, `HL` moved `n` times, `B = 0`, `C` as before, Z and N set. -/
def repeatIoResult (f : State → State) (d n : Nat) (s s' : State) : Prop :=
  s' = blockIoEnd (Nat.iterate f n { s with PC := ((s.PC + 1) % 65536 + 1) % 65536 }) ∧
  s'.HL = (n * d + s.HL) % 65536 ∧ highReg s'.BC = 0 ∧ lowReg s'.BC = lowReg s.BC ∧
  testFlag s'.AF ZeroFlag = true ∧ testFlag s'.AF SubFlag = true

/-- `ED op` at `0x1000` with `B = b`, `C = 0x10`, `HL = 0x2000` and the bytes
`0x11`, `0x22`, `0x33` from `0x2000`. -/
def repeatIoState (op b : Nat) : State :=
  { zeroState with
    PC := 0x1000, BC := 256 * b + 0x10, HL := 0x2000,
    ram := memOf [(0x1000, 0xED), (0x1001, op), (0x2000, 0x11), (0x2001, 0x22),
                  (0x2002, 0x33)] }

/-- The flag word `LDI` and `LDD` leave, from the old `AF`, the byte moved
and the new `BC`. -/
def ldiAF (AF byte BC1 : Nat) : Nat :=
  ((AF &&& bnot 0x3e) ||| ((byte + highReg AF) &&& 8) ||| (((byte + highReg AF) &&& 2) <<< 4) |||
    ((if (BC1 &&& 0xffff) ≠ 0 then 1 else 0) <<< 2)) % 65536

/-- `ED op` at `0x1000` with `BC = 3`, `HL = 0x2001`, `DE = 0x3001`,
`A = 0x12`, every flag set, and the bytes `0x11`, `0x8A`, `0x33`, `0x44` from
`0x2000`. -/
def ldirFlagsState (op : Nat) : State :=
  { zeroState with
    AF := 0x12FF, HL := 0x2001, DE := 0x3001, BC := 0x0003, PC := 0x1000,
    ram := memOf [(0x1000, 0xED), (0x1001, op),
                  (0x2000, 0x11), (0x2001, 0x8A), (0x2002, 0x33), (0x2003, 0x44)] }

theorem updateScreen_ram (s : State) : (updateScreen s).ram = s.ram := rfl

theorem writeRam_ram (s : State) (addr val : Nat) :
    (writeRam s addr val).ram =
      if 0x800 ≤ addr % 65536 ∧ addr % 65536 < 0xe000 then
        fun a => if a = addr % 65536 then val % 256 else s.ram a
      else s.ram := by
  unfold writeRam
  dsimp only
  split_ifs <;> rfl

/-- Reading back the written cell. -/
theorem readRam_writeRam_same (s : State) (addr val : Nat) :
    readRam (writeRam s addr val) addr =
      if 0x800 ≤ addr % 65536 ∧ addr % 65536 < 0xe000 then val % 256 else readRam s addr := by
  unfold readRam
  rw [writeRam_ram]
  by_cases h1 : 0x800 ≤ addr % 65536 ∧ addr % 65536 < 0xe000 <;> simp [h1]

/-- A read depends on the memory image and on the address modulo 65536. -/
theorem readRam_congr' (s t : State) (a b : Nat) (hram : s.ram = t.ram)
    (hab : a % 65536 = b % 65536) : readRam s a = readRam t b := by
  unfold readRam
  rw [hram, hab]

theorem readRam_lt (s : State) (a : Nat) : readRam s a < 256 := by
  unfold readRam; omega

/-- Reading any other cell. -/
theorem readRam_writeRam_other (s : State) (addr val a : Nat)
    (h : a % 65536 ≠ addr % 65536) :
    readRam (writeRam s addr val) a = readRam s a := by
  unfold readRam
  rw [writeRam_ram]
  by_cases h1 : 0x800 ≤ addr % 65536 ∧ addr % 65536 < 0xe000 <;> simp [h1, h]

/-! ## C1 -/

/-- C1: for every memory image, 16-bit address `a` and byte `v`, after
`writeRam a v` a read of `a` gives `v` when `0x0800 ≤ a < 0xE000` and the
previous byte otherwise, and a read of any other address is unchanged. -/
theorem write_then_read (s : State) (a v : Nat) (ha : a < 65536) (hv : v < 256) :
    readRam (writeRam s a v) a = (if 0x0800 ≤ a ∧ a < 0xE000 then v else readRam s a) ∧
    ∀ a', a' < 65536 → a' ≠ a → readRam (writeRam s a v) a' = readRam s a' := by
  constructor
  · rw [readRam_writeRam_same, Nat.mod_eq_of_lt ha, Nat.mod_eq_of_lt hv]
  · intro a' ha' hne
    apply readRam_writeRam_other
    rw [Nat.mod_eq_of_lt ha, Nat.mod_eq_of_lt ha']
    exact hne

/-- C1 at a RAM address, a ROM address and a neighbouring cell. -/
theorem write_then_read_witness :
    (readRam (writeRam zeroState 0x1000 0x42) 0x1000 =
        (if 0x0800 ≤ 0x1000 ∧ 0x1000 < 0xE000 then 0x42 else readRam zeroState 0x1000) ∧
      ∀ a', a' < 65536 → a' ≠ 0x1000 →
        readRam (writeRam zeroState 0x1000 0x42) a' = readRam zeroState a') ∧
    (readRam (writeRam zeroState 0x0010 0x42) 0x0010 =
        (if 0x0800 ≤ 0x0010 ∧ 0x0010 < 0xE000 then 0x42 else readRam zeroState 0x0010) ∧
      ∀ a', a' < 65536 → a' ≠ 0x0010 →
        readRam (writeRam zeroState 0x0010 0x42) a' = readRam zeroState a') :=
  ⟨write_then_read zeroState 0x1000 0x42 (by decide) (by decide),
   write_then_read zeroState 0x0010 0x42 (by decide) (by decide)⟩

/-! ## Frame conditions of `writeRam`: only `ram` and `out` change -/

@[simp] theorem writeRam_AF (s : State) (a v : Nat) : (writeRam s a v).AF = s.AF := by
  unfold writeRam; dsimp only; split_ifs <;> rfl

@[simp] theorem writeRam_BC (s : State) (a v : Nat) : (writeRam s a v).BC = s.BC := by
  unfold writeRam; dsimp only; split_ifs <;> rfl

@[simp] theorem writeRam_DE (s : State) (a v : Nat) : (writeRam s a v).DE = s.DE := by
  unfold writeRam; dsimp only; split_ifs <;> rfl

@[simp] theorem writeRam_HL (s : State) (a v : Nat) : (writeRam s a v).HL = s.HL := by
  unfold writeRam; dsimp only; split_ifs <;> rfl

@[simp] theorem writeRam_ir (s : State) (a v : Nat) : (writeRam s a v).ir = s.ir := by
  unfold writeRam; dsimp only; split_ifs <;> rfl

@[simp] theorem writeRam_ix (s : State) (a v : Nat) : (writeRam s a v).ix = s.ix := by
  unfold writeRam; dsimp only; split_ifs <;> rfl

@[simp] theorem writeRam_iy (s : State) (a v : Nat) : (writeRam s a v).iy = s.iy := by
  unfold writeRam; dsimp only; split_ifs <;> rfl

@[simp] theorem writeRam_SP (s : State) (a v : Nat) : (writeRam s a v).SP = s.SP := by
  unfold writeRam; dsimp only; split_ifs <;> rfl

@[simp] theorem writeRam_PC (s : State) (a v : Nat) : (writeRam s a v).PC = s.PC := by
  unfold writeRam; dsimp only; split_ifs <;> rfl

@[simp] theorem writeRam_IFF (s : State) (a v : Nat) : (writeRam s a v).IFF = s.IFF := by
  unfold writeRam; dsimp only; split_ifs <;> rfl

@[simp] theorem writeRam_AFalt (s : State) (a v : Nat) : (writeRam s a v).AFalt = s.AFalt := by
  unfold writeRam; dsimp only; split_ifs <;> rfl

@[simp] theorem writeRam_BCalt (s : State) (a v : Nat) : (writeRam s a v).BCalt = s.BCalt := by
  unfold writeRam; dsimp only; split_ifs <;> rfl

@[simp] theorem writeRam_DEalt (s : State) (a v : Nat) : (writeRam s a v).DEalt = s.DEalt := by
  unfold writeRam; dsimp only; split_ifs <;> rfl

@[simp] theorem writeRam_HLalt (s : State) (a v : Nat) : (writeRam s a v).HLalt = s.HLalt := by
  unfold writeRam; dsimp only; split_ifs <;> rfl

@[simp] theorem writeRam_keyMatrix (s : State) (a v : Nat) : (writeRam s a v).keyMatrix = s.keyMatrix := by
  unfold writeRam; dsimp only; split_ifs <;> rfl

@[simp] theorem writeRam_keyRow (s : State) (a v : Nat) : (writeRam s a v).keyRow = s.keyRow := by
  unfold writeRam; dsimp only; split_ifs <;> rfl

@[simp] theorem writeRam_prevPort (s : State) (a v : Nat) : (writeRam s a v).prevPort = s.prevPort := by
  unfold writeRam; dsimp only; split_ifs <;> rfl

/-! ## Words and the stack -/

/-- A 16-bit word is the join of its low byte and its high byte. -/
theorem word_join (x : Nat) (hx : x < 65536) :
    (((x &&& 0xff) % 256) ||| (((x >>> 8) % 256) <<< 8)) % 65536 = x := by
  have h1 : x &&& 0xff = x % 256 := Nat.and_pow_two_sub_one_eq_mod x 8
  have h2 : x >>> 8 = x / 256 := Nat.shiftRight_eq_div_pow x 8
  rw [h1, h2, Nat.shiftLeft_eq, Nat.or_comm]
  have h3 : x / 256 % 256 = x / 256 := Nat.mod_eq_of_lt (by omega)
  have h4 : x % 256 % 256 = x % 256 := Nat.mod_eq_of_lt (by omega)
  rw [h3, h4]
  have h5 : x / 256 * 2 ^ 8 = 2 ^ 8 * (x / 256) := Nat.mul_comm _ _
  rw [h5, ← Nat.mul_add_lt_is_or (by omega : x % 256 < 2 ^ 8)]
  omega

theorem push_SP (s : State) (x : Nat) :
    (push s x).SP = (65535 + (65535 + s.SP) % 65536) % 65536 := by
  simp [push]

theorem pop_SP (s : State) : (pop s).2.SP = ((s.SP + 1) % 65536 + 1) % 65536 := by
  simp [pop]

theorem pop_val (s : State) :
    (pop s).1 = (readRam s s.SP ||| (readRam s ((s.SP + 1) % 65536) <<< 8)) % 65536 := rfl

/-- Memory after `push`: the two guarded stores, the later one on top. -/
theorem push_ram (s : State) (x : Nat) :
    (push s x).ram =
      (writeRam (writeRam s ((65535 + s.SP) % 65536) ((x % 65536) >>> 8))
        ((65535 + (65535 + s.SP) % 65536) % 65536) ((x % 65536) &&& 0xff)).ram := by
  unfold push
  dsimp only
  rw [writeRam_ram, writeRam_ram, writeRam_ram, writeRam_ram, writeRam_SP]

theorem readRam_congr (s t : State) (h : s.ram = t.ram) (a : Nat) :
    readRam s a = readRam t a := by
  unfold readRam; rw [h]

/-- The low byte of a pushed word, read back at the new `SP`. -/
theorem push_read_low (s : State) (x : Nat)
    (h2 : 0x0800 ≤ (65534 + s.SP) % 65536 ∧ (65534 + s.SP) % 65536 < 0xE000) :
    readRam (push s x) (push s x).SP = ((x % 65536) &&& 0xff) % 256 := by
  have e : (65535 + (65535 + s.SP) % 65536) % 65536 = (65534 + s.SP) % 65536 := by omega
  rw [readRam_congr _ _ (push_ram s x), push_SP, e, readRam_writeRam_same]
  have e2 : (65534 + s.SP) % 65536 % 65536 = (65534 + s.SP) % 65536 := by omega
  rw [e2, if_pos h2]

/-- The high byte of a pushed word, read back one above the new `SP`. -/
theorem push_read_high (s : State) (x : Nat)
    (h1 : 0x0800 ≤ (65535 + s.SP) % 65536 ∧ (65535 + s.SP) % 65536 < 0xE000) :
    readRam (push s x) (((push s x).SP + 1) % 65536) = ((x % 65536) >>> 8) % 256 := by
  have e : (65535 + (65535 + s.SP) % 65536) % 65536 = (65534 + s.SP) % 65536 := by omega
  have e3 : ((65534 + s.SP) % 65536 + 1) % 65536 = (65535 + s.SP) % 65536 := by omega
  rw [readRam_congr _ _ (push_ram s x), push_SP, e, e3,
    readRam_writeRam_other _ _ _ _ (by omega), readRam_writeRam_same]
  have e2 : (65535 + s.SP) % 65536 % 65536 = (65535 + s.SP) % 65536 := by omega
  rw [e2, if_pos h1]

/-! ## C5 -/

/-- The word of two adjacent bytes. -/
theorem word_of_bytes (lo hi : Nat) (hl : lo < 256) (hh : hi < 256) :
    (lo ||| (hi <<< 8)) % 65536 = lo + 256 * hi := by
  rw [Nat.or_comm, Nat.shiftLeft_eq, Nat.mul_comm,
    ← Nat.mul_add_lt_is_or (by omega : lo < 2 ^ 8)]
  omega

/-- The byte read back at the new `SP` after `push`: the low byte of the word
when that address is in writable RAM, the byte already there otherwise. -/
theorem push_read_low_any (s : State) (x : Nat) :
    readRam (push s x) (push s x).SP =
      if 0x0800 ≤ (65534 + s.SP) % 65536 ∧ (65534 + s.SP) % 65536 < 0xE000 then
        ((x % 65536) &&& 0xff) % 256
      else readRam s (65534 + s.SP) := by
  have e : (65535 + (65535 + s.SP) % 65536) % 65536 = (65534 + s.SP) % 65536 := by omega
  have e2 : (65534 + s.SP) % 65536 % 65536 = (65534 + s.SP) % 65536 := by omega
  rw [readRam_congr _ _ (push_ram s x), push_SP, e, readRam_writeRam_same, e2]
  split_ifs
  · rfl
  · rw [readRam_writeRam_other _ _ _ _ (by omega)]
    exact readRam_congr' _ _ _ _ rfl e2

/-- The byte read back one above the new `SP` after `push`: the high byte of
the word when that address is in writable RAM, the byte already there
otherwise. -/
theorem push_read_high_any (s : State) (x : Nat) :
    readRam (push s x) (((push s x).SP + 1) % 65536) =
      if 0x0800 ≤ (65535 + s.SP) % 65536 ∧ (65535 + s.SP) % 65536 < 0xE000 then
        ((x % 65536) >>> 8) % 256
      else readRam s (65535 + s.SP) := by
  have e : (65535 + (65535 + s.SP) % 65536) % 65536 = (65534 + s.SP) % 65536 := by omega
  have e3 : ((65534 + s.SP) % 65536 + 1) % 65536 = (65535 + s.SP) % 65536 := by omega
  have e2 : (65535 + s.SP) % 65536 % 65536 = (65535 + s.SP) % 65536 := by omega
  rw [readRam_congr _ _ (push_ram s x), push_SP, e, e3,
    readRam_writeRam_other _ _ _ _ (by omega), readRam_writeRam_same, e2]
  split_ifs
  · rfl
  · exact readRam_congr' _ _ _ _ rfl e2

/-- C5 (as amended): for every state and 16-bit `x`, `push(x)` followed by
`pop()` leaves `SP` at its value before the push, and returns `x` whenever
the two stack bytes, at `SP-1` and `SP-2` modulo 65536, lie in writable RAM
`[0x0800, 0xE000)`.  In general the low byte of the word popped is the low
byte of `x` when `SP-2` lies in writable RAM and the byte already in memory
at `SP-2` otherwise, and the high byte is the high byte of `x` when `SP-1`
lies in writable RAM and the byte already in memory at `SP-1` otherwise. -/
theorem push_pop (s : State) (x : Nat) (hSP : s.SP < 65536) (hx : x < 65536) :
    (pop (push s x)).2.SP = s.SP ∧
    ((0x0800 ≤ (65535 + s.SP) % 65536 ∧ (65535 + s.SP) % 65536 < 0xE000) →
     (0x0800 ≤ (65534 + s.SP) % 65536 ∧ (65534 + s.SP) % 65536 < 0xE000) →
     (pop (push s x)).1 = x) ∧
    (pop (push s x)).1 =
      (if 0x0800 ≤ (65534 + s.SP) % 65536 ∧ (65534 + s.SP) % 65536 < 0xE000 then x % 256
        else readRam s (65534 + s.SP)) +
      256 * (if 0x0800 ≤ (65535 + s.SP) % 65536 ∧ (65535 + s.SP) % 65536 < 0xE000 then x / 256
        else readRam s (65535 + s.SP)) := by
  refine ⟨?_, ?_, ?_⟩
  · rw [pop_SP, push_SP]; omega
  · intro h1 h2
    rw [pop_val, push_read_low s x h2, push_read_high s x h1,
      Nat.mod_eq_of_lt hx]
    exact word_join x hx
  · have hl : ((x % 65536) &&& 0xff) % 256 = x % 256 := by
      have e : (0xff : Nat) = 2 ^ 8 - 1 := rfl
      rw [e, Nat.and_pow_two_sub_one_eq_mod]
      omega
    have hh : ((x % 65536) >>> 8) % 256 = x / 256 := by
      rw [Nat.shiftRight_eq_div_pow]
      omega
    rw [pop_val, push_read_low_any, push_read_high_any, hl, hh]
    apply word_of_bytes
    · split_ifs
      · omega
      · exact readRam_lt _ _
    · split_ifs
      · omega
      · exact readRam_lt _ _

/-- C5 on a stack in work RAM, and on a stack across the ROM boundary
(`SP = 0x0801`: the high byte is stored at `0x0800`, the low byte at `0x07FF`
is dropped). -/
theorem push_pop_witness :
    (pop (push { zeroState with SP := 0x4000 } 0x1234)).2.SP = 0x4000 ∧
    (pop (push { zeroState with SP := 0x4000 } 0x1234)).1 = 0x1234 ∧
    (pop (push { zeroState with SP := 0x0801 } 0x1234)).1 =
      (if 0x0800 ≤ (65534 + 0x0801) % 65536 ∧ (65534 + 0x0801) % 65536 < 0xE000 then
          0x1234 % 256
        else readRam { zeroState with SP := 0x0801 } (65534 + 0x0801)) +
      256 * (if 0x0800 ≤ (65535 + 0x0801) % 65536 ∧ (65535 + 0x0801) % 65536 < 0xE000 then
          0x1234 / 256
        else readRam { zeroState with SP := 0x0801 } (65535 + 0x0801)) ∧
    (pop (push { zeroState with SP := 0x0801 } 0x1234)).1 = 0x1200 :=
  ⟨(push_pop { zeroState with SP := 0x4000 } 0x1234 (by decide) (by decide)).1,
   (push_pop { zeroState with SP := 0x4000 } 0x1234 (by decide) (by decide)).2.1
     (by decide) (by decide),
   (push_pop { zeroState with SP := 0x0801 } 0x1234 (by decide) (by decide)).2.2,
   by decide⟩

/-- C5 as stated fails when the stack lies in ROM: from the start-up state
(`SP = 0`) the two bytes go to `0xFFFF` and `0xFFFE`, the writes are dropped,
and `pop` returns the old memory contents. -/
theorem push_pop_rom_counterexample :
    (pop (push zeroState 0x1234)).1 = 0 ∧ (pop (push zeroState 0x1234)).1 ≠ 0x1234 := by
  decide

/-! ## Fetch -/

/-- The opcode fetched by `switch(++PC, readRam(PC-1))` is the byte at the
old `PC`. -/
theorem fetch_eq (s : State) :
    readRam { s with PC := (s.PC + 1) % 65536 } (65535 + (s.PC + 1) % 65536) =
      readRam s s.PC := by
  exact readRam_congr' _ _ _ _ rfl (by omega)

/-- A step on an opcode other than `0xED` is the main `switch` on the state
with `PC` advanced. -/
theorem z80step_main (fuel : Nat) (s : State) (h : readRam s s.PC ≠ 0xED) :
    z80step fuel s =
      some (z80main (readRam s s.PC) { s with PC := (s.PC + 1) % 65536 }) := by
  unfold z80step
  dsimp only
  rw [fetch_eq, if_neg h]

/-- A step on the opcode `0xED`. -/
theorem z80step_ed (fuel : Nat) (s : State) (h : readRam s s.PC = 0xED) :
    z80step fuel s = ed_prefix fuel { s with PC := (s.PC + 1) % 65536 } := by
  unfold z80step
  dsimp only
  rw [fetch_eq, if_pos h]

/-! ## C9 and C10: the shadow-register exchanges -/

/-- `EX AF,AF'` as the code executes it: only `PC` changes. -/
theorem z80main_08 (s : State) : z80main 0x08 s = s := rfl

/-- `EXX` as the code executes it: only `PC` changes. -/
theorem z80main_D9 (s : State) : z80main 0xD9 s = s := rfl

/-- C9 (evaluation at the failing input): with `AF = 0x1234`, `AF' = 0x5678`
a step of `EX AF,AF'` leaves `AF` and `AF'` as they were, and with
`BC, DE, HL = 0x1111, 0x3333, 0x5555` and shadows `0x2222, 0x4444, 0x6666` a
step of `EXX` leaves all six as they were: no bank is exchanged. -/
theorem exchange_does_not_swap :
    (z80step 0 exAfState).map (fun t => (t.AF, t.AFalt, t.PC)) =
      some (0x1234, 0x5678, 0x1001) ∧
    (z80step 0 exxState).map (fun t => (t.BC, t.DE, t.HL, t.BCalt, t.DEalt, t.HLalt, t.PC)) =
      some (0x1111, 0x3333, 0x5555, 0x2222, 0x4444, 0x6666, 0x1001) := by
  decide

/-- C10: two `EX AF,AF'` steps in succession leave `AF` and `AF'` unchanged,
and two `EXX` steps in succession leave `BC`, `DE`, `HL` and their shadows
unchanged. -/
theorem exchange_twice (fuel : Nat) (s : State) :
    (readRam s s.PC = 0x08 → readRam s (s.PC + 1) = 0x08 →
      ∃ s1 s2, z80step fuel s = some s1 ∧ z80step fuel s1 = some s2 ∧
        s2.AF = s.AF ∧ s2.AFalt = s.AFalt) ∧
    (readRam s s.PC = 0xD9 → readRam s (s.PC + 1) = 0xD9 →
      ∃ s1 s2, z80step fuel s = some s1 ∧ z80step fuel s1 = some s2 ∧
        s2.BC = s.BC ∧ s2.DE = s.DE ∧ s2.HL = s.HL ∧
        s2.BCalt = s.BCalt ∧ s2.DEalt = s.DEalt ∧ s2.HLalt = s.HLalt) := by
  constructor
  · intro h1 h2
    have e1 : z80step fuel s = some { s with PC := (s.PC + 1) % 65536 } := by
      rw [z80step_main fuel s (by rw [h1]; decide), h1, z80main_08]
    have h3 : readRam { s with PC := (s.PC + 1) % 65536 } ((s.PC + 1) % 65536) = 0x08 := by
      rw [← h2]; exact readRam_congr' _ _ _ _ rfl (by omega)
    refine ⟨{ s with PC := (s.PC + 1) % 65536 },
      { s with PC := ((s.PC + 1) % 65536 + 1) % 65536 }, e1, ?_, rfl, rfl⟩
    rw [z80step_main fuel _ (by rw [h3]; decide), h3, z80main_08]
  · intro h1 h2
    have e1 : z80step fuel s = some { s with PC := (s.PC + 1) % 65536 } := by
      rw [z80step_main fuel s (by rw [h1]; decide), h1, z80main_D9]
    have h3 : readRam { s with PC := (s.PC + 1) % 65536 } ((s.PC + 1) % 65536) = 0xD9 := by
      rw [← h2]; exact readRam_congr' _ _ _ _ rfl (by omega)
    refine ⟨{ s with PC := (s.PC + 1) % 65536 },
      { s with PC := ((s.PC + 1) % 65536 + 1) % 65536 }, e1, ?_, rfl, rfl, rfl, rfl, rfl, rfl⟩
    rw [z80step_main fuel _ (by rw [h3]; decide), h3, z80main_D9]

/-- C10 at the states `exAfState` and `exxState`. -/
theorem exchange_twice_witness :
    (∃ s1 s2, z80step 0 exAfState = some s1 ∧ z80step 0 s1 = some s2 ∧
      s2.AF = exAfState.AF ∧ s2.AFalt = exAfState.AFalt) ∧
    (∃ s1 s2, z80step 0 exxState = some s1 ∧ z80step 0 s1 = some s2 ∧
      s2.BC = exxState.BC ∧ s2.DE = exxState.DE ∧ s2.HL = exxState.HL ∧
      s2.BCalt = exxState.BCalt ∧ s2.DEalt = exxState.DEalt ∧ s2.HLalt = exxState.HLalt) :=
  ⟨(exchange_twice 0 exAfState).1 (by decide) (by decide),
   (exchange_twice 0 exxState).2 (by decide) (by decide)⟩

/-! ## Exhaustive checks over bytes

A property of all pairs of bytes is checked by evaluating a Boolean function
on the 65536 pairs.  The function under test is restated with the primitive
operations of `Nat`, which is the form that evaluates quickly, and proved
equal to the definition it restates. -/

theorem allBelow_spec {n : Nat} {p : Nat → Bool} (h : allBelow n p = true) :
    ∀ i, i < n → p i = true := by
  induction n with
  | zero => intro i hi; omega
  | succ n ih =>
    intro i hi
    simp only [allBelow, Bool.and_eq_true] at h
    rcases Nat.lt_succ_iff_lt_or_eq.mp hi with h1 | h1
    · exact ih h.2 i h1
    · subst h1; exact h.1

theorem allBelow_intro {n : Nat} {p : Nat → Bool} (h : ∀ i, i < n → p i = true) :
    allBelow n p = true := by
  induction n with
  | zero => rfl
  | succ n ih =>
    simp only [allBelow, Bool.and_eq_true]
    exact ⟨h n (by omega), ih (fun i hi => h i (by omega))⟩

/-- A table checked block by block: `k` blocks of `w` rows. -/
theorem allBelow_blocks (w k : Nat) (p : Nat → Bool)
    (h : ∀ q, q < k → allBelow w (fun i => p (w * q + i)) = true) :
    allBelow (w * k) p = true := by
  apply allBelow_intro
  intro i hi
  have hw : 0 < w := by
    rcases Nat.eq_zero_or_pos w with h0 | h0
    · subst h0; omega
    · exact h0
  have hq : i / w < k := (Nat.div_lt_iff_lt_mul hw).mpr (by rw [Nat.mul_comm]; exact hi)
  have := allBelow_spec (h (i / w) hq) (i % w) (Nat.mod_lt i hw)
  rw [Nat.div_add_mod] at this
  exact this

theorem ite_eq_cond (x k : Nat) :
    (if x = k then 1 else 0 : Nat) = cond (Nat.beq x k) 1 0 := by
  by_cases h : x = k
  · subst h; simp
  · have : Nat.beq x k = false := by
      cases hb : Nat.beq x k
      · rfl
      · exact absurd (Nat.eq_of_beq_eq_true hb) h
    simp [h, this]

/-! ### Flag bits -/

theorem and_two_pow (x k : Nat) : x &&& 2 ^ k = 2 ^ k * (x / 2 ^ k % 2) := by
  apply Nat.eq_of_testBit_eq
  intro i
  rw [Nat.testBit_and, Nat.testBit_two_pow]
  by_cases hik : k = i
  · subst hik
    rw [Nat.testBit_to_div_mod, Nat.testBit_to_div_mod]
    have h2 : x / 2 ^ k % 2 = 0 ∨ x / 2 ^ k % 2 = 1 := by omega
    rcases h2 with h2 | h2
    · simp [h2]
    · simp [h2]
  · have h2 : x / 2 ^ k % 2 = 0 ∨ x / 2 ^ k % 2 = 1 := by omega
    rcases h2 with h2 | h2
    · simp [h2, hik]
    · simp [h2, hik, Nat.testBit_two_pow]

/-- `testFlag` on a one-bit mask reads that bit. -/
theorem testFlag_two_pow (AF k : Nat) :
    (testFlag AF (2 ^ k) = true ↔ AF / 2 ^ k % 2 = 1) := by
  unfold testFlag
  rw [and_two_pow, decide_eq_true_iff]
  have h2 : AF / 2 ^ k % 2 = 0 ∨ AF / 2 ^ k % 2 = 1 := by omega
  have hp : 0 < 2 ^ k := Nat.two_pow_pos k
  rcases h2 with h2 | h2
  · simp [h2]
  · simp [h2]

theorem testFlag_Carry (AF : Nat) : (testFlag AF CarryFlag = true ↔ AF % 2 = 1) := by
  have := testFlag_two_pow AF 0; simpa [CarryFlag] using this

theorem testFlag_Sub (AF : Nat) : (testFlag AF SubFlag = true ↔ AF / 2 % 2 = 1) := by
  have := testFlag_two_pow AF 1; simpa [SubFlag] using this

theorem testFlag_Parity (AF : Nat) : (testFlag AF ParityFlag = true ↔ AF / 4 % 2 = 1) := by
  have := testFlag_two_pow AF 2; simpa [ParityFlag] using this

theorem testFlag_Half (AF : Nat) : (testFlag AF HalfFlag = true ↔ AF / 16 % 2 = 1) := by
  have := testFlag_two_pow AF 4; simpa [HalfFlag] using this

theorem testFlag_Zero (AF : Nat) : (testFlag AF ZeroFlag = true ↔ AF / 64 % 2 = 1) := by
  have := testFlag_two_pow AF 6; simpa [ZeroFlag] using this

theorem testFlag_Sign (AF : Nat) : (testFlag AF SignFlag = true ↔ AF / 128 % 2 = 1) := by
  have := testFlag_two_pow AF 7; simpa [SignFlag] using this

theorem testBit_iff (x k : Nat) : (x.testBit k = true ↔ x / 2 ^ k % 2 = 1) := by
  rw [Nat.testBit_to_div_mod, decide_eq_true_iff]

theorem highReg_eq (x : Nat) : highReg x = x / 256 % 256 := by
  unfold highReg
  rw [Nat.shiftRight_eq_div_pow]
  exact Nat.and_pow_two_sub_one_eq_mod _ 8

theorem lowReg_eq (x : Nat) : lowReg x = x % 256 := by
  unfold lowReg
  exact Nat.and_pow_two_sub_one_eq_mod _ 8

theorem highReg_lt (x : Nat) : highReg x < 256 := by
  rw [highReg_eq]; omega

theorem lowReg_lt (x : Nat) : lowReg x < 256 := by
  rw [lowReg_eq]; omega

/-! ## 8-bit addition and subtraction: the flag byte in closed form -/

theorem addAF_eq_raw (AF temp cin : Nat) : addAF AF temp cin = addRaw (highReg AF) temp cin := by
  unfold addAF addRaw
  simp only [ite_eq_cond]
  rfl

theorem subAF_eq_raw (AF temp cin : Nat) : subAF AF temp cin = subRaw (highReg AF) temp cin := by
  unfold subAF subRaw sub32
  simp only [ite_eq_cond]
  rfl

theorem addSpec_eq_raw (a b c : Nat) : addSpec a b c = addSpecRaw a b c := rfl

theorem subSpec_eq_raw (a b c : Nat) : subSpec a b c = subSpecRaw a b c := rfl

/-- Row 0 of the table of `ADD`: the high digit of the accumulator is 0. -/
theorem addRow0 :
    allBelow 16 (fun i => allBelow 256 (fun b =>
      Nat.beq (addRaw (16 * 0 + i) b 0) (addSpecRaw (16 * 0 + i) b 0))) = true := by
  decide!

/-- Row 1 of the table of `ADD`: the high digit of the accumulator is 1. -/
theorem addRow1 :
    allBelow 16 (fun i => allBelow 256 (fun b =>
      Nat.beq (addRaw (16 * 1 + i) b 0) (addSpecRaw (16 * 1 + i) b 0))) = true := by
  decide!

/-- Row 2 of the table of `ADD`: the high digit of the accumulator is 2. -/
theorem addRow2 :
    allBelow 16 (fun i => allBelow 256 (fun b =>
      Nat.beq (addRaw (16 * 2 + i) b 0) (addSpecRaw (16 * 2 + i) b 0))) = true := by
  decide!

/-- Row 3 of the table of `ADD`: the high digit of the accumulator is 3. -/
theorem addRow3 :
    allBelow 16 (fun i => allBelow 256 (fun b =>
      Nat.beq (addRaw (16 * 3 + i) b 0) (addSpecRaw (16 * 3 + i) b 0))) = true := by
  decide!

/-- Row 4 of the table of `ADD`: the high digit of the accumulator is 4. -/
theorem addRow4 :
    allBelow 16 (fun i => allBelow 256 (fun b =>
      Nat.beq (addRaw (16 * 4 + i) b 0) (addSpecRaw (16 * 4 + i) b 0))) = true := by
  decide!

/-- Row 5 of the table of `ADD`: the high digit of the accumulator is 5. -/
theorem addRow5 :
    allBelow 16 (fun i => allBelow 256 (fun b =>
      Nat.beq (addRaw (16 * 5 + i) b 0) (addSpecRaw (16 * 5 + i) b 0))) = true := by
  decide!

/-- Row 6 of the table of `ADD`: the high digit of the accumulator is 6. -/
theorem addRow6 :
    allBelow 16 (fun i => allBelow 256 (fun b =>
      Nat.beq (addRaw (16 * 6 + i) b 0) (addSpecRaw (16 * 6 + i) b 0))) = true := by
  decide!

/-- Row 7 of the table of `ADD`: the high digit of the accumulator is 7. -/
theorem addRow7 :
    allBelow 16 (fun i => allBelow 256 (fun b =>
      Nat.beq (addRaw (16 * 7 + i) b 0) (addSpecRaw (16 * 7 + i) b 0))) = true := by
  decide!

/-- Row 8 of the table of `ADD`: the high digit of the accumulator is 8. -/
theorem addRow8 :
    allBelow 16 (fun i => allBelow 256 (fun b =>
      Nat.beq (addRaw (16 * 8 + i) b 0) (addSpecRaw (16 * 8 + i) b 0))) = true := by
  decide!

/-- Row 9 of the table of `ADD`: the high digit of the accumulator is 9. -/
theorem addRow9 :
    allBelow 16 (fun i => allBelow 256 (fun b =>
      Nat.beq (addRaw (16 * 9 + i) b 0) (addSpecRaw (16 * 9 + i) b 0))) = true := by
  decide!

/-- Row 10 of the table of `ADD`: the high digit of the accumulator is 10. -/
theorem addRow10 :
    allBelow 16 (fun i => allBelow 256 (fun b =>
      Nat.beq (addRaw (16 * 10 + i) b 0) (addSpecRaw (16 * 10 + i) b 0))) = true := by
  decide!

/-- Row 11 of the table of `ADD`: the high digit of the accumulator is 11. -/
theorem addRow11 :
    allBelow 16 (fun i => allBelow 256 (fun b =>
      Nat.beq (addRaw (16 * 11 + i) b 0) (addSpecRaw (16 * 11 + i) b 0))) = true := by
  decide!

/-- Row 12 of the table of `ADD`: the high digit of the accumulator is 12. -/
theorem addRow12 :
    allBelow 16 (fun i => allBelow 256 (fun b =>
      Nat.beq (addRaw (16 * 12 + i) b 0) (addSpecRaw (16 * 12 + i) b 0))) = true := by
  decide!

/-- Row 13 of the table of `ADD`: the high digit of the accumulator is 13. -/
theorem addRow13 :
    allBelow 16 (fun i => allBelow 256 (fun b =>
      Nat.beq (addRaw (16 * 13 + i) b 0) (addSpecRaw (16 * 13 + i) b 0))) = true := by
  decide!

/-- Row 14 of the table of `ADD`: the high digit of the accumulator is 14. -/
theorem addRow14 :
    allBelow 16 (fun i => allBelow 256 (fun b =>
      Nat.beq (addRaw (16 * 14 + i) b 0) (addSpecRaw (16 * 14 + i) b 0))) = true := by
  decide!

/-- Row 15 of the table of `ADD`: the high digit of the accumulator is 15. -/
theorem addRow15 :
    allBelow 16 (fun i => allBelow 256 (fun b =>
      Nat.beq (addRaw (16 * 15 + i) b 0) (addSpecRaw (16 * 15 + i) b 0))) = true := by
  decide!

/-- All 65536 pairs: the flag expression of `ADD` equals its closed form. -/
theorem addTable :
    allBelow 256 (fun a => allBelow 256 (fun b => Nat.beq (addRaw a b 0) (addSpecRaw a b 0))) =
      true := by
  apply allBelow_blocks 16 16
  intro q hq
  interval_cases q
  · exact addRow0
  · exact addRow1
  · exact addRow2
  · exact addRow3
  · exact addRow4
  · exact addRow5
  · exact addRow6
  · exact addRow7
  · exact addRow8
  · exact addRow9
  · exact addRow10
  · exact addRow11
  · exact addRow12
  · exact addRow13
  · exact addRow14
  · exact addRow15

/-- Row 0 of the table of `SUB`: the high digit of the accumulator is 0. -/
theorem subRow0 :
    allBelow 16 (fun i => allBelow 256 (fun b =>
      Nat.beq (subRaw (16 * 0 + i) b 0) (subSpecRaw (16 * 0 + i) b 0))) = true := by
  decide!

/-- Row 1 of the table of `SUB`: the high digit of the accumulator is 1. -/
theorem subRow1 :
    allBelow 16 (fun i => allBelow 256 (fun b =>
      Nat.beq (subRaw (16 * 1 + i) b 0) (subSpecRaw (16 * 1 + i) b 0))) = true := by
  decide!

/-- Row 2 of the table of `SUB`: the high digit of the accumulator is 2. -/
theorem subRow2 :
    allBelow 16 (fun i => allBelow 256 (fun b =>
      Nat.beq (subRaw (16 * 2 + i) b 0) (subSpecRaw (16 * 2 + i) b 0))) = true := by
  decide!

/-- Row 3 of the table of `SUB`: the high digit of the accumulator is 3. -/
theorem subRow3 :
    allBelow 16 (fun i => allBelow 256 (fun b =>
      Nat.beq (subRaw (16 * 3 + i) b 0) (subSpecRaw (16 * 3 + i) b 0))) = true := by
  decide!

/-- Row 4 of the table of `SUB`: the high digit of the accumulator is 4. -/
theorem subRow4 :
    allBelow 16 (fun i => allBelow 256 (fun b =>
      Nat.beq (subRaw (16 * 4 + i) b 0) (subSpecRaw (16 * 4 + i) b 0))) = true := by
  decide!

/-- Row 5 of the table of `SUB`: the high digit of the accumulator is 5. -/
theorem subRow5 :
    allBelow 16 (fun i => allBelow 256 (fun b =>
      Nat.beq (subRaw (16 * 5 + i) b 0) (subSpecRaw (16 * 5 + i) b 0))) = true := by
  decide!

/-- Row 6 of the table of `SUB`: the high digit of the accumulator is 6. -/
theorem subRow6 :
    allBelow 16 (fun i => allBelow 256 (fun b =>
      Nat.beq (subRaw (16 * 6 + i) b 0) (subSpecRaw (16 * 6 + i) b 0))) = true := by
  decide!

/-- Row 7 of the table of `SUB`: the high digit of the accumulator is 7. -/
theorem subRow7 :
    allBelow 16 (fun i => allBelow 256 (fun b =>
      Nat.beq (subRaw (16 * 7 + i) b 0) (subSpecRaw (16 * 7 + i) b 0))) = true := by
  decide!

/-- Row 8 of the table of `SUB`: the high digit of the accumulator is 8. -/
theorem subRow8 :
    allBelow 16 (fun i => allBelow 256 (fun b =>
      Nat.beq (subRaw (16 * 8 + i) b 0) (subSpecRaw (16 * 8 + i) b 0))) = true := by
  decide!

/-- Row 9 of the table of `SUB`: the high digit of the accumulator is 9. -/
theorem subRow9 :
    allBelow 16 (fun i => allBelow 256 (fun b =>
      Nat.beq (subRaw (16 * 9 + i) b 0) (subSpecRaw (16 * 9 + i) b 0))) = true := by
  decide!

/-- Row 10 of the table of `SUB`: the high digit of the accumulator is 10. -/
theorem subRow10 :
    allBelow 16 (fun i => allBelow 256 (fun b =>
      Nat.beq (subRaw (16 * 10 + i) b 0) (subSpecRaw (16 * 10 + i) b 0))) = true := by
  decide!

/-- Row 11 of the table of `SUB`: the high digit of the accumulator is 11. -/
theorem subRow11 :
    allBelow 16 (fun i => allBelow 256 (fun b =>
      Nat.beq (subRaw (16 * 11 + i) b 0) (subSpecRaw (16 * 11 + i) b 0))) = true := by
  decide!

/-- Row 12 of the table of `SUB`: the high digit of the accumulator is 12. -/
theorem subRow12 :
    allBelow 16 (fun i => allBelow 256 (fun b =>
      Nat.beq (subRaw (16 * 12 + i) b 0) (subSpecRaw (16 * 12 + i) b 0))) = true := by
  decide!

/-- Row 13 of the table of `SUB`: the high digit of the accumulator is 13. -/
theorem subRow13 :
    allBelow 16 (fun i => allBelow 256 (fun b =>
      Nat.beq (subRaw (16 * 13 + i) b 0) (subSpecRaw (16 * 13 + i) b 0))) = true := by
  decide!

/-- Row 14 of the table of `SUB`: the high digit of the accumulator is 14. -/
theorem subRow14 :
    allBelow 16 (fun i => allBelow 256 (fun b =>
      Nat.beq (subRaw (16 * 14 + i) b 0) (subSpecRaw (16 * 14 + i) b 0))) = true := by
  decide!

/-- Row 15 of the table of `SUB`: the high digit of the accumulator is 15. -/
theorem subRow15 :
    allBelow 16 (fun i => allBelow 256 (fun b =>
      Nat.beq (subRaw (16 * 15 + i) b 0) (subSpecRaw (16 * 15 + i) b 0))) = true := by
  decide!

/-- All 65536 pairs: the flag expression of `SUB` equals its closed form. -/
theorem subTable :
    allBelow 256 (fun a => allBelow 256 (fun b => Nat.beq (subRaw a b 0) (subSpecRaw a b 0))) =
      true := by
  apply allBelow_blocks 16 16
  intro q hq
  interval_cases q
  · exact subRow0
  · exact subRow1
  · exact subRow2
  · exact subRow3
  · exact subRow4
  · exact subRow5
  · exact subRow6
  · exact subRow7
  · exact subRow8
  · exact subRow9
  · exact subRow10
  · exact subRow11
  · exact subRow12
  · exact subRow13
  · exact subRow14
  · exact subRow15

theorem addAF_eq_spec (AF b : Nat) (hb : b < 256) :
    addAF AF b 0 = addSpec (highReg AF) b 0 := by
  rw [addAF_eq_raw, addSpec_eq_raw]
  exact Nat.eq_of_beq_eq_true
    (allBelow_spec (allBelow_spec addTable (highReg AF) (highReg_lt AF)) b hb)

theorem subAF_eq_spec (AF b : Nat) (hb : b < 256) :
    subAF AF b 0 = subSpec (highReg AF) b 0 := by
  rw [subAF_eq_raw, subSpec_eq_raw]
  exact Nat.eq_of_beq_eq_true
    (allBelow_spec (allBelow_spec subTable (highReg AF) (highReg_lt AF)) b hb)

/-- The digits of a flag word assembled from a result byte and eight flag
bits. -/
theorem flagWord_digits (r b7 b6 b5 b4 b3 b2 b1 b0 : Nat) (hr : r < 256)
    (h7 : b7 ≤ 1) (h6 : b6 ≤ 1) (h5 : b5 ≤ 1) (h4 : b4 ≤ 1) (h3 : b3 ≤ 1) (h2 : b2 ≤ 1)
    (h1 : b1 ≤ 1) (h0 : b0 ≤ 1) :
    (256 * r + 128 * b7 + 64 * b6 + 32 * b5 + 16 * b4 + 8 * b3 + 4 * b2 + 2 * b1 + b0) / 256 % 256
      = r ∧
    (256 * r + 128 * b7 + 64 * b6 + 32 * b5 + 16 * b4 + 8 * b3 + 4 * b2 + 2 * b1 + b0) / 128 % 2
      = b7 ∧
    (256 * r + 128 * b7 + 64 * b6 + 32 * b5 + 16 * b4 + 8 * b3 + 4 * b2 + 2 * b1 + b0) / 64 % 2
      = b6 ∧
    (256 * r + 128 * b7 + 64 * b6 + 32 * b5 + 16 * b4 + 8 * b3 + 4 * b2 + 2 * b1 + b0) / 32 % 2
      = b5 ∧
    (256 * r + 128 * b7 + 64 * b6 + 32 * b5 + 16 * b4 + 8 * b3 + 4 * b2 + 2 * b1 + b0) / 16 % 2
      = b4 ∧
    (256 * r + 128 * b7 + 64 * b6 + 32 * b5 + 16 * b4 + 8 * b3 + 4 * b2 + 2 * b1 + b0) / 8 % 2
      = b3 ∧
    (256 * r + 128 * b7 + 64 * b6 + 32 * b5 + 16 * b4 + 8 * b3 + 4 * b2 + 2 * b1 + b0) / 4 % 2
      = b2 ∧
    (256 * r + 128 * b7 + 64 * b6 + 32 * b5 + 16 * b4 + 8 * b3 + 4 * b2 + 2 * b1 + b0) / 2 % 2
      = b1 ∧
    (256 * r + 128 * b7 + 64 * b6 + 32 * b5 + 16 * b4 + 8 * b3 + 4 * b2 + 2 * b1 + b0) % 2
      = b0 := by
  refine ⟨?_, ?_, ?_, ?_, ?_, ?_, ?_, ?_, ?_⟩ <;> omega

/-- The digits of `addSpec a b 0`. -/
theorem addSpec_digits (a b : Nat) (ha : a < 256) (hb : b < 256) :
    addSpec a b 0 / 256 % 256 = (a + b + 0) % 256 ∧
    addSpec a b 0 / 128 % 2 = (a + b + 0) % 256 / 128 ∧
    addSpec a b 0 / 64 % 2 = 1 - (255 + (a + b + 0) % 256) / 256 ∧
    addSpec a b 0 / 32 % 2 = (a + b + 0) % 256 / 32 % 2 ∧
    addSpec a b 0 / 16 % 2 = (a % 16 + b % 16 + 0) / 16 ∧
    addSpec a b 0 / 8 % 2 = (a + b + 0) % 256 / 8 % 2 ∧
    addSpec a b 0 / 4 % 2 = ((a % 128 + b % 128 + 0) / 128 + (a + b + 0) / 256) % 2 ∧
    addSpec a b 0 / 2 % 2 = 0 ∧
    addSpec a b 0 % 2 = (a + b + 0) / 256 :=
  flagWord_digits ((a + b + 0) % 256) _ _ _ _ _ _ 0 _ (by omega) (by omega) (by omega)
    (by omega) (by omega) (by omega) (by omega) (by omega) (by omega)

/-- The digits of `subSpec a b 0`. -/
theorem subSpec_digits (a b : Nat) (ha : a < 256) (hb : b < 256) :
    subSpec a b 0 / 256 % 256 = (512 + a - (b + 0)) % 256 ∧
    subSpec a b 0 / 128 % 2 = (512 + a - (b + 0)) % 256 / 128 ∧
    subSpec a b 0 / 64 % 2 = 1 - (255 + (512 + a - (b + 0)) % 256) / 256 ∧
    subSpec a b 0 / 32 % 2 = (512 + a - (b + 0)) % 256 / 32 % 2 ∧
    subSpec a b 0 / 16 % 2 = (15 + (b % 16 + 0) - a % 16) / 16 ∧
    subSpec a b 0 / 8 % 2 = (512 + a - (b + 0)) % 256 / 8 % 2 ∧
    subSpec a b 0 / 4 % 2 =
      ((127 + (b % 128 + 0) - a % 128) / 128 + (255 + (b + 0) - a) / 256) % 2 ∧
    subSpec a b 0 / 2 % 2 = 1 ∧
    subSpec a b 0 % 2 = (255 + (b + 0) - a) / 256 :=
  flagWord_digits ((512 + a - (b + 0)) % 256) _ _ _ _ _ _ 1 _ (by omega) (by omega) (by omega)
    (by omega) (by omega) (by omega) (by omega) (by omega) (by omega)

/-! ## C3 and C4: `ADD A,B` and `SUB n` -/

theorem z80main_80 (s : State) :
    z80main 0x80 s = { s with AF := addAF s.AF (highReg s.BC) 0 } := rfl

theorem z80main_D6 (s : State) :
    z80main 0xD6 s =
      { s with AF := subAF s.AF (readRam s s.PC) 0, PC := (s.PC + 1) % 65536 } := rfl

/-- The flag byte of an 8-bit addition, read off the closed form. -/
theorem addSpec_flags (a b : Nat) (ha : a < 256) (hb : b < 256) :
    highReg (addSpec a b 0) = (a + b) % 256 ∧
    (testFlag (addSpec a b 0) ZeroFlag = true ↔ (a + b) % 256 = 0) ∧
    (testFlag (addSpec a b 0) SignFlag = ((a + b) % 256).testBit 7) ∧
    (testFlag (addSpec a b 0) CarryFlag = true ↔ 256 ≤ a + b) ∧
    (testFlag (addSpec a b 0) HalfFlag = true ↔ 16 ≤ a % 16 + b % 16) ∧
    (testFlag (addSpec a b 0) ParityFlag = true ↔
      (signed8 a + signed8 b < -128 ∨ 127 < signed8 a + signed8 b)) ∧
    testFlag (addSpec a b 0) SubFlag = false ∧
    (addSpec a b 0).testBit 5 = ((a + b) % 256).testBit 5 ∧
    (addSpec a b 0).testBit 3 = ((a + b) % 256).testBit 3 := by
  obtain ⟨d8, d7, d6, d5, d4, d3, d2, d1, d0⟩ := addSpec_digits a b ha hb
  refine ⟨?_, ?_, ?_, ?_, ?_, ?_, ?_, ?_, ?_⟩
  · rw [highReg_eq, d8]; clear d8 d7 d6 d5 d4 d3 d2 d1 d0; omega
  · rw [testFlag_Zero, d6]; clear d8 d7 d6 d5 d4 d3 d2 d1 d0; omega
  · rw [Bool.eq_iff_iff, testFlag_Sign, testBit_iff, d7]
    clear d8 d7 d6 d5 d4 d3 d2 d1 d0; omega
  · rw [testFlag_Carry, d0]; clear d8 d7 d6 d5 d4 d3 d2 d1 d0; omega
  · rw [testFlag_Half, d4]; clear d8 d7 d6 d5 d4 d3 d2 d1 d0; omega
  · rw [testFlag_Parity, d2]; clear d8 d7 d6 d5 d4 d3 d2 d1 d0
    unfold signed8
    rcases Nat.lt_or_ge (a % 128 + b % 128) 128 with h1 | h1 <;>
      rcases Nat.lt_or_ge (a + b) 256 with h2 | h2 <;> split_ifs <;> omega
  · rw [← Bool.not_eq_true, testFlag_Sub, d1]; decide
  · rw [Bool.eq_iff_iff, testBit_iff, testBit_iff]
    have e : (2 : Nat) ^ 5 = 32 := by decide
    rw [e, d5, Nat.add_zero]
  · rw [Bool.eq_iff_iff, testBit_iff, testBit_iff]
    have e : (2 : Nat) ^ 3 = 8 := by decide
    rw [e, d3, Nat.add_zero]

/-- C3: for every accumulator value `a`, operand `b` (the `B` register) and
prior flag byte, `ADD A,B` (opcode `0x80`) leaves `A = (a+b) mod 256` and
recomputes every flag: Z iff the result is 0, S = bit 7 of the result, C iff
`a+b ≥ 256`, H iff `(a mod 16)+(b mod 16) ≥ 16`, P/V iff the signed sum lies
outside `[-128, 127]`, N = 0, and bits 5 and 3 of F copy bits 5 and 3 of the
result. -/
theorem add_a_b_flags (fuel : Nat) (s : State) (a b : Nat)
    (hop : readRam s s.PC = 0x80) (ha : highReg s.AF = a) (hb : highReg s.BC = b) :
    ∃ s', z80step fuel s = some s' ∧
      highReg s'.AF = (a + b) % 256 ∧
      (testFlag s'.AF ZeroFlag = true ↔ (a + b) % 256 = 0) ∧
      (testFlag s'.AF SignFlag = ((a + b) % 256).testBit 7) ∧
      (testFlag s'.AF CarryFlag = true ↔ 256 ≤ a + b) ∧
      (testFlag s'.AF HalfFlag = true ↔ 16 ≤ a % 16 + b % 16) ∧
      (testFlag s'.AF ParityFlag = true ↔
        (signed8 a + signed8 b < -128 ∨ 127 < signed8 a + signed8 b)) ∧
      testFlag s'.AF SubFlag = false ∧
      s'.AF.testBit 5 = ((a + b) % 256).testBit 5 ∧
      s'.AF.testBit 3 = ((a + b) % 256).testBit 3 := by
  have ha' : a < 256 := ha ▸ highReg_lt s.AF
  have hb' : b < 256 := hb ▸ highReg_lt s.BC
  rw [z80step_main fuel s (by rw [hop]; decide), hop, z80main_80]
  refine ⟨_, rfl, ?_⟩
  show highReg (addAF s.AF (highReg s.BC) 0) = _ ∧ _
  rw [hb, addAF_eq_spec s.AF b hb', ha]
  exact addSpec_flags a b ha' hb'

/-- C3 at the half-carry scenario `A = 0x0F`, `B = 0x01`. -/
theorem add_a_b_flags_witness :
    ∃ s', z80step 0 addState = some s' ∧
      highReg s'.AF = (0x0F + 0x01) % 256 ∧
      (testFlag s'.AF ZeroFlag = true ↔ (0x0F + 0x01) % 256 = 0) ∧
      (testFlag s'.AF SignFlag = ((0x0F + 0x01) % 256).testBit 7) ∧
      (testFlag s'.AF CarryFlag = true ↔ 256 ≤ 0x0F + 0x01) ∧
      (testFlag s'.AF HalfFlag = true ↔ 16 ≤ 0x0F % 16 + 0x01 % 16) ∧
      (testFlag s'.AF ParityFlag = true ↔
        (signed8 0x0F + signed8 0x01 < -128 ∨ 127 < signed8 0x0F + signed8 0x01)) ∧
      testFlag s'.AF SubFlag = false ∧
      s'.AF.testBit 5 = ((0x0F + 0x01) % 256).testBit 5 ∧
      s'.AF.testBit 3 = ((0x0F + 0x01) % 256).testBit 3 :=
  add_a_b_flags 0 addState 0x0F 0x01 (by decide) (by decide) (by decide)

/-- The flag byte of an 8-bit subtraction, read off the closed form. -/
theorem subSpec_flags (a b : Nat) (ha : a < 256) (hb : b < 256) :
    highReg (subSpec a b 0) = (256 + a - b) % 256 ∧
    (testFlag (subSpec a b 0) CarryFlag = true ↔ a < b) ∧
    (testFlag (subSpec a b 0) HalfFlag = true ↔ a % 16 < b % 16) ∧
    (testFlag (subSpec a b 0) ParityFlag = true ↔
      (signed8 a - signed8 b < -128 ∨ 127 < signed8 a - signed8 b)) ∧
    testFlag (subSpec a b 0) SubFlag = true ∧
    (testFlag (subSpec a b 0) ZeroFlag = true ↔ (256 + a - b) % 256 = 0) ∧
    (testFlag (subSpec a b 0) SignFlag = ((256 + a - b) % 256).testBit 7) := by
  obtain ⟨d8, d7, d6, -, d4, -, d2, d1, d0⟩ := subSpec_digits a b ha hb
  refine ⟨?_, ?_, ?_, ?_, ?_, ?_, ?_⟩
  · rw [highReg_eq, d8]; clear d8 d7 d6 d4 d2 d1 d0; omega
  · rw [testFlag_Carry, d0]; clear d8 d7 d6 d4 d2 d1 d0; omega
  · rw [testFlag_Half, d4]; clear d8 d7 d6 d4 d2 d1 d0; omega
  · rw [testFlag_Parity, d2]; clear d8 d7 d6 d4 d2 d1 d0
    unfold signed8
    rcases Nat.lt_or_ge (a % 128) (b % 128) with h1 | h1 <;>
      rcases Nat.lt_or_ge a b with h2 | h2 <;> split_ifs <;> omega
  · rw [testFlag_Sub, d1]
  · rw [testFlag_Zero, d6]; clear d8 d7 d6 d4 d2 d1 d0; omega
  · rw [Bool.eq_iff_iff, testFlag_Sign, testBit_iff, d7]
    clear d8 d7 d6 d4 d2 d1 d0; omega

/-- C4: for every accumulator value `a`, immediate operand `b` and prior flag
byte, `SUB n` (opcode `0xD6`) leaves `A = (a-b) mod 256`, advances `PC` by 2
and recomputes the flags: C iff `a < b`, H iff `(a mod 16) < (b mod 16)`,
P/V iff the signed difference lies outside `[-128, 127]`, N = 1, Z iff the
result is 0, S = bit 7 of the result. -/
theorem sub_n_flags (fuel : Nat) (s : State) (a b : Nat)
    (hop : readRam s s.PC = 0xD6) (ha : highReg s.AF = a)
    (hb : readRam s (s.PC + 1) = b) :
    ∃ s', z80step fuel s = some s' ∧
      highReg s'.AF = (256 + a - b) % 256 ∧
      s'.PC = (s.PC + 2) % 65536 ∧
      (testFlag s'.AF CarryFlag = true ↔ a < b) ∧
      (testFlag s'.AF HalfFlag = true ↔ a % 16 < b % 16) ∧
      (testFlag s'.AF ParityFlag = true ↔
        (signed8 a - signed8 b < -128 ∨ 127 < signed8 a - signed8 b)) ∧
      testFlag s'.AF SubFlag = true ∧
      (testFlag s'.AF ZeroFlag = true ↔ (256 + a - b) % 256 = 0) ∧
      (testFlag s'.AF SignFlag = ((256 + a - b) % 256).testBit 7) := by
  have ha' : a < 256 := ha ▸ highReg_lt s.AF
  have hb256 : b < 256 := hb ▸ readRam_lt s (s.PC + 1)
  have hrd : readRam { s with PC := (s.PC + 1) % 65536 } ((s.PC + 1) % 65536) = b := by
    rw [← hb]; exact readRam_congr' _ _ _ _ rfl (by omega)
  rw [z80step_main fuel s (by rw [hop]; decide), hop, z80main_D6]
  refine ⟨_, rfl, ?_⟩
  show highReg (subAF s.AF (readRam _ _) 0) = _ ∧ ((s.PC + 1) % 65536 + 1) % 65536 = _ ∧ _
  rw [hrd, subAF_eq_spec s.AF b hb256, ha]
  obtain ⟨h1, h2, h3, h4, h5, h6, h7⟩ := subSpec_flags a b ha' hb256
  exact ⟨h1, by omega, h2, h3, h4, h5, h6, h7⟩

/-- C4 at the borrow scenario `A = 0x00`, `n = 0x01`. -/
theorem sub_n_flags_witness :
    ∃ s', z80step 0 subState = some s' ∧
      highReg s'.AF = (256 + 0x00 - 0x01) % 256 ∧
      s'.PC = (subState.PC + 2) % 65536 ∧
      (testFlag s'.AF CarryFlag = true ↔ 0x00 < 0x01) ∧
      (testFlag s'.AF HalfFlag = true ↔ 0x00 % 16 < 0x01 % 16) ∧
      (testFlag s'.AF ParityFlag = true ↔
        (signed8 0x00 - signed8 0x01 < -128 ∨ 127 < signed8 0x00 - signed8 0x01)) ∧
      testFlag s'.AF SubFlag = true ∧
      (testFlag s'.AF ZeroFlag = true ↔ (256 + 0x00 - 0x01) % 256 = 0) ∧
      (testFlag s'.AF SignFlag = ((256 + 0x00 - 0x01) % 256).testBit 7) :=
  sub_n_flags 0 subState 0x00 0x01 (by decide) (by decide) (by decide)

/-! ## C6: `CALL` -/

theorem testFlag_eq_testBit (AF k : Nat) : testFlag AF (2 ^ k) = AF.testBit k := by
  rw [Bool.eq_iff_iff, testFlag_two_pow, testBit_iff]

/-- Every `CALL` opcode runs `conditionalCall` on the condition its encoding
names. -/
theorem z80main_call (op : Nat) (hop : op ∈ callOpcodes) (s : State) :
    z80main op s = conditionalCall s (callCondition op s.AF) := by
  have hZ : testFlag s.AF ZeroFlag = s.AF.testBit 6 := testFlag_eq_testBit s.AF 6
  have hC : testFlag s.AF CarryFlag = s.AF.testBit 0 := testFlag_eq_testBit s.AF 0
  have hP : testFlag s.AF ParityFlag = s.AF.testBit 2 := testFlag_eq_testBit s.AF 2
  have hS : testFlag s.AF SignFlag = s.AF.testBit 7 := testFlag_eq_testBit s.AF 7
  simp only [callOpcodes, List.mem_cons, List.mem_singleton, List.not_mem_nil, or_false] at hop
  rcases hop with rfl | rfl | rfl | rfl | rfl | rfl | rfl | rfl | rfl
  · show conditionalCall s (!testFlag s.AF ZeroFlag) = conditionalCall s (!s.AF.testBit 6)
    rw [hZ]
  · show conditionalCall s (testFlag s.AF ZeroFlag) = conditionalCall s (s.AF.testBit 6)
    rw [hZ]
  · rfl
  · show conditionalCall s (!testFlag s.AF CarryFlag) = conditionalCall s (!s.AF.testBit 0)
    rw [hC]
  · show conditionalCall s (testFlag s.AF CarryFlag) = conditionalCall s (s.AF.testBit 0)
    rw [hC]
  · show conditionalCall s (!testFlag s.AF ParityFlag) = conditionalCall s (!s.AF.testBit 2)
    rw [hP]
  · show conditionalCall s (testFlag s.AF ParityFlag) = conditionalCall s (s.AF.testBit 2)
    rw [hP]
  · show conditionalCall s (!testFlag s.AF SignFlag) = conditionalCall s (!s.AF.testBit 7)
    rw [hS]
  · show conditionalCall s (testFlag s.AF SignFlag) = conditionalCall s (s.AF.testBit 7)
    rw [hS]

/-- The word read at the new `SP` after a push into writable RAM. -/
theorem readWord_push (s : State) (x : Nat)
    (h1 : 0x0800 ≤ (65535 + s.SP) % 65536 ∧ (65535 + s.SP) % 65536 < 0xE000)
    (h2 : 0x0800 ≤ (65534 + s.SP) % 65536 ∧ (65534 + s.SP) % 65536 < 0xE000) :
    readWord (push s x) (push s x).SP = x % 65536 := by
  have e : readRam (push s x) ((push s x).SP % 65536 + 1) =
      readRam (push s x) (((push s x).SP + 1) % 65536) := by
    exact readRam_congr' _ _ _ _ rfl (by omega)
  unfold readWord
  rw [e, push_read_low s x h2, push_read_high s x h1]
  exact word_join (x % 65536) (Nat.mod_lt _ (by decide))

theorem readWord_congr (s t : State) (a b : Nat) (hram : s.ram = t.ram)
    (hab : a % 65536 = b % 65536) : readWord s a = readWord t b := by
  unfold readWord readRam
  rw [hram, hab]

theorem conditionalCall_taken (s : State) :
    conditionalCall s true = { push s (s.PC + 2) with PC := readWord s s.PC } := rfl

theorem conditionalCall_not_taken (s : State) :
    conditionalCall s false = { s with PC := (s.PC + 2) % 65536 } := rfl

/-- C6: for every `CALL` opcode at address `P = PC` with operand word `nn`:
when the condition holds, one step sets `PC = nn`, `SP = SP-2`, and, when
both stack bytes lie in writable RAM, the word at the new `SP` is `P+3`;
when it does not hold, the step only sets `PC = P+3`.  Addresses are taken
modulo 65536. -/
theorem call_step (fuel : Nat) (s : State) (op : Nat)
    (hop : readRam s s.PC = op) (hcall : op ∈ callOpcodes) :
    ∃ s', z80step fuel s = some s' ∧
      (callCondition op s.AF = true →
        s'.PC = readWord s (s.PC + 1) ∧ s'.SP = (65534 + s.SP) % 65536 ∧
        ((0x0800 ≤ (65535 + s.SP) % 65536 ∧ (65535 + s.SP) % 65536 < 0xE000) →
         (0x0800 ≤ (65534 + s.SP) % 65536 ∧ (65534 + s.SP) % 65536 < 0xE000) →
         readWord s' s'.SP = (s.PC + 3) % 65536)) ∧
      (callCondition op s.AF = false → s' = { s with PC := (s.PC + 3) % 65536 }) := by
  have hne : readRam s s.PC ≠ 0xED := by
    rw [hop]; intro h; rw [h] at hcall; revert hcall; decide
  rw [z80step_main fuel s hne, hop, z80main_call op hcall]
  refine ⟨_, rfl, ?_, ?_⟩
  · intro hc
    have hc' : callCondition op ({ s with PC := (s.PC + 1) % 65536 } : State).AF = true := hc
    rw [hc', conditionalCall_taken]
    refine ⟨?_, ?_, ?_⟩
    · show readWord { s with PC := (s.PC + 1) % 65536 } ((s.PC + 1) % 65536) = _
      exact readWord_congr _ _ _ _ rfl (by omega)
    · show (push { s with PC := (s.PC + 1) % 65536 } _).SP = _
      rw [push_SP]
      show (65535 + (65535 + s.SP) % 65536) % 65536 = _
      omega
    · intro h1 h2
      show readWord (push { s with PC := (s.PC + 1) % 65536 } ((s.PC + 1) % 65536 + 2))
        (push { s with PC := (s.PC + 1) % 65536 } ((s.PC + 1) % 65536 + 2)).SP = _
      rw [readWord_push { s with PC := (s.PC + 1) % 65536 } _ h1 h2]
      omega
  · intro hc
    have hc' : callCondition op ({ s with PC := (s.PC + 1) % 65536 } : State).AF = false := hc
    rw [hc', conditionalCall_not_taken]
    show ({ s with PC := ((s.PC + 1) % 65536 + 2) % 65536 } : State) = _
    have e : ((s.PC + 1) % 65536 + 2) % 65536 = (s.PC + 3) % 65536 := by omega
    rw [e]

/-- C6 at the scenario `CALL Z,0x1234` with `Z = 1`. -/
theorem call_step_witness :
    ∃ s', z80step 0 callState = some s' ∧
      (callCondition 0xCC callState.AF = true →
        s'.PC = readWord callState (callState.PC + 1) ∧
        s'.SP = (65534 + callState.SP) % 65536 ∧
        ((0x0800 ≤ (65535 + callState.SP) % 65536 ∧
            (65535 + callState.SP) % 65536 < 0xE000) →
         (0x0800 ≤ (65534 + callState.SP) % 65536 ∧
            (65534 + callState.SP) % 65536 < 0xE000) →
         readWord s' s'.SP = (callState.PC + 3) % 65536)) ∧
      (callCondition 0xCC callState.AF = false →
        s' = { callState with PC := (callState.PC + 3) % 65536 }) :=
  call_step 0 callState 0xCC (by decide) (by decide)

/-! ## C2: every step terminates -/

theorem ldxrRound_BC (d : Nat) (s : State) :
    (ldxrRound d s).2.BC = (65535 + s.BC) % 65536 := by
  show (65535 + (writeRam _ _ _).BC) % 65536 = _
  rw [writeRam_BC]

/-- The `LDIR`/`LDDR` loop leaves within `rounds 65536 BC` rounds. -/
theorem ldxrLoop_isSome (d : Nat) :
    ∀ (fuel : Nat) (s : State), s.BC < 65536 → rounds 65536 s.BC ≤ fuel →
      (ldxrLoop d fuel s).isSome = true := by
  intro fuel
  induction fuel with
  | zero => intro s _ h; unfold rounds at h; split_ifs at h <;> omega
  | succ n ih =>
    intro s hlt h
    unfold ldxrLoop
    dsimp only
    by_cases hz : (ldxrRound d s).2.BC = 0
    · rw [if_neg (not_not.mpr hz)]; rfl
    · rw [if_pos hz]
      rw [ldxrRound_BC] at hz
      apply ih
      · rw [ldxrRound_BC]; omega
      · rw [ldxrRound_BC]
        unfold rounds at h ⊢
        rw [if_neg hz]
        split_ifs at h <;> omega

theorem cpxrRound_BC (d acu : Nat) (s : State) :
    (cpxrRound d acu s).2.2.2.BC = (65535 + s.BC) % 65536 := rfl

theorem cpxrRound_op (d acu : Nat) (s : State) :
    (cpxrRound d acu s).2.1 = if (65535 + s.BC) % 65536 ≠ 0 then 1 else 0 := rfl

/-- The `CPIR`/`CPDR` loop leaves within `rounds 65536 BC` rounds. -/
theorem cpxrLoop_isSome (d acu : Nat) :
    ∀ (fuel : Nat) (s : State), s.BC < 65536 → rounds 65536 s.BC ≤ fuel →
      (cpxrLoop d acu fuel s).isSome = true := by
  intro fuel
  induction fuel with
  | zero => intro s _ h; unfold rounds at h; split_ifs at h <;> omega
  | succ n ih =>
    intro s hlt h
    unfold cpxrLoop
    dsimp only
    split_ifs with hc
    · have hz : (65535 + s.BC) % 65536 ≠ 0 := by
        intro h0
        have := hc.1
        rw [cpxrRound_op, if_neg (not_not.mpr h0)] at this
        exact this rfl
      apply ih
      · rw [cpxrRound_BC]; omega
      · rw [cpxrRound_BC]
        unfold rounds at h ⊢
        rw [if_neg hz]
        split_ifs at h <;> omega
    · rfl

/-- The `INIR`/`INDR` loop leaves within `rounds 2^32 temp` rounds. -/
theorem inxrLoop_isSome (d : Nat) :
    ∀ (fuel temp : Nat) (s : State), temp < 0x100000000 → rounds 0x100000000 temp ≤ fuel →
      (inxrLoop d fuel temp s).isSome = true := by
  intro fuel
  induction fuel with
  | zero => intro temp s _ h; unfold rounds at h; split_ifs at h <;> omega
  | succ n ih =>
    intro temp s hlt h
    unfold inxrLoop
    dsimp only
    have hs : sub32 temp 1 = (0x100000000 + temp - 1) % 0x100000000 := rfl
    by_cases hz : sub32 temp 1 = 0
    · rw [if_neg (not_not.mpr hz)]; rfl
    · rw [if_pos hz]
      apply ih
      · rw [hs]; omega
      · unfold rounds at h ⊢
        rw [if_neg hz]
        rw [hs] at hz ⊢
        split_ifs at h <;> omega

/-- The `OTIR`/`OTDR` loop leaves within `rounds 2^32 temp` rounds. -/
theorem otxrLoop_isSome (d : Nat) :
    ∀ (fuel temp : Nat) (s : State), temp < 0x100000000 → rounds 0x100000000 temp ≤ fuel →
      (otxrLoop d fuel temp s).isSome = true := by
  intro fuel
  induction fuel with
  | zero => intro temp s _ h; unfold rounds at h; split_ifs at h <;> omega
  | succ n ih =>
    intro temp s hlt h
    unfold otxrLoop
    dsimp only
    have hs : sub32 temp 1 = (0x100000000 + temp - 1) % 0x100000000 := rfl
    by_cases hz : sub32 temp 1 = 0
    · rw [if_neg (not_not.mpr hz)]; rfl
    · rw [if_pos hz]
      apply ih
      · rw [hs]; omega
      · unfold rounds at h ⊢
        rw [if_neg hz]
        rw [hs] at hz ⊢
        split_ifs at h <;> omega

theorem and_ffff_lt (x : Nat) : x &&& 0xffff < 65536 :=
  Nat.and_lt_two_pow x (by decide : 0xffff < 2 ^ 16)

theorem rounds_le (w n : Nat) (h : n < w) : rounds w n ≤ w := by
  unfold rounds; split_ifs <;> omega

theorem ldxr_isSome (d fuel : Nat) (s : State) (h : stepFuel ≤ fuel) :
    (ldxr d fuel s).isSome = true := by
  unfold ldxr
  dsimp only
  have hl := ldxrLoop_isSome d fuel { s with BC := s.BC &&& 0xffff } (and_ffff_lt s.BC)
    (by have := rounds_le 65536 (s.BC &&& 0xffff) (and_ffff_lt s.BC)
        unfold stepFuel at h
        show rounds 65536 (s.BC &&& 0xffff) ≤ fuel
        omega)
  obtain ⟨r, hr⟩ := Option.isSome_iff_exists.mp hl
  rw [hr]
  rfl

theorem cpxr_isSome (d fuel : Nat) (s : State) (h : stepFuel ≤ fuel) :
    (cpxr d fuel s).isSome = true := by
  unfold cpxr
  dsimp only
  have hl := cpxrLoop_isSome d (highReg s.AF) fuel { s with BC := s.BC &&& 0xffff }
    (and_ffff_lt s.BC)
    (by have := rounds_le 65536 (s.BC &&& 0xffff) (and_ffff_lt s.BC)
        unfold stepFuel at h
        show rounds 65536 (s.BC &&& 0xffff) ≤ fuel
        omega)
  obtain ⟨r, hr⟩ := Option.isSome_iff_exists.mp hl
  rw [hr]
  rfl

theorem inxr_isSome (d fuel : Nat) (s : State) (h : stepFuel ≤ fuel) :
    (inxr d fuel s).isSome = true := by
  unfold inxr
  have hb : highReg s.BC < 0x100000000 := by have := highReg_lt s.BC; omega
  have hl := inxrLoop_isSome d fuel (highReg s.BC) s hb
    (by have := rounds_le 0x100000000 (highReg s.BC) hb
        unfold stepFuel at h
        omega)
  obtain ⟨r, hr⟩ := Option.isSome_iff_exists.mp hl
  rw [hr]
  rfl

theorem otxr_isSome (d fuel : Nat) (s : State) (h : stepFuel ≤ fuel) :
    (otxr d fuel s).isSome = true := by
  unfold otxr
  have hb : highReg s.BC < 0x100000000 := by have := highReg_lt s.BC; omega
  have hl := otxrLoop_isSome d fuel (highReg s.BC) s hb
    (by have := rounds_le 0x100000000 (highReg s.BC) hb
        unfold stepFuel at h
        omega)
  obtain ⟨r, hr⟩ := Option.isSome_iff_exists.mp hl
  rw [hr]
  rfl

/-- The `switch` after `0xED` yields a state for every opcode byte. -/
theorem edExec_isSome (fuel op : Nat) (s : State) (h : stepFuel ≤ fuel) :
    (edExec fuel op s).isSome = true := by
  unfold edExec
  split_ifs
  · exact ldxr_isSome 1 fuel _ h
  · exact cpxr_isSome 1 fuel _ h
  · exact inxr_isSome 1 fuel _ h
  · exact otxr_isSome 1 fuel _ h
  · exact ldxr_isSome 65535 fuel _ h
  · exact cpxr_isSome 65535 fuel _ h
  · exact inxr_isSome 65535 fuel _ h
  · exact otxr_isSome 65535 fuel _ h
  · rfl

/-- C2: `z80step` is total.  For every state (registers, memory image, port
state) a step given `stepFuel` loop rounds or more yields a successor state:
every opcode byte has a case, every prefix combination is handled, and every
block-repeat loop leaves within its bound, also when entered with `BC = 0`
or `B = 0`. -/
theorem z80step_total (fuel : Nat) (s : State) (h : stepFuel ≤ fuel) :
    ∃ s', z80step fuel s = some s' := by
  by_cases hop : readRam s s.PC = 0xED
  · rw [z80step_ed fuel s hop]
    exact Option.isSome_iff_exists.mp (edExec_isSome fuel _ _ h)
  · exact ⟨_, z80step_main fuel s hop⟩

/-- C2 at `LDIR` entered with `BC = 0`, the longest block move. -/
theorem z80step_total_witness :
    stepFuel ≤ stepFuel ∧ ∃ s', z80step stepFuel ldirZeroState = some s' :=
  ⟨Nat.le_refl _, z80step_total stepFuel ldirZeroState (Nat.le_refl _)⟩

/-! ## The block-move loop, round by round -/

theorem ldxrRound_acu (d : Nat) (s : State) : (ldxrRound d s).1 = readRam s s.HL := rfl

theorem ldxrRound_HL (d : Nat) (s : State) :
    (ldxrRound d s).2.HL = (d + s.HL) % 65536 := by
  show (writeRam _ _ _).HL = _
  rw [writeRam_HL]

theorem ldxrRound_DE (d : Nat) (s : State) :
    (ldxrRound d s).2.DE = (d + s.DE) % 65536 := by
  show (d + (writeRam _ _ _).DE) % 65536 = _
  rw [writeRam_DE]

theorem ldxrRound_AF (d : Nat) (s : State) : (ldxrRound d s).2.AF = s.AF := by
  show (writeRam _ _ _).AF = _
  rw [writeRam_AF]

theorem ldxrRound_PC (d : Nat) (s : State) : (ldxrRound d s).2.PC = s.PC := by
  show (writeRam _ _ _).PC = _
  rw [writeRam_PC]

theorem ldxrRound_ram (d : Nat) (s : State) :
    (ldxrRound d s).2.ram = (writeRam s s.DE (readRam s s.HL)).ram := by
  show (writeRam _ _ _).ram = _
  rw [writeRam_ram, writeRam_ram]

theorem readRam_ldxrRound (d : Nat) (s : State) (a : Nat) :
    readRam (ldxrRound d s).2 a = readRam (writeRam s s.DE (readRam s s.HL)) a :=
  readRam_congr _ _ (ldxrRound_ram d s) a

theorem ldxrIter_succ_back (d : Nat) :
    ∀ (n : Nat) (s : State), ldxrIter d (n + 1) s = (ldxrRound d (ldxrIter d n s)).2 := by
  intro n
  induction n with
  | zero => intro s; rfl
  | succ n ih =>
    intro s
    show ldxrIter d (n + 1) (ldxrRound d s).2 = _
    rw [ih]
    rfl

/-- The loop entered with `rounds 65536 BC = n + 1` makes exactly `n + 1`
rounds. -/
theorem ldxrLoop_eq (d : Nat) :
    ∀ (n fuel : Nat) (s : State), s.BC < 65536 → rounds 65536 s.BC = n + 1 → n < fuel →
      ldxrLoop d fuel s =
        some (readRam (ldxrIter d n s) (ldxrIter d n s).HL, ldxrIter d (n + 1) s) := by
  intro n
  induction n with
  | zero =>
    intro fuel s hlt hr hf
    obtain ⟨f, rfl⟩ : ∃ f, fuel = f + 1 := ⟨fuel - 1, by omega⟩
    have hBC : s.BC = 1 := by unfold rounds at hr; split_ifs at hr <;> omega
    unfold ldxrLoop
    dsimp only
    have hz : (ldxrRound d s).2.BC = 0 := by rw [ldxrRound_BC, hBC]
    rw [if_neg (not_not.mpr hz)]
    rfl
  | succ n ih =>
    intro fuel s hlt hr hf
    obtain ⟨f, rfl⟩ : ∃ f, fuel = f + 1 := ⟨fuel - 1, by omega⟩
    unfold ldxrLoop
    dsimp only
    have hb : (ldxrRound d s).2.BC = (65535 + s.BC) % 65536 := ldxrRound_BC d s
    have hz : (ldxrRound d s).2.BC ≠ 0 := by
      rw [hb]; unfold rounds at hr; split_ifs at hr <;> omega
    rw [if_pos hz]
    rw [ih f (ldxrRound d s).2 (by rw [hb]; omega)
      (by rw [hb] at hz ⊢; unfold rounds at hr ⊢; rw [if_neg hz]; split_ifs at hr <;> omega)
      (by omega)]
    rfl

theorem ldxrIter_AF (d : Nat) : ∀ (n : Nat) (s : State), (ldxrIter d n s).AF = s.AF := by
  intro n
  induction n with
  | zero => intro s; rfl
  | succ n ih => intro s; show (ldxrIter d n _).AF = _; rw [ih, ldxrRound_AF]

theorem ldxrIter_PC (d : Nat) : ∀ (n : Nat) (s : State), (ldxrIter d n s).PC = s.PC := by
  intro n
  induction n with
  | zero => intro s; rfl
  | succ n ih => intro s; show (ldxrIter d n _).PC = _; rw [ih, ldxrRound_PC]

theorem ldxrIter_HL (d : Nat) :
    ∀ (n : Nat) (s : State), s.HL < 65536 → (ldxrIter d n s).HL = (n * d + s.HL) % 65536 := by
  intro n
  induction n with
  | zero => intro s h; show s.HL = _; omega
  | succ n ih =>
    intro s h
    show (ldxrIter d n _).HL = _
    rw [ih _ (by rw [ldxrRound_HL]; omega), ldxrRound_HL, Nat.succ_mul]
    omega

theorem ldxrIter_DE (d : Nat) :
    ∀ (n : Nat) (s : State), s.DE < 65536 → (ldxrIter d n s).DE = (n * d + s.DE) % 65536 := by
  intro n
  induction n with
  | zero => intro s h; show s.DE = _; omega
  | succ n ih =>
    intro s h
    show (ldxrIter d n _).DE = _
    rw [ih _ (by rw [ldxrRound_DE]; omega), ldxrRound_DE, Nat.succ_mul]
    omega

theorem ldxrIter_BC (d : Nat) :
    ∀ (n : Nat) (s : State), s.BC < 65536 →
      (ldxrIter d n s).BC = (n * 65535 + s.BC) % 65536 := by
  intro n
  induction n with
  | zero => intro s h; show s.BC = _; omega
  | succ n ih =>
    intro s h
    show (ldxrIter d n _).BC = _
    rw [ih _ (by rw [ldxrRound_BC]; omega), ldxrRound_BC]
    omega

/-- A cell that no round stores to keeps its byte. -/
theorem readRam_ldxrIter_other (d : Nat) :
    ∀ (n : Nat) (s : State) (a : Nat),
      (∀ i, i < n → (i * d + s.DE) % 65536 ≠ a % 65536) →
      readRam (ldxrIter d n s) a = readRam s a := by
  intro n
  induction n with
  | zero => intro s a _; rfl
  | succ n ih =>
    intro s a h
    show readRam (ldxrIter d n _) a = _
    rw [ih (ldxrRound d s).2 a, readRam_ldxrRound, readRam_writeRam_other]
    · have := h 0 (by omega)
      rw [Nat.zero_mul] at this
      omega
    · intro i hi
      have := h (i + 1) (by omega)
      rw [Nat.succ_mul] at this
      rw [ldxrRound_DE]
      omega

/-- `LDIR` over ranges that neither wrap nor overlap, the destination in
writable RAM: after `n` rounds the destination holds the source bytes. -/
theorem readRam_ldirIter_copy :
    ∀ (n : Nat) (s : State), s.HL + n ≤ 65536 → 0x0800 ≤ s.DE → s.DE + n ≤ 0xE000 →
      (s.HL + n ≤ s.DE ∨ s.DE + n ≤ s.HL) →
      ∀ i, i < n → readRam (ldxrIter 1 n s) (s.DE + i) = readRam s (s.HL + i) := by
  intro n
  induction n with
  | zero => intro s _ _ _ _ i hi; omega
  | succ n ih =>
    intro s hHL hDE hDEr hdis i hi
    have hD1 : (ldxrRound 1 s).2.DE = s.DE + 1 := by rw [ldxrRound_DE]; omega
    show readRam (ldxrIter 1 n (ldxrRound 1 s).2) (s.DE + i) = _
    rcases Nat.eq_zero_or_pos i with h0 | hpos
    · subst h0
      rw [readRam_ldxrIter_other 1 n _ _ (by intro j hj; rw [hD1]; omega),
        readRam_ldxrRound, Nat.add_zero, Nat.add_zero, readRam_writeRam_same]
      have e : s.DE % 65536 = s.DE := by omega
      rw [if_pos (by rw [e]; omega)]
      exact Nat.mod_eq_of_lt (readRam_lt s s.HL)
    · obtain ⟨j, rfl⟩ : ∃ j, i = j + 1 := ⟨i - 1, by omega⟩
      have hH1 : (ldxrRound 1 s).2.HL = s.HL + 1 := by rw [ldxrRound_HL]; omega
      have := ih (ldxrRound 1 s).2 (by rw [hH1]; omega) (by rw [hD1]; omega)
        (by rw [hD1]; omega) (by rw [hH1, hD1]; omega) j (by omega)
      rw [hH1, hD1] at this
      have e1 : s.DE + (j + 1) = s.DE + 1 + j := by omega
      have e2 : s.HL + (j + 1) = s.HL + 1 + j := by omega
      rw [e1, e2, this, readRam_ldxrRound, readRam_writeRam_other]
      omega

/-! ## C7 and C8: `LDIR` -/

/-- The flag word `LDIR` and `LDDR` leave: bits 1 (N), 2 (P/V) and 4 (H) are
clear, bits 0 (C), 6 (Z) and 7 (S) are those of the old `AF`. -/
theorem ldxr_flags (AF acu : Nat) :
    testFlag (((AF &&& bnot 0x3e) ||| (acu &&& 8) ||| ((acu &&& 2) <<< 4)) % 65536)
        ParityFlag = false ∧
    testFlag (((AF &&& bnot 0x3e) ||| (acu &&& 8) ||| ((acu &&& 2) <<< 4)) % 65536)
        HalfFlag = false ∧
    testFlag (((AF &&& bnot 0x3e) ||| (acu &&& 8) ||| ((acu &&& 2) <<< 4)) % 65536)
        SubFlag = false ∧
    testFlag (((AF &&& bnot 0x3e) ||| (acu &&& 8) ||| ((acu &&& 2) <<< 4)) % 65536)
        SignFlag = testFlag AF SignFlag ∧
    testFlag (((AF &&& bnot 0x3e) ||| (acu &&& 8) ||| ((acu &&& 2) <<< 4)) % 65536)
        ZeroFlag = testFlag AF ZeroFlag ∧
    testFlag (((AF &&& bnot 0x3e) ||| (acu &&& 8) ||| ((acu &&& 2) <<< 4)) % 65536)
        CarryFlag = testFlag AF CarryFlag := by
  have hb : bnot 0x3e = 0xFFFFFFC1 := rfl
  have t (x k : Nat) : testFlag x (2 ^ k) = x.testBit k := testFlag_eq_testBit x k
  have r (k : Nat) (hk : k < 16) :
      (((AF &&& 0xFFFFFFC1) ||| (acu &&& 8) ||| ((acu &&& 2) <<< 4)) % 2 ^ 16).testBit k =
        (AF.testBit k && Nat.testBit 0xFFFFFFC1 k || acu.testBit k && Nat.testBit 8 k ||
          decide (k ≥ 4) && (acu.testBit (k - 4) && Nat.testBit 2 (k - 4))) := by
    rw [Nat.testBit_mod_two_pow, Nat.testBit_or, Nat.testBit_or, Nat.testBit_and,
      Nat.testBit_and, Nat.testBit_shiftLeft, Nat.testBit_and]
    simp [hk]
  rw [hb, show (65536 : Nat) = 2 ^ 16 from rfl]
  have c2 : Nat.testBit 0xFFFFFFC1 2 = false := by rfl
  have c4 : Nat.testBit 0xFFFFFFC1 4 = false := by rfl
  have c1 : Nat.testBit 0xFFFFFFC1 1 = false := by rfl
  have c7 : Nat.testBit 0xFFFFFFC1 7 = true := by rfl
  have c6 : Nat.testBit 0xFFFFFFC1 6 = true := by rfl
  have c0 : Nat.testBit 0xFFFFFFC1 0 = true := by rfl
  have d2 : Nat.testBit 8 2 = false := by rfl
  have d4 : Nat.testBit 8 4 = false := by rfl
  have d1 : Nat.testBit 8 1 = false := by rfl
  have d7 : Nat.testBit 8 7 = false := by rfl
  have d6 : Nat.testBit 8 6 = false := by rfl
  have d0 : Nat.testBit 8 0 = false := by rfl
  have f0 : Nat.testBit 2 (4 - 4) = false := by rfl
  have f3 : Nat.testBit 2 (7 - 4) = false := by rfl
  have f2 : Nat.testBit 2 (6 - 4) = false := by rfl
  refine ⟨?_, ?_, ?_, ?_, ?_, ?_⟩
  · rw [show ParityFlag = 2 ^ 2 from rfl, t, r 2 (by omega), c2, d2]
    simp
  · rw [show HalfFlag = 2 ^ 4 from rfl, t, r 4 (by omega), c4, d4, f0]
    simp
  · rw [show SubFlag = 2 ^ 1 from rfl, t, r 1 (by omega), c1, d1]
    simp
  · rw [show SignFlag = 2 ^ 7 from rfl, t, t, r 7 (by omega), c7, d7, f3]
    simp
  · rw [show ZeroFlag = 2 ^ 6 from rfl, t, t, r 6 (by omega), c6, d6, f2]
    simp
  · rw [show CarryFlag = 2 ^ 0 from rfl, t, t, r 0 (by omega), c0, d0]
    simp

/-- `LDIR`/`LDDR` entered with `rounds 65536 BC = n + 1`: the state after
`n + 1` rounds, with the flag word rebuilt from the last byte moved. -/
theorem ldxr_eq (d fuel n : Nat) (s : State)
    (hr : rounds 65536 (s.BC &&& 0xffff) = n + 1) (hf : n < fuel) :
    ∃ acu, ldxr d fuel s =
      some { ldxrIter d (n + 1) { s with BC := s.BC &&& 0xffff } with
             AF := ((s.AF &&& bnot 0x3e) ||| (acu &&& 8) ||| ((acu &&& 2) <<< 4)) % 65536 } := by
  unfold ldxr
  dsimp only
  rw [ldxrLoop_eq d n fuel { s with BC := s.BC &&& 0xffff } (and_ffff_lt s.BC) hr hf]
  dsimp only
  rw [ldxrIter_AF]
  exact ⟨_, rfl⟩

/-- A step on `ED B0` is `LDIR` on the state with `PC` advanced twice. -/
theorem z80step_ldir (fuel : Nat) (s : State)
    (h0 : readRam s s.PC = 0xED) (h1 : readRam s (s.PC + 1) = 0xB0) :
    z80step fuel s = ldxr 1 fuel { s with PC := ((s.PC + 1) % 65536 + 1) % 65536 } := by
  rw [z80step_ed fuel s h0]
  unfold ed_prefix
  dsimp only
  have e : readRam { s with PC := ((s.PC + 1) % 65536 + 1) % 65536 }
      (65535 + ((s.PC + 1) % 65536 + 1) % 65536) = 0xB0 := by
    rw [← h1]
    exact readRam_congr' _ _ _ _ rfl (by omega)
  rw [e]
  rfl

/-- A store leaves every cell outside writable RAM as it was. -/
theorem readRam_writeRam_rom (s : State) (addr val a : Nat)
    (h : ¬ (0x0800 ≤ a % 65536 ∧ a % 65536 < 0xE000)) :
    readRam (writeRam s addr val) a = readRam s a := by
  by_cases e : a % 65536 = addr % 65536
  · unfold readRam
    rw [writeRam_ram, if_neg (by rw [← e]; exact h)]
  · exact readRam_writeRam_other s addr val a e

/-- The block-move loop leaves every cell outside writable RAM as it was. -/
theorem readRam_ldxrIter_rom (d : Nat) :
    ∀ (n : Nat) (s : State) (a : Nat), ¬ (0x0800 ≤ a % 65536 ∧ a % 65536 < 0xE000) →
      readRam (ldxrIter d n s) a = readRam s a := by
  intro n
  induction n with
  | zero => intro s a _; rfl
  | succ n ih =>
    intro s a h
    show readRam (ldxrIter d n _) a = _
    rw [ih _ a h, readRam_ldxrRound, readRam_writeRam_rom s _ _ a h]

/-- The cell the first round of `LDIR` stores to is not stored to again within
65536 rounds: when it is writable it ends up holding the byte read at `HL`. -/
theorem readRam_ldirIter_first (n : Nat) (s : State) (hn : n < 65536)
    (hDE : 0x0800 ≤ s.DE ∧ s.DE < 0xE000) :
    readRam (ldxrIter 1 (n + 1) s) s.DE = readRam s s.HL := by
  show readRam (ldxrIter 1 n (ldxrRound 1 s).2) s.DE = _
  have hD1 : (ldxrRound 1 s).2.DE = s.DE + 1 := by rw [ldxrRound_DE]; omega
  rw [readRam_ldxrIter_other 1 n _ _ (by intro j hj; rw [hD1]; omega),
    readRam_ldxrRound, readRam_writeRam_same]
  have e : s.DE % 65536 = s.DE := by omega
  rw [if_pos (by rw [e]; exact hDE)]
  exact Nat.mod_eq_of_lt (readRam_lt s s.HL)

/-- C7: for `1 ≤ n ≤ 65535` and a state with `BC = n` whose source range
`HL..HL+n-1` and destination range `DE..DE+n-1` do not wrap past `0xFFFF`, do
not overlap, and whose destination lies in writable RAM, one step on `ED B0`
(`LDIR`) leaves `memory[DE+i]` equal to the old `memory[HL+i]` for every
`i < n`, `BC = 0`, `HL` and `DE` advanced by `n` (as 16-bit registers), the
P/V, H and N flags clear, S, Z and C unchanged, and `PC` advanced by 2. -/
theorem ldir_copy (fuel n : Nat) (s : State)
    (hop0 : readRam s s.PC = 0xED) (hop1 : readRam s (s.PC + 1) = 0xB0)
    (hn1 : 1 ≤ n) (hn : n ≤ 65535) (hBC : s.BC = n)
    (hHL : s.HL + n ≤ 65536) (hDElo : 0x0800 ≤ s.DE) (hDEhi : s.DE + n ≤ 0xE000)
    (hdis : s.HL + n ≤ s.DE ∨ s.DE + n ≤ s.HL) (hfuel : n ≤ fuel) :
    ∃ s', z80step fuel s = some s' ∧
      (∀ i, i < n → readRam s' (s.DE + i) = readRam s (s.HL + i)) ∧
      s'.BC = 0 ∧ s'.HL = (s.HL + n) % 65536 ∧ s'.DE = (s.DE + n) % 65536 ∧
      testFlag s'.AF ParityFlag = false ∧ testFlag s'.AF HalfFlag = false ∧
      testFlag s'.AF SubFlag = false ∧
      testFlag s'.AF SignFlag = testFlag s.AF SignFlag ∧
      testFlag s'.AF ZeroFlag = testFlag s.AF ZeroFlag ∧
      testFlag s'.AF CarryFlag = testFlag s.AF CarryFlag ∧
      s'.PC = (s.PC + 2) % 65536 := by
  obtain ⟨m, rfl⟩ : ∃ m, n = m + 1 := ⟨n - 1, by omega⟩
  have hand : s.BC &&& 0xffff = m + 1 := by
    rw [hBC]
    exact (Nat.and_pow_two_sub_one_eq_mod (m + 1) 16).trans (Nat.mod_eq_of_lt (by omega))
  have hr : rounds 65536 (s.BC &&& 0xffff) = m + 1 := by
    rw [hand]; unfold rounds; rw [if_neg (by omega)]
  obtain ⟨acu, h⟩ :=
    ldxr_eq 1 fuel m { s with PC := ((s.PC + 1) % 65536 + 1) % 65536 } hr (by omega)
  obtain ⟨f1, f2, f3, f4, f5, f6⟩ := ldxr_flags s.AF acu
  refine ⟨_, (z80step_ldir fuel s hop0 hop1).trans h, ?_, ?_, ?_, ?_,
    f1, f2, f3, f4, f5, f6, ?_⟩
  · intro i hi
    exact readRam_ldirIter_copy (m + 1)
      { s with PC := ((s.PC + 1) % 65536 + 1) % 65536, BC := s.BC &&& 0xffff }
      hHL hDElo hDEhi hdis i hi
  · refine (ldxrIter_BC 1 (m + 1)
      { s with PC := ((s.PC + 1) % 65536 + 1) % 65536, BC := s.BC &&& 0xffff }
      (and_ffff_lt s.BC)).trans ?_
    show ((m + 1) * 65535 + (s.BC &&& 0xffff)) % 65536 = 0
    rw [hand]
    omega
  · refine (ldxrIter_HL 1 (m + 1)
      { s with PC := ((s.PC + 1) % 65536 + 1) % 65536, BC := s.BC &&& 0xffff }
      (show s.HL < 65536 by omega)).trans ?_
    show ((m + 1) * 1 + s.HL) % 65536 = _
    rw [Nat.mul_one, Nat.add_comm]
  · refine (ldxrIter_DE 1 (m + 1)
      { s with PC := ((s.PC + 1) % 65536 + 1) % 65536, BC := s.BC &&& 0xffff }
      (show s.DE < 65536 by omega)).trans ?_
    show ((m + 1) * 1 + s.DE) % 65536 = _
    rw [Nat.mul_one, Nat.add_comm]
  · refine (ldxrIter_PC 1 (m + 1)
      { s with PC := ((s.PC + 1) % 65536 + 1) % 65536, BC := s.BC &&& 0xffff }).trans ?_
    show ((s.PC + 1) % 65536 + 1) % 65536 = _
    omega

/-- C7 at the scenario `HL = 0x2000`, `DE = 0x3000`, `BC = 3`. -/
theorem ldir_copy_witness :
    ∃ s', z80step 3 ldirState = some s' ∧
      (∀ i, i < 3 → readRam s' (ldirState.DE + i) = readRam ldirState (ldirState.HL + i)) ∧
      s'.BC = 0 ∧ s'.HL = (ldirState.HL + 3) % 65536 ∧ s'.DE = (ldirState.DE + 3) % 65536 ∧
      testFlag s'.AF ParityFlag = false ∧ testFlag s'.AF HalfFlag = false ∧
      testFlag s'.AF SubFlag = false ∧
      testFlag s'.AF SignFlag = testFlag ldirState.AF SignFlag ∧
      testFlag s'.AF ZeroFlag = testFlag ldirState.AF ZeroFlag ∧
      testFlag s'.AF CarryFlag = testFlag ldirState.AF CarryFlag ∧
      s'.PC = (ldirState.PC + 2) % 65536 :=
  ldir_copy 3 3 ldirState (by decide) (by decide) (by decide) (by decide) (by decide)
    (by decide) (by decide) (by decide) (by decide) (by decide)

/-- One step on `ED B0` entered with `rounds 65536 BC = n + 1`: the registers,
the flags, the cells outside writable RAM and the first cell stored to. -/
theorem ldir_step (fuel n : Nat) (s : State)
    (hop0 : readRam s s.PC = 0xED) (hop1 : readRam s (s.PC + 1) = 0xB0)
    (hr : rounds 65536 (s.BC &&& 0xffff) = n + 1) (hf : n < fuel)
    (hHL : s.HL < 65536) (hDE : s.DE < 65536) :
    ∃ s', z80step fuel s = some s' ∧
      s'.HL = (n + 1 + s.HL) % 65536 ∧ s'.DE = (n + 1 + s.DE) % 65536 ∧
      s'.BC = ((n + 1) * 65535 + (s.BC &&& 0xffff)) % 65536 ∧
      testFlag s'.AF ParityFlag = false ∧
      s'.PC = (s.PC + 2) % 65536 ∧
      (∀ a, ¬ (0x0800 ≤ a % 65536 ∧ a % 65536 < 0xE000) → readRam s' a = readRam s a) ∧
      (0x0800 ≤ s.DE ∧ s.DE < 0xE000 → n < 65536 → readRam s' s.DE = readRam s s.HL) := by
  obtain ⟨acu, h⟩ :=
    ldxr_eq 1 fuel n { s with PC := ((s.PC + 1) % 65536 + 1) % 65536 } hr hf
  obtain ⟨f1, _, _, _, _, _⟩ := ldxr_flags s.AF acu
  refine ⟨_, (z80step_ldir fuel s hop0 hop1).trans h, ?_, ?_, ?_, f1, ?_, ?_, ?_⟩
  · refine (ldxrIter_HL 1 (n + 1)
      { s with PC := ((s.PC + 1) % 65536 + 1) % 65536, BC := s.BC &&& 0xffff } hHL).trans ?_
    show ((n + 1) * 1 + s.HL) % 65536 = _
    rw [Nat.mul_one]
  · refine (ldxrIter_DE 1 (n + 1)
      { s with PC := ((s.PC + 1) % 65536 + 1) % 65536, BC := s.BC &&& 0xffff } hDE).trans ?_
    show ((n + 1) * 1 + s.DE) % 65536 = _
    rw [Nat.mul_one]
  · exact ldxrIter_BC 1 (n + 1)
      { s with PC := ((s.PC + 1) % 65536 + 1) % 65536, BC := s.BC &&& 0xffff }
      (and_ffff_lt s.BC)
  · refine (ldxrIter_PC 1 (n + 1)
      { s with PC := ((s.PC + 1) % 65536 + 1) % 65536, BC := s.BC &&& 0xffff }).trans ?_
    show ((s.PC + 1) % 65536 + 1) % 65536 = _
    omega
  · intro a ha
    exact readRam_ldxrIter_rom 1 (n + 1)
      { s with PC := ((s.PC + 1) % 65536 + 1) % 65536, BC := s.BC &&& 0xffff } a ha
  · intro hw hn
    exact readRam_ldirIter_first n
      { s with PC := ((s.PC + 1) % 65536 + 1) % 65536, BC := s.BC &&& 0xffff } hn hw

/-- C8 (amended): for every state with `BC = 0` at entry, one step on `ED B0`
(`LDIR`) runs the copy loop 65536 times.  `HL` and `DE` come back to their
entry values, `BC` is 0 again and the P/V flag is cleared; every cell outside
writable RAM keeps its byte, but when `DE` is in writable RAM the cell at `DE`
ends up holding the byte that was at `HL`, so memory is not preserved. -/
theorem ldir_bc_zero (fuel : Nat) (s : State)
    (hop0 : readRam s s.PC = 0xED) (hop1 : readRam s (s.PC + 1) = 0xB0)
    (hBC : s.BC = 0) (hHL : s.HL < 65536) (hDE : s.DE < 65536) (hfuel : 65536 ≤ fuel) :
    ∃ s', z80step fuel s = some s' ∧
      s'.HL = s.HL ∧ s'.DE = s.DE ∧ s'.BC = 0 ∧
      testFlag s'.AF ParityFlag = false ∧
      (∀ a, ¬ (0x0800 ≤ a % 65536 ∧ a % 65536 < 0xE000) → readRam s' a = readRam s a) ∧
      (0x0800 ≤ s.DE ∧ s.DE < 0xE000 → readRam s' s.DE = readRam s s.HL) := by
  have hand : s.BC &&& 0xffff = 0 := by rw [hBC]; exact Nat.zero_and _
  have hr : rounds 65536 (s.BC &&& 0xffff) = 65535 + 1 := by rw [hand]; rfl
  obtain ⟨s', h, e1, e2, e3, e4, _, e6, e7⟩ :=
    ldir_step fuel 65535 s hop0 hop1 hr (by omega) hHL hDE
  refine ⟨s', h, ?_, ?_, ?_, e4, e6, fun hw => e7 hw (by omega)⟩
  · rw [e1]; omega
  · rw [e2]; omega
  · rw [e3, hand]

/-- C8 (amended) at `HL = 0x2000`, `DE = 0x3000`, `BC = 0`. -/
theorem ldir_bc_zero_witness :
    ∃ s', z80step 65536 ldirZeroState = some s' ∧
      s'.HL = ldirZeroState.HL ∧ s'.DE = ldirZeroState.DE ∧ s'.BC = 0 ∧
      testFlag s'.AF ParityFlag = false ∧
      (∀ a, ¬ (0x0800 ≤ a % 65536 ∧ a % 65536 < 0xE000) →
        readRam s' a = readRam ldirZeroState a) ∧
      (0x0800 ≤ ldirZeroState.DE ∧ ldirZeroState.DE < 0xE000 →
        readRam s' ldirZeroState.DE = readRam ldirZeroState ldirZeroState.HL) :=
  ldir_bc_zero 65536 ldirZeroState (by decide) (by decide) (by decide) (by decide)
    (by decide) (by decide)

/-- C8 as stated fails: entered with `BC = 0`, `HL = 0x2000`, `DE = 0x3000`,
`LDIR` copies the byte `0xAA` from `0x2000` to `0x3000`, which held `0x00`. -/
theorem ldir_bc_zero_copies_counterexample :
    ∃ s', z80step stepFuel ldirZeroState = some s' ∧
      readRam ldirZeroState 0x3000 = 0x00 ∧ readRam s' 0x3000 = 0xAA := by
  obtain ⟨s', h, _, _, _, _, _, _, e7⟩ :=
    ldir_step stepFuel 65535 ldirZeroState (by decide) (by decide) (by decide) (by decide)
      (by decide) (by decide)
  exact ⟨s', h, by decide, e7 (by decide) (by decide)⟩

/-! ## C11: `HALT` -/

/-- `HALT` as the code executes it: the step returns with `PC` already
advanced by the fetch. -/
theorem z80step_halt (fuel : Nat) (s : State) (h : readRam s s.PC = 0x76) :
    z80step fuel s = some { s with PC := (s.PC + 1) % 65536 } := by
  rw [z80step_main fuel s (by rw [h]; decide), h]
  rfl

/-- C11 (evaluation at the failing input): with `HALT` at `0x1000`, one step
leaves `PC = 0x1001`, past the `HALT` opcode, and the step after it executes
the `NOP` at `0x1001` and leaves `PC = 0x1002`: the CPU does not stay halted. -/
theorem halt_advances_pc :
    (z80step 0 haltState).map (fun t => t.PC) = some 0x1001 ∧
    ((z80step 0 haltState).bind (z80step 0)).map (fun t => t.PC) = some 0x1002 := by
  decide

/-! ## C20: 16-bit words in memory -/

theorem readRam_writeWord_low (s : State) (a v : Nat) (ha : a < 65536)
    (h0 : 0x0800 ≤ a) (h1 : a + 1 < 0xE000) :
    readRam (writeWord s a v) a = v % 65536 % 256 := by
  unfold writeWord
  dsimp only
  rw [Nat.mod_eq_of_lt ha, readRam_writeRam_other _ _ _ _ (by omega), readRam_writeRam_same,
    if_pos (by omega), Nat.and_pow_two_sub_one_eq_mod _ 8]
  omega

theorem readRam_writeWord_high (s : State) (a v : Nat) (ha : a < 65536)
    (h0 : 0x0800 ≤ a) (h1 : a + 1 < 0xE000) :
    readRam (writeWord s a v) (a + 1) = v % 65536 / 256 := by
  unfold writeWord
  dsimp only
  rw [Nat.mod_eq_of_lt ha, readRam_writeRam_same, if_pos (by omega),
    Nat.shiftRight_eq_div_pow]
  omega

/-- `readWord` is the byte at `a` plus 256 times the byte at the next
address, which after `0xFFFF` is `0x0000`. -/
theorem readWord_eq (s : State) (a : Nat) :
    readWord s a = readRam s a + 256 * readRam s ((a + 1) % 65536) := by
  unfold readWord
  have e : readRam s (a % 65536 + 1) = readRam s ((a + 1) % 65536) :=
    readRam_congr' _ _ _ _ rfl (by omega)
  have hl := readRam_lt s a
  have hh := readRam_lt s ((a + 1) % 65536)
  rw [e, Nat.shiftLeft_eq, Nat.or_comm, Nat.mul_comm,
    ← Nat.mul_add_lt_is_or (by omega : readRam s a < 2 ^ 8)]
  omega

/-- C20: for every address `a` with `a` and `a+1` in writable RAM and every
16-bit `v`, after `writeWord(a, v)` the low byte of `v` is at `a`, the high
byte at `a+1`, and `readWord(a) = v`; and for every 16-bit address `a`,
`0xFFFF` included, `readWord(a) = read(a) + 256 * read((a+1) mod 65536)`. -/
theorem word_access (s : State) (a : Nat) (ha : a < 65536) :
    readWord s a = readRam s a + 256 * readRam s ((a + 1) % 65536) ∧
    ∀ v, v < 65536 → 0x0800 ≤ a → a + 1 < 0xE000 →
      readRam (writeWord s a v) a = v % 256 ∧
      readRam (writeWord s a v) (a + 1) = v / 256 ∧
      readWord (writeWord s a v) a = v := by
  refine ⟨readWord_eq s a, ?_⟩
  intro v hv h0 h1
  have hl := readRam_writeWord_low s a v ha h0 h1
  have hh := readRam_writeWord_high s a v ha h0 h1
  have e : (a + 1) % 65536 = a + 1 := by omega
  refine ⟨by rw [hl]; omega, by rw [hh]; omega, ?_⟩
  rw [readWord_eq, e, hl, hh]
  omega

/-- C20 at `a = 0x2000`, `v = 0xBEEF`, and its first part at `a = 0xFFFF`. -/
theorem word_access_witness :
    (readWord zeroState 0xFFFF =
        readRam zeroState 0xFFFF + 256 * readRam zeroState ((0xFFFF + 1) % 65536)) ∧
    readRam (writeWord zeroState 0x2000 0xBEEF) 0x2000 = 0xBEEF % 256 ∧
    readRam (writeWord zeroState 0x2000 0xBEEF) (0x2000 + 1) = 0xBEEF / 256 ∧
    readWord (writeWord zeroState 0x2000 0xBEEF) 0x2000 = 0xBEEF :=
  ⟨(word_access zeroState 0xFFFF (by decide)).1,
   (word_access zeroState 0x2000 (by decide)).2 0xBEEF (by decide) (by decide) (by decide)⟩

/-! ## The `0xCB` group as fetch, compute, store -/

/-- `cb_prefix` is its three `switch` statements in sequence. -/
theorem cb_prefix_eq (s : State) (adr : Nat) :
    cb_prefix s adr =
      cbStore (readRam s s.PC &&& 7)
        { s with
          PC := (s.PC + 1) % 65536,
          AF := (cbCompute (readRam s s.PC)
                  (cbOperand (readRam s s.PC &&& 7) s (adr % 65536)) s.AF).2 }
        (adr % 65536)
        (cbCompute (readRam s s.PC)
          (cbOperand (readRam s s.PC &&& 7) s (adr % 65536)) s.AF).1 := by
  rfl

/-! ## C14: `parity` -/

/-- Once `val` has reached zero, further rounds of the loop of `parity`
change nothing. -/
theorem parityLoop_fuel :
    ∀ (k n val : Nat) (p : Bool), clearLowest^[k] val = 0 →
      parityLoop (k + n) val p = parityLoop k val p := by
  intro k
  induction k with
  | zero =>
    intro n val p h
    have hv : val = 0 := h
    subst hv
    rw [Nat.zero_add]
    cases n <;> rfl
  | succ k ih =>
    intro n val p h
    rw [show k + 1 + n = (k + n) + 1 by omega]
    unfold parityLoop
    by_cases hv : val ≠ 0
    · rw [if_pos hv, if_pos hv]
      exact ih n _ _ h
    · rw [if_neg hv, if_neg hv]

/-- Every byte is cleared by eight rounds, and `parity` of a byte is `0x04`
exactly when its number of 1 bits is even. -/
theorem parityTable :
    allBelow 256 (fun r =>
      Nat.beq (clearLowest^[8] r) 0 &&
      Nat.beq (parity r) (if popcount r % 2 = 0 then 0x04 else 0x00)) = true := by
  decide!

/-! ### Bit 2 of the flag byte -/

theorem parity_cases (t : Nat) : parity t = 0 ∨ parity t = 4 := by
  unfold parity
  split_ifs
  · exact Or.inr rfl
  · exact Or.inl rfl

/-- A word whose bit 2 is bit 2 of `y`, where `y` is `0` or `4`, has
`x &&& 4 = y`. -/
theorem and4_of_testBit (x y : Nat) (h : x.testBit 2 = y.testBit 2) (hy : y = 0 ∨ y = 4) :
    x &&& 4 = y := by
  have e := and_two_pow x 2
  have e4 : (2 : Nat) ^ 2 = 4 := rfl
  rw [e4] at e
  rw [e]
  have hx := testBit_iff x 2
  rw [e4] at hx
  rcases hy with rfl | rfl
  · have : x.testBit 2 = false := h
    have : ¬ (x / 4 % 2 = 1) := by rw [← hx, this]; simp
    omega
  · have : x.testBit 2 = true := h
    have : x / 4 % 2 = 1 := hx.mp this
    omega

theorem testBit2_mod (x : Nat) : (x % 65536).testBit 2 = x.testBit 2 := by
  rw [show (65536 : Nat) = 2 ^ 16 from rfl, Nat.testBit_mod_two_pow]
  simp

theorem andAF_bit2 (sum : Nat) : andAF sum &&& 4 = parity sum := by
  apply and4_of_testBit _ _ _ (parity_cases sum)
  unfold andAF
  have c1 : Nat.testBit 0xa8 2 = false := by rfl
  have c2 : Nat.testBit 0x10 2 = false := by rfl
  rw [testBit2_mod]
  simp only [Nat.testBit_or, Nat.testBit_and, Nat.testBit_shiftLeft, c1, c2]
  simp

theorem orAF_bit2 (sum : Nat) : orAF sum &&& 4 = parity sum := by
  apply and4_of_testBit _ _ _ (parity_cases sum)
  unfold orAF
  have c1 : Nat.testBit 0xa8 2 = false := by rfl
  rw [testBit2_mod]
  simp only [Nat.testBit_or, Nat.testBit_and, Nat.testBit_shiftLeft, c1]
  simp

theorem inAF_bit2 (AF temp : Nat) : inAF AF temp &&& 4 = parity temp := by
  apply and4_of_testBit _ _ _ (parity_cases temp)
  unfold inAF
  have c1 : Nat.testBit 0xa8 2 = false := by rfl
  have c2 : Nat.testBit (bnot 0xfe) 2 = false := by rfl
  rw [testBit2_mod]
  simp only [Nat.testBit_or, Nat.testBit_and, Nat.testBit_shiftLeft, c1, c2]
  simp

theorem testBit2_le_one (c : Nat) (hc : c ≤ 1) : c.testBit 2 = false :=
  Nat.testBit_lt_two_pow (by omega : c < 2 ^ 2)

theorem b2n_le_one (c : Bool) : b2n c ≤ 1 := by
  cases c <;> decide

theorem parity_lt (t : Nat) : parity t < 256 := by
  rcases parity_cases t with h | h <;> omega

/-- Bit 2 of the flag word of the `CB` rotates and shifts. -/
theorem rotAF_bit2 (AF t z c : Nat) (hc : c ≤ 1) :
    (((AF &&& bnot 0xff) ||| (t &&& 0xa8) ||| (z <<< 6) ||| parity t ||| c) % 65536) &&& 4 =
      parity t := by
  apply and4_of_testBit _ _ _ (parity_cases t)
  have c1 : Nat.testBit 0xa8 2 = false := by rfl
  have c2 : Nat.testBit (bnot 0xff) 2 = false := by rfl
  rw [testBit2_mod]
  simp only [Nat.testBit_or, Nat.testBit_and, Nat.testBit_shiftLeft, c1, c2,
    testBit2_le_one c hc]
  simp

/-- Bit 2 of the flag word of `DAA`, `RRD` and `RLD`. -/
theorem accAF_bit2 (acu z k c : Nat) (hk : k.testBit 2 = false) (hc : c.testBit 2 = false) :
    (((acu <<< 8) ||| (acu &&& 0xa8) ||| (z <<< 6) ||| k ||| parity acu ||| c) % 65536) &&& 4 =
      parity acu := by
  apply and4_of_testBit _ _ _ (parity_cases acu)
  have c1 : Nat.testBit 0xa8 2 = false := by rfl
  rw [testBit2_mod]
  simp only [Nat.testBit_or, Nat.testBit_and, Nat.testBit_shiftLeft, c1, hk, hc]
  simp

/-- The high byte of a word assembled from a byte shifted up and a byte. -/
theorem highReg_join (acu low : Nat) (ha : acu < 256) (hl : low < 256) :
    highReg (((acu <<< 8) ||| low) % 65536) = acu := by
  rw [highReg_eq, Nat.shiftLeft_eq, Nat.mul_comm,
    ← Nat.mul_add_lt_is_or (by omega : low < 2 ^ 8)]
  omega

theorem lowReg_join (acu low : Nat) (hl : low < 256) :
    lowReg (((acu <<< 8) ||| low) % 65536) = low := by
  rw [lowReg_eq, Nat.shiftLeft_eq, Nat.mul_comm,
    ← Nat.mul_add_lt_is_or (by omega : low < 2 ^ 8)]
  omega

theorem or_lt_256 (x y : Nat) (hx : x < 256) (hy : y < 256) : x ||| y < 256 :=
  Nat.or_lt_two_pow (by omega : x < 2 ^ 8) (by omega : y < 2 ^ 8)

theorem and_lt_256 (x y : Nat) (hy : y < 256) : x &&& y < 256 :=
  Nat.and_lt_two_pow x (by omega : y < 2 ^ 8)

theorem zbit_lt (c : Prop) [Decidable c] : (if c then 1 else 0 : Nat) <<< 6 < 256 := by
  split_ifs <;> decide

/-- The shape of the flag word `DAA` leaves: the adjusted accumulator `acu`
in the high byte, and in the low byte its sign, zero and parity bits, the old
`H` and `N` bits as left by the adjustment, and the carry. -/
theorem daaAF_form (AF : Nat) :
    ∃ acu k c, acu < 256 ∧ k < 256 ∧ k.testBit 2 = false ∧ c ≤ 1 ∧
      daaAF AF = ((acu <<< 8) ||| (acu &&& 0xa8) ||| ((if acu = 0 then 1 else 0) <<< 6) |||
        k ||| parity acu ||| c) % 65536 := by
  refine ⟨_, _, _, ?_, ?_, ?_, ?_, rfl⟩
  · exact and_lt_256 _ _ (by decide)
  · exact and_lt_256 _ _ (by decide)
  · rw [Nat.testBit_and]
    have : Nat.testBit 0x12 2 = false := by rfl
    rw [this, Bool.and_false]
  · apply Nat.le_of_lt_succ
    apply @Nat.or_lt_two_pow _ _ 1
    · have := b2n_le_one (testFlag AF CarryFlag)
      omega
    · exact Nat.and_lt_two_pow _ (by decide)

/-- `DAA` puts `parity` of the adjusted accumulator into bit 2 of `F`. -/
theorem daaAF_bit2 (AF : Nat) : daaAF AF &&& 4 = parity (highReg (daaAF AF)) := by
  obtain ⟨acu, k, c, ha, hk, hk2, hc, e⟩ := daaAF_form AF
  have hz := zbit_lt (acu = 0)
  have hh : highReg (daaAF AF) = acu := by
    rw [e]
    simp only [Nat.or_assoc]
    exact highReg_join acu _ ha
      (or_lt_256 _ _ (and_lt_256 _ _ (by decide)) (or_lt_256 _ _ hz
        (or_lt_256 _ _ hk (or_lt_256 _ _ (parity_lt acu) (by omega)))))
  rw [hh, e]
  exact accAF_bit2 acu _ k c hk2 (testBit2_le_one c hc)

/-- Bit 2 of the flag word of a `CB` rotate or shift is `parity` of the
result. -/
theorem cbCompute_bit2 (op acu AF : Nat) (h : op &&& 0xc0 = 0x00) :
    (cbCompute op acu AF).2 &&& 4 = parity (cbCompute op acu AF).1 := by
  unfold cbCompute
  dsimp only
  rw [if_pos h]
  dsimp only
  exact rotAF_bit2 _ _ _ _ (by split_ifs <;> omega)

theorem lowDigit_lt (v : Nat) : lowDigit v < 256 := and_lt_256 _ _ (by decide)

theorem highDigit_lt (v : Nat) : highDigit v < 256 := and_lt_256 _ _ (by decide)

/-- `RRD` on the opcode already fetched. -/
theorem edPlain_67 (s : State) :
    edPlain 0x67 s =
      { writeRam s s.HL (highDigit (readRam s s.HL) ||| (lowDigit (highReg s.AF) <<< 4)) with
        AF := ((((highReg s.AF &&& 0xf0) ||| lowDigit (readRam s s.HL)) <<< 8) |||
          (((highReg s.AF &&& 0xf0) ||| lowDigit (readRam s s.HL)) &&& 0xa8) |||
          ((if (((highReg s.AF &&& 0xf0) ||| lowDigit (readRam s s.HL)) &&& 0xff) = 0
            then 1 else 0) <<< 6) |||
          parity ((highReg s.AF &&& 0xf0) ||| lowDigit (readRam s s.HL)) |||
          ((writeRam s s.HL
            (highDigit (readRam s s.HL) ||| (lowDigit (highReg s.AF) <<< 4))).AF &&& 1)) %
          65536 } := rfl

/-- `RLD` on the opcode already fetched. -/
theorem edPlain_6F (s : State) :
    edPlain 0x6F s =
      { writeRam s s.HL ((lowDigit (readRam s s.HL) <<< 4) ||| lowDigit (highReg s.AF)) with
        AF := ((((highReg s.AF &&& 0xf0) ||| highDigit (readRam s s.HL)) <<< 8) |||
          (((highReg s.AF &&& 0xf0) ||| highDigit (readRam s s.HL)) &&& 0xa8) |||
          ((if (((highReg s.AF &&& 0xf0) ||| highDigit (readRam s s.HL)) &&& 0xff) = 0
            then 1 else 0) <<< 6) |||
          parity ((highReg s.AF &&& 0xf0) ||| highDigit (readRam s s.HL)) |||
          ((writeRam s s.HL
            ((lowDigit (readRam s s.HL) <<< 4) ||| lowDigit (highReg s.AF))).AF &&& 1)) %
          65536 } := rfl

/-- The shape of the flag word `RRD` (`ED 67`) and `RLD` (`ED 6F`) leave. -/
theorem rrdAF_form (op : Nat) (s : State) (hop : op = 0x67 ∨ op = 0x6F) :
    ∃ acu c, acu < 256 ∧ c ≤ 1 ∧
      (edPlain op s).AF = ((acu <<< 8) ||| (acu &&& 0xa8) |||
        ((if (acu &&& 0xff) = 0 then 1 else 0) <<< 6) ||| parity acu ||| c) % 65536 := by
  have h1 : ∀ x : Nat, x &&& 1 ≤ 1 := fun x => by
    have := Nat.and_lt_two_pow x (by decide : 1 < 2 ^ 1); omega
  rcases hop with rfl | rfl
  · rw [edPlain_67]
    exact ⟨_, _, or_lt_256 _ _ (and_lt_256 _ _ (by decide)) (lowDigit_lt _), h1 _, rfl⟩
  · rw [edPlain_6F]
    exact ⟨_, _, or_lt_256 _ _ (and_lt_256 _ _ (by decide)) (highDigit_lt _), h1 _, rfl⟩

/-- Bit 2 of a flag word assembled as `RRD` and `RLD` do. -/
theorem rrdWord_bit2 (acu z c : Nat) (hc : c.testBit 2 = false) :
    (((acu <<< 8) ||| (acu &&& 0xa8) ||| (z <<< 6) ||| parity acu ||| c) % 65536) &&& 4 =
      parity acu := by
  apply and4_of_testBit _ _ _ (parity_cases acu)
  have c1 : Nat.testBit 0xa8 2 = false := by rfl
  rw [testBit2_mod]
  simp only [Nat.testBit_or, Nat.testBit_and, Nat.testBit_shiftLeft, c1, hc]
  simp

/-- `RRD` and `RLD` put `parity` of the new accumulator into bit 2 of `F`. -/
theorem rrdAF_bit2 (op : Nat) (s : State) (hop : op = 0x67 ∨ op = 0x6F) :
    (edPlain op s).AF &&& 4 = parity (highReg (edPlain op s).AF) := by
  obtain ⟨acu, c, ha, hc, e⟩ := rrdAF_form op s hop
  have hz := zbit_lt ((acu &&& 0xff) = 0)
  have hh : highReg (edPlain op s).AF = acu := by
    rw [e]
    simp only [Nat.or_assoc]
    exact highReg_join acu _ ha
      (or_lt_256 _ _ (and_lt_256 _ _ (by decide)) (or_lt_256 _ _ hz
        (or_lt_256 _ _ (parity_lt acu) (by omega))))
  rw [hh, e]
  exact rrdWord_bit2 acu _ c (testBit2_le_one c hc)

/-- C14: for every byte `r`, `parity(r)` is `0x04` when the number of 1 bits
of `r` is even and `0x00` otherwise, its loop having ended within eight
rounds; and this is the value in bit 2 of `F` after the logical instructions
(`andAF`, `orAF`), the `CB` rotates and shifts, `DAA`, `RRD`/`RLD` and
`IN r,(C)` (`inAF`), taken of the result byte of the instruction. -/
theorem parity_even_popcount (r : Nat) (hr : r < 256) :
    parity r = (if popcount r % 2 = 0 then 0x04 else 0x00) ∧
    (∀ n, parityLoop (8 + n) r true = parityLoop 8 r true) ∧
    andAF r &&& 4 = parity r ∧
    orAF r &&& 4 = parity r ∧
    (∀ op acu AF, op &&& 0xc0 = 0x00 →
      (cbCompute op acu AF).2 &&& 4 = parity (cbCompute op acu AF).1) ∧
    (∀ AF, daaAF AF &&& 4 = parity (highReg (daaAF AF))) ∧
    (∀ s, (edPlain 0x67 s).AF &&& 4 = parity (highReg (edPlain 0x67 s).AF)) ∧
    (∀ s, (edPlain 0x6F s).AF &&& 4 = parity (highReg (edPlain 0x6F s).AF)) ∧
    (∀ AF, inAF AF r &&& 4 = parity r) := by
  have h := allBelow_spec parityTable r hr
  rw [Bool.and_eq_true] at h
  refine ⟨Nat.eq_of_beq_eq_true h.2, fun n => ?_, andAF_bit2 r, orAF_bit2 r,
    cbCompute_bit2, daaAF_bit2, fun s => rrdAF_bit2 _ s (Or.inl rfl),
    fun s => rrdAF_bit2 _ s (Or.inr rfl), fun AF => inAF_bit2 AF r⟩
  exact parityLoop_fuel 8 n r true (Nat.eq_of_beq_eq_true h.1)

/-- C14 at `r = 0x42`, a byte with two 1 bits. -/
theorem parity_even_popcount_witness :
    parity 0x42 = (if popcount 0x42 % 2 = 0 then 0x04 else 0x00) ∧ parity 0x42 = 0x04 :=
  ⟨(parity_even_popcount 0x42 (by decide)).1, by decide⟩

/-! ## Halves of a register pair -/

theorem and_ff_lt (x : Nat) : x &&& 0xff < 256 := and_lt_256 _ _ (by decide)

/-- The high byte of a word, kept in place. -/
theorem and_ff00 (x : Nat) : x &&& 0xff00 = (highReg x) <<< 8 := by
  rw [highReg_eq, Nat.shiftLeft_eq, Nat.mul_comm]
  apply Nat.eq_of_testBit_eq
  intro i
  have e1 : (0xff00 : Nat) = 2 ^ 8 * (2 ^ 8 - 1) := rfl
  have e2 : (256 : Nat) = 2 ^ 8 := rfl
  rw [Nat.testBit_and, e1, e2, Nat.testBit_mul_pow_two, Nat.testBit_mul_pow_two,
    Nat.testBit_two_pow_sub_one, Nat.testBit_mod_two_pow, ← Nat.shiftRight_eq_div_pow,
    Nat.testBit_shiftRight]
  by_cases h : 8 ≤ i
  · have : 8 + (i - 8) = i := by omega
    rw [this]
    simp [h, Bool.and_comm]
  · simp [h]

theorem highReg_SethighReg (x v : Nat) : highReg (SethighReg x v) = v &&& 0xff := by
  unfold SethighReg
  rw [Nat.or_comm]
  exact highReg_join _ _ (and_ff_lt v) (and_ff_lt x)

theorem lowReg_SethighReg (x v : Nat) : lowReg (SethighReg x v) = lowReg x := by
  unfold SethighReg
  rw [Nat.or_comm]
  exact lowReg_join _ _ (and_ff_lt x)

theorem highReg_SetlowReg (x v : Nat) : highReg (SetlowReg x v) = highReg x := by
  unfold SetlowReg
  rw [and_ff00]
  exact highReg_join _ _ (highReg_lt x) (and_ff_lt v)

theorem lowReg_SetlowReg (x v : Nat) : lowReg (SetlowReg x v) = v &&& 0xff := by
  unfold SetlowReg
  rw [and_ff00]
  exact lowReg_join _ _ (and_ff_lt v)

/-! ## C15: `SET` and `RES` -/

theorem z80main_CB (s : State) : z80main 0xCB s = cb_prefix s s.HL := rfl

theorem writeRam_mod (s : State) (a v : Nat) : writeRam s (a % 65536) v = writeRam s a v := by
  unfold writeRam
  simp only [Nat.mod_mod]

theorem cbOperand_congr (t : Nat) (s s1 : State) (a a1 : Nat)
    (hBC : s1.BC = s.BC) (hDE : s1.DE = s.DE) (hHL : s1.HL = s.HL) (hAF : s1.AF = s.AF)
    (hram : s1.ram = s.ram) (ha : a1 % 65536 = a % 65536) :
    cbOperand t s1 a1 = cbOperand t s a := by
  unfold cbOperand
  rw [hBC, hDE, hHL, hAF, readRam_congr' s1 s a1 a hram ha]

theorem cbStore_mod (t : Nat) (s : State) (a v : Nat) :
    cbStore t s (a % 65536) v = cbStore t s a v := by
  unfold cbStore
  rw [writeRam_mod]

theorem cbOperand_lt (t : Nat) (s : State) (a : Nat) : cbOperand t s a < 256 := by
  unfold cbOperand
  split_ifs <;> first | exact highReg_lt _ | exact lowReg_lt _ | exact readRam_lt _ _

/-- A step on `CB op`: operand, computation and store, with `(HL)` as the
memory operand. -/
theorem z80step_cb (fuel : Nat) (s : State) (op : Nat)
    (h0 : readRam s s.PC = 0xCB) (h1 : readRam s (s.PC + 1) = op) :
    z80step fuel s = some
      (cbStore (op &&& 7)
        { s with
          PC := ((s.PC + 1) % 65536 + 1) % 65536,
          AF := (cbCompute op (cbOperand (op &&& 7) s s.HL) s.AF).2 }
        s.HL (cbCompute op (cbOperand (op &&& 7) s s.HL) s.AF).1) := by
  rw [z80step_main fuel s (by rw [h0]; decide), h0, z80main_CB, cb_prefix_eq]
  have e : readRam { s with PC := (s.PC + 1) % 65536 }
      ({ s with PC := (s.PC + 1) % 65536 } : State).PC = op := by
    rw [← h1]; exact readRam_congr' _ _ _ _ rfl (by show (s.PC + 1) % 65536 % 65536 = _; omega)
  rw [e, cbStore_mod,
    cbOperand_congr (op &&& 7) s { s with PC := (s.PC + 1) % 65536 } s.HL
      (({ s with PC := (s.PC + 1) % 65536 } : State).HL % 65536) rfl rfl rfl rfl rfl
      (by show s.HL % 65536 % 65536 = s.HL % 65536; omega)]

/-- Reading the operand back after the store: the low byte of `temp`. -/
theorem cbOperand_cbStore (t : Nat) (s : State) (adr a v : Nat) (ht : t < 8)
    (ha : t = 6 → a % 65536 = adr % 65536)
    (hw : t = 6 → 0x0800 ≤ adr % 65536 ∧ adr % 65536 < 0xE000) :
    cbOperand t (cbStore t s adr v) a = v &&& 0xff := by
  interval_cases t
  · exact highReg_SethighReg _ _
  · exact lowReg_SetlowReg _ _
  · exact highReg_SethighReg _ _
  · exact lowReg_SetlowReg _ _
  · exact highReg_SethighReg _ _
  · exact lowReg_SetlowReg _ _
  · show readRam (writeRam s adr v) a = v &&& 0xff
    rw [readRam_congr' _ _ a adr rfl (ha rfl), readRam_writeRam_same, if_pos (hw rfl)]
    exact (Nat.and_pow_two_sub_one_eq_mod v 8).symm
  · exact highReg_SethighReg _ _

theorem cbStore_HL (s : State) (adr v : Nat) : (cbStore 6 s adr v).HL = s.HL :=
  writeRam_HL s adr v

theorem cbStore_PC (t : Nat) (s : State) (adr v : Nat) : (cbStore t s adr v).PC = s.PC := by
  unfold cbStore
  split_ifs <;> first | rfl | exact writeRam_PC _ _ _

/-- The store changes no memory cell but, for `(HL)`, the one addressed. -/
theorem readRam_cbStore (t : Nat) (s : State) (adr v a : Nat)
    (h : t = 6 → a % 65536 ≠ adr % 65536) :
    readRam (cbStore t s adr v) a = readRam s a := by
  unfold cbStore
  split_ifs with h0 h1 h2 h3 h4 h5 h6
  all_goals first | rfl | exact readRam_writeRam_other _ _ _ _ (h h6)

/-- The store leaves the flag byte as it is. -/
theorem cbStore_flags (t : Nat) (s : State) (adr v : Nat) :
    lowReg (cbStore t s adr v).AF = lowReg s.AF := by
  unfold cbStore
  split_ifs <;> first | rfl | (rw [writeRam_AF]) | exact lowReg_SethighReg _ _

/-- The fields of the opcodes `SET b,t` (`0xC0 + 8b + t`) and `RES b,t`
(`0x80 + 8b + t`). -/
theorem setResDecodeTable :
    allBelow 8 (fun b => allBelow 8 (fun t =>
      Nat.beq ((0xC0 + 8 * b + t) &&& 7) t && Nat.beq (((0xC0 + 8 * b + t) >>> 3) &&& 7) b &&
      Nat.beq ((0xC0 + 8 * b + t) &&& 0xc0) 0xc0 &&
      Nat.beq ((0x80 + 8 * b + t) &&& 7) t && Nat.beq (((0x80 + 8 * b + t) >>> 3) &&& 7) b &&
      Nat.beq ((0x80 + 8 * b + t) &&& 0xc0) 0x80)) = true := by
  decide!

/-- On a byte, `SET` and `RES` as computed on 32-bit integers and cut to a
byte are `a ||| 2^b` and `a &&& (255 - 2^b)`; and clearing a bit after setting
it is clearing it. -/
theorem setResByteTable :
    allBelow 256 (fun a => allBelow 8 (fun b =>
      Nat.beq ((a ||| (1 <<< b)) &&& 0xff) (a ||| 2 ^ b) &&
      Nat.beq ((a &&& bnot (1 <<< b)) &&& 0xff) (a &&& (255 - 2 ^ b)) &&
      Nat.beq ((a ||| 2 ^ b) &&& (255 - 2 ^ b)) (a &&& (255 - 2 ^ b)))) = true := by
  decide!

theorem cbCompute_set (op a AF b : Nat) (hb : (op >>> 3) &&& 7 = b)
    (hc : op &&& 0xc0 = 0xc0) : cbCompute op a AF = (a ||| (1 <<< b), AF) := by
  unfold cbCompute
  dsimp only
  rw [hb, hc]
  rfl

theorem cbCompute_res (op a AF b : Nat) (hb : (op >>> 3) &&& 7 = b)
    (hc : op &&& 0xc0 = 0x80) : cbCompute op a AF = (a &&& bnot (1 <<< b), AF) := by
  unfold cbCompute
  dsimp only
  rw [hb, hc]
  rfl

/-- One step of `SET b,t`. -/
theorem set_step (fuel : Nat) (s : State) (b t : Nat) (hb : b < 8) (ht : t < 8)
    (h0 : readRam s s.PC = 0xCB) (h1 : readRam s (s.PC + 1) = 0xC0 + 8 * b + t)
    (hHL : t = 6 → 0x0800 ≤ s.HL % 65536 ∧ s.HL % 65536 < 0xE000) :
    ∃ s', z80step fuel s = some s' ∧
      cbOperand t s' s'.HL = cbOperand t s s.HL ||| 2 ^ b ∧ lowReg s'.AF = lowReg s.AF ∧
      (t = 6 → s'.HL = s.HL) ∧ s'.PC = (s.PC + 2) % 65536 ∧
      (∀ a, (t = 6 → a % 65536 ≠ s.HL % 65536) → readRam s' a = readRam s a) := by
  have hd := allBelow_spec (allBelow_spec setResDecodeTable b hb) t ht
  simp only [Bool.and_eq_true] at hd
  obtain ⟨⟨⟨⟨⟨d1, d2⟩, d3⟩, _⟩, _⟩, _⟩ := hd
  have hy := allBelow_spec (allBelow_spec setResByteTable _ (cbOperand_lt t s s.HL)) b hb
  simp only [Bool.and_eq_true] at hy
  obtain ⟨⟨y1, _⟩, _⟩ := hy
  refine ⟨_, z80step_cb fuel s _ h0 h1, ?_, ?_, ?_, ?_, ?_⟩
  · rw [Nat.eq_of_beq_eq_true d1,
      cbCompute_set _ _ _ b (Nat.eq_of_beq_eq_true d2) (Nat.eq_of_beq_eq_true d3),
      cbOperand_cbStore t _ s.HL _ _ ht (fun h => by subst h; rw [cbStore_HL]) hHL]
    exact Nat.eq_of_beq_eq_true y1
  · rw [cbStore_flags,
      cbCompute_set _ _ _ b (Nat.eq_of_beq_eq_true d2) (Nat.eq_of_beq_eq_true d3)]
  · intro h
    subst h
    rw [Nat.eq_of_beq_eq_true d1, cbStore_HL]
  · rw [cbStore_PC]
    show ((s.PC + 1) % 65536 + 1) % 65536 = _
    omega
  · intro a ha
    rw [Nat.eq_of_beq_eq_true d1, readRam_cbStore t _ s.HL _ a ha]
    rfl

/-- One step of `RES b,t`. -/
theorem res_step (fuel : Nat) (s : State) (b t : Nat) (hb : b < 8) (ht : t < 8)
    (h0 : readRam s s.PC = 0xCB) (h1 : readRam s (s.PC + 1) = 0x80 + 8 * b + t)
    (hHL : t = 6 → 0x0800 ≤ s.HL % 65536 ∧ s.HL % 65536 < 0xE000) :
    ∃ s', z80step fuel s = some s' ∧
      cbOperand t s' s'.HL = cbOperand t s s.HL &&& (255 - 2 ^ b) ∧
      lowReg s'.AF = lowReg s.AF := by
  have hd := allBelow_spec (allBelow_spec setResDecodeTable b hb) t ht
  simp only [Bool.and_eq_true] at hd
  obtain ⟨⟨⟨⟨⟨_, _⟩, _⟩, d1⟩, d2⟩, d3⟩ := hd
  have hy := allBelow_spec (allBelow_spec setResByteTable _ (cbOperand_lt t s s.HL)) b hb
  simp only [Bool.and_eq_true] at hy
  obtain ⟨⟨_, y2⟩, _⟩ := hy
  refine ⟨_, z80step_cb fuel s _ h0 h1, ?_, ?_⟩
  · rw [Nat.eq_of_beq_eq_true d1,
      cbCompute_res _ _ _ b (Nat.eq_of_beq_eq_true d2) (Nat.eq_of_beq_eq_true d3),
      cbOperand_cbStore t _ s.HL _ _ ht (fun h => by subst h; rw [cbStore_HL]) hHL]
    exact Nat.eq_of_beq_eq_true y2
  · rw [cbStore_flags,
      cbCompute_res _ _ _ b (Nat.eq_of_beq_eq_true d2) (Nat.eq_of_beq_eq_true d3)]

/-- C15: for every bit index `b` in 0..7 and every target `t` among B, C, D,
E, H, L, `(HL)` and A (numbered 0..7 as in the opcode, `(HL)` in writable
RAM): `SET b` (`CB`, `0xC0 + 8b + t`) leaves the target equal to its old value
with bit `b` set, `RES b` (`CB`, `0x80 + 8b + t`) leaves it equal to its old
value with bit `b` cleared, neither changes the flag byte, and `SET b` followed
by `RES b` on the same target (the second instruction not being the byte that
`SET b,(HL)` stores to) leaves the target equal to its original value with bit
`b` cleared. -/
theorem set_res_bit (fuel : Nat) (s : State) (b t : Nat) (hb : b < 8) (ht : t < 8)
    (hop : readRam s s.PC = 0xCB)
    (hHL : t = 6 → 0x0800 ≤ s.HL % 65536 ∧ s.HL % 65536 < 0xE000) :
    (readRam s (s.PC + 1) = 0xC0 + 8 * b + t →
      ∃ s', z80step fuel s = some s' ∧
        cbOperand t s' s'.HL = cbOperand t s s.HL ||| 2 ^ b ∧
        lowReg s'.AF = lowReg s.AF) ∧
    (readRam s (s.PC + 1) = 0x80 + 8 * b + t →
      ∃ s', z80step fuel s = some s' ∧
        cbOperand t s' s'.HL = cbOperand t s s.HL &&& (255 - 2 ^ b) ∧
        lowReg s'.AF = lowReg s.AF) ∧
    (readRam s (s.PC + 1) = 0xC0 + 8 * b + t →
      readRam s (s.PC + 2) = 0xCB → readRam s (s.PC + 3) = 0x80 + 8 * b + t →
      (t = 6 → (s.PC + 2) % 65536 ≠ s.HL % 65536 ∧ (s.PC + 3) % 65536 ≠ s.HL % 65536) →
      ∃ s1 s2, z80step fuel s = some s1 ∧ z80step fuel s1 = some s2 ∧
        cbOperand t s2 s2.HL = cbOperand t s s.HL &&& (255 - 2 ^ b) ∧
        lowReg s2.AF = lowReg s.AF) := by
  refine ⟨fun h1 => ?_, fun h1 => res_step fuel s b t hb ht hop h1 hHL,
    fun h1 h2 h3 hne => ?_⟩
  · obtain ⟨s', e, r1, r2, _⟩ := set_step fuel s b t hb ht hop h1 hHL
    exact ⟨s', e, r1, r2⟩
  · obtain ⟨s1, e, r1, r2, r3, r4, r5⟩ := set_step fuel s b t hb ht hop h1 hHL
    have g0 : readRam s1 s1.PC = 0xCB := by
      rw [r4, r5 _ (fun h => by have := (hne h).1; omega), ← h2]
      exact readRam_congr' _ _ _ _ rfl (by omega)
    have g1 : readRam s1 (s1.PC + 1) = 0x80 + 8 * b + t := by
      rw [r4, r5 _ (fun h => by have := (hne h).2; omega), ← h3]
      exact readRam_congr' _ _ _ _ rfl (by omega)
    obtain ⟨s2, e2, q1, q2⟩ :=
      res_step fuel s1 b t hb ht g0 g1 (fun h => by rw [r3 h]; exact hHL h)
    refine ⟨s1, s2, e, e2, ?_, by rw [q2, r2]⟩
    have hy := allBelow_spec (allBelow_spec setResByteTable _ (cbOperand_lt t s s.HL)) b hb
    simp only [Bool.and_eq_true] at hy
    rw [q1, r1]
    exact Nat.eq_of_beq_eq_true hy.2

/-- C15 at the scenario `SET 0,A`, `RES 0,A`. -/
theorem set_res_bit_witness :
    (∃ s', z80step 0 setResState = some s' ∧
      cbOperand 7 s' s'.HL = cbOperand 7 setResState setResState.HL ||| 2 ^ 0 ∧
      lowReg s'.AF = lowReg setResState.AF) ∧
    (∃ s1 s2, z80step 0 setResState = some s1 ∧ z80step 0 s1 = some s2 ∧
      cbOperand 7 s2 s2.HL = cbOperand 7 setResState setResState.HL &&& (255 - 2 ^ 0) ∧
      lowReg s2.AF = lowReg setResState.AF) :=
  ⟨(set_res_bit 0 setResState 0 7 (by decide) (by decide) (by decide) (by decide)).1
      (by decide),
   (set_res_bit 0 setResState 0 7 (by decide) (by decide) (by decide) (by decide)).2.2
      (by decide) (by decide) (by decide) (by decide)⟩

/-! ## The `DD` and `FD` prefixes -/

theorem z80main_DD (s : State) :
    z80main 0xDD s = { ( dfd_prefix s s.ix).1 with ix := ( dfd_prefix s s.ix).2 } := rfl

theorem z80main_FD (s : State) :
    z80main 0xFD s = { ( dfd_prefix s s.iy).1 with iy := ( dfd_prefix s s.iy).2 } := rfl

/-- The opcode after a prefix, as the decoder fetches it. -/
theorem fetch_second (s : State) (op : Nat) (h1 : readRam s (s.PC + 1) = op) :
    readRam { s with PC := ((s.PC + 1) % 65536 + 1) % 65536 }
      (65535 + ((s.PC + 1) % 65536 + 1) % 65536) = op := by
  rw [← h1]
  exact readRam_congr' _ _ _ _ rfl (by omega)

/-- A step on `DD op`: the decoder runs on `op` with `PC` past both bytes, and
its returned value goes to `ix`. -/
theorem z80step_dd (fuel : Nat) (s : State) (op : Nat)
    (h0 : readRam s s.PC = 0xDD) (h1 : readRam s (s.PC + 1) = op) :
    z80step fuel s = some
      { (dfdExec op { s with PC := ((s.PC + 1) % 65536 + 1) % 65536 } s.ix).1 with
        ix := (dfdExec op { s with PC := ((s.PC + 1) % 65536 + 1) % 65536 } s.ix).2 } := by
  rw [z80step_main fuel s (by rw [h0]; decide), h0, z80main_DD]
  unfold dfd_prefix
  dsimp only
  rw [fetch_second s op h1]

/-- A step on `FD op`: as `DD op`, with `iy`. -/
theorem z80step_fd (fuel : Nat) (s : State) (op : Nat)
    (h0 : readRam s s.PC = 0xFD) (h1 : readRam s (s.PC + 1) = op) :
    z80step fuel s = some
      { (dfdExec op { s with PC := ((s.PC + 1) % 65536 + 1) % 65536 } s.iy).1 with
        iy := (dfdExec op { s with PC := ((s.PC + 1) % 65536 + 1) % 65536 } s.iy).2 } := by
  rw [z80step_main fuel s (by rw [h0]; decide), h0, z80main_FD]
  unfold dfd_prefix
  dsimp only
  rw [fetch_second s op h1]

/-! ## C16: `LD A,(IX+d)` and `LD A,(IY+d)` -/

/-- `LD A,(IXY+dd)` on the opcode already fetched. -/
theorem dfdExec_7E (s : State) (IXY : Nat) :
    dfdExec 0x7E s IXY =
      ({ s with
         PC := (s.PC + 1) % 65536,
         AF := SethighReg s.AF
                 (readRam s ((IXY + schar (readRam s s.PC)) % 0x100000000)) }, IXY) := rfl

/-- The address `IXY + (signed char) d` as a 16-bit address. -/
theorem index_address (IXY d : Nat) (hd : d < 256) :
    (IXY + schar d) % 0x100000000 % 65536 = (((IXY : Int) + signed8 d) % 65536).toNat := by
  unfold schar signed8
  have e : d % 256 = d := Nat.mod_eq_of_lt hd
  rw [e]
  split_ifs <;> omega

/-- C16: for every `IX` and every displacement byte `d`, read as a signed
value in `[-128, 127]`, one step on `DD 7E d` (`LD A,(IX+d)`) sets `A` to the
memory byte at `(IX + d) mod 65536`, advances `PC` by 3 and leaves `F`, `IX`,
every other register and memory unchanged; the same holds for `FD 7E d` with
`IY`. -/
theorem ld_a_indexed (fuel : Nat) (s : State) (d : Nat)
    (h1 : readRam s (s.PC + 1) = 0x7E) (h2 : readRam s (s.PC + 2) = d) :
    (readRam s s.PC = 0xDD →
      ∃ s', z80step fuel s = some s' ∧
        highReg s'.AF = readRam s (((s.ix : Int) + signed8 d) % 65536).toNat ∧
        lowReg s'.AF = lowReg s.AF ∧
        s' = { s with PC := (s.PC + 3) % 65536, AF := s'.AF }) ∧
    (readRam s s.PC = 0xFD →
      ∃ s', z80step fuel s = some s' ∧
        highReg s'.AF = readRam s (((s.iy : Int) + signed8 d) % 65536).toNat ∧
        lowReg s'.AF = lowReg s.AF ∧
        s' = { s with PC := (s.PC + 3) % 65536, AF := s'.AF }) := by
  have hd : d < 256 := h2 ▸ readRam_lt s (s.PC + 2)
  have e2 : readRam { s with PC := ((s.PC + 1) % 65536 + 1) % 65536 }
      ({ s with PC := ((s.PC + 1) % 65536 + 1) % 65536 } : State).PC = d := by
    rw [← h2]
    exact readRam_congr' _ _ _ _ rfl
      (by show ((s.PC + 1) % 65536 + 1) % 65536 % 65536 = _; omega)
  have ePC : (((s.PC + 1) % 65536 + 1) % 65536 + 1) % 65536 = (s.PC + 3) % 65536 := by omega
  have key : ∀ IXY : Nat,
      dfdExec 0x7E { s with PC := ((s.PC + 1) % 65536 + 1) % 65536 } IXY =
        ({ s with
           PC := (s.PC + 3) % 65536,
           AF := SethighReg s.AF (readRam s (((IXY : Int) + signed8 d) % 65536).toNat) },
         IXY) := by
    intro IXY
    rw [dfdExec_7E, e2]
    have ea : readRam { s with PC := ((s.PC + 1) % 65536 + 1) % 65536 }
        ((IXY + schar d) % 0x100000000) =
        readRam s (((IXY : Int) + signed8 d) % 65536).toNat :=
      readRam_congr' _ _ _ _ rfl (by rw [index_address IXY d hd]; omega)
    rw [ea]
    show ({ s with PC := (((s.PC + 1) % 65536 + 1) % 65536 + 1) % 65536, AF := _ }, IXY) = _
    rw [ePC]
  constructor
  · intro h0
    refine ⟨_, z80step_dd fuel s _ h0 h1, ?_, ?_, ?_⟩
    · rw [key]
      show highReg (SethighReg s.AF _) = _
      rw [highReg_SethighReg]
      exact (Nat.and_pow_two_sub_one_eq_mod _ 8).trans (Nat.mod_eq_of_lt (readRam_lt _ _))
    · rw [key]
      exact lowReg_SethighReg _ _
    · rw [key]
  · intro h0
    refine ⟨_, z80step_fd fuel s _ h0 h1, ?_, ?_, ?_⟩
    · rw [key]
      show highReg (SethighReg s.AF _) = _
      rw [highReg_SethighReg]
      exact (Nat.and_pow_two_sub_one_eq_mod _ 8).trans (Nat.mod_eq_of_lt (readRam_lt _ _))
    · rw [key]
      exact lowReg_SethighReg _ _
    · rw [key]

/-- C16 at `DD 7E 05` with `IX = 0x2000` and at `FD 7E 80` with
`IY = 0x2085`: both read the byte at `0x2005`. -/
theorem ld_a_indexed_witness :
    (∃ s', z80step 0 ldIxState = some s' ∧
      highReg s'.AF = readRam ldIxState (((ldIxState.ix : Int) + signed8 0x05) % 65536).toNat ∧
      lowReg s'.AF = lowReg ldIxState.AF ∧
      s' = { ldIxState with PC := (ldIxState.PC + 3) % 65536, AF := s'.AF }) ∧
    (∃ s', z80step 0 ldIyState = some s' ∧
      highReg s'.AF = readRam ldIyState (((ldIyState.iy : Int) + signed8 0x80) % 65536).toNat ∧
      lowReg s'.AF = lowReg ldIyState.AF ∧
      s' = { ldIyState with PC := (ldIyState.PC + 3) % 65536, AF := s'.AF }) ∧
    readRam ldIxState (((ldIxState.ix : Int) + signed8 0x05) % 65536).toNat = 0x42 ∧
    readRam ldIyState (((ldIyState.iy : Int) + signed8 0x80) % 65536).toNat = 0x42 :=
  ⟨(ld_a_indexed 0 ldIxState 0x05 (by decide) (by decide)).1 (by decide),
   (ld_a_indexed 0 ldIyState 0x80 (by decide) (by decide)).2 (by decide),
   by decide, by decide⟩

/-! ## C17: an opcode the `DD`/`FD` decoder does not implement -/

/-- An opcode without a `case` in `dfd_prefix` takes the `default`: `PC--`. -/
theorem dfdExec_default (op : Nat) (hop : op < 256) (h : op ∉ dfdOpcodes) (s : State)
    (IXY : Nat) : dfdExec op s IXY = ({ s with PC := (65535 + s.PC) % 65536 }, IXY) := by
  interval_cases op <;> first | rfl | exact absurd (by decide) h

/-- Every opcode of `dfdOpcodes` has a `case`: the block of its high digit
returns a result. -/
theorem dfdOpcodes_have_case (s : State) (IXY : Nat) :
    ∀ op ∈ dfdOpcodes,
      ((dfd0 op s IXY).isSome || (dfd1 op s IXY).isSome || (dfd2 op s IXY).isSome ||
       (dfd3 op s IXY).isSome || (dfd4 op s IXY).isSome || (dfd5 op s IXY).isSome ||
       (dfd6 op s IXY).isSome || (dfd7 op s IXY).isSome || (dfd8 op s IXY).isSome ||
       (dfd9 op s IXY).isSome || (dfdA op s IXY).isSome || (dfdB op s IXY).isSome ||
       (dfdC op s IXY).isSome || (dfdE op s IXY).isSome || (dfdF op s IXY).isSome) = true := by
  unfold dfdOpcodes
  repeat (refine List.forall_mem_cons.mpr ⟨rfl, ?_⟩)
  exact fun _ h => absurd h (List.not_mem_nil _)

/-- C17: for every state in which the byte at `PC = P` is `0xDD` or `0xFD` and
the byte at `P+1` is not an opcode the IX/IY decoder implements, one step
changes nothing except `PC` and leaves `PC = P+1`, so that the next step
fetches the byte at `P+1` as its opcode. -/
theorem dfd_unknown_opcode (fuel : Nat) (s : State) (op : Nat)
    (hpre : readRam s s.PC = 0xDD ∨ readRam s s.PC = 0xFD)
    (h1 : readRam s (s.PC + 1) = op) (h : op ∉ dfdOpcodes) :
    z80step fuel s = some { s with PC := (s.PC + 1) % 65536 } ∧
    readRam { s with PC := (s.PC + 1) % 65536 } ((s.PC + 1) % 65536) = op := by
  have hop : op < 256 := h1 ▸ readRam_lt s (s.PC + 1)
  have ePC : (65535 + ((s.PC + 1) % 65536 + 1) % 65536) % 65536 = (s.PC + 1) % 65536 := by
    omega
  refine ⟨?_, by rw [← h1]; exact readRam_congr' _ _ _ _ rfl (by omega)⟩
  rcases hpre with h0 | h0
  · rw [z80step_dd fuel s op h0 h1, dfdExec_default op hop h]
    show some ({ s with PC := (65535 + ((s.PC + 1) % 65536 + 1) % 65536) % 65536 } : State) = _
    rw [ePC]
  · rw [z80step_fd fuel s op h0 h1, dfdExec_default op hop h]
    show some ({ s with PC := (65535 + ((s.PC + 1) % 65536 + 1) % 65536) % 65536 } : State) = _
    rw [ePC]

/-- C17 at `DD 00`. -/
theorem dfd_unknown_opcode_witness :
    z80step 0 ddNopState = some { ddNopState with PC := (ddNopState.PC + 1) % 65536 } ∧
    readRam { ddNopState with PC := (ddNopState.PC + 1) % 65536 }
      ((ddNopState.PC + 1) % 65536) = 0x00 :=
  dfd_unknown_opcode 0 ddNopState 0x00 (Or.inl (by decide)) (by decide) (by decide)

/-! ## C18: an opcode the `ED` decoder does not implement -/

/-- An opcode without a `case` after `0xED` takes the `default`:
`if (0x40 <= op && op <= 0x7f) PC--`. -/
theorem edExec_default (fuel op : Nat) (hop : op < 256) (h : op ∉ edOpcodes) (s : State) :
    edExec fuel op s =
      some (if 0x40 ≤ op ∧ op ≤ 0x7f then { s with PC := (65535 + s.PC) % 65536 } else s) := by
  interval_cases op <;> first | rfl | exact absurd (by decide) h

/-- Every opcode of `edOpcodes` has a `case`: it is a block repeat, or the
block of its high digit returns a result. -/
theorem edOpcodes_have_case (s : State) :
    ∀ op ∈ edOpcodes,
      (decide (op ∈ [0xB0, 0xB1, 0xB2, 0xB3, 0xB8, 0xB9, 0xBA, 0xBB]) ||
       (ed4 op s).isSome || (ed5 op s).isSome || (ed6 op s).isSome || (ed7 op s).isSome ||
       (edA op s).isSome) = true := by
  unfold edOpcodes
  repeat (refine List.forall_mem_cons.mpr ⟨rfl, ?_⟩)
  exact fun _ h => absurd h (List.not_mem_nil _)

/-- C18: for every state in which the byte at `PC = P` is `0xED` and the byte
`op` at `P+1` is not an implemented `ED` opcode, one step changes nothing
except `PC`, which becomes `P+1` when `0x40 ≤ op ≤ 0x7F` and `P+2`
otherwise. -/
theorem ed_unknown_opcode (fuel : Nat) (s : State) (op : Nat)
    (h0 : readRam s s.PC = 0xED) (h1 : readRam s (s.PC + 1) = op) (h : op ∉ edOpcodes) :
    z80step fuel s = some
      { s with PC := if 0x40 ≤ op ∧ op ≤ 0x7F then (s.PC + 1) % 65536 else (s.PC + 2) % 65536 } := by
  have hop : op < 256 := h1 ▸ readRam_lt s (s.PC + 1)
  rw [z80step_ed fuel s h0]
  unfold ed_prefix
  dsimp only
  rw [fetch_second s op h1, edExec_default fuel op hop h]
  by_cases hr : 0x40 ≤ op ∧ op ≤ 0x7f
  · rw [if_pos hr, if_pos hr]
    show some ({ s with PC := (65535 + ((s.PC + 1) % 65536 + 1) % 65536) % 65536 } : State) = _
    have ePC : (65535 + ((s.PC + 1) % 65536 + 1) % 65536) % 65536 = (s.PC + 1) % 65536 := by
      omega
    rw [ePC]
  · rw [if_neg hr, if_neg hr]
    have ePC : ((s.PC + 1) % 65536 + 1) % 65536 = (s.PC + 2) % 65536 := by omega
    rw [ePC]

/-- C18 at `ED 4C`, which leaves `PC = P+1`, and at `ED 00`, which leaves
`PC = P+2`. -/
theorem ed_unknown_opcode_witness :
    z80step 0 edRewindState = some
      { edRewindState with
        PC := if 0x40 ≤ 0x4C ∧ 0x4C ≤ 0x7F then (edRewindState.PC + 1) % 65536
              else (edRewindState.PC + 2) % 65536 } ∧
    z80step 0 edSkipState = some
      { edSkipState with
        PC := if 0x40 ≤ 0x00 ∧ 0x00 ≤ 0x7F then (edSkipState.PC + 1) % 65536
              else (edSkipState.PC + 2) % 65536 } :=
  ⟨ed_unknown_opcode 0 edRewindState 0x4C (by decide) (by decide) (by decide),
   ed_unknown_opcode 0 edSkipState 0x00 (by decide) (by decide) (by decide)⟩

/-! ## C19: `DD CB d op` and `FD CB d op` -/

/-- `DD CB` / `FD CB` on the opcode `0xCB` already fetched: the address is
formed from the displacement at `PC`, and `cb_prefix` runs with it. -/
theorem dfdExec_CB (s : State) (IXY : Nat) :
    dfdExec 0xCB s IXY =
      ( cb_prefix { s with PC := (s.PC + 1) % 65536 }
          ((IXY + schar (readRam s s.PC)) % 0x100000000), IXY) := rfl

theorem writeRam_ix_comm (s : State) (a v x : Nat) :
    { writeRam s a v with ix := x } = writeRam { s with ix := x } a v := by
  unfold writeRam updateScreen
  dsimp only
  split_ifs <;> rfl

theorem writeRam_iy_comm (s : State) (a v x : Nat) :
    { writeRam s a v with iy := x } = writeRam { s with iy := x } a v := by
  unfold writeRam updateScreen
  dsimp only
  split_ifs <;> rfl

theorem cbStore_ix_comm (t : Nat) (s : State) (a v x : Nat) :
    { cbStore t s a v with ix := x } = cbStore t { s with ix := x } a v := by
  unfold cbStore
  split_ifs <;> first | rfl | exact writeRam_ix_comm _ _ _ _

theorem cbStore_iy_comm (t : Nat) (s : State) (a v x : Nat) :
    { cbStore t s a v with iy := x } = cbStore t { s with iy := x } a v := by
  unfold cbStore
  split_ifs <;> first | rfl | exact writeRam_iy_comm _ _ _ _

theorem writeRam_congr_addr (s : State) (a b v : Nat) (h : a % 65536 = b % 65536) :
    writeRam s a v = writeRam s b v := by
  rw [← writeRam_mod s a, ← writeRam_mod s b, h]

theorem cbStore_congr_addr (t : Nat) (s : State) (a b v : Nat) (h : a % 65536 = b % 65536) :
    cbStore t s a v = cbStore t s b v := by
  unfold cbStore
  rw [writeRam_congr_addr s a b v h]

/-- The decoder on `CB d op`, for the index register value `IXY`: operand,
computation and store of `cb_prefix`, with the indexed address as the memory
operand. -/
theorem ddcb_exec (s : State) (d op IXY : Nat)
    (h2 : readRam s (s.PC + 2) = d) (h3 : readRam s (s.PC + 3) = op) :
    (dfdExec 0xCB { s with PC := ((s.PC + 1) % 65536 + 1) % 65536 } IXY).1 =
      cbStore (op &&& 7)
        { s with
          PC := (s.PC + 4) % 65536,
          AF := (cbCompute op
                  (cbOperand (op &&& 7) s (((IXY : Int) + signed8 d) % 65536).toNat) s.AF).2 }
        (((IXY : Int) + signed8 d) % 65536).toNat
        (cbCompute op
          (cbOperand (op &&& 7) s (((IXY : Int) + signed8 d) % 65536).toNat) s.AF).1 := by
  have hd : d < 256 := h2 ▸ readRam_lt s (s.PC + 2)
  have e2 : readRam { s with PC := ((s.PC + 1) % 65536 + 1) % 65536 }
      ({ s with PC := ((s.PC + 1) % 65536 + 1) % 65536 } : State).PC = d := by
    rw [← h2]
    exact readRam_congr' _ _ _ _ rfl
      (by show ((s.PC + 1) % 65536 + 1) % 65536 % 65536 = _; omega)
  rw [dfdExec_CB, e2]
  dsimp only
  rw [cb_prefix_eq]
  have e3 : readRam { s with PC := (((s.PC + 1) % 65536 + 1) % 65536 + 1) % 65536 }
      ({ s with PC := (((s.PC + 1) % 65536 + 1) % 65536 + 1) % 65536 } : State).PC = op := by
    rw [← h3]
    exact readRam_congr' _ _ _ _ rfl
      (by show (((s.PC + 1) % 65536 + 1) % 65536 + 1) % 65536 % 65536 = _; omega)
  have ea : (IXY + schar d) % 0x100000000 % 65536 =
      (((IXY : Int) + signed8 d) % 65536).toNat % 65536 := by
    rw [index_address IXY d hd]; omega
  rw [e3,
    cbOperand_congr (op &&& 7) s
      { s with PC := (((s.PC + 1) % 65536 + 1) % 65536 + 1) % 65536 }
      (((IXY : Int) + signed8 d) % 65536).toNat
      ((IXY + schar d) % 0x100000000 % 65536) rfl rfl rfl rfl rfl (by rw [ea]; omega),
    cbStore_congr_addr _ _ ((IXY + schar d) % 0x100000000 % 65536)
      (((IXY : Int) + signed8 d) % 65536).toNat _ (by rw [ea]; omega)]
  have ePC : ((((s.PC + 1) % 65536 + 1) % 65536 + 1) % 65536 + 1) % 65536 =
      (s.PC + 4) % 65536 := by omega
  show cbStore _
    { s with
      PC := ((((s.PC + 1) % 65536 + 1) % 65536 + 1) % 65536 + 1) % 65536, AF := _ } _ _ = _
  rw [ePC]

theorem cbStore_six (s : State) (adr v : Nat) : cbStore 6 s adr v = writeRam s adr v := rfl

/-- A store to a register leaves memory as it is. -/
theorem cbStore_ram (t : Nat) (s : State) (adr v : Nat) (h : t ≠ 6) :
    (cbStore t s adr v).ram = s.ram := by
  unfold cbStore
  split_ifs <;> rfl

/-- For a register operand the address plays no part. -/
theorem cbOperand_reg (t : Nat) (s : State) (a b : Nat) (h : t ≠ 6) :
    cbOperand t s a = cbOperand t s b := by
  unfold cbOperand
  split_ifs <;> rfl

theorem cbStore_reg (t : Nat) (s : State) (a b v : Nat) (h : t ≠ 6) :
    cbStore t s a v = cbStore t s b v := by
  unfold cbStore
  split_ifs <;> rfl

theorem and7_lt (op : Nat) : op &&& 7 < 8 := Nat.and_lt_two_pow op (by decide : 7 < 2 ^ 3)

/-- One step on `DD CB d op` or `FD CB d op`, for the index register value
`IXY`, from the decoder result `r`. -/
theorem ddcb_result (s r : State) (d op IXY : Nat)
    (hr : r = cbStore (op &&& 7)
        { s with
          PC := (s.PC + 4) % 65536,
          AF := (cbCompute op
                  (cbOperand (op &&& 7) s (((IXY : Int) + signed8 d) % 65536).toNat) s.AF).2 }
        (((IXY : Int) + signed8 d) % 65536).toNat
        (cbCompute op
          (cbOperand (op &&& 7) s (((IXY : Int) + signed8 d) % 65536).toNat) s.AF).1) :
    (op &&& 7 = 6 →
      r = writeRam
        { s with
          PC := (s.PC + 4) % 65536,
          AF := (cbCompute op (readRam s (((IXY : Int) + signed8 d) % 65536).toNat) s.AF).2 }
        (((IXY : Int) + signed8 d) % 65536).toNat
        (cbCompute op (readRam s (((IXY : Int) + signed8 d) % 65536).toNat) s.AF).1) ∧
    (op &&& 7 ≠ 6 →
      r = cbStore (op &&& 7)
        { s with
          PC := (s.PC + 4) % 65536,
          AF := (cbCompute op (cbOperand (op &&& 7) s s.HL) s.AF).2 }
        s.HL (cbCompute op (cbOperand (op &&& 7) s s.HL) s.AF).1 ∧
      r.ram = s.ram ∧
      cbOperand (op &&& 7) r r.HL =
        (cbCompute op (cbOperand (op &&& 7) s s.HL) s.AF).1 &&& 0xff) := by
  constructor
  · intro h6
    rw [hr, h6]
    rfl
  · intro h6
    have e : r = cbStore (op &&& 7)
        { s with
          PC := (s.PC + 4) % 65536,
          AF := (cbCompute op (cbOperand (op &&& 7) s s.HL) s.AF).2 }
        s.HL (cbCompute op (cbOperand (op &&& 7) s s.HL) s.AF).1 := by
      rw [hr, cbOperand_reg _ s _ s.HL h6, cbStore_reg _ _ _ s.HL _ h6]
    refine ⟨e, ?_, ?_⟩
    · rw [e, cbStore_ram _ _ _ _ h6]
    · rw [e]
      exact cbOperand_cbStore _ _ _ _ _ (and7_lt op) (fun h => absurd h h6)
        (fun h => absurd h h6)

/-- C19 (amended): for every `DD CB d op` and `FD CB d op`: when the low
three bits of `op` are 6, the operand is the memory byte at `(IXY + signed d)`
and the result is written back to that byte; when they are not 6, the
instruction acts as the unprefixed `CB op` on the register those bits select:
the operand is that register, the result is stored into it, and memory is
unchanged.  `PC` advances by 4. -/
theorem ddcb_operand (fuel : Nat) (s : State) (d op : Nat)
    (h1 : readRam s (s.PC + 1) = 0xCB) (h2 : readRam s (s.PC + 2) = d)
    (h3 : readRam s (s.PC + 3) = op) :
    (readRam s s.PC = 0xDD →
      ∃ s', z80step fuel s = some s' ∧
        (op &&& 7 = 6 →
          s' = writeRam
            { s with
              PC := (s.PC + 4) % 65536,
              AF := (cbCompute op
                      (readRam s (((s.ix : Int) + signed8 d) % 65536).toNat) s.AF).2 }
            (((s.ix : Int) + signed8 d) % 65536).toNat
            (cbCompute op (readRam s (((s.ix : Int) + signed8 d) % 65536).toNat) s.AF).1) ∧
        (op &&& 7 ≠ 6 →
          s' = cbStore (op &&& 7)
            { s with
              PC := (s.PC + 4) % 65536,
              AF := (cbCompute op (cbOperand (op &&& 7) s s.HL) s.AF).2 }
            s.HL (cbCompute op (cbOperand (op &&& 7) s s.HL) s.AF).1 ∧
          s'.ram = s.ram ∧
          cbOperand (op &&& 7) s' s'.HL =
            (cbCompute op (cbOperand (op &&& 7) s s.HL) s.AF).1 &&& 0xff)) ∧
    (readRam s s.PC = 0xFD →
      ∃ s', z80step fuel s = some s' ∧
        (op &&& 7 = 6 →
          s' = writeRam
            { s with
              PC := (s.PC + 4) % 65536,
              AF := (cbCompute op
                      (readRam s (((s.iy : Int) + signed8 d) % 65536).toNat) s.AF).2 }
            (((s.iy : Int) + signed8 d) % 65536).toNat
            (cbCompute op (readRam s (((s.iy : Int) + signed8 d) % 65536).toNat) s.AF).1) ∧
        (op &&& 7 ≠ 6 →
          s' = cbStore (op &&& 7)
            { s with
              PC := (s.PC + 4) % 65536,
              AF := (cbCompute op (cbOperand (op &&& 7) s s.HL) s.AF).2 }
            s.HL (cbCompute op (cbOperand (op &&& 7) s s.HL) s.AF).1 ∧
          s'.ram = s.ram ∧
          cbOperand (op &&& 7) s' s'.HL =
            (cbCompute op (cbOperand (op &&& 7) s s.HL) s.AF).1 &&& 0xff)) := by
  constructor
  · intro h0
    refine ⟨_, z80step_dd fuel s _ h0 h1, ?_⟩
    apply ddcb_result s _ d op s.ix
    rw [ddcb_exec s d op s.ix h2 h3, cbStore_ix_comm]
    rfl
  · intro h0
    refine ⟨_, z80step_fd fuel s _ h0 h1, ?_⟩
    apply ddcb_result s _ d op s.iy
    rw [ddcb_exec s d op s.iy h2 h3, cbStore_iy_comm]
    rfl

/-- C19 as stated fails: on `DD CB 05 C0` with `B = 0x80` and `0x00` at
`IX+5 = 0x2005`, the step leaves `B = 0x81` and the byte at `0x2005` still
`0x00`; the memory byte is neither the operand nor written. -/
theorem ddcb_register_counterexample :
    (z80step 0 ddcbRegState).map (fun t => (highReg t.BC, readRam t 0x2005)) =
      some (0x81, 0x00) ∧
    readRam ddcbRegState 0x2005 = 0x00 ∧ highReg ddcbRegState.BC = 0x80 := by
  decide

/-- C19 (amended) at `DD CB 05 C0`, where `B` is the operand and memory is
left alone, and at `FD CB 05 C6`, where the byte at `IY+5` is the operand and
is written back. -/
theorem ddcb_operand_witness :
    (∃ s', z80step 0 ddcbRegState = some s' ∧ s'.ram = ddcbRegState.ram ∧
      cbOperand (0xC0 &&& 7) s' s'.HL =
        (cbCompute 0xC0 (cbOperand (0xC0 &&& 7) ddcbRegState ddcbRegState.HL)
          ddcbRegState.AF).1 &&& 0xff) ∧
    (∃ s', z80step 0 ddcbMemState = some s' ∧
      s' = writeRam
        { ddcbMemState with
          PC := (ddcbMemState.PC + 4) % 65536,
          AF := (cbCompute 0xC6
                  (readRam ddcbMemState (((ddcbMemState.iy : Int) + signed8 0x05) % 65536).toNat)
                  ddcbMemState.AF).2 }
        (((ddcbMemState.iy : Int) + signed8 0x05) % 65536).toNat
        (cbCompute 0xC6
          (readRam ddcbMemState (((ddcbMemState.iy : Int) + signed8 0x05) % 65536).toNat)
          ddcbMemState.AF).1) := by
  constructor
  · obtain ⟨s', e, _, hB⟩ :=
      (ddcb_operand 0 ddcbRegState 0x05 0xC0 (by decide) (by decide) (by decide)).1 (by decide)
    exact ⟨s', e, (hB (by decide)).2.1, (hB (by decide)).2.2⟩
  · obtain ⟨s', e, hA, _⟩ :=
      (ddcb_operand 0 ddcbMemState 0x05 0xC6 (by decide) (by decide) (by decide)).2 (by decide)
    exact ⟨s', e, hA (by decide)⟩

/-! ## C12 and C13: `DAA` -/

theorem z80main_27 (s : State) : z80main 0x27 s = { s with AF := daaAF s.AF } := rfl

theorem z80main_90 (s : State) :
    z80main 0x90 s = { s with AF := subAF s.AF (highReg s.BC) 0 } := rfl

theorem bcd_bcdValue (a : Nat) (h1 : a / 16 ≤ 9) (h0 : a % 16 ≤ 9) : bcd (bcdValue a) = a := by
  unfold bcd bcdValue
  omega

theorem bcdValue_lt (a : Nat) (h1 : a / 16 ≤ 9) (h0 : a % 16 ≤ 9) : bcdValue a < 100 := by
  unfold bcdValue
  omega

theorem bcd_lt (n : Nat) : bcd n < 256 := by
  unfold bcd
  omega

/-- The high byte is not touched by the mask `0xFF01`. -/
theorem highReg_and_FF01 (x : Nat) : highReg (x &&& 0xFF01) = highReg x := by
  unfold highReg
  apply Nat.eq_of_testBit_eq
  intro i
  have e1 : (0xFF01 : Nat) = 2 ^ 8 * (2 ^ 8 - 1) + 1 := rfl
  have e2 : (0xff : Nat) = 2 ^ 8 - 1 := rfl
  rw [Nat.testBit_and, Nat.testBit_and, Nat.testBit_shiftRight, Nat.testBit_shiftRight,
    Nat.testBit_and, e1, Nat.testBit_mul_pow_two_add _ (by decide : 1 < 2 ^ 8), e2,
    Nat.testBit_two_pow_sub_one]
  by_cases h : i < 8
  · have h' : ¬ (8 + i < 8) := by omega
    have h'' : 8 + i - 8 = i := by omega
    simp [h, h', h'']
  · have hi : Nat.testBit 255 i = false :=
      Nat.testBit_lt_two_pow (Nat.lt_of_lt_of_le (by decide : 255 < 2 ^ 8)
        (Nat.pow_le_pow_right (by decide) (by omega)))
    simp [h, hi]

/-- Bit 0 is not touched by the mask `0xFF01`. -/
theorem carry_and_FF01 (x : Nat) :
    testFlag (x &&& 0xFF01) CarryFlag = testFlag x CarryFlag := by
  unfold testFlag CarryFlag
  rw [Nat.and_assoc]
  rfl

/-- Reading the accumulator and the carry off a word `256 * B + c`. -/
theorem daa_read (x B c : Nat) (hB : B < 256) (hc : c ≤ 1) (h : x &&& 0xFF01 = 256 * B + c) :
    highReg x = B ∧ (testFlag x CarryFlag = true ↔ c = 1) := by
  constructor
  · rw [← highReg_and_FF01, h, highReg_eq]
    omega
  · rw [← carry_and_FF01, h, testFlag_Carry]
    omega

theorem testBit1_mod (x : Nat) : (x % 65536).testBit 1 = x.testBit 1 := by
  rw [show (65536 : Nat) = 2 ^ 16 from rfl, Nat.testBit_mod_two_pow]
  simp

theorem setFlag_half_bit1 (AF : Nat) (b : Bool) :
    (setFlag AF HalfFlag b).testBit 1 = AF.testBit 1 := by
  unfold setFlag HalfFlag
  split_ifs
  · have c : Nat.testBit 0x10 1 = false := by rfl
    rw [testBit1_mod, Nat.testBit_or, c, Bool.or_false]
  · rfl

/-- The flag word `DAA` leaves, with the word `AF1` its `H` and `N` bits are
taken from: `AF1` has the `N` bit of the old `AF`. -/
theorem daaAF_form_sub (AF : Nat) :
    ∃ acu AF1 z c, c ≤ 1 ∧ AF1.testBit 1 = AF.testBit 1 ∧
      daaAF AF = ((acu <<< 8) ||| (acu &&& 0xa8) ||| (z <<< 6) ||| (AF1 &&& 0x12) |||
        parity acu ||| c) % 65536 := by
  refine ⟨_, _, _, _, ?_, ?_, rfl⟩
  · apply Nat.le_of_lt_succ
    apply @Nat.or_lt_two_pow _ _ 1
    · have := b2n_le_one (testFlag AF CarryFlag)
      omega
    · exact Nat.and_lt_two_pow _ (by decide)
  · dsimp only
    split_ifs <;> first | rfl | exact setFlag_half_bit1 _ _

/-- `DAA` leaves the `N` flag as it was. -/
theorem daaAF_sub (AF : Nat) : testFlag (daaAF AF) SubFlag = testFlag AF SubFlag := by
  obtain ⟨acu, AF1, z, c, hc, h1, e⟩ := daaAF_form_sub AF
  have t (x : Nat) : testFlag x SubFlag = x.testBit 1 := testFlag_eq_testBit x 1
  rw [t, t, e, testBit1_mod]
  have c1 : Nat.testBit 0xa8 1 = false := by rfl
  have c2 : Nat.testBit 0x12 1 = true := by rfl
  have c3 : c.testBit 1 = false := Nat.testBit_lt_two_pow (by omega : c < 2 ^ 1)
  have c4 : (parity acu).testBit 1 = false := by
    rcases parity_cases acu with h | h <;> rw [h] <;> rfl
  simp only [Nat.testBit_or, Nat.testBit_and, Nat.testBit_shiftLeft, c1, c2, c3, c4, h1]
  simp

/-- Row 0 of the table of `DAA`: the tens digit of the first operand is 0. -/
theorem daaRow0 : allBelow 10 (fun i => allBelow 100 (fun m => daaCheck (10 * 0 + i) m)) = true := by
  decide!

/-- Row 1 of the table of `DAA`: the tens digit of the first operand is 1. -/
theorem daaRow1 : allBelow 10 (fun i => allBelow 100 (fun m => daaCheck (10 * 1 + i) m)) = true := by
  decide!

/-- Row 2 of the table of `DAA`: the tens digit of the first operand is 2. -/
theorem daaRow2 : allBelow 10 (fun i => allBelow 100 (fun m => daaCheck (10 * 2 + i) m)) = true := by
  decide!

/-- Row 3 of the table of `DAA`: the tens digit of the first operand is 3. -/
theorem daaRow3 : allBelow 10 (fun i => allBelow 100 (fun m => daaCheck (10 * 3 + i) m)) = true := by
  decide!

/-- Row 4 of the table of `DAA`: the tens digit of the first operand is 4. -/
theorem daaRow4 : allBelow 10 (fun i => allBelow 100 (fun m => daaCheck (10 * 4 + i) m)) = true := by
  decide!

/-- Row 5 of the table of `DAA`: the tens digit of the first operand is 5. -/
theorem daaRow5 : allBelow 10 (fun i => allBelow 100 (fun m => daaCheck (10 * 5 + i) m)) = true := by
  decide!

/-- Row 6 of the table of `DAA`: the tens digit of the first operand is 6. -/
theorem daaRow6 : allBelow 10 (fun i => allBelow 100 (fun m => daaCheck (10 * 6 + i) m)) = true := by
  decide!

/-- Row 7 of the table of `DAA`: the tens digit of the first operand is 7. -/
theorem daaRow7 : allBelow 10 (fun i => allBelow 100 (fun m => daaCheck (10 * 7 + i) m)) = true := by
  decide!

/-- Row 8 of the table of `DAA`: the tens digit of the first operand is 8. -/
theorem daaRow8 : allBelow 10 (fun i => allBelow 100 (fun m => daaCheck (10 * 8 + i) m)) = true := by
  decide!

/-- Row 9 of the table of `DAA`: the tens digit of the first operand is 9. -/
theorem daaRow9 : allBelow 10 (fun i => allBelow 100 (fun m => daaCheck (10 * 9 + i) m)) = true := by
  decide!

/-- All 100 × 100 pairs of packed-BCD bytes: the accumulator and the carry
after `ADD` then `DAA`, and after `SUB` then `DAA`. -/
theorem daaTable : allBelow 100 (fun n => allBelow 100 (fun m => daaCheck n m)) = true := by
  apply allBelow_blocks 10 10
  intro q hq
  interval_cases q
  · exact daaRow0
  · exact daaRow1
  · exact daaRow2
  · exact daaRow3
  · exact daaRow4
  · exact daaRow5
  · exact daaRow6
  · exact daaRow7
  · exact daaRow8
  · exact daaRow9

/-- `DAA` after an addition of packed-BCD bytes. -/
theorem daa_after_add (AF b : Nat) (ha1 : highReg AF / 16 ≤ 9) (ha0 : highReg AF % 16 ≤ 9)
    (hb : b < 256) (hb1 : b / 16 ≤ 9) (hb0 : b % 16 ≤ 9) :
    highReg (daaAF (addAF AF b 0)) = bcd ((bcdValue (highReg AF) + bcdValue b) % 100) ∧
    (testFlag (daaAF (addAF AF b 0)) CarryFlag = true ↔
      100 ≤ bcdValue (highReg AF) + bcdValue b) ∧
    testFlag (daaAF (addAF AF b 0)) SubFlag = testFlag (addAF AF b 0) SubFlag ∧
    testFlag (addAF AF b 0) SubFlag = false := by
  have h := allBelow_spec (allBelow_spec daaTable _ (bcdValue_lt _ ha1 ha0)) _
    (bcdValue_lt _ hb1 hb0)
  unfold daaCheck at h
  rw [Bool.and_eq_true, bcd_bcdValue _ ha1 ha0, bcd_bcdValue _ hb1 hb0, ← addAF_eq_raw] at h
  have r := daa_read _ _ _ (bcd_lt _) (by split_ifs <;> omega) (Nat.eq_of_beq_eq_true h.1)
  refine ⟨r.1, ?_, daaAF_sub _, ?_⟩
  · rw [r.2]
    by_cases hc : 100 ≤ bcdValue (highReg AF) + bcdValue b
    · simp [hc]
    · simp [hc]
  · rw [addAF_eq_spec AF b hb]
    exact (addSpec_flags _ b (highReg_lt AF) hb).2.2.2.2.2.2.1

/-- `DAA` after a subtraction of packed-BCD bytes. -/
theorem daa_after_sub (AF b : Nat) (ha1 : highReg AF / 16 ≤ 9) (ha0 : highReg AF % 16 ≤ 9)
    (hb : b < 256) (hb1 : b / 16 ≤ 9) (hb0 : b % 16 ≤ 9) :
    highReg (daaAF (subAF AF b 0)) =
      bcd ((100 + bcdValue (highReg AF) - bcdValue b) % 100) ∧
    (testFlag (daaAF (subAF AF b 0)) CarryFlag = true ↔
      bcdValue (highReg AF) < bcdValue b) ∧
    testFlag (daaAF (subAF AF b 0)) SubFlag = testFlag (subAF AF b 0) SubFlag ∧
    testFlag (subAF AF b 0) SubFlag = true := by
  have h := allBelow_spec (allBelow_spec daaTable _ (bcdValue_lt _ ha1 ha0)) _
    (bcdValue_lt _ hb1 hb0)
  unfold daaCheck at h
  rw [Bool.and_eq_true, bcd_bcdValue _ ha1 ha0, bcd_bcdValue _ hb1 hb0, ← subAF_eq_raw] at h
  have r := daa_read _ _ _ (bcd_lt _) (by split_ifs <;> omega) (Nat.eq_of_beq_eq_true h.2)
  refine ⟨r.1, ?_, daaAF_sub _, ?_⟩
  · rw [r.2]
    by_cases hc : bcdValue (highReg AF) < bcdValue b
    · simp [hc]
    · simp [hc]
  · rw [subAF_eq_spec AF b hb]
    exact (subSpec_flags _ b (highReg_lt AF) hb).2.2.2.2.1

/-- C12: for every pair of bytes `a`, `b` whose nibbles are all at most 9, with
`A = a` and `B = b`: `ADD A,B` followed by `DAA` leaves `A` equal to the
packed-BCD encoding of `(dec(a) + dec(b)) mod 100` with `C` set iff
`dec(a) + dec(b) ≥ 100`, and `SUB B` followed by `DAA` leaves `A` equal to the
packed-BCD encoding of `(dec(a) - dec(b)) mod 100` with `C` set iff
`dec(a) < dec(b)`; in both cases `DAA` leaves `N` as the preceding operation
set it (clear after `ADD`, set after `SUB`). -/
theorem daa_bcd (fuel : Nat) (s : State) (a b : Nat)
    (ha : highReg s.AF = a) (hb : highReg s.BC = b)
    (ha1 : a / 16 ≤ 9) (ha0 : a % 16 ≤ 9) (hb1 : b / 16 ≤ 9) (hb0 : b % 16 ≤ 9)
    (hdaa : readRam s (s.PC + 1) = 0x27) :
    (readRam s s.PC = 0x80 →
      ∃ s1 s2, z80step fuel s = some s1 ∧ z80step fuel s1 = some s2 ∧
        highReg s2.AF = bcd ((bcdValue a + bcdValue b) % 100) ∧
        (testFlag s2.AF CarryFlag = true ↔ 100 ≤ bcdValue a + bcdValue b) ∧
        testFlag s2.AF SubFlag = testFlag s1.AF SubFlag ∧
        testFlag s1.AF SubFlag = false) ∧
    (readRam s s.PC = 0x90 →
      ∃ s1 s2, z80step fuel s = some s1 ∧ z80step fuel s1 = some s2 ∧
        highReg s2.AF = bcd ((100 + bcdValue a - bcdValue b) % 100) ∧
        (testFlag s2.AF CarryFlag = true ↔ bcdValue a < bcdValue b) ∧
        testFlag s2.AF SubFlag = testFlag s1.AF SubFlag ∧
        testFlag s1.AF SubFlag = true) := by
  have hb' : b < 256 := hb ▸ highReg_lt s.BC
  subst ha
  have next : ∀ AF1 : Nat,
      z80step fuel { s with PC := (s.PC + 1) % 65536, AF := AF1 } =
        some { s with PC := ((s.PC + 1) % 65536 + 1) % 65536, AF := daaAF AF1 } := by
    intro AF1
    have e : readRam { s with PC := (s.PC + 1) % 65536, AF := AF1 }
        ({ s with PC := (s.PC + 1) % 65536, AF := AF1 } : State).PC = 0x27 := by
      rw [← hdaa]
      exact readRam_congr' _ _ _ _ rfl (by show (s.PC + 1) % 65536 % 65536 = _; omega)
    rw [z80step_main fuel _ (by rw [e]; decide), e, z80main_27]
  constructor
  · intro h0
    refine ⟨{ s with PC := (s.PC + 1) % 65536, AF := addAF s.AF (highReg s.BC) 0 }, _,
      ?_, next _, ?_⟩
    · rw [z80step_main fuel s (by rw [h0]; decide), h0, z80main_80]
    · rw [hb]
      exact daa_after_add s.AF b ha1 ha0 hb' hb1 hb0
  · intro h0
    refine ⟨{ s with PC := (s.PC + 1) % 65536, AF := subAF s.AF (highReg s.BC) 0 }, _,
      ?_, next _, ?_⟩
    · rw [z80step_main fuel s (by rw [h0]; decide), h0, z80main_90]
    · rw [hb]
      exact daa_after_sub s.AF b ha1 ha0 hb' hb1 hb0

/-- C12 at `15 + 27 = 42` and at `15 - 27 = 88 (mod 100)` with a borrow. -/
theorem daa_bcd_witness :
    (∃ s1 s2, z80step 0 daaState = some s1 ∧ z80step 0 s1 = some s2 ∧
      highReg s2.AF = bcd ((bcdValue 0x15 + bcdValue 0x27) % 100) ∧
      (testFlag s2.AF CarryFlag = true ↔ 100 ≤ bcdValue 0x15 + bcdValue 0x27) ∧
      testFlag s2.AF SubFlag = testFlag s1.AF SubFlag ∧
      testFlag s1.AF SubFlag = false) ∧
    (∃ s1 s2, z80step 0 daaSubState = some s1 ∧ z80step 0 s1 = some s2 ∧
      highReg s2.AF = bcd ((100 + bcdValue 0x15 - bcdValue 0x27) % 100) ∧
      (testFlag s2.AF CarryFlag = true ↔ bcdValue 0x15 < bcdValue 0x27) ∧
      testFlag s2.AF SubFlag = testFlag s1.AF SubFlag ∧
      testFlag s1.AF SubFlag = true) ∧
    bcd ((bcdValue 0x15 + bcdValue 0x27) % 100) = 0x42 ∧
    bcd ((100 + bcdValue 0x15 - bcdValue 0x27) % 100) = 0x88 :=
  ⟨(daa_bcd 0 daaState 0x15 0x27 (by decide) (by decide) (by decide) (by decide) (by decide)
      (by decide) (by decide)).1 (by decide),
   (daa_bcd 0 daaSubState 0x15 0x27 (by decide) (by decide) (by decide) (by decide)
      (by decide) (by decide) (by decide)).2 (by decide),
   by decide, by decide⟩

/-- C13 as stated fails: from `A = 0x15`, `B = 0x27`, `F = 0`, after `ADD A,B`
and `DAA` the `H` flag is set. -/
theorem daa_scenario_half_counterexample :
    ((z80step 0 daaState).bind (z80step 0)).map (fun t => testFlag t.AF HalfFlag) =
      some true := by
  decide

/-- C13 (amended): from `A = 0x15`, `B = 0x27`, `F = 0`, the step `ADD A,B`
yields `A = 0x3C` with `H = 0`, and the following `DAA` step yields `A = 0x42`
with `C = 0`, `H = 1`, `N = 0` and `P/V = 1`. -/
theorem daa_scenario :
    (z80step 0 daaState).map (fun t => (highReg t.AF, testFlag t.AF HalfFlag)) =
      some (0x3C, false) ∧
    ((z80step 0 daaState).bind (z80step 0)).map
      (fun t => (highReg t.AF, testFlag t.AF CarryFlag, testFlag t.AF HalfFlag,
        testFlag t.AF SubFlag, testFlag t.AF ParityFlag)) =
      some (0x42, false, true, false, true) := by
  decide

/-! ## C23: the keyboard row counter -/

theorem testBit_bnot (x i : Nat) (hx : x < 2 ^ 32) (hi : i < 32) :
    (bnot x).testBit i = !x.testBit i := by
  have e : bnot x = 2 ^ 32 - (x + 1) := by
    unfold bnot
    omega
  rw [e, Nat.testBit_two_pow_sub_succ hx]
  simp [hi]

/-- Bit `i` of `prevPort & ~value` on bytes. -/
theorem highToLow_bit (p v i : Nat) (hv : v < 256) (hi : i < 8) :
    (((p &&& bnot v) % 256) &&& 2 ^ i ≠ 0) ↔ (p.testBit i = true ∧ v.testBit i = false) := by
  have h := testFlag_eq_testBit ((p &&& bnot v) % 256) i
  unfold testFlag at h
  have e8 : (256 : Nat) = 2 ^ 8 := rfl
  rw [e8, Nat.testBit_mod_two_pow, Nat.testBit_and,
    testBit_bnot v i (by omega) (by omega)] at h
  have h' : ((p &&& bnot v) % 256 &&& 2 ^ i ≠ 0) ↔
      (decide (i < 8) && (p.testBit i && !v.testBit i)) = true := by
    rw [← h]
    exact decide_eq_true_iff.symm
  rw [h']
  simp [hi]

/-- `portOut` to port 0 in terms of the two edges. -/
theorem portOut_zero (s : State) (v : Nat) (hv : v < 256) :
    portOut s 0 v =
      { s with
        keyRow :=
          if s.prevPort.testBit 1 = true ∧ v.testBit 1 = false then 0
          else if (s.prevPort.testBit 0 = true ∧ v.testBit 0 = false) ∧ s.keyRow < 9 then
            (s.keyRow + 1) % 256
          else s.keyRow,
        prevPort := v } := by
  have h0 : ((s.prevPort &&& bnot v) % 256 &&& 1 ≠ 0) ↔
      (s.prevPort.testBit 0 = true ∧ v.testBit 0 = false) :=
    highToLow_bit s.prevPort v 0 hv (by decide)
  have h1 : ((s.prevPort &&& bnot v) % 256 &&& 2 ≠ 0) ↔
      (s.prevPort.testBit 1 = true ∧ v.testBit 1 = false) :=
    highToLow_bit s.prevPort v 1 hv (by decide)
  unfold portOut
  simp only [Nat.zero_mod, if_true, Nat.mod_eq_of_lt hv, h0, h1]
  by_cases c1 : s.prevPort.testBit 1 = true ∧ v.testBit 1 = false
  · rw [if_pos c1, if_pos c1]
    split_ifs <;> rfl
  · rw [if_neg c1, if_neg c1]
    by_cases c0 : (s.prevPort.testBit 0 = true ∧ v.testBit 0 = false) ∧ s.keyRow < 9
    · rw [if_pos c0, if_pos c0]
    · rw [if_neg c0, if_neg c0]

/-- A write to another port changes nothing. -/
theorem portOut_other (s : State) (port v : Nat) (h : port % 256 ≠ 0) :
    portOut s port v = s := by
  unfold portOut
  simp only [if_neg h]

/-- The row index stays within `0..9` under every port write. -/
theorem portOut_keyRow_le (s : State) (port v : Nat) (h : s.keyRow ≤ 9) :
    (portOut s port v).keyRow ≤ 9 := by
  by_cases hp : port % 256 = 0
  · have e : portOut s port v = portOut s 0 (v % 256) := by
      unfold portOut
      simp only [hp, Nat.zero_mod, Nat.mod_mod]
    rw [e, portOut_zero s (v % 256) (by omega)]
    dsimp only
    split_ifs <;> omega
  · rw [portOut_other s port v hp]
    exact h

theorem portWrites_keyRow_le (ws : List (Nat × Nat)) (s : State) (h : s.keyRow ≤ 9) :
    (portWrites s ws).keyRow ≤ 9 := by
  induction ws generalizing s with
  | nil => exact h
  | cons w ws ih => exact ih (portOut s w.1 w.2) (portOut_keyRow_le s w.1 w.2 h)

/-- C23: for every scanner state with row index in `0..9` (the values the
counter takes) and previously written byte `p`, and every byte `v`, `OUT` of
`v` to port 0 sets the row index to 0 if bit 1 is 1 in `p` and 0 in `v`;
otherwise to `min(row+1, 9)` if bit 0 is 1 in `p` and 0 in `v`; otherwise
leaves it unchanged; it records `v` as the previously written byte, and the
new row index is again in `0..9`.  `OUT` to any other port leaves the whole
state, so the row index and the recorded byte, unchanged. -/
theorem port_out_row (s : State) (port v : Nat) (hport : port < 256) (hv : v < 256)
    (hrow : s.keyRow ≤ 9) :
    (port = 0 →
      (portOut s port v).keyRow = nextRow s.keyRow s.prevPort v ∧
      (portOut s port v).prevPort = v ∧ (portOut s port v).keyRow ≤ 9) ∧
    (port ≠ 0 → portOut s port v = s) := by
  refine ⟨fun h0 => ?_, fun h0 => portOut_other s port v (by omega)⟩
  subst h0
  refine ⟨?_, ?_, portOut_keyRow_le s 0 v hrow⟩
  · rw [portOut_zero s v hv]
    unfold nextRow
    dsimp only
    rw [Nat.min_def]
    split_ifs <;> first | omega | (exfalso; tauto)
  · rw [portOut_zero s v hv]

/-- C23 at row 4 with `0x03` written last: `OUT` of `0x02` advances to row 5,
`OUT` of `0x01` resets to row 0, and `OUT` to port 1 changes nothing. -/
theorem port_out_row_witness :
    ((portOut scanState 0 0x02).keyRow = nextRow scanState.keyRow scanState.prevPort 0x02 ∧
      (portOut scanState 0 0x02).prevPort = 0x02 ∧ (portOut scanState 0 0x02).keyRow ≤ 9) ∧
    portOut scanState 1 0x00 = scanState ∧
    nextRow scanState.keyRow scanState.prevPort 0x02 = 5 ∧
    nextRow scanState.keyRow scanState.prevPort 0x01 = 0 :=
  ⟨(port_out_row scanState 0 0x02 (by decide) (by decide) (by decide)).1 rfl,
   (port_out_row scanState 1 0x00 (by decide) (by decide) (by decide)).2 (by decide),
   by decide, by decide⟩

/-! ## C24: the row index used by `IN` -/

/-- The row counter does not depend on the key matrix. -/
theorem portOut_keyMatrix (s : State) (km : Nat → Nat) (port v : Nat) :
    portOut { s with keyMatrix := km } port v = { portOut s port v with keyMatrix := km } := by
  unfold portOut
  dsimp only
  split_ifs <;> rfl

theorem portWrites_keyMatrix (ws : List (Nat × Nat)) (s : State) (km : Nat → Nat) :
    portWrites { s with keyMatrix := km } ws = { portWrites s ws with keyMatrix := km } := by
  induction ws generalizing s with
  | nil => rfl
  | cons w ws ih =>
    show portWrites (portOut { s with keyMatrix := km } w.1 w.2) ws = _
    rw [portOut_keyMatrix]
    exact ih _

/-- C24 (evaluation at the failing input): nine strobes of bit 0 of port 0
from the initial scanner state leave the row index at 9, so the next `IN` from
port 0 reads `keyMatrix[9]`, the element after the nine rows `0..8`: with the
byte `0xA5` there and all nine rows zero the `IN` returns `0x5A`, which is the
complement of none of the rows. -/
theorem scan_row_reaches_nine :
    (portWrites zeroState nineStrobes).keyRow = 9 ∧
    (∀ km : Nat → Nat,
      portIn (portWrites { zeroState with keyMatrix := km } nineStrobes) 0 =
        bnot (km 9) % 256) ∧
    portIn (portWrites { zeroState with keyMatrix := pastMatrix } nineStrobes) 0 = 0x5A ∧
    (∀ r, r < 9 → bnot (pastMatrix r) % 256 = 0xFF) := by
  have h9 : (portWrites zeroState nineStrobes).keyRow = 9 := by decide
  refine ⟨h9, fun km => ?_, by decide, ?_⟩
  · rw [portWrites_keyMatrix]
    show bnot (km (portWrites zeroState nineStrobes).keyRow) % 256 = _
    rw [h9]
  · intro r hr
    interval_cases r <;> rfl

/-! ## C22: `OUT (C),r` -/

/-- A step on `ED op` with an opcode of the plain `switch`. -/
theorem z80step_edPlain (fuel : Nat) (s : State) (op : Nat)
    (h0 : readRam s s.PC = 0xED) (h1 : readRam s (s.PC + 1) = op)
    (hop : op ∉ [0xB0, 0xB1, 0xB2, 0xB3, 0xB8, 0xB9, 0xBA, 0xBB]) :
    z80step fuel s = some (edPlain op { s with PC := ((s.PC + 1) % 65536 + 1) % 65536 }) := by
  rw [z80step_ed fuel s h0]
  unfold ed_prefix
  dsimp only
  rw [fetch_second s op h1]
  unfold edExec
  simp only [List.mem_cons, List.mem_singleton, List.not_mem_nil, or_false, not_or] at hop
  obtain ⟨a0, a1, a2, a3, a4, a5, a6, a7⟩ := hop
  rw [if_neg a0, if_neg a1, if_neg a2, if_neg a3, if_neg a4, if_neg a5, if_neg a6, if_neg a7]

/-- `OUT (C),r` as the code executes it, for `r` = B, C, D, E, H, L, A
(`k` = 0, 1, 2, 3, 4, 5, 7): the value passed to `portOut` is the whole
register pair, of which `portOut` takes the low byte. -/
theorem z80step_out_c (fuel : Nat) (s : State) (k : Nat) (hk : k < 8) (hk6 : k ≠ 6)
    (h0 : readRam s s.PC = 0xED) (h1 : readRam s (s.PC + 1) = 0x41 + 8 * k) :
    z80step fuel s =
      some (portOut { s with PC := ((s.PC + 1) % 65536 + 1) % 65536 } (lowReg s.BC)
        (outPair k s)) := by
  rw [z80step_edPlain fuel s _ h0 h1 (by interval_cases k <;> decide)]
  interval_cases k
  · rfl
  · rfl
  · rfl
  · rfl
  · rfl
  · rfl
  · exact absurd rfl hk6
  · rfl

/-- C22 (evaluation at the failing inputs): with port number `C = 0`, the
scanner at row 4 and `0x03` written last, `OUT (C),B` with `B = 0x03`,
`OUT (C),D` with `D = 0x03`, `E = 0`, `OUT (C),H` with `H = 0x03`, `L = 0` and
`OUT (C),A` with `A = 0x03`, `F = 0` each write the byte `0x00` (the low byte
of the pair): the row index is reset to 0 and `0x00` is recorded, where the
write of the register value `0x03` leaves row 4 and records `0x03`. -/
theorem out_c_writes_low_byte :
    (z80step 0 (outState 0x41 0 0x0300 0 0)).map (fun t => (t.keyRow, t.prevPort)) =
      some (0, 0x00) ∧
    (z80step 0 (outState 0x51 0 0 0x0300 0)).map (fun t => (t.keyRow, t.prevPort)) =
      some (0, 0x00) ∧
    (z80step 0 (outState 0x61 0 0 0 0x0300)).map (fun t => (t.keyRow, t.prevPort)) =
      some (0, 0x00) ∧
    (z80step 0 (outState 0x79 0x0300 0 0 0)).map (fun t => (t.keyRow, t.prevPort)) =
      some (0, 0x00) ∧
    ((portOut scanState 0 0x03).keyRow, (portOut scanState 0 0x03).prevPort) = (4, 0x03) := by
  decide

/-! ## C21: the single-step block I/O instructions -/

/-- C21 (evaluation at the failing input): with `B = 0x01`, `C = 0x10` and the
flag byte zero, `INI` leaves `BC = 0x010F` (the 16-bit pair decremented: `C`
changed, `B` kept) and `F = 0x06` (N and P/V, Z clear), and `OUTI`, `IND`,
`OUTD` leave `BC = 0x0F10` (`B` set to `C - 1`) and `F = 0x02` (Z clear);
`B - 1 = 0` with Z set is reached by none of the four. -/
theorem block_io_counter :
    (z80step 0 (blockIoState 0xA2)).map (fun t => (t.BC, t.AF)) = some (0x010F, 0x0006) ∧
    (z80step 0 (blockIoState 0xA3)).map (fun t => (t.BC, t.AF)) = some (0x0F10, 0x0002) ∧
    (z80step 0 (blockIoState 0xAA)).map (fun t => (t.BC, t.AF)) = some (0x0F10, 0x0002) ∧
    (z80step 0 (blockIoState 0xAB)).map (fun t => (t.BC, t.AF)) = some (0x0F10, 0x0002) := by
  decide

/-! ## C25: the rendered frame -/

theorem printable_eq (b : Nat) : printable b = max (b &&& 0x7F) 0x20 := by
  unfold printable
  have e : (0x7f : Nat) = 2 ^ 7 - 1 := rfl
  rw [e, Nat.and_pow_two_sub_one_eq_mod, Nat.and_pow_two_sub_one_eq_mod]
  congr 1
  omega

theorem printable_range (b : Nat) : 0x20 ≤ max (b &&& 0x7F) 0x20 ∧ max (b &&& 0x7F) 0x20 ≤ 0x7F := by
  have e : (0x7F : Nat) = 2 ^ 7 - 1 := rfl
  rw [e, Nat.and_pow_two_sub_one_eq_mod]
  omega

theorem screenRow_length (ram : Nat → Nat) (y : Nat) : (screenRow ram y).length = 48 := by
  unfold screenRow
  rw [List.length_map, List.length_range]

theorem screenRow_get (ram : Nat → Nat) (y x : Nat) (hx : x < 48) :
    (screenRow ram y)[x]? = some (max (ram (0x80a + y * 64 + x) &&& 0x7F) 0x20) := by
  unfold screenRow
  rw [List.getElem?_map, List.getElem?_range hx, Option.map_some', printable_eq]

/-- The lines of `k` elements each, laid end to end: element `x` of line `y`
is at position `k*y + x`. -/
theorem flatten_lines {α : Type} (f : Nat → List α) (k : Nat) (hf : ∀ y, (f y).length = k)
    (n : Nat) :
    (((List.range n).map f).flatten).length = k * n ∧
    ∀ y x, y < n → x < k → (((List.range n).map f).flatten)[k * y + x]? = (f y)[x]? := by
  induction n with
  | zero => exact ⟨rfl, fun y x hy => absurd hy (Nat.not_lt_zero y)⟩
  | succ n ih =>
    obtain ⟨hl, hg⟩ := ih
    rw [List.range_succ, List.map_append, List.flatten_append]
    have e1 : ([n].map f).flatten = f n := by
      simp
    rw [e1]
    refine ⟨by rw [List.length_append, hl, hf, Nat.mul_succ], fun y x hy hx => ?_⟩
    rcases Nat.lt_succ_iff_lt_or_eq.mp hy with h | h
    · have hlt : k * y + x < (((List.range n).map f).flatten).length := by
        rw [hl]
        calc k * y + x < k * y + k := by omega
          _ = k * (y + 1) := (Nat.mul_succ k y).symm
          _ ≤ k * n := Nat.mul_le_mul_left k h
      rw [List.getElem?_append_left hlt]
      exact hg y x h hx
    · subst h
      rw [List.getElem?_append_right (by rw [hl]; omega), hl, Nat.add_sub_cancel_left]

/-- C25 (amended): for every memory image, the rendered frame is the
cursor-home sequence followed by 16 newline-terminated lines of 48 characters:
the first line shows the bytes at `0x080A + 15*64 + x` for `x = 0..47`, and
line `y+1` shows the bytes at `0x080A + y*64 + x` for `y = 0..14`,
`x = 0..47`; each byte `b` is shown as `max(b & 0x7F, 0x20)`, which always
lies in `[0x20, 0x7F]`; and `updateScreen` appends this frame to the
output. -/
theorem frame_layout (ram : Nat → Nat) :
    (frame ram).length = 3 + 16 * 49 ∧
    (frame ram).take 3 = [0x1b, 0x5b, 0x48] ∧
    (∀ x, x < 48 →
      (frame ram)[3 + x]? = some (max (ram (0x080A + 15 * 64 + x) &&& 0x7F) 0x20)) ∧
    (frame ram)[3 + 48]? = some 0x0a ∧
    (∀ y x, y < 15 → x < 48 →
      (frame ram)[3 + 49 * (y + 1) + x]? =
        some (max (ram (0x080A + y * 64 + x) &&& 0x7F) 0x20)) ∧
    (∀ y, y < 15 → (frame ram)[3 + 49 * (y + 1) + 48]? = some 0x0a) ∧
    (∀ b, 0x20 ≤ max (b &&& 0x7F) 0x20 ∧ max (b &&& 0x7F) 0x20 ≤ 0x7F) ∧
    (∀ s : State, (updateScreen s).out = s.out ++ frame s.ram) := by
  have hline : ∀ y, (screenRow ram y ++ [0x0a]).length = 49 := by
    intro y
    rw [List.length_append, screenRow_length]
    rfl
  obtain ⟨hl, hg⟩ := flatten_lines (fun y => screenRow ram y ++ [0x0a]) 49 hline 15
  have hhead : ([0x1b, 0x5b, 0x48] ++ (screenRow ram 15 ++ [0x0a])).length = 52 := by
    rw [List.length_append, hline]
    rfl
  have hfirst : ∀ i, i < 49 → (frame ram)[3 + i]? = (screenRow ram 15 ++ [0x0a])[i]? := by
    intro i hi
    unfold frame
    rw [List.getElem?_append_left (by rw [hhead]; omega),
      List.getElem?_append_right (by show 3 ≤ 3 + i; omega)]
    show (screenRow ram 15 ++ [0x0a])[3 + i - 3]? = _
    rw [Nat.add_sub_cancel_left]
  have hrest : ∀ y i, y < 15 → i < 49 →
      (frame ram)[3 + 49 * (y + 1) + i]? = (screenRow ram y ++ [0x0a])[i]? := by
    intro y i hy hi
    unfold frame
    rw [List.getElem?_append_right (by rw [hhead]; omega), hhead]
    have e : 3 + 49 * (y + 1) + i - 52 = 49 * y + i := by omega
    rw [e]
    exact hg y i hy hi
  refine ⟨?_, rfl, ?_, ?_, ?_, ?_, printable_range, fun s => rfl⟩
  · unfold frame
    rw [List.length_append, hhead, hl]
  · intro x hx
    rw [hfirst x (by omega),
      List.getElem?_append_left (by rw [screenRow_length]; exact hx)]
    exact screenRow_get ram 15 x hx
  · rw [hfirst 48 (by omega),
      List.getElem?_append_right (by rw [screenRow_length]), screenRow_length]
    rfl
  · intro y x hy hx
    rw [hrest y x hy (by omega),
      List.getElem?_append_left (by rw [screenRow_length]; exact hx)]
    exact screenRow_get ram y x hx
  · intro y hy
    rw [hrest y 48 hy (by omega),
      List.getElem?_append_right (by rw [screenRow_length]), screenRow_length]
    rfl

/-- C25 (amended) on a memory image with `A` at `0x0BCA`, `B` at `0x080A` and
`0xC3` at `0x084B`: the first line starts with `A`, the second with `B`, and
the third shows `0xC3` as `0x43` in its second column. -/
theorem frame_layout_witness :
    (frame marginRam)[3 + 0]? = some (max (marginRam (0x080A + 15 * 64 + 0) &&& 0x7F) 0x20) ∧
    (frame marginRam)[3 + 49 * (0 + 1) + 0]? =
      some (max (marginRam (0x080A + 0 * 64 + 0) &&& 0x7F) 0x20) ∧
    (frame marginRam)[3 + 49 * (1 + 1) + 1]? =
      some (max (marginRam (0x080A + 1 * 64 + 1) &&& 0x7F) 0x20) ∧
    (frame marginRam)[3 + 49 * (1 + 1) + 48]? = some 0x0a ∧
    max (marginRam (0x080A + 15 * 64 + 0) &&& 0x7F) 0x20 = 0x41 ∧
    max (marginRam (0x080A + 0 * 64 + 0) &&& 0x7F) 0x20 = 0x42 ∧
    max (marginRam (0x080A + 1 * 64 + 1) &&& 0x7F) 0x20 = 0x43 :=
  ⟨(frame_layout marginRam).2.2.1 0 (by decide),
   (frame_layout marginRam).2.2.2.2.1 0 0 (by decide) (by decide),
   (frame_layout marginRam).2.2.2.2.1 1 1 (by decide) (by decide),
   (frame_layout marginRam).2.2.2.2.2.1 1 (by decide),
   by decide, by decide, by decide⟩

/-- C25 as stated fails: with the letter `A` at `0x0800 + 15*64 + 0 = 0x0BC0`
and zero everywhere else, the first character of the first line is a blank
(`0x20`), not `max(0x41 & 0x7F, 0x20) = 0x41`, and no character of the frame
is `0x41`. -/
theorem frame_origin_counterexample :
    (frame letterRam)[3 + 0]? = some 0x20 ∧
    max (letterRam (0x0800 + 15 * 64 + 0) &&& 0x7F) 0x20 = 0x41 ∧
    0x41 ∉ frame letterRam := by
  refine ⟨by decide!, by decide, by decide!⟩

/-! ## C26: one record of a `.nas` file -/

theorem loadNasRecord_eq (ram : Nat → Nat) (addr : Nat) (v : List Nat) (a : Nat) :
    loadNasRecord ram addr v a =
      if addr % 65536 ≤ a ∧ a < addr % 65536 + 8 then v.getD (a - addr % 65536) 0 % 256
      else ram a := by
  unfold loadNasRecord
  simp only [List.range_succ, List.range_zero, List.nil_append, List.foldl_cons,
    List.foldl_nil, List.cons_append]
  by_cases h : addr % 65536 ≤ a ∧ a < addr % 65536 + 8
  · rw [if_pos h]
    obtain ⟨k, hk⟩ : ∃ k, a = addr % 65536 + k := ⟨a - addr % 65536, by omega⟩
    have hk8 : k < 8 := by omega
    subst hk
    rw [Nat.add_sub_cancel_left]
    interval_cases k <;> simp
  · rw [if_neg h]
    simp only [Nat.add_zero]
    repeat rw [if_neg (by omega)]

/-- The records that fit: for an address up to `0xFFF8` every store lands in
the array, byte `i` of the record is at `addr+i`, and every other byte is
unchanged. -/
theorem loadNasRecord_fits (ram : Nat → Nat) (addr : Nat) (v : List Nat)
    (ha : addr ≤ 0xFFF8) :
    (∀ k ∈ nasSubscripts addr, k < ramSize) ∧
    (∀ i, i < 8 → loadNasRecord ram addr v (addr + i) = v.getD i 0 % 256) ∧
    (∀ a, (a < addr ∨ addr + 8 ≤ a) → loadNasRecord ram addr v a = ram a) := by
  have e : addr % 65536 = addr := Nat.mod_eq_of_lt (by omega)
  refine ⟨?_, ?_, ?_⟩
  · intro k hk
    unfold nasSubscripts at hk
    rw [List.mem_map] at hk
    obtain ⟨i, hi, rfl⟩ := hk
    rw [List.mem_range] at hi
    unfold ramSize
    omega
  · intro i hi
    rw [loadNasRecord_eq, e, if_pos (by omega), Nat.add_sub_cancel_left]
  · intro a h
    rw [loadNasRecord_eq, e, if_neg (by omega)]

/-- C26 (evaluation at the failing input): for the record
`FFFC 01 02 03 04 05 06 07 08` the subscripts of the eight stores are
`0xFFFC .. 0x10003`; the last four are not below the array size 65536, and the
bytes `05 06 07 08` are not stored at the wrapped addresses `0x0000 .. 0x0003`
either, which keep their contents. -/
theorem nas_record_past_end :
    nasSubscripts 0xFFFC =
      [0xFFFC, 0xFFFD, 0xFFFE, 0xFFFF, 0x10000, 0x10001, 0x10002, 0x10003] ∧
    (nasSubscripts 0xFFFC).filter (fun k => decide (ramSize ≤ k)) =
      [0x10000, 0x10001, 0x10002, 0x10003] ∧
    (List.range 4).map (loadNasRecord (fun _ => 0) 0xFFFC [1, 2, 3, 4, 5, 6, 7, 8]) =
      [0, 0, 0, 0] ∧
    [0x10000, 0x10001, 0x10002, 0x10003].map
        (loadNasRecord (fun _ => 0) 0xFFFC [1, 2, 3, 4, 5, 6, 7, 8]) =
      [5, 6, 7, 8] := by
  decide

/-! ## Flag words of the form `(AF & ~k) | bits` -/

theorem testBit_lt_word (m i : Nat) (hm : m < 65536) (h : m.testBit i = true) : i < 16 := by
  by_contra hi
  have h2 : m < 2 ^ i :=
    Nat.lt_of_lt_of_le (by omega : m < 2 ^ 16) (Nat.pow_le_pow_right (by decide) (by omega))
  rw [Nat.testBit_lt_two_pow h2] at h
  exact Bool.noConfusion h

/-- Under a mask inside the cleared bits, the flag word shows the new bits. -/
theorem mask_or (A X k m : Nat) (hk : k < 2 ^ 32) (hm : m < 65536) (hmk : m &&& k = m) :
    (((A &&& bnot k) ||| X) % 65536) &&& m = X &&& m := by
  apply Nat.eq_of_testBit_eq
  intro i
  have e : (65536 : Nat) = 2 ^ 16 := rfl
  rw [Nat.testBit_and, Nat.testBit_and, e, Nat.testBit_mod_two_pow, Nat.testBit_or,
    Nat.testBit_and]
  cases hmi : m.testBit i
  · simp
  · have hi := testBit_lt_word m i hm hmi
    have hki : k.testBit i = true := by
      have := congrArg (fun z => Nat.testBit z i) hmk
      simp only [Nat.testBit_and, hmi, Bool.true_and] at this
      exact this
    rw [testBit_bnot k i hk (by omega), hki]
    simp [hi]

/-- Under a mask outside the cleared bits and outside the new bits, the flag
word shows the old bits. -/
theorem mask_keep (A X k m : Nat) (hk : k < 2 ^ 32) (hm : m < 65536) (hmk : m &&& k = 0)
    (hX : X &&& m = 0) : (((A &&& bnot k) ||| X) % 65536) &&& m = A &&& m := by
  apply Nat.eq_of_testBit_eq
  intro i
  have e : (65536 : Nat) = 2 ^ 16 := rfl
  rw [Nat.testBit_and, Nat.testBit_and, e, Nat.testBit_mod_two_pow, Nat.testBit_or,
    Nat.testBit_and]
  cases hmi : m.testBit i
  · simp
  · have hi := testBit_lt_word m i hm hmi
    have hki : k.testBit i = false := by
      have := congrArg (fun z => Nat.testBit z i) hmk
      simp only [Nat.testBit_and, hmi, Bool.true_and, Nat.zero_testBit] at this
      exact this
    have hXi : X.testBit i = false := by
      have := congrArg (fun z => Nat.testBit z i) hX
      simp only [Nat.testBit_and, hmi, Bool.and_true, Nat.zero_testBit] at this
      exact this
    rw [testBit_bnot k i hk (by omega), hki, hXi]
    simp [hi]

/-- Cutting to 16 bits before or after an `|` is the same. -/
theorem or_mod_word (a y : Nat) : (a % 65536 ||| y) % 65536 = (a ||| y) % 65536 := by
  apply Nat.eq_of_testBit_eq
  intro i
  have e : (65536 : Nat) = 2 ^ 16 := rfl
  rw [e, Nat.testBit_mod_two_pow, Nat.testBit_mod_two_pow, Nat.testBit_or, Nat.testBit_or,
    Nat.testBit_mod_two_pow]
  cases decide (i < 16) <;> simp

/-- A mask within the low byte sees the low byte only. -/
theorem lowReg_and (x m : Nat) (hm : 0xff &&& m = m) : lowReg x &&& m = x &&& m := by
  unfold lowReg
  rw [Nat.and_assoc, hm]

theorem testFlag_lowReg (x f : Nat) (hf : 0xff &&& f = f) :
    testFlag (lowReg x) f = testFlag x f := by
  unfold testFlag
  rw [lowReg_and x f hf]

/-! ## C27: `BIT` -/

/-- `BIT` in `cb_prefix`: the operand is kept, and the flag word is `AF` with
all flag bits but the carry cleared, then `bitBits`. -/
theorem cbCompute_bit (op acu AF : Nat) (hc : op &&& 0xc0 = 0x40) :
    cbCompute op acu AF = (acu, ((AF &&& bnot 0xfe) ||| bitBits op acu) % 65536) := by
  unfold cbCompute bitBits
  dsimp only
  rw [hc]
  rw [if_neg (by decide), if_pos rfl]
  congr 1
  split_ifs <;> simp only [or_mod_word, Nat.or_assoc, Nat.or_zero]

theorem bitRow0 : allBelow 8 (fun t => allBelow 256 (fun a => bitCheck 0 t a)) = true := by
  decide!

theorem bitRow1 : allBelow 8 (fun t => allBelow 256 (fun a => bitCheck 1 t a)) = true := by
  decide!

theorem bitRow2 : allBelow 8 (fun t => allBelow 256 (fun a => bitCheck 2 t a)) = true := by
  decide!

theorem bitRow3 : allBelow 8 (fun t => allBelow 256 (fun a => bitCheck 3 t a)) = true := by
  decide!

theorem bitRow4 : allBelow 8 (fun t => allBelow 256 (fun a => bitCheck 4 t a)) = true := by
  decide!

theorem bitRow5 : allBelow 8 (fun t => allBelow 256 (fun a => bitCheck 5 t a)) = true := by
  decide!

theorem bitRow6 : allBelow 8 (fun t => allBelow 256 (fun a => bitCheck 6 t a)) = true := by
  decide!

theorem bitRow7 : allBelow 8 (fun t => allBelow 256 (fun a => bitCheck 7 t a)) = true := by
  decide!

/-- The bits of `BIT b,t` on every operand byte. -/
theorem bitTable (b t a : Nat) (hb : b < 8) (ht : t < 8) (ha : a < 256) :
    bitCheck b t a = true := by
  have h : allBelow 8 (fun t => allBelow 256 (fun a => bitCheck b t a)) = true := by
    interval_cases b
    · exact bitRow0
    · exact bitRow1
    · exact bitRow2
    · exact bitRow3
    · exact bitRow4
    · exact bitRow5
    · exact bitRow6
    · exact bitRow7
  exact allBelow_spec (allBelow_spec h t ht) a ha

/-- One step of `BIT b,t`: under a mask within the flag byte, the new `AF` is
the flag word that `BIT` computes. -/
theorem bit_step (fuel : Nat) (s : State) (op : Nat) (hc : op &&& 0xc0 = 0x40)
    (h0 : readRam s s.PC = 0xCB) (h1 : readRam s (s.PC + 1) = op) :
    ∃ s', z80step fuel s = some s' ∧
      ∀ m, 0xff &&& m = m →
        s'.AF &&& m =
          (((s.AF &&& bnot 0xfe) ||| bitBits op (cbOperand (op &&& 7) s s.HL)) % 65536) &&& m := by
  refine ⟨_, z80step_cb fuel s op h0 h1, fun m hm => ?_⟩
  rw [← lowReg_and _ m hm, cbStore_flags, lowReg_and _ m hm, cbCompute_bit _ _ _ hc]

/-- C27 (amended): for every bit index `b`, every operand among B, C, D, E,
H, L, `(HL)` and A (numbered `t` = 0..7 as in the opcode) and every state,
`BIT b` (`CB`, `0x40 + 8b + t`) sets Z and P/V to the complement of the tested
bit, sets H = 1 and N = 0, leaves C unchanged, sets S iff `b = 7` and the
tested bit is 1, and, when the operand is a register, copies bits 5 and 3 of
the operand byte into the Y and X flags; when the operand is `(HL)`, Y and X
are cleared. -/
theorem bit_flags (fuel : Nat) (s : State) (b t : Nat) (hb : b < 8) (ht : t < 8)
    (h0 : readRam s s.PC = 0xCB) (h1 : readRam s (s.PC + 1) = 0x40 + 8 * b + t) :
    ∃ s', z80step fuel s = some s' ∧
      testFlag s'.AF ZeroFlag = !(cbOperand t s s.HL).testBit b ∧
      testFlag s'.AF ParityFlag = !(cbOperand t s s.HL).testBit b ∧
      testFlag s'.AF HalfFlag = true ∧
      testFlag s'.AF SubFlag = false ∧
      testFlag s'.AF CarryFlag = testFlag s.AF CarryFlag ∧
      testFlag s'.AF SignFlag = (decide (b = 7) && (cbOperand t s s.HL).testBit b) ∧
      (t ≠ 6 → s'.AF &&& 0x28 = cbOperand t s s.HL &&& 0x28) ∧
      (t = 6 → s'.AF &&& 0x28 = 0) := by
  have hT := bitTable b t _ hb ht (cbOperand_lt t s s.HL)
  unfold bitCheck at hT
  dsimp only at hT
  simp only [Bool.and_eq_true] at hT
  obtain ⟨⟨⟨⟨⟨⟨⟨⟨d1, d2⟩, x1⟩, x2⟩, x3⟩, x4⟩, x5⟩, x6⟩, x7⟩ := hT
  have d1 := Nat.eq_of_beq_eq_true d1
  have d2 := Nat.eq_of_beq_eq_true d2
  have x5 := Nat.eq_of_beq_eq_true x5
  have x7 := Nat.eq_of_beq_eq_true x7
  obtain ⟨s', e, hm⟩ := bit_step fuel s _ d2 h0 h1
  rw [d1] at hm
  have k32 : (0xfe : Nat) < 2 ^ 32 := by decide
  refine ⟨s', e, ?_, ?_, ?_, ?_, ?_, ?_, ?_, ?_⟩
  · show decide (s'.AF &&& 0x40 ≠ 0) = _
    rw [hm 0x40 rfl, mask_or _ _ _ _ k32 (by decide) rfl]
    exact eq_of_beq x1
  · show decide (s'.AF &&& 0x04 ≠ 0) = _
    rw [hm 0x04 rfl, mask_or _ _ _ _ k32 (by decide) rfl]
    exact eq_of_beq x2
  · show decide (s'.AF &&& 0x10 ≠ 0) = _
    rw [hm 0x10 rfl, mask_or _ _ _ _ k32 (by decide) rfl]
    exact x3
  · show decide (s'.AF &&& 0x02 ≠ 0) = _
    rw [hm 0x02 rfl, mask_or _ _ _ _ k32 (by decide) rfl]
    exact Bool.not_eq_true' _ |>.mp x4
  · show decide (s'.AF &&& 0x01 ≠ 0) = decide (s.AF &&& 0x01 ≠ 0)
    rw [hm 0x01 rfl, mask_keep _ _ _ _ k32 (by decide) rfl x5]
  · show decide (s'.AF &&& 0x80 ≠ 0) = _
    rw [hm 0x80 rfl, mask_or _ _ _ _ k32 (by decide) rfl]
    exact eq_of_beq x6
  · intro h6
    rw [hm 0x28 rfl, mask_or _ _ _ _ k32 (by decide) rfl, x7, if_neg h6]
  · intro h6
    rw [hm 0x28 rfl, mask_or _ _ _ _ k32 (by decide) rfl, x7, if_pos h6]

/-- C27 (amended) at `BIT 0,A` with `A = 0x29` and at `BIT 0,(HL)` with the
byte `0x29` at `HL`: in both Z and P/V are clear and H is set; Y and X are set
from `A`, and clear for `(HL)`. -/
theorem bit_flags_witness :
    (∃ s', z80step 0 (bitState 0x47) = some s' ∧
      testFlag s'.AF ZeroFlag = !(cbOperand 7 (bitState 0x47) (bitState 0x47).HL).testBit 0 ∧
      testFlag s'.AF ParityFlag = !(cbOperand 7 (bitState 0x47) (bitState 0x47).HL).testBit 0 ∧
      testFlag s'.AF HalfFlag = true ∧
      testFlag s'.AF SubFlag = false ∧
      testFlag s'.AF CarryFlag = testFlag (bitState 0x47).AF CarryFlag ∧
      testFlag s'.AF SignFlag =
        (decide (0 = 7) && (cbOperand 7 (bitState 0x47) (bitState 0x47).HL).testBit 0) ∧
      (7 ≠ 6 → s'.AF &&& 0x28 = cbOperand 7 (bitState 0x47) (bitState 0x47).HL &&& 0x28) ∧
      (7 = 6 → s'.AF &&& 0x28 = 0)) ∧
    (∃ s', z80step 0 (bitState 0x46) = some s' ∧
      testFlag s'.AF ZeroFlag = !(cbOperand 6 (bitState 0x46) (bitState 0x46).HL).testBit 0 ∧
      testFlag s'.AF ParityFlag = !(cbOperand 6 (bitState 0x46) (bitState 0x46).HL).testBit 0 ∧
      testFlag s'.AF HalfFlag = true ∧
      testFlag s'.AF SubFlag = false ∧
      testFlag s'.AF CarryFlag = testFlag (bitState 0x46).AF CarryFlag ∧
      testFlag s'.AF SignFlag =
        (decide (0 = 7) && (cbOperand 6 (bitState 0x46) (bitState 0x46).HL).testBit 0) ∧
      (6 ≠ 6 → s'.AF &&& 0x28 = cbOperand 6 (bitState 0x46) (bitState 0x46).HL &&& 0x28) ∧
      (6 = 6 → s'.AF &&& 0x28 = 0)) ∧
    cbOperand 7 (bitState 0x47) (bitState 0x47).HL = 0x29 ∧
    cbOperand 6 (bitState 0x46) (bitState 0x46).HL = 0x29 :=
  ⟨bit_flags 0 (bitState 0x47) 0 7 (by decide) (by decide) (by decide) (by decide),
   bit_flags 0 (bitState 0x46) 0 6 (by decide) (by decide) (by decide) (by decide),
   by decide, by decide⟩

/-- C27 as stated fails: `BIT 0,(HL)` with the byte `0x29` (bits 5 and 3 set)
at `HL` leaves the Y and X flags clear, where `BIT 0,A` with `A = 0x29` sets
them. -/
theorem bit_hl_counterexample :
    (z80step 0 (bitState 0x46)).map (fun t => t.AF &&& 0x28) = some 0 ∧
    readRam (bitState 0x46) (bitState 0x46).HL &&& 0x28 = 0x28 ∧
    (z80step 0 (bitState 0x47)).map (fun t => t.AF &&& 0x28) = some 0x28 := by
  decide

/-! ## C28: the rotate and shift group -/

/-- In the rotate and shift group only bits 3 to 5 of the opcode select the
operation. -/
theorem cbCompute_rot_congr (op op' acu AF : Nat) (h : op &&& 0xc0 = 0x00)
    (h' : op' &&& 0xc0 = 0x00) (h38 : op &&& 0x38 = op' &&& 0x38) :
    cbCompute op acu AF = cbCompute op' acu AF := by
  unfold cbCompute
  dsimp only
  rw [if_pos h, if_pos h', h38]

/-- In the rotate and shift group the result and the new flag byte depend on
`AF` through the carry flag only. -/
theorem cbCompute_rot_carry (op acu AF : Nat) (h : op &&& 0xc0 = 0x00) :
    (cbCompute op acu AF).1 = (cbCompute op acu (b2n (testFlag AF CarryFlag))).1 ∧
    lowReg (cbCompute op acu AF).2 =
      lowReg (cbCompute op acu (b2n (testFlag AF CarryFlag))).2 := by
  have hc : b2n (testFlag (b2n (testFlag AF CarryFlag)) CarryFlag) =
      b2n (testFlag AF CarryFlag) := by
    cases testFlag AF CarryFlag <;> rfl
  unfold cbCompute
  dsimp only
  rw [if_pos h, if_pos h, hc]
  dsimp only
  refine ⟨rfl, ?_⟩
  unfold lowReg
  simp only [Nat.or_assoc]
  rw [mask_or _ _ 0xff 0xff (by decide) (by decide) rfl,
    mask_or _ _ 0xff 0xff (by decide) (by decide) rfl]

theorem rotDecodeTable :
    allBelow 8 (fun k => allBelow 8 (fun t =>
      Nat.beq ((8 * k + t) &&& 7) t && Nat.beq ((8 * k + t) &&& 0xc0) 0 &&
      Nat.beq ((8 * k) &&& 0xc0) 0 &&
      Nat.beq ((8 * k + t) &&& 0x38) ((8 * k) &&& 0x38))) = true := by
  decide!

theorem rotRow0 : allBelow 256 (fun v => allBelow 2 (fun c => rotCheck 0 v c)) = true := by
  decide!

theorem rotRow1 : allBelow 256 (fun v => allBelow 2 (fun c => rotCheck 1 v c)) = true := by
  decide!

theorem rotRow2 : allBelow 256 (fun v => allBelow 2 (fun c => rotCheck 2 v c)) = true := by
  decide!

theorem rotRow3 : allBelow 256 (fun v => allBelow 2 (fun c => rotCheck 3 v c)) = true := by
  decide!

theorem rotRow4 : allBelow 256 (fun v => allBelow 2 (fun c => rotCheck 4 v c)) = true := by
  decide!

theorem rotRow5 : allBelow 256 (fun v => allBelow 2 (fun c => rotCheck 5 v c)) = true := by
  decide!

theorem rotRow6 : allBelow 256 (fun v => allBelow 2 (fun c => rotCheck 6 v c)) = true := by
  decide!

theorem rotRow7 : allBelow 256 (fun v => allBelow 2 (fun c => rotCheck 7 v c)) = true := by
  decide!

/-- The rotate and shift group on every operand byte and carry. -/
theorem rotTable (k v c : Nat) (hk : k < 8) (hv : v < 256) (hc : c < 2) :
    rotCheck k v c = true := by
  have h : allBelow 256 (fun v => allBelow 2 (fun c => rotCheck k v c)) = true := by
    interval_cases k
    · exact rotRow0
    · exact rotRow1
    · exact rotRow2
    · exact rotRow3
    · exact rotRow4
    · exact rotRow5
    · exact rotRow6
    · exact rotRow7
  exact allBelow_spec (allBelow_spec h v hv) c hc

theorem b2n_lt_two (c : Bool) : b2n c < 2 := by
  cases c <;> decide

/-- C28: for every operand byte `v` (the value of B, C, D, E, H, L, `(HL)` in
writable RAM, or A, numbered `t` = 0..7) and carry-in `c`, the rotate and
shift operation `k` (`CB`, `8k + t`) writes back RLC: rotate-left(v); RRC:
rotate-right(v); RL: `(2v + c) mod 256`; RR: `floor(v/2) + 128c`; SLA:
`2v mod 256`; SRA: `floor(v/2) + (v & 0x80)`; SLL: `(2v + 1) mod 256`; SRL:
`floor(v/2)`; and sets C to the bit shifted out (bit 7 of `v` for the left
forms, bit 0 for the right forms), S, Y, X to bits 7, 5, 3 of the result, Z
iff the result is 0, P/V to the parity of the result, and H = N = 0. -/
theorem rotate_shift (fuel : Nat) (s : State) (k t : Nat) (hk : k < 8) (ht : t < 8)
    (h0 : readRam s s.PC = 0xCB) (h1 : readRam s (s.PC + 1) = 8 * k + t)
    (hHL : t = 6 → 0x0800 ≤ s.HL % 65536 ∧ s.HL % 65536 < 0xE000) :
    ∃ s', z80step fuel s = some s' ∧
      cbOperand t s' s'.HL =
        (rotSpec k (cbOperand t s s.HL) (b2n (testFlag s.AF CarryFlag))).1 ∧
      lowReg s'.AF =
        rotFlagSpec (rotSpec k (cbOperand t s s.HL) (b2n (testFlag s.AF CarryFlag))).1
          (rotSpec k (cbOperand t s s.HL) (b2n (testFlag s.AF CarryFlag))).2 := by
  have hd := allBelow_spec (allBelow_spec rotDecodeTable k hk) t ht
  simp only [Bool.and_eq_true] at hd
  obtain ⟨⟨⟨d1, d2⟩, d3⟩, d4⟩ := hd
  have d1 := Nat.eq_of_beq_eq_true d1
  have d2 := Nat.eq_of_beq_eq_true d2
  have d3 := Nat.eq_of_beq_eq_true d3
  have d4 := Nat.eq_of_beq_eq_true d4
  have hT := rotTable k (cbOperand t s s.HL) (b2n (testFlag s.AF CarryFlag)) hk
    (cbOperand_lt t s s.HL) (b2n_lt_two _)
  unfold rotCheck at hT
  simp only [Bool.and_eq_true] at hT
  obtain ⟨y1, y2⟩ := hT
  have y1 := Nat.eq_of_beq_eq_true y1
  have y2 := Nat.eq_of_beq_eq_true y2
  have hcar := cbCompute_rot_carry (8 * k + t) (cbOperand t s s.HL) s.AF d2
  rw [cbCompute_rot_congr (8 * k + t) (8 * k) _ (b2n (testFlag s.AF CarryFlag)) d2 d3 d4]
    at hcar
  refine ⟨_, z80step_cb fuel s _ h0 h1, ?_, ?_⟩
  · rw [d1, cbOperand_cbStore t _ s.HL _ _ ht (fun h => by subst h; rw [cbStore_HL]) hHL,
      hcar.1]
    exact y1
  · rw [d1, cbStore_flags]
    show lowReg (cbCompute (8 * k + t) (cbOperand t s s.HL) s.AF).2 = _
    rw [hcar.2]
    exact y2

/-- C28 at `RL B` with `B = 0x81` and the carry set, and at `SRA (HL)` with
the byte `0x81` at `HL = 0x2000`. -/
theorem rotate_shift_witness :
    (∃ s', z80step 0 (rotState 0x10) = some s' ∧
      cbOperand 0 s' s'.HL =
        (rotSpec 2 (cbOperand 0 (rotState 0x10) (rotState 0x10).HL)
          (b2n (testFlag (rotState 0x10).AF CarryFlag))).1 ∧
      lowReg s'.AF =
        rotFlagSpec
          (rotSpec 2 (cbOperand 0 (rotState 0x10) (rotState 0x10).HL)
            (b2n (testFlag (rotState 0x10).AF CarryFlag))).1
          (rotSpec 2 (cbOperand 0 (rotState 0x10) (rotState 0x10).HL)
            (b2n (testFlag (rotState 0x10).AF CarryFlag))).2) ∧
    (∃ s', z80step 0 (rotState 0x2E) = some s' ∧
      cbOperand 6 s' s'.HL =
        (rotSpec 5 (cbOperand 6 (rotState 0x2E) (rotState 0x2E).HL)
          (b2n (testFlag (rotState 0x2E).AF CarryFlag))).1 ∧
      lowReg s'.AF =
        rotFlagSpec
          (rotSpec 5 (cbOperand 6 (rotState 0x2E) (rotState 0x2E).HL)
            (b2n (testFlag (rotState 0x2E).AF CarryFlag))).1
          (rotSpec 5 (cbOperand 6 (rotState 0x2E) (rotState 0x2E).HL)
            (b2n (testFlag (rotState 0x2E).AF CarryFlag))).2) ∧
    rotSpec 2 0x81 1 = (0x03, 1) ∧ rotFlagSpec 0x03 1 = 0x05 ∧
    rotSpec 5 0x81 1 = (0xC0, 1) ∧ rotFlagSpec 0xC0 1 = 0x85 :=
  ⟨rotate_shift 0 (rotState 0x10) 2 0 (by decide) (by decide) (by decide) (by decide)
      (by decide),
   rotate_shift 0 (rotState 0x2E) 5 6 (by decide) (by decide) (by decide) (by decide)
      (by decide),
   by decide, by decide, by decide, by decide⟩

/-! ## C29: `INC r` and `DEC r` -/

theorem mod_word_and (x m : Nat) (hm : m < 65536) : (x % 65536) &&& m = x &&& m := by
  apply Nat.eq_of_testBit_eq
  intro i
  have e : (65536 : Nat) = 2 ^ 16 := rfl
  rw [Nat.testBit_and, Nat.testBit_and, e, Nat.testBit_mod_two_pow]
  cases hmi : m.testBit i
  · simp
  · have hi := testBit_lt_word m i hm hmi
    simp [hi]

/-- The form of `mask_keep` whose side condition is read off the flag word
computed from `AF = 0`. -/
theorem mask_keep0 (A X k m : Nat) (hk : k < 2 ^ 32) (hm : m < 65536) (hmk : m &&& k = 0)
    (h0 : (((0 &&& bnot k) ||| X) % 65536) &&& m = 0) :
    (((A &&& bnot k) ||| X) % 65536) &&& m = A &&& m := by
  rw [Nat.zero_and, Nat.zero_or, mod_word_and X m hm] at h0
  exact mask_keep A X k m hk hm hmk h0

theorem highReg_of_and (x y : Nat) (h : x &&& 0xff00 = y &&& 0xff00) : highReg x = highReg y := by
  rw [and_ff00, and_ff00, Nat.shiftLeft_eq, Nat.shiftLeft_eq] at h
  omega

theorem and_ff_of_lt (v : Nat) (hv : v < 256) : v &&& 0xff = v := by
  have e : (0xff : Nat) = 2 ^ 8 - 1 := rfl
  rw [e, Nat.and_pow_two_sub_one_eq_mod]
  exact Nat.mod_eq_of_lt hv

theorem incTable :
    allBelow 256 (fun v => incCheck v (v + 1) && incCheck v ((v + 1) % 256)) = true := by
  decide!

theorem decTable :
    allBelow 256 (fun v => decCheck v (sub32 v 1) && decCheck v ((v + 255) % 256)) = true := by
  decide!

/-- The flag word of `INC`, from a word `AF0` whose carry is that of `AF`. -/
theorem incAF_spec (AF0 AF F0 temp v : Nat) (hv : v < 256) (hc : incCheck v temp = true)
    (hcar : AF0 &&& 1 = AF &&& 1) :
    incAF AF0 temp &&& 0xfe = addAF (SethighReg F0 v) 1 0 &&& 0xfe ∧
    testFlag (incAF AF0 temp) CarryFlag = testFlag AF CarryFlag ∧
    (testFlag (incAF AF0 temp) ParityFlag = true ↔ (v + 1) % 256 = 0x80) ∧
    highReg (incAF AF0 temp) = highReg AF0 := by
  unfold incCheck at hc
  simp only [Bool.and_eq_true] at hc
  obtain ⟨⟨⟨c1, c2⟩, c3⟩, c4⟩ := hc
  have c1 := Nat.eq_of_beq_eq_true c1
  have c2 := Nat.eq_of_beq_eq_true c2
  have c3 := Nat.eq_of_beq_eq_true c3
  have c4 := eq_of_beq c4
  have k32 : (0xfe : Nat) < 2 ^ 32 := by decide
  have e1 : ∀ m, m < 65536 → m &&& 0xfe = m → incAF AF0 temp &&& m = incAF 0 temp &&& m := by
    intro m hm hmk
    unfold incAF
    simp only [Nat.or_assoc]
    rw [mask_or _ _ _ _ k32 hm hmk, mask_or _ _ _ _ k32 hm hmk]
  have e2 : ∀ m, m < 65536 → m &&& 0xfe = 0 → incAF 0 temp &&& m = 0 →
      incAF AF0 temp &&& m = AF0 &&& m := by
    intro m hm hmk h0
    unfold incAF at h0 ⊢
    simp only [Nat.or_assoc] at h0 ⊢
    exact mask_keep0 _ _ _ _ k32 hm hmk h0
  refine ⟨?_, ?_, ?_, ?_⟩
  · rw [e1 0xfe (by decide) rfl, c1, addAF_eq_raw, highReg_SethighReg, and_ff_of_lt v hv]
  · show decide (incAF AF0 temp &&& 0x01 ≠ 0) = decide (AF &&& 0x01 ≠ 0)
    rw [e2 0x01 (by decide) rfl c2, hcar]
  · show decide (incAF AF0 temp &&& 0x04 ≠ 0) = true ↔ _
    rw [e1 0x04 (by decide) rfl, c4, decide_eq_true_iff]
  · exact highReg_of_and _ _ (e2 0xff00 (by decide) rfl c3)

/-- The flag word of `DEC`, from a word `AF0` whose carry is that of `AF`. -/
theorem decAF_spec (AF0 AF F0 temp v : Nat) (hv : v < 256) (hc : decCheck v temp = true)
    (hcar : AF0 &&& 1 = AF &&& 1) :
    decAF AF0 temp &&& 0xfe = subAF (SethighReg F0 v) 1 0 &&& 0xfe ∧
    testFlag (decAF AF0 temp) CarryFlag = testFlag AF CarryFlag ∧
    (testFlag (decAF AF0 temp) ParityFlag = true ↔ (v + 255) % 256 = 0x7F) ∧
    highReg (decAF AF0 temp) = highReg AF0 := by
  unfold decCheck at hc
  simp only [Bool.and_eq_true] at hc
  obtain ⟨⟨⟨c1, c2⟩, c3⟩, c4⟩ := hc
  have c1 := Nat.eq_of_beq_eq_true c1
  have c2 := Nat.eq_of_beq_eq_true c2
  have c3 := Nat.eq_of_beq_eq_true c3
  have c4 := eq_of_beq c4
  have k32 : (0xfe : Nat) < 2 ^ 32 := by decide
  have e1 : ∀ m, m < 65536 → m &&& 0xfe = m → decAF AF0 temp &&& m = decAF 0 temp &&& m := by
    intro m hm hmk
    unfold decAF
    simp only [Nat.or_assoc]
    rw [mask_or _ _ _ _ k32 hm hmk, mask_or _ _ _ _ k32 hm hmk]
  have e2 : ∀ m, m < 65536 → m &&& 0xfe = 0 → decAF 0 temp &&& m = 0 →
      decAF AF0 temp &&& m = AF0 &&& m := by
    intro m hm hmk h0
    unfold decAF at h0 ⊢
    simp only [Nat.or_assoc] at h0 ⊢
    exact mask_keep0 _ _ _ _ k32 hm hmk h0
  refine ⟨?_, ?_, ?_, ?_⟩
  · rw [e1 0xfe (by decide) rfl, c1, subAF_eq_raw, highReg_SethighReg, and_ff_of_lt v hv]
  · show decide (decAF AF0 temp &&& 0x01 ≠ 0) = decide (AF &&& 0x01 ≠ 0)
    rw [e2 0x01 (by decide) rfl c2, hcar]
  · show decide (decAF AF0 temp &&& 0x04 ≠ 0) = true ↔ _
    rw [e1 0x04 (by decide) rfl, c4, decide_eq_true_iff]
  · exact highReg_of_and _ _ (e2 0xff00 (by decide) rfl c3)

theorem incCheck_low (v : Nat) (hv : v < 256) : incCheck v (v + 1) = true := by
  have h := allBelow_spec incTable v hv
  simp only [Bool.and_eq_true] at h
  exact h.1

theorem incCheck_high (v : Nat) (hv : v < 256) : incCheck v ((v + 1) % 256) = true := by
  have h := allBelow_spec incTable v hv
  simp only [Bool.and_eq_true] at h
  exact h.2

theorem decCheck_low (v : Nat) (hv : v < 256) : decCheck v (sub32 v 1) = true := by
  have h := allBelow_spec decTable v hv
  simp only [Bool.and_eq_true] at h
  exact h.1

theorem decCheck_high (v : Nat) (hv : v < 256) : decCheck v ((v + 255) % 256) = true := by
  have h := allBelow_spec decTable v hv
  simp only [Bool.and_eq_true] at h
  exact h.2

theorem highReg_inc (R : Nat) : highReg ((0x100 + R) % 65536) = (highReg R + 1) % 256 := by
  rw [highReg_eq, highReg_eq]
  omega

theorem highReg_dec (R : Nat) : highReg ((0xff00 + R) % 65536) = (highReg R + 255) % 256 := by
  rw [highReg_eq, highReg_eq]
  omega

theorem and_one_inc (R : Nat) : (0x100 + R) % 65536 &&& 1 = R &&& 1 := by
  rw [Nat.and_one_is_mod, Nat.and_one_is_mod]
  omega

theorem and_one_dec (R : Nat) : (0xff00 + R) % 65536 &&& 1 = R &&& 1 := by
  rw [Nat.and_one_is_mod, Nat.and_one_is_mod]
  omega

theorem lowReg_inc (R : Nat) : lowReg (SetlowReg R (lowReg R + 1)) = (lowReg R + 1) % 256 := by
  rw [lowReg_SetlowReg]
  exact Nat.and_pow_two_sub_one_eq_mod _ 8

theorem lowReg_dec (R : Nat) :
    lowReg (SetlowReg R (sub32 (lowReg R) 1)) = (lowReg R + 255) % 256 := by
  rw [lowReg_SetlowReg]
  have e : (sub32 (lowReg R) 1) &&& 0xff = sub32 (lowReg R) 1 % 2 ^ 8 :=
    Nat.and_pow_two_sub_one_eq_mod _ 8
  rw [e]
  have := lowReg_lt R
  unfold sub32
  omega

/-- `INC` of the high half of a pair. -/
theorem inc_high (R AF : Nat) :
    highReg (incHigh R AF).1 = (highReg R + 1) % 256 ∧
    (incHigh R AF).2 &&& 0xfe = addAF (SethighReg AF (highReg R)) 1 0 &&& 0xfe ∧
    testFlag (incHigh R AF).2 CarryFlag = testFlag AF CarryFlag ∧
    (testFlag (incHigh R AF).2 ParityFlag = true ↔ highReg (incHigh R AF).1 = 0x80) := by
  have h := incAF_spec AF AF AF _ (highReg R) (highReg_lt R)
    (incCheck_high _ (highReg_lt R)) rfl
  unfold incHigh
  dsimp only
  rw [highReg_inc]
  exact ⟨rfl, h.1, h.2.1, h.2.2.1⟩

/-- `INC` of the low half of a pair. -/
theorem inc_low (R AF : Nat) :
    lowReg (incLow R AF).1 = (lowReg R + 1) % 256 ∧
    (incLow R AF).2 &&& 0xfe = addAF (SethighReg AF (lowReg R)) 1 0 &&& 0xfe ∧
    testFlag (incLow R AF).2 CarryFlag = testFlag AF CarryFlag ∧
    (testFlag (incLow R AF).2 ParityFlag = true ↔ lowReg (incLow R AF).1 = 0x80) := by
  have h := incAF_spec AF AF AF _ (lowReg R) (lowReg_lt R)
    (incCheck_low _ (lowReg_lt R)) rfl
  unfold incLow
  dsimp only
  rw [lowReg_inc]
  exact ⟨rfl, h.1, h.2.1, h.2.2.1⟩

/-- `INC A`. -/
theorem inc_acc (AF : Nat) :
    highReg (incAF ((0x100 + AF) % 65536) (highReg ((0x100 + AF) % 65536))) =
      (highReg AF + 1) % 256 ∧
    incAF ((0x100 + AF) % 65536) (highReg ((0x100 + AF) % 65536)) &&& 0xfe =
      addAF (SethighReg AF (highReg AF)) 1 0 &&& 0xfe ∧
    testFlag (incAF ((0x100 + AF) % 65536) (highReg ((0x100 + AF) % 65536))) CarryFlag =
      testFlag AF CarryFlag ∧
    (testFlag (incAF ((0x100 + AF) % 65536) (highReg ((0x100 + AF) % 65536))) ParityFlag = true ↔
      highReg (incAF ((0x100 + AF) % 65536) (highReg ((0x100 + AF) % 65536))) = 0x80) := by
  have h := incAF_spec ((0x100 + AF) % 65536) AF AF _ (highReg AF) (highReg_lt AF)
    (incCheck_high _ (highReg_lt AF)) (and_one_inc AF)
  rw [highReg_inc] at h ⊢
  rw [h.2.2.2]
  exact ⟨rfl, h.1, h.2.1, h.2.2.1⟩

/-- `DEC` of the high half of a pair. -/
theorem dec_high (R AF : Nat) :
    highReg (decHigh R AF).1 = (highReg R + 255) % 256 ∧
    (decHigh R AF).2 &&& 0xfe = subAF (SethighReg AF (highReg R)) 1 0 &&& 0xfe ∧
    testFlag (decHigh R AF).2 CarryFlag = testFlag AF CarryFlag ∧
    (testFlag (decHigh R AF).2 ParityFlag = true ↔ highReg (decHigh R AF).1 = 0x7F) := by
  have h := decAF_spec AF AF AF _ (highReg R) (highReg_lt R)
    (decCheck_high _ (highReg_lt R)) rfl
  unfold decHigh
  dsimp only
  rw [highReg_dec]
  exact ⟨rfl, h.1, h.2.1, h.2.2.1⟩

/-- `DEC` of the low half of a pair. -/
theorem dec_low (R AF : Nat) :
    lowReg (decLow R AF).1 = (lowReg R + 255) % 256 ∧
    (decLow R AF).2 &&& 0xfe = subAF (SethighReg AF (lowReg R)) 1 0 &&& 0xfe ∧
    testFlag (decLow R AF).2 CarryFlag = testFlag AF CarryFlag ∧
    (testFlag (decLow R AF).2 ParityFlag = true ↔ lowReg (decLow R AF).1 = 0x7F) := by
  have h := decAF_spec AF AF AF _ (lowReg R) (lowReg_lt R)
    (decCheck_low _ (lowReg_lt R)) rfl
  unfold decLow
  dsimp only
  rw [lowReg_dec]
  exact ⟨rfl, h.1, h.2.1, h.2.2.1⟩

/-- `DEC A`. -/
theorem dec_acc (AF : Nat) :
    highReg (decAF ((0xff00 + AF) % 65536) (highReg ((0xff00 + AF) % 65536))) =
      (highReg AF + 255) % 256 ∧
    decAF ((0xff00 + AF) % 65536) (highReg ((0xff00 + AF) % 65536)) &&& 0xfe =
      subAF (SethighReg AF (highReg AF)) 1 0 &&& 0xfe ∧
    testFlag (decAF ((0xff00 + AF) % 65536) (highReg ((0xff00 + AF) % 65536))) CarryFlag =
      testFlag AF CarryFlag ∧
    (testFlag (decAF ((0xff00 + AF) % 65536) (highReg ((0xff00 + AF) % 65536))) ParityFlag = true ↔
      highReg (decAF ((0xff00 + AF) % 65536) (highReg ((0xff00 + AF) % 65536))) = 0x7F) := by
  have h := decAF_spec ((0xff00 + AF) % 65536) AF AF _ (highReg AF) (highReg_lt AF)
    (decCheck_high _ (highReg_lt AF)) (and_one_dec AF)
  rw [highReg_dec] at h ⊢
  rw [h.2.2.2]
  exact ⟨rfl, h.1, h.2.1, h.2.2.1⟩

theorem z80main_04 (s : State) :
    z80main 0x04 s = { s with BC := (incHigh s.BC s.AF).1, AF := (incHigh s.BC s.AF).2 } := rfl

theorem z80main_0C (s : State) :
    z80main 0x0C s = { s with BC := (incLow s.BC s.AF).1, AF := (incLow s.BC s.AF).2 } := rfl

theorem z80main_14 (s : State) :
    z80main 0x14 s = { s with DE := (incHigh s.DE s.AF).1, AF := (incHigh s.DE s.AF).2 } := rfl

theorem z80main_1C (s : State) :
    z80main 0x1C s = { s with DE := (incLow s.DE s.AF).1, AF := (incLow s.DE s.AF).2 } := rfl

theorem z80main_24 (s : State) :
    z80main 0x24 s = { s with HL := (incHigh s.HL s.AF).1, AF := (incHigh s.HL s.AF).2 } := rfl

theorem z80main_2C (s : State) :
    z80main 0x2C s = { s with HL := (incLow s.HL s.AF).1, AF := (incLow s.HL s.AF).2 } := rfl

theorem z80main_05 (s : State) :
    z80main 0x05 s = { s with BC := (decHigh s.BC s.AF).1, AF := (decHigh s.BC s.AF).2 } := rfl

theorem z80main_0D (s : State) :
    z80main 0x0D s = { s with BC := (decLow s.BC s.AF).1, AF := (decLow s.BC s.AF).2 } := rfl

theorem z80main_15 (s : State) :
    z80main 0x15 s = { s with DE := (decHigh s.DE s.AF).1, AF := (decHigh s.DE s.AF).2 } := rfl

theorem z80main_1D (s : State) :
    z80main 0x1D s = { s with DE := (decLow s.DE s.AF).1, AF := (decLow s.DE s.AF).2 } := rfl

theorem z80main_25 (s : State) :
    z80main 0x25 s = { s with HL := (decHigh s.HL s.AF).1, AF := (decHigh s.HL s.AF).2 } := rfl

theorem z80main_2D (s : State) :
    z80main 0x2D s = { s with HL := (decLow s.HL s.AF).1, AF := (decLow s.HL s.AF).2 } := rfl

theorem z80main_3C (s : State) :
    z80main 0x3C s =
      { s with AF := incAF ((0x100 + s.AF) % 65536) (highReg ((0x100 + s.AF) % 65536)) } := rfl

theorem z80main_3D (s : State) :
    z80main 0x3D s =
      { s with AF := decAF ((0xff00 + s.AF) % 65536) (highReg ((0xff00 + s.AF) % 65536)) } := rfl

/-- C29: for every 8-bit register `r` among B, C, D, E, H, L, A (numbered `t`
as in the opcode), every value `v` of it and every prior flag byte, `INC r`
(`0x04 + 8t`) leaves `r = (v+1) mod 256` with the S, Z, Y, H, X, P/V and N
flags (bits 7 to 1 of F) equal to those `ADD A,1` produces on accumulator
value `v`, and `DEC r` (`0x05 + 8t`) leaves `r = (v-1) mod 256` with those
flags equal to the ones `SUB 1` produces on accumulator value `v`; in both
cases the C flag keeps its prior value, and P/V is set exactly when the result
is `0x80` for `INC` and `0x7F` for `DEC`. -/
theorem inc_dec_flags (fuel : Nat) (s : State) (t : Nat) (ht : t < 8) (ht6 : t ≠ 6) :
    (readRam s s.PC = 0x04 + 8 * t →
      ∃ s', z80step fuel s = some s' ∧
        reg8 t s' = (reg8 t s + 1) % 256 ∧
        s'.AF &&& 0xfe = addAF (SethighReg s.AF (reg8 t s)) 1 0 &&& 0xfe ∧
        testFlag s'.AF CarryFlag = testFlag s.AF CarryFlag ∧
        (testFlag s'.AF ParityFlag = true ↔ reg8 t s' = 0x80)) ∧
    (readRam s s.PC = 0x05 + 8 * t →
      ∃ s', z80step fuel s = some s' ∧
        reg8 t s' = (reg8 t s + 255) % 256 ∧
        s'.AF &&& 0xfe = subAF (SethighReg s.AF (reg8 t s)) 1 0 &&& 0xfe ∧
        testFlag s'.AF CarryFlag = testFlag s.AF CarryFlag ∧
        (testFlag s'.AF ParityFlag = true ↔ reg8 t s' = 0x7F)) := by
  interval_cases t
  · refine ⟨fun h => ?_, fun h => ?_⟩
    · have h' : readRam s s.PC = 0x04 := h
      rw [z80step_main fuel s (by rw [h']; decide), h', z80main_04]
      exact ⟨_, rfl, inc_high s.BC s.AF⟩
    · have h' : readRam s s.PC = 0x05 := h
      rw [z80step_main fuel s (by rw [h']; decide), h', z80main_05]
      exact ⟨_, rfl, dec_high s.BC s.AF⟩
  · refine ⟨fun h => ?_, fun h => ?_⟩
    · have h' : readRam s s.PC = 0x0C := h
      rw [z80step_main fuel s (by rw [h']; decide), h', z80main_0C]
      exact ⟨_, rfl, inc_low s.BC s.AF⟩
    · have h' : readRam s s.PC = 0x0D := h
      rw [z80step_main fuel s (by rw [h']; decide), h', z80main_0D]
      exact ⟨_, rfl, dec_low s.BC s.AF⟩
  · refine ⟨fun h => ?_, fun h => ?_⟩
    · have h' : readRam s s.PC = 0x14 := h
      rw [z80step_main fuel s (by rw [h']; decide), h', z80main_14]
      exact ⟨_, rfl, inc_high s.DE s.AF⟩
    · have h' : readRam s s.PC = 0x15 := h
      rw [z80step_main fuel s (by rw [h']; decide), h', z80main_15]
      exact ⟨_, rfl, dec_high s.DE s.AF⟩
  · refine ⟨fun h => ?_, fun h => ?_⟩
    · have h' : readRam s s.PC = 0x1C := h
      rw [z80step_main fuel s (by rw [h']; decide), h', z80main_1C]
      exact ⟨_, rfl, inc_low s.DE s.AF⟩
    · have h' : readRam s s.PC = 0x1D := h
      rw [z80step_main fuel s (by rw [h']; decide), h', z80main_1D]
      exact ⟨_, rfl, dec_low s.DE s.AF⟩
  · refine ⟨fun h => ?_, fun h => ?_⟩
    · have h' : readRam s s.PC = 0x24 := h
      rw [z80step_main fuel s (by rw [h']; decide), h', z80main_24]
      exact ⟨_, rfl, inc_high s.HL s.AF⟩
    · have h' : readRam s s.PC = 0x25 := h
      rw [z80step_main fuel s (by rw [h']; decide), h', z80main_25]
      exact ⟨_, rfl, dec_high s.HL s.AF⟩
  · refine ⟨fun h => ?_, fun h => ?_⟩
    · have h' : readRam s s.PC = 0x2C := h
      rw [z80step_main fuel s (by rw [h']; decide), h', z80main_2C]
      exact ⟨_, rfl, inc_low s.HL s.AF⟩
    · have h' : readRam s s.PC = 0x2D := h
      rw [z80step_main fuel s (by rw [h']; decide), h', z80main_2D]
      exact ⟨_, rfl, dec_low s.HL s.AF⟩
  · exact absurd rfl ht6
  · refine ⟨fun h => ?_, fun h => ?_⟩
    · have h' : readRam s s.PC = 0x3C := h
      rw [z80step_main fuel s (by rw [h']; decide), h', z80main_3C]
      exact ⟨_, rfl, inc_acc s.AF⟩
    · have h' : readRam s s.PC = 0x3D := h
      rw [z80step_main fuel s (by rw [h']; decide), h', z80main_3D]
      exact ⟨_, rfl, dec_acc s.AF⟩

/-- C29 at `INC B` with `B = 0x7F` and the carry set, and at `DEC C` with
`C = 0x80` and the carry clear. -/
theorem inc_dec_flags_witness :
    (∃ s', z80step 0 (incState 0x04 0x7F00 0x0001) = some s' ∧
      reg8 0 s' = (reg8 0 (incState 0x04 0x7F00 0x0001) + 1) % 256 ∧
      s'.AF &&& 0xfe =
        addAF (SethighReg (incState 0x04 0x7F00 0x0001).AF
          (reg8 0 (incState 0x04 0x7F00 0x0001))) 1 0 &&& 0xfe ∧
      testFlag s'.AF CarryFlag = testFlag (incState 0x04 0x7F00 0x0001).AF CarryFlag ∧
      (testFlag s'.AF ParityFlag = true ↔ reg8 0 s' = 0x80)) ∧
    (∃ s', z80step 0 (incState 0x0D 0x0080 0x0000) = some s' ∧
      reg8 1 s' = (reg8 1 (incState 0x0D 0x0080 0x0000) + 255) % 256 ∧
      s'.AF &&& 0xfe =
        subAF (SethighReg (incState 0x0D 0x0080 0x0000).AF
          (reg8 1 (incState 0x0D 0x0080 0x0000))) 1 0 &&& 0xfe ∧
      testFlag s'.AF CarryFlag = testFlag (incState 0x0D 0x0080 0x0000).AF CarryFlag ∧
      (testFlag s'.AF ParityFlag = true ↔ reg8 1 s' = 0x7F)) ∧
    (z80step 0 (incState 0x04 0x7F00 0x0001)).map (fun t => (t.BC, t.AF)) =
      some (0x8000, 0x0095) ∧
    (z80step 0 (incState 0x0D 0x0080 0x0000)).map (fun t => (t.BC, t.AF)) =
      some (0x007F, 0x003E) :=
  ⟨(inc_dec_flags 0 (incState 0x04 0x7F00 0x0001) 0 (by decide) (by decide)).1 (by decide),
   (inc_dec_flags 0 (incState 0x0D 0x0080 0x0000) 1 (by decide) (by decide)).2 (by decide),
   by decide, by decide⟩

/-! ## C30: `ADD HL,rp` -/

/-- Bit `k` of `a ^ b ^ (a + b)` is the carry into bit `k` of the sum. -/
theorem xor_carry (a b k : Nat) :
    (a ^^^ b ^^^ (a + b)).testBit k = decide (2 ^ k ≤ a % 2 ^ k + b % 2 ^ k) := by
  rw [Nat.testBit_xor, Nat.testBit_xor, Nat.testBit_to_div_mod, Nat.testBit_to_div_mod,
    Nat.testBit_to_div_mod]
  have hq : 0 < 2 ^ k := Nat.two_pow_pos k
  generalize 2 ^ k = q at hq ⊢
  have ha := Nat.div_add_mod a q
  have hb := Nat.div_add_mod b q
  have hra := Nat.mod_lt a hq
  have hrb := Nat.mod_lt b hq
  have hs : (a + b) / q = a / q + b / q + (a % q + b % q) / q := by
    have e : a + b = (a % q + b % q) + q * (a / q + b / q) := by
      rw [Nat.mul_add]
      omega
    rw [e, Nat.add_mul_div_left _ _ hq]
    omega
  rw [hs]
  generalize a / q = A
  generalize b / q = B
  rcases Nat.lt_or_ge (a % q + b % q) q with h | h
  · rw [Nat.div_eq_of_lt h]
    have hn : ¬ q ≤ a % q + b % q := by omega
    rw [decide_eq_false hn]
    rcases Nat.mod_two_eq_zero_or_one A with hA | hA <;>
      rcases Nat.mod_two_eq_zero_or_one B with hB | hB <;>
      simp [Nat.add_mod, hA, hB]
  · have e1 : (a % q + b % q) / q = 1 :=
      Nat.div_eq_of_lt_le (by omega) (by omega)
    rw [e1, decide_eq_true h]
    rcases Nat.mod_two_eq_zero_or_one A with hA | hA <;>
      rcases Nat.mod_two_eq_zero_or_one B with hB | hB <;>
      simp [Nat.add_mod, hA, hB]

/-- Bit `i` of the flag word of the 16-bit additions. -/
theorem add16_testBit (R0 R1 AF i : Nat) (hi : i < 16) :
    (add16 R0 R1 AF).2.testBit i =
      ((AF.testBit i && !(0x3b : Nat).testBit i) ||
        ((R0 + R1).testBit (8 + i) && (0x28 : Nat).testBit i) ||
        ((R0 ^^^ R1 ^^^ (R0 + R1)).testBit (8 + i) && (0x10 : Nat).testBit i) ||
        ((R0 ^^^ R1 ^^^ (R0 + R1)).testBit (8 + (8 + i)) && (1 : Nat).testBit i)) := by
  unfold add16
  dsimp only
  have e : (65536 : Nat) = 2 ^ 16 := rfl
  rw [e, Nat.testBit_mod_two_pow, Nat.testBit_or, Nat.testBit_or, Nat.testBit_or,
    Nat.testBit_and, Nat.testBit_and, Nat.testBit_and, Nat.testBit_and,
    Nat.testBit_shiftRight, Nat.testBit_shiftRight, Nat.testBit_shiftRight,
    testBit_bnot 0x3b i (by decide) (by omega)]
  simp [hi]

theorem and_ffff_of_lt (x : Nat) (h : x < 65536) : x &&& 0xffff = x := by
  have e : (0xffff : Nat) = 2 ^ 16 - 1 := rfl
  rw [e, Nat.and_pow_two_sub_one_eq_mod]
  exact Nat.mod_eq_of_lt h

/-- The 16-bit addition on 16-bit operands. -/
theorem add16_spec (R0 R1 AF : Nat) (h0 : R0 < 65536) (h1 : R1 < 65536) :
    (add16 R0 R1 AF).1 = (R0 + R1) % 65536 ∧
    testFlag (add16 R0 R1 AF).2 CarryFlag = decide (65536 ≤ R0 + R1) ∧
    testFlag (add16 R0 R1 AF).2 HalfFlag = decide (4096 ≤ R0 % 4096 + R1 % 4096) ∧
    testFlag (add16 R0 R1 AF).2 SubFlag = false ∧
    (add16 R0 R1 AF).2.testBit 5 = (add16 R0 R1 AF).1.testBit 13 ∧
    (add16 R0 R1 AF).2.testBit 3 = (add16 R0 R1 AF).1.testBit 11 ∧
    testFlag (add16 R0 R1 AF).2 SignFlag = testFlag AF SignFlag ∧
    testFlag (add16 R0 R1 AF).2 ZeroFlag = testFlag AF ZeroFlag ∧
    testFlag (add16 R0 R1 AF).2 ParityFlag = testFlag AF ParityFlag := by
  have hC : testFlag (add16 R0 R1 AF).2 CarryFlag = (add16 R0 R1 AF).2.testBit 0 :=
    testFlag_eq_testBit _ 0
  have hN : testFlag (add16 R0 R1 AF).2 SubFlag = (add16 R0 R1 AF).2.testBit 1 :=
    testFlag_eq_testBit _ 1
  have hP : testFlag (add16 R0 R1 AF).2 ParityFlag = (add16 R0 R1 AF).2.testBit 2 :=
    testFlag_eq_testBit _ 2
  have hH : testFlag (add16 R0 R1 AF).2 HalfFlag = (add16 R0 R1 AF).2.testBit 4 :=
    testFlag_eq_testBit _ 4
  have hZ : testFlag (add16 R0 R1 AF).2 ZeroFlag = (add16 R0 R1 AF).2.testBit 6 :=
    testFlag_eq_testBit _ 6
  have hS : testFlag (add16 R0 R1 AF).2 SignFlag = (add16 R0 R1 AF).2.testBit 7 :=
    testFlag_eq_testBit _ 7
  have gP : testFlag AF ParityFlag = AF.testBit 2 := testFlag_eq_testBit _ 2
  have gZ : testFlag AF ZeroFlag = AF.testBit 6 := testFlag_eq_testBit _ 6
  have gS : testFlag AF SignFlag = AF.testBit 7 := testFlag_eq_testBit _ 7
  have e16 : (65536 : Nat) = 2 ^ 16 := rfl
  have r1 : (add16 R0 R1 AF).1 = (R0 + R1) % 65536 := rfl
  refine ⟨r1, ?_, ?_, ?_, ?_, ?_, ?_, ?_, ?_⟩
  · rw [hC, add16_testBit _ _ _ 0 (by decide)]
    have c := xor_carry R0 R1 16
    rw [← e16, Nat.mod_eq_of_lt h0, Nat.mod_eq_of_lt h1] at c
    rw [← c]
    generalize AF.testBit 0 = p
    generalize (R0 + R1).testBit (8 + 0) = q
    generalize (R0 ^^^ R1 ^^^ (R0 + R1)).testBit (8 + 0) = r
    show _ = (R0 ^^^ R1 ^^^ (R0 + R1)).testBit (8 + (8 + 0))
    generalize (R0 ^^^ R1 ^^^ (R0 + R1)).testBit (8 + (8 + 0)) = t
    cases p <;> cases q <;> cases r <;> cases t <;> rfl
  · rw [hH, add16_testBit _ _ _ 4 (by decide)]
    have c := xor_carry R0 R1 12
    have e12 : (2 : Nat) ^ 12 = 4096 := rfl
    rw [e12] at c
    rw [← c]
    generalize AF.testBit 4 = p
    generalize (R0 + R1).testBit (8 + 4) = q
    generalize (R0 ^^^ R1 ^^^ (R0 + R1)).testBit (8 + (8 + 4)) = t
    show _ = (R0 ^^^ R1 ^^^ (R0 + R1)).testBit (8 + 4)
    generalize (R0 ^^^ R1 ^^^ (R0 + R1)).testBit (8 + 4) = r
    cases p <;> cases q <;> cases r <;> cases t <;> rfl
  · rw [hN, add16_testBit _ _ _ 1 (by decide)]
    generalize AF.testBit 1 = p
    generalize (R0 + R1).testBit (8 + 1) = q
    generalize (R0 ^^^ R1 ^^^ (R0 + R1)).testBit (8 + 1) = r
    generalize (R0 ^^^ R1 ^^^ (R0 + R1)).testBit (8 + (8 + 1)) = t
    cases p <;> cases q <;> cases r <;> cases t <;> rfl
  · rw [add16_testBit _ _ _ 5 (by decide), r1, e16, Nat.testBit_mod_two_pow]
    show _ = (decide (13 < 16) && (R0 + R1).testBit (8 + 5))
    generalize AF.testBit 5 = p
    generalize (R0 + R1).testBit (8 + 5) = q
    generalize (R0 ^^^ R1 ^^^ (R0 + R1)).testBit (8 + 5) = r
    generalize (R0 ^^^ R1 ^^^ (R0 + R1)).testBit (8 + (8 + 5)) = t
    cases p <;> cases q <;> cases r <;> cases t <;> rfl
  · rw [add16_testBit _ _ _ 3 (by decide), r1, e16, Nat.testBit_mod_two_pow]
    show _ = (decide (11 < 16) && (R0 + R1).testBit (8 + 3))
    generalize AF.testBit 3 = p
    generalize (R0 + R1).testBit (8 + 3) = q
    generalize (R0 ^^^ R1 ^^^ (R0 + R1)).testBit (8 + 3) = r
    generalize (R0 ^^^ R1 ^^^ (R0 + R1)).testBit (8 + (8 + 3)) = t
    cases p <;> cases q <;> cases r <;> cases t <;> rfl
  · rw [hS, gS, add16_testBit _ _ _ 7 (by decide)]
    generalize AF.testBit 7 = p
    generalize (R0 + R1).testBit (8 + 7) = q
    generalize (R0 ^^^ R1 ^^^ (R0 + R1)).testBit (8 + 7) = r
    generalize (R0 ^^^ R1 ^^^ (R0 + R1)).testBit (8 + (8 + 7)) = t
    cases p <;> cases q <;> cases r <;> cases t <;> rfl
  · rw [hZ, gZ, add16_testBit _ _ _ 6 (by decide)]
    generalize AF.testBit 6 = p
    generalize (R0 + R1).testBit (8 + 6) = q
    generalize (R0 ^^^ R1 ^^^ (R0 + R1)).testBit (8 + 6) = r
    generalize (R0 ^^^ R1 ^^^ (R0 + R1)).testBit (8 + (8 + 6)) = t
    cases p <;> cases q <;> cases r <;> cases t <;> rfl
  · rw [hP, gP, add16_testBit _ _ _ 2 (by decide)]
    generalize AF.testBit 2 = p
    generalize (R0 + R1).testBit (8 + 2) = q
    generalize (R0 ^^^ R1 ^^^ (R0 + R1)).testBit (8 + 2) = r
    generalize (R0 ^^^ R1 ^^^ (R0 + R1)).testBit (8 + (8 + 2)) = t
    cases p <;> cases q <;> cases r <;> cases t <;> rfl

theorem z80main_09 (s : State) :
    z80main 0x09 s =
      { s with
        HL := (add16 (s.HL &&& 0xffff) (s.BC &&& 0xffff) s.AF).1,
        BC := s.BC &&& 0xffff,
        AF := (add16 (s.HL &&& 0xffff) (s.BC &&& 0xffff) s.AF).2 } := rfl

theorem z80main_19 (s : State) :
    z80main 0x19 s =
      { s with
        HL := (add16 (s.HL &&& 0xffff) (s.DE &&& 0xffff) s.AF).1,
        DE := s.DE &&& 0xffff,
        AF := (add16 (s.HL &&& 0xffff) (s.DE &&& 0xffff) s.AF).2 } := rfl

theorem z80main_29 (s : State) :
    z80main 0x29 s =
      { s with
        HL := (add16 (s.HL &&& 0xffff) (s.HL &&& 0xffff) s.AF).1,
        AF := (add16 (s.HL &&& 0xffff) (s.HL &&& 0xffff) s.AF).2 } := rfl

theorem z80main_39 (s : State) :
    z80main 0x39 s =
      { s with
        HL := (add16 (s.HL &&& 0xffff) (s.SP &&& 0xffff) s.AF).1,
        SP := s.SP &&& 0xffff,
        AF := (add16 (s.HL &&& 0xffff) (s.SP &&& 0xffff) s.AF).2 } := rfl

/-- C30: for every 16-bit `HL`, every register pair `rp` among BC, DE, HL, SP
(numbered `p` as in the opcode `0x09 + 16p`) and every prior flag byte,
`ADD HL,rp` leaves `HL = (HL+rp) mod 65536`, sets C iff `HL+rp >= 65536`, sets
H iff `(HL mod 4096)+(rp mod 4096) >= 4096`, clears N, copies bits 13 and 11
of the result into the Y and X flags, and leaves S, Z and P/V unchanged. -/
theorem add_hl_rp (fuel : Nat) (s : State) (p : Nat) (hp : p < 4)
    (hop : readRam s s.PC = 0x09 + 16 * p) (hHL : s.HL < 65536)
    (hrp : regPair p s < 65536) :
    ∃ s', z80step fuel s = some s' ∧
      s'.HL = (s.HL + regPair p s) % 65536 ∧
      testFlag s'.AF CarryFlag = decide (65536 ≤ s.HL + regPair p s) ∧
      testFlag s'.AF HalfFlag = decide (4096 ≤ s.HL % 4096 + regPair p s % 4096) ∧
      testFlag s'.AF SubFlag = false ∧
      s'.AF.testBit 5 = s'.HL.testBit 13 ∧
      s'.AF.testBit 3 = s'.HL.testBit 11 ∧
      testFlag s'.AF SignFlag = testFlag s.AF SignFlag ∧
      testFlag s'.AF ZeroFlag = testFlag s.AF ZeroFlag ∧
      testFlag s'.AF ParityFlag = testFlag s.AF ParityFlag := by
  have eHL := and_ffff_of_lt s.HL hHL
  interval_cases p
  · have h' : readRam s s.PC = 0x09 := hop
    have hrp' : s.BC < 65536 := hrp
    rw [z80step_main fuel s (by rw [h']; decide), h', z80main_09]
    dsimp only
    rw [eHL, and_ffff_of_lt s.BC hrp']
    exact ⟨_, rfl, add16_spec s.HL s.BC s.AF hHL hrp'⟩
  · have h' : readRam s s.PC = 0x19 := hop
    have hrp' : s.DE < 65536 := hrp
    rw [z80step_main fuel s (by rw [h']; decide), h', z80main_19]
    dsimp only
    rw [eHL, and_ffff_of_lt s.DE hrp']
    exact ⟨_, rfl, add16_spec s.HL s.DE s.AF hHL hrp'⟩
  · have h' : readRam s s.PC = 0x29 := hop
    rw [z80step_main fuel s (by rw [h']; decide), h', z80main_29]
    dsimp only
    rw [eHL]
    exact ⟨_, rfl, add16_spec s.HL s.HL s.AF hHL hHL⟩
  · have h' : readRam s s.PC = 0x39 := hop
    have hrp' : s.SP < 65536 := hrp
    rw [z80step_main fuel s (by rw [h']; decide), h', z80main_39]
    dsimp only
    rw [eHL, and_ffff_of_lt s.SP hrp']
    exact ⟨_, rfl, add16_spec s.HL s.SP s.AF hHL hrp'⟩

/-- C30 at `ADD HL,BC` with `HL = 0x0FFF`, `BC = 0x0001` (half carry) and the
flag byte `0xC6`, and at `ADD HL,HL` with `HL = 0x8000` (carry). -/
theorem add_hl_rp_witness :
    (∃ s', z80step 0 (addHlState 0x09 0x0FFF 0x0001 0x00C6) = some s' ∧
      s'.HL = ((addHlState 0x09 0x0FFF 0x0001 0x00C6).HL +
        regPair 0 (addHlState 0x09 0x0FFF 0x0001 0x00C6)) % 65536 ∧
      testFlag s'.AF CarryFlag =
        decide (65536 ≤ (addHlState 0x09 0x0FFF 0x0001 0x00C6).HL +
          regPair 0 (addHlState 0x09 0x0FFF 0x0001 0x00C6)) ∧
      testFlag s'.AF HalfFlag =
        decide (4096 ≤ (addHlState 0x09 0x0FFF 0x0001 0x00C6).HL % 4096 +
          regPair 0 (addHlState 0x09 0x0FFF 0x0001 0x00C6) % 4096) ∧
      testFlag s'.AF SubFlag = false ∧
      s'.AF.testBit 5 = s'.HL.testBit 13 ∧
      s'.AF.testBit 3 = s'.HL.testBit 11 ∧
      testFlag s'.AF SignFlag = testFlag (addHlState 0x09 0x0FFF 0x0001 0x00C6).AF SignFlag ∧
      testFlag s'.AF ZeroFlag = testFlag (addHlState 0x09 0x0FFF 0x0001 0x00C6).AF ZeroFlag ∧
      testFlag s'.AF ParityFlag =
        testFlag (addHlState 0x09 0x0FFF 0x0001 0x00C6).AF ParityFlag) ∧
    (∃ s', z80step 0 (addHlState 0x29 0x8000 0 0) = some s' ∧
      s'.HL = ((addHlState 0x29 0x8000 0 0).HL + regPair 2 (addHlState 0x29 0x8000 0 0)) % 65536 ∧
      testFlag s'.AF CarryFlag =
        decide (65536 ≤ (addHlState 0x29 0x8000 0 0).HL +
          regPair 2 (addHlState 0x29 0x8000 0 0)) ∧
      testFlag s'.AF HalfFlag =
        decide (4096 ≤ (addHlState 0x29 0x8000 0 0).HL % 4096 +
          regPair 2 (addHlState 0x29 0x8000 0 0) % 4096) ∧
      testFlag s'.AF SubFlag = false ∧
      s'.AF.testBit 5 = s'.HL.testBit 13 ∧
      s'.AF.testBit 3 = s'.HL.testBit 11 ∧
      testFlag s'.AF SignFlag = testFlag (addHlState 0x29 0x8000 0 0).AF SignFlag ∧
      testFlag s'.AF ZeroFlag = testFlag (addHlState 0x29 0x8000 0 0).AF ZeroFlag ∧
      testFlag s'.AF ParityFlag = testFlag (addHlState 0x29 0x8000 0 0).AF ParityFlag) ∧
    (z80step 0 (addHlState 0x09 0x0FFF 0x0001 0x00C6)).map (fun t => (t.HL, t.AF)) =
      some (0x1000, 0x00D4) ∧
    (z80step 0 (addHlState 0x29 0x8000 0 0)).map (fun t => (t.HL, t.AF)) =
      some (0x0000, 0x0001) :=
  ⟨add_hl_rp 0 (addHlState 0x09 0x0FFF 0x0001 0x00C6) 0 (by decide) (by decide) (by decide)
      (by decide),
   add_hl_rp 0 (addHlState 0x29 0x8000 0 0) 2 (by decide) (by decide) (by decide)
      (by decide),
   by decide, by decide⟩

/-! ## C31: `AND`, `XOR`, `OR` -/

theorem and_high (x y : Nat) : ((x &&& y) >>> 8) &&& 0xff = highReg x &&& highReg y := by
  unfold highReg
  apply Nat.eq_of_testBit_eq
  intro i
  simp only [Nat.testBit_and, Nat.testBit_shiftRight]
  cases x.testBit (8 + i) <;> cases y.testBit (8 + i) <;> cases (0xff : Nat).testBit i <;> rfl

theorem and_low (x y : Nat) : ((x >>> 8) &&& y) &&& 0xff = highReg x &&& lowReg y := by
  unfold highReg lowReg
  apply Nat.eq_of_testBit_eq
  intro i
  simp only [Nat.testBit_and, Nat.testBit_shiftRight]
  cases x.testBit (8 + i) <;> cases y.testBit i <;> cases (0xff : Nat).testBit i <;> rfl

theorem xor_high (x y : Nat) : ((x ^^^ y) >>> 8) &&& 0xff = highReg x ^^^ highReg y := by
  unfold highReg
  apply Nat.eq_of_testBit_eq
  intro i
  simp only [Nat.testBit_and, Nat.testBit_xor, Nat.testBit_shiftRight]
  cases x.testBit (8 + i) <;> cases y.testBit (8 + i) <;> cases (0xff : Nat).testBit i <;> rfl

theorem xor_low (x y : Nat) : ((x >>> 8) ^^^ y) &&& 0xff = highReg x ^^^ lowReg y := by
  unfold highReg lowReg
  apply Nat.eq_of_testBit_eq
  intro i
  simp only [Nat.testBit_and, Nat.testBit_xor, Nat.testBit_shiftRight]
  cases x.testBit (8 + i) <;> cases y.testBit i <;> cases (0xff : Nat).testBit i <;> rfl

theorem or_high (x y : Nat) : ((x ||| y) >>> 8) &&& 0xff = highReg x ||| highReg y := by
  unfold highReg
  apply Nat.eq_of_testBit_eq
  intro i
  simp only [Nat.testBit_and, Nat.testBit_or, Nat.testBit_shiftRight]
  cases x.testBit (8 + i) <;> cases y.testBit (8 + i) <;> cases (0xff : Nat).testBit i <;> rfl

theorem or_low (x y : Nat) : ((x >>> 8) ||| y) &&& 0xff = highReg x ||| lowReg y := by
  unfold highReg lowReg
  apply Nat.eq_of_testBit_eq
  intro i
  simp only [Nat.testBit_and, Nat.testBit_or, Nat.testBit_shiftRight]
  cases x.testBit (8 + i) <;> cases y.testBit i <;> cases (0xff : Nat).testBit i <;> rfl

theorem lowReg_of_lt (v : Nat) (hv : v < 256) : lowReg v = v := by
  rw [lowReg_eq]
  exact Nat.mod_eq_of_lt hv

theorem and_byte (x v : Nat) (hv : v < 256) : ((x >>> 8) &&& v) &&& 0xff = highReg x &&& v := by
  rw [and_low, lowReg_of_lt v hv]

theorem xor_byte (x v : Nat) (hv : v < 256) : ((x >>> 8) ^^^ v) &&& 0xff = highReg x ^^^ v := by
  rw [xor_low, lowReg_of_lt v hv]

theorem or_byte (x v : Nat) (hv : v < 256) : ((x >>> 8) ||| v) &&& 0xff = highReg x ||| v := by
  rw [or_low, lowReg_of_lt v hv]

theorem and_lt (x y : Nat) (_ : x < 256) (hy : y < 256) : x &&& y < 256 :=
  and_lt_256 x y hy

theorem xor_lt (x y : Nat) (hx : x < 256) (hy : y < 256) : x ^^^ y < 256 :=
  Nat.xor_lt_two_pow (by omega : x < 2 ^ 8) (by omega : y < 2 ^ 8)

theorem or_lt (x y : Nat) (hx : x < 256) (hy : y < 256) : x ||| y < 256 :=
  or_lt_256 x y hx hy

/-- The words `andAF` and `orAF` on every result byte. -/
theorem logicTable :
    allBelow 256 (fun r =>
      Nat.beq (highReg (andAF r)) r && Nat.beq (lowReg (andAF r)) (logicFlagSpec r 1) &&
      Nat.beq (highReg (orAF r)) r && Nat.beq (lowReg (orAF r)) (logicFlagSpec r 0)) = true := by
  decide!

theorem and_spec (r : Nat) (hr : r < 256) :
    highReg (andAF r) = r ∧ lowReg (andAF r) = logicFlagSpec r 1 := by
  have h := allBelow_spec logicTable r hr
  simp only [Bool.and_eq_true] at h
  exact ⟨Nat.eq_of_beq_eq_true h.1.1.1, Nat.eq_of_beq_eq_true h.1.1.2⟩

theorem or_spec (r : Nat) (hr : r < 256) :
    highReg (orAF r) = r ∧ lowReg (orAF r) = logicFlagSpec r 0 := by
  have h := allBelow_spec logicTable r hr
  simp only [Bool.and_eq_true] at h
  exact ⟨Nat.eq_of_beq_eq_true h.1.2, Nat.eq_of_beq_eq_true h.2⟩

theorem z80main_A0 (s : State) :
    z80main 0xA0 s = { s with AF := andAF (((s.AF &&& s.BC) >>> 8) &&& 0xff) } := rfl

theorem z80main_A1 (s : State) :
    z80main 0xA1 s = { s with AF := andAF (((s.AF >>> 8) &&& s.BC) &&& 0xff) } := rfl

theorem z80main_A2 (s : State) :
    z80main 0xA2 s = { s with AF := andAF (((s.AF &&& s.DE) >>> 8) &&& 0xff) } := rfl

theorem z80main_A3 (s : State) :
    z80main 0xA3 s = { s with AF := andAF (((s.AF >>> 8) &&& s.DE) &&& 0xff) } := rfl

theorem z80main_A4 (s : State) :
    z80main 0xA4 s = { s with AF := andAF (((s.AF &&& s.HL) >>> 8) &&& 0xff) } := rfl

theorem z80main_A5 (s : State) :
    z80main 0xA5 s = { s with AF := andAF (((s.AF >>> 8) &&& s.HL) &&& 0xff) } := rfl

theorem z80main_A6 (s : State) :
    z80main 0xA6 s = { s with AF := andAF (((s.AF >>> 8) &&& readRam s s.HL) &&& 0xff) } := rfl

theorem z80main_A7 (s : State) :
    z80main 0xA7 s = { s with AF := andAF (((s.AF &&& s.AF) >>> 8) &&& 0xff) } := rfl

theorem z80main_A8 (s : State) :
    z80main 0xA8 s = { s with AF := orAF (((s.AF ^^^ s.BC) >>> 8) &&& 0xff) } := rfl

theorem z80main_A9 (s : State) :
    z80main 0xA9 s = { s with AF := orAF (((s.AF >>> 8) ^^^ s.BC) &&& 0xff) } := rfl

theorem z80main_AA (s : State) :
    z80main 0xAA s = { s with AF := orAF (((s.AF ^^^ s.DE) >>> 8) &&& 0xff) } := rfl

theorem z80main_AB (s : State) :
    z80main 0xAB s = { s with AF := orAF (((s.AF >>> 8) ^^^ s.DE) &&& 0xff) } := rfl

theorem z80main_AC (s : State) :
    z80main 0xAC s = { s with AF := orAF (((s.AF ^^^ s.HL) >>> 8) &&& 0xff) } := rfl

theorem z80main_AD (s : State) :
    z80main 0xAD s = { s with AF := orAF (((s.AF >>> 8) ^^^ s.HL) &&& 0xff) } := rfl

theorem z80main_AE (s : State) :
    z80main 0xAE s = { s with AF := orAF (((s.AF >>> 8) ^^^ readRam s s.HL) &&& 0xff) } := rfl

theorem z80main_AF (s : State) :
    z80main 0xAF s = { s with AF := orAF (((s.AF ^^^ s.AF) >>> 8) &&& 0xff) } := rfl

theorem z80main_B0 (s : State) :
    z80main 0xB0 s = { s with AF := orAF (((s.AF ||| s.BC) >>> 8) &&& 0xff) } := rfl

theorem z80main_B1 (s : State) :
    z80main 0xB1 s = { s with AF := orAF (((s.AF >>> 8) ||| s.BC) &&& 0xff) } := rfl

theorem z80main_B2 (s : State) :
    z80main 0xB2 s = { s with AF := orAF (((s.AF ||| s.DE) >>> 8) &&& 0xff) } := rfl

theorem z80main_B3 (s : State) :
    z80main 0xB3 s = { s with AF := orAF (((s.AF >>> 8) ||| s.DE) &&& 0xff) } := rfl

theorem z80main_B4 (s : State) :
    z80main 0xB4 s = { s with AF := orAF (((s.AF ||| s.HL) >>> 8) &&& 0xff) } := rfl

theorem z80main_B5 (s : State) :
    z80main 0xB5 s = { s with AF := orAF (((s.AF >>> 8) ||| s.HL) &&& 0xff) } := rfl

theorem z80main_B6 (s : State) :
    z80main 0xB6 s = { s with AF := orAF (((s.AF >>> 8) ||| readRam s s.HL) &&& 0xff) } := rfl

theorem z80main_B7 (s : State) :
    z80main 0xB7 s = { s with AF := orAF (((s.AF ||| s.AF) >>> 8) &&& 0xff) } := rfl

theorem z80main_E6 (s : State) :
    z80main 0xE6 s =
      { s with AF := andAF (((s.AF >>> 8) &&& readRam s s.PC) &&& 0xff), PC := (s.PC + 1) % 65536 } := rfl

theorem z80main_EE (s : State) :
    z80main 0xEE s =
      { s with AF := orAF (((s.AF >>> 8) ^^^ readRam s s.PC) &&& 0xff), PC := (s.PC + 1) % 65536 } := rfl

theorem z80main_F6 (s : State) :
    z80main 0xF6 s =
      { s with AF := orAF (((s.AF >>> 8) ||| readRam s s.PC) &&& 0xff), PC := (s.PC + 1) % 65536 } := rfl

/-- C31: for every accumulator value `a`, operand `b` and prior flag byte,
`AND`, `XOR` and `OR` with a register, `(HL)` (operands numbered `t` = 0..7
as in the opcodes `0xA0 + t`, `0xA8 + t`, `0xB0 + t`) or an immediate operand
(`0xE6`, `0xEE`, `0xF6`) leave `A = a AND b`, `a XOR b`, `a OR b`
respectively, and set F to exactly: S, Y, X = bits 7, 5, 3 of the result, Z
iff the result is 0, H = 1 for `AND` and 0 for `XOR`/`OR`, P/V = 1 iff the
result has an even number of 1 bits, N = 0, C = 0. -/
theorem logic_flags (fuel : Nat) (s : State) :
    (∀ t, t < 8 → readRam s s.PC = 0xA0 + t →
      ∃ s', z80step fuel s = some s' ∧
        highReg s'.AF = highReg s.AF &&& cbOperand t s s.HL ∧
        lowReg s'.AF = logicFlagSpec (highReg s.AF &&& cbOperand t s s.HL) 1) ∧
    (∀ t, t < 8 → readRam s s.PC = 0xA8 + t →
      ∃ s', z80step fuel s = some s' ∧
        highReg s'.AF = highReg s.AF ^^^ cbOperand t s s.HL ∧
        lowReg s'.AF = logicFlagSpec (highReg s.AF ^^^ cbOperand t s s.HL) 0) ∧
    (∀ t, t < 8 → readRam s s.PC = 0xB0 + t →
      ∃ s', z80step fuel s = some s' ∧
        highReg s'.AF = highReg s.AF ||| cbOperand t s s.HL ∧
        lowReg s'.AF = logicFlagSpec (highReg s.AF ||| cbOperand t s s.HL) 0) ∧
    (readRam s s.PC = 0xE6 →
      ∃ s', z80step fuel s = some s' ∧
        highReg s'.AF = highReg s.AF &&& readRam s (s.PC + 1) ∧
        lowReg s'.AF = logicFlagSpec (highReg s.AF &&& readRam s (s.PC + 1)) 1) ∧
    (readRam s s.PC = 0xEE →
      ∃ s', z80step fuel s = some s' ∧
        highReg s'.AF = highReg s.AF ^^^ readRam s (s.PC + 1) ∧
        lowReg s'.AF = logicFlagSpec (highReg s.AF ^^^ readRam s (s.PC + 1)) 0) ∧
    (readRam s s.PC = 0xF6 →
      ∃ s', z80step fuel s = some s' ∧
        highReg s'.AF = highReg s.AF ||| readRam s (s.PC + 1) ∧
        lowReg s'.AF = logicFlagSpec (highReg s.AF ||| readRam s (s.PC + 1)) 0) := by
  refine ⟨?_, ?_, ?_, ?_, ?_, ?_⟩
  · intro t ht h
    interval_cases t
    · have h' : readRam s s.PC = 0xA0 := h
      rw [z80step_main fuel s (by rw [h']; decide), h', z80main_A0]
      refine ⟨_, rfl, ?_⟩
      show highReg (andAF (((s.AF &&& s.BC) >>> 8) &&& 0xff)) = _ ∧ lowReg (andAF (((s.AF &&& s.BC) >>> 8) &&& 0xff)) = _
      rw [and_high s.AF s.BC]
      exact and_spec _ (and_lt _ _ (highReg_lt _) (cbOperand_lt 0 s s.HL))
    · have h' : readRam s s.PC = 0xA1 := h
      rw [z80step_main fuel s (by rw [h']; decide), h', z80main_A1]
      refine ⟨_, rfl, ?_⟩
      show highReg (andAF (((s.AF >>> 8) &&& s.BC) &&& 0xff)) = _ ∧ lowReg (andAF (((s.AF >>> 8) &&& s.BC) &&& 0xff)) = _
      rw [and_low s.AF s.BC]
      exact and_spec _ (and_lt _ _ (highReg_lt _) (cbOperand_lt 1 s s.HL))
    · have h' : readRam s s.PC = 0xA2 := h
      rw [z80step_main fuel s (by rw [h']; decide), h', z80main_A2]
      refine ⟨_, rfl, ?_⟩
      show highReg (andAF (((s.AF &&& s.DE) >>> 8) &&& 0xff)) = _ ∧ lowReg (andAF (((s.AF &&& s.DE) >>> 8) &&& 0xff)) = _
      rw [and_high s.AF s.DE]
      exact and_spec _ (and_lt _ _ (highReg_lt _) (cbOperand_lt 2 s s.HL))
    · have h' : readRam s s.PC = 0xA3 := h
      rw [z80step_main fuel s (by rw [h']; decide), h', z80main_A3]
      refine ⟨_, rfl, ?_⟩
      show highReg (andAF (((s.AF >>> 8) &&& s.DE) &&& 0xff)) = _ ∧ lowReg (andAF (((s.AF >>> 8) &&& s.DE) &&& 0xff)) = _
      rw [and_low s.AF s.DE]
      exact and_spec _ (and_lt _ _ (highReg_lt _) (cbOperand_lt 3 s s.HL))
    · have h' : readRam s s.PC = 0xA4 := h
      rw [z80step_main fuel s (by rw [h']; decide), h', z80main_A4]
      refine ⟨_, rfl, ?_⟩
      show highReg (andAF (((s.AF &&& s.HL) >>> 8) &&& 0xff)) = _ ∧ lowReg (andAF (((s.AF &&& s.HL) >>> 8) &&& 0xff)) = _
      rw [and_high s.AF s.HL]
      exact and_spec _ (and_lt _ _ (highReg_lt _) (cbOperand_lt 4 s s.HL))
    · have h' : readRam s s.PC = 0xA5 := h
      rw [z80step_main fuel s (by rw [h']; decide), h', z80main_A5]
      refine ⟨_, rfl, ?_⟩
      show highReg (andAF (((s.AF >>> 8) &&& s.HL) &&& 0xff)) = _ ∧ lowReg (andAF (((s.AF >>> 8) &&& s.HL) &&& 0xff)) = _
      rw [and_low s.AF s.HL]
      exact and_spec _ (and_lt _ _ (highReg_lt _) (cbOperand_lt 5 s s.HL))
    · have h' : readRam s s.PC = 0xA6 := h
      rw [z80step_main fuel s (by rw [h']; decide), h', z80main_A6]
      refine ⟨_, rfl, ?_⟩
      show highReg (andAF (((s.AF >>> 8) &&& readRam s s.HL) &&& 0xff)) = _ ∧ lowReg (andAF (((s.AF >>> 8) &&& readRam s s.HL) &&& 0xff)) = _
      rw [and_byte s.AF _ (readRam_lt s s.HL)]
      exact and_spec _ (and_lt _ _ (highReg_lt _) (cbOperand_lt 6 s s.HL))
    · have h' : readRam s s.PC = 0xA7 := h
      rw [z80step_main fuel s (by rw [h']; decide), h', z80main_A7]
      refine ⟨_, rfl, ?_⟩
      show highReg (andAF (((s.AF &&& s.AF) >>> 8) &&& 0xff)) = _ ∧ lowReg (andAF (((s.AF &&& s.AF) >>> 8) &&& 0xff)) = _
      rw [and_high s.AF s.AF]
      exact and_spec _ (and_lt _ _ (highReg_lt _) (cbOperand_lt 7 s s.HL))
  · intro t ht h
    interval_cases t
    · have h' : readRam s s.PC = 0xA8 := h
      rw [z80step_main fuel s (by rw [h']; decide), h', z80main_A8]
      refine ⟨_, rfl, ?_⟩
      show highReg (orAF (((s.AF ^^^ s.BC) >>> 8) &&& 0xff)) = _ ∧ lowReg (orAF (((s.AF ^^^ s.BC) >>> 8) &&& 0xff)) = _
      rw [xor_high s.AF s.BC]
      exact or_spec _ (xor_lt _ _ (highReg_lt _) (cbOperand_lt 0 s s.HL))
    · have h' : readRam s s.PC = 0xA9 := h
      rw [z80step_main fuel s (by rw [h']; decide), h', z80main_A9]
      refine ⟨_, rfl, ?_⟩
      show highReg (orAF (((s.AF >>> 8) ^^^ s.BC) &&& 0xff)) = _ ∧ lowReg (orAF (((s.AF >>> 8) ^^^ s.BC) &&& 0xff)) = _
      rw [xor_low s.AF s.BC]
      exact or_spec _ (xor_lt _ _ (highReg_lt _) (cbOperand_lt 1 s s.HL))
    · have h' : readRam s s.PC = 0xAA := h
      rw [z80step_main fuel s (by rw [h']; decide), h', z80main_AA]
      refine ⟨_, rfl, ?_⟩
      show highReg (orAF (((s.AF ^^^ s.DE) >>> 8) &&& 0xff)) = _ ∧ lowReg (orAF (((s.AF ^^^ s.DE) >>> 8) &&& 0xff)) = _
      rw [xor_high s.AF s.DE]
      exact or_spec _ (xor_lt _ _ (highReg_lt _) (cbOperand_lt 2 s s.HL))
    · have h' : readRam s s.PC = 0xAB := h
      rw [z80step_main fuel s (by rw [h']; decide), h', z80main_AB]
      refine ⟨_, rfl, ?_⟩
      show highReg (orAF (((s.AF >>> 8) ^^^ s.DE) &&& 0xff)) = _ ∧ lowReg (orAF (((s.AF >>> 8) ^^^ s.DE) &&& 0xff)) = _
      rw [xor_low s.AF s.DE]
      exact or_spec _ (xor_lt _ _ (highReg_lt _) (cbOperand_lt 3 s s.HL))
    · have h' : readRam s s.PC = 0xAC := h
      rw [z80step_main fuel s (by rw [h']; decide), h', z80main_AC]
      refine ⟨_, rfl, ?_⟩
      show highReg (orAF (((s.AF ^^^ s.HL) >>> 8) &&& 0xff)) = _ ∧ lowReg (orAF (((s.AF ^^^ s.HL) >>> 8) &&& 0xff)) = _
      rw [xor_high s.AF s.HL]
      exact or_spec _ (xor_lt _ _ (highReg_lt _) (cbOperand_lt 4 s s.HL))
    · have h' : readRam s s.PC = 0xAD := h
      rw [z80step_main fuel s (by rw [h']; decide), h', z80main_AD]
      refine ⟨_, rfl, ?_⟩
      show highReg (orAF (((s.AF >>> 8) ^^^ s.HL) &&& 0xff)) = _ ∧ lowReg (orAF (((s.AF >>> 8) ^^^ s.HL) &&& 0xff)) = _
      rw [xor_low s.AF s.HL]
      exact or_spec _ (xor_lt _ _ (highReg_lt _) (cbOperand_lt 5 s s.HL))
    · have h' : readRam s s.PC = 0xAE := h
      rw [z80step_main fuel s (by rw [h']; decide), h', z80main_AE]
      refine ⟨_, rfl, ?_⟩
      show highReg (orAF (((s.AF >>> 8) ^^^ readRam s s.HL) &&& 0xff)) = _ ∧ lowReg (orAF (((s.AF >>> 8) ^^^ readRam s s.HL) &&& 0xff)) = _
      rw [xor_byte s.AF _ (readRam_lt s s.HL)]
      exact or_spec _ (xor_lt _ _ (highReg_lt _) (cbOperand_lt 6 s s.HL))
    · have h' : readRam s s.PC = 0xAF := h
      rw [z80step_main fuel s (by rw [h']; decide), h', z80main_AF]
      refine ⟨_, rfl, ?_⟩
      show highReg (orAF (((s.AF ^^^ s.AF) >>> 8) &&& 0xff)) = _ ∧ lowReg (orAF (((s.AF ^^^ s.AF) >>> 8) &&& 0xff)) = _
      rw [xor_high s.AF s.AF]
      exact or_spec _ (xor_lt _ _ (highReg_lt _) (cbOperand_lt 7 s s.HL))
  · intro t ht h
    interval_cases t
    · have h' : readRam s s.PC = 0xB0 := h
      rw [z80step_main fuel s (by rw [h']; decide), h', z80main_B0]
      refine ⟨_, rfl, ?_⟩
      show highReg (orAF (((s.AF ||| s.BC) >>> 8) &&& 0xff)) = _ ∧ lowReg (orAF (((s.AF ||| s.BC) >>> 8) &&& 0xff)) = _
      rw [or_high s.AF s.BC]
      exact or_spec _ (or_lt _ _ (highReg_lt _) (cbOperand_lt 0 s s.HL))
    · have h' : readRam s s.PC = 0xB1 := h
      rw [z80step_main fuel s (by rw [h']; decide), h', z80main_B1]
      refine ⟨_, rfl, ?_⟩
      show highReg (orAF (((s.AF >>> 8) ||| s.BC) &&& 0xff)) = _ ∧ lowReg (orAF (((s.AF >>> 8) ||| s.BC) &&& 0xff)) = _
      rw [or_low s.AF s.BC]
      exact or_spec _ (or_lt _ _ (highReg_lt _) (cbOperand_lt 1 s s.HL))
    · have h' : readRam s s.PC = 0xB2 := h
      rw [z80step_main fuel s (by rw [h']; decide), h', z80main_B2]
      refine ⟨_, rfl, ?_⟩
      show highReg (orAF (((s.AF ||| s.DE) >>> 8) &&& 0xff)) = _ ∧ lowReg (orAF (((s.AF ||| s.DE) >>> 8) &&& 0xff)) = _
      rw [or_high s.AF s.DE]
      exact or_spec _ (or_lt _ _ (highReg_lt _) (cbOperand_lt 2 s s.HL))
    · have h' : readRam s s.PC = 0xB3 := h
      rw [z80step_main fuel s (by rw [h']; decide), h', z80main_B3]
      refine ⟨_, rfl, ?_⟩
      show highReg (orAF (((s.AF >>> 8) ||| s.DE) &&& 0xff)) = _ ∧ lowReg (orAF (((s.AF >>> 8) ||| s.DE) &&& 0xff)) = _
      rw [or_low s.AF s.DE]
      exact or_spec _ (or_lt _ _ (highReg_lt _) (cbOperand_lt 3 s s.HL))
    · have h' : readRam s s.PC = 0xB4 := h
      rw [z80step_main fuel s (by rw [h']; decide), h', z80main_B4]
      refine ⟨_, rfl, ?_⟩
      show highReg (orAF (((s.AF ||| s.HL) >>> 8) &&& 0xff)) = _ ∧ lowReg (orAF (((s.AF ||| s.HL) >>> 8) &&& 0xff)) = _
      rw [or_high s.AF s.HL]
      exact or_spec _ (or_lt _ _ (highReg_lt _) (cbOperand_lt 4 s s.HL))
    · have h' : readRam s s.PC = 0xB5 := h
      rw [z80step_main fuel s (by rw [h']; decide), h', z80main_B5]
      refine ⟨_, rfl, ?_⟩
      show highReg (orAF (((s.AF >>> 8) ||| s.HL) &&& 0xff)) = _ ∧ lowReg (orAF (((s.AF >>> 8) ||| s.HL) &&& 0xff)) = _
      rw [or_low s.AF s.HL]
      exact or_spec _ (or_lt _ _ (highReg_lt _) (cbOperand_lt 5 s s.HL))
    · have h' : readRam s s.PC = 0xB6 := h
      rw [z80step_main fuel s (by rw [h']; decide), h', z80main_B6]
      refine ⟨_, rfl, ?_⟩
      show highReg (orAF (((s.AF >>> 8) ||| readRam s s.HL) &&& 0xff)) = _ ∧ lowReg (orAF (((s.AF >>> 8) ||| readRam s s.HL) &&& 0xff)) = _
      rw [or_byte s.AF _ (readRam_lt s s.HL)]
      exact or_spec _ (or_lt _ _ (highReg_lt _) (cbOperand_lt 6 s s.HL))
    · have h' : readRam s s.PC = 0xB7 := h
      rw [z80step_main fuel s (by rw [h']; decide), h', z80main_B7]
      refine ⟨_, rfl, ?_⟩
      show highReg (orAF (((s.AF ||| s.AF) >>> 8) &&& 0xff)) = _ ∧ lowReg (orAF (((s.AF ||| s.AF) >>> 8) &&& 0xff)) = _
      rw [or_high s.AF s.AF]
      exact or_spec _ (or_lt _ _ (highReg_lt _) (cbOperand_lt 7 s s.HL))
  · intro h
    have e : readRam { s with PC := (s.PC + 1) % 65536 } ((s.PC + 1) % 65536) =
        readRam s (s.PC + 1) := readRam_congr' _ _ _ _ rfl (by omega)
    rw [z80step_main fuel s (by rw [h]; decide), h, z80main_E6]
    refine ⟨_, rfl, ?_⟩
    show highReg (andAF (((s.AF >>> 8) &&& readRam { s with PC := (s.PC + 1) % 65536 } ((s.PC + 1) % 65536)) &&& 0xff)) = _ ∧
      lowReg (andAF (((s.AF >>> 8) &&& readRam { s with PC := (s.PC + 1) % 65536 } ((s.PC + 1) % 65536)) &&& 0xff)) = _
    rw [e, and_byte s.AF _ (readRam_lt s (s.PC + 1))]
    exact and_spec _ (and_lt _ _ (highReg_lt _) (readRam_lt s (s.PC + 1)))
  · intro h
    have e : readRam { s with PC := (s.PC + 1) % 65536 } ((s.PC + 1) % 65536) =
        readRam s (s.PC + 1) := readRam_congr' _ _ _ _ rfl (by omega)
    rw [z80step_main fuel s (by rw [h]; decide), h, z80main_EE]
    refine ⟨_, rfl, ?_⟩
    show highReg (orAF (((s.AF >>> 8) ^^^ readRam { s with PC := (s.PC + 1) % 65536 } ((s.PC + 1) % 65536)) &&& 0xff)) = _ ∧
      lowReg (orAF (((s.AF >>> 8) ^^^ readRam { s with PC := (s.PC + 1) % 65536 } ((s.PC + 1) % 65536)) &&& 0xff)) = _
    rw [e, xor_byte s.AF _ (readRam_lt s (s.PC + 1))]
    exact or_spec _ (xor_lt _ _ (highReg_lt _) (readRam_lt s (s.PC + 1)))
  · intro h
    have e : readRam { s with PC := (s.PC + 1) % 65536 } ((s.PC + 1) % 65536) =
        readRam s (s.PC + 1) := readRam_congr' _ _ _ _ rfl (by omega)
    rw [z80step_main fuel s (by rw [h]; decide), h, z80main_F6]
    refine ⟨_, rfl, ?_⟩
    show highReg (orAF (((s.AF >>> 8) ||| readRam { s with PC := (s.PC + 1) % 65536 } ((s.PC + 1) % 65536)) &&& 0xff)) = _ ∧
      lowReg (orAF (((s.AF >>> 8) ||| readRam { s with PC := (s.PC + 1) % 65536 } ((s.PC + 1) % 65536)) &&& 0xff)) = _
    rw [e, or_byte s.AF _ (readRam_lt s (s.PC + 1))]
    exact or_spec _ (or_lt _ _ (highReg_lt _) (readRam_lt s (s.PC + 1)))

/-- C31 at `AND B` with `A = 0xF0`, `B = 0x3C` and the flag byte `0xFF`, and
at `XOR 0xFF` with `A = 0x0F`. -/
theorem logic_flags_witness :
    (∃ s', z80step 0 (aluState 0xA0 0 0xF0FF 0x3C00 0 0) = some s' ∧
      highReg s'.AF = highReg (aluState 0xA0 0 0xF0FF 0x3C00 0 0).AF &&&
        cbOperand 0 (aluState 0xA0 0 0xF0FF 0x3C00 0 0) (aluState 0xA0 0 0xF0FF 0x3C00 0 0).HL ∧
      lowReg s'.AF = logicFlagSpec (highReg (aluState 0xA0 0 0xF0FF 0x3C00 0 0).AF &&&
        cbOperand 0 (aluState 0xA0 0 0xF0FF 0x3C00 0 0)
          (aluState 0xA0 0 0xF0FF 0x3C00 0 0).HL) 1) ∧
    (∃ s', z80step 0 (aluState 0xEE 0xFF 0x0F01 0 0 0) = some s' ∧
      highReg s'.AF = highReg (aluState 0xEE 0xFF 0x0F01 0 0 0).AF ^^^
        readRam (aluState 0xEE 0xFF 0x0F01 0 0 0) ((aluState 0xEE 0xFF 0x0F01 0 0 0).PC + 1) ∧
      lowReg s'.AF = logicFlagSpec (highReg (aluState 0xEE 0xFF 0x0F01 0 0 0).AF ^^^
        readRam (aluState 0xEE 0xFF 0x0F01 0 0 0)
          ((aluState 0xEE 0xFF 0x0F01 0 0 0).PC + 1)) 0) ∧
    (z80step 0 (aluState 0xA0 0 0xF0FF 0x3C00 0 0)).map (fun t => t.AF) = some 0x3034 ∧
    (z80step 0 (aluState 0xEE 0xFF 0x0F01 0 0 0)).map (fun t => t.AF) = some 0xF0A4 :=
  ⟨(logic_flags 0 (aluState 0xA0 0 0xF0FF 0x3C00 0 0)).1 0 (by decide) (by decide),
   (logic_flags 0 (aluState 0xEE 0xFF 0x0F01 0 0 0)).2.2.2.2.1 (by decide),
   by decide, by decide⟩

/-! ## C38: `NEG` -/

theorem highReg_shl8 (a : Nat) (ha : a < 256) : highReg (a <<< 8) = a := by
  rw [highReg_eq, Nat.shiftLeft_eq]
  omega

theorem edPlain_44 (s : State) :
    edPlain 0x44 s = { s with AF := negWord (highReg s.AF) } := by
  show ({ s with
    AF := ((((sub32 0 (s.AF &&& 0xff00)) &&& 0xff00) % 65536) |||
      ((((((sub32 0 (s.AF &&& 0xff00)) &&& 0xff00) % 65536) >>> 8) &&& 0xa8) |||
      ((if ((((sub32 0 (s.AF &&& 0xff00)) &&& 0xff00) % 65536) &&& 0xff00) = 0 then 1 else 0)
        <<< 6) |||
      ((if (highReg s.AF &&& 0x0f) ≠ 0 then 1 else 0) <<< 4) |||
      ((if highReg s.AF = 0x80 then 1 else 0) <<< 2) ||| 2 |||
      (if highReg s.AF ≠ 0 then 1 else 0))) % 65536 } : State) = _
  rw [and_ff00 s.AF]
  rfl

/-- The word `NEG` computes is the word `SUB` computes from accumulator 0. -/
theorem negTable : allBelow 256 (fun a => Nat.beq (negWord a) (subRaw 0 a 0)) = true := by
  decide!

/-- C38: for every accumulator value `a` and prior flag byte, `NEG` (`ED 44`)
produces the same accumulator and the same complete flag byte as `SUB` applied
with accumulator 0 and operand `a`: `A = (0 - a) mod 256`, C set iff `a != 0`,
H set iff the low nibble of `a` is non-zero, P/V set iff `a = 0x80`,
N = 1. -/
theorem neg_is_sub (fuel : Nat) (s : State) (a : Nat)
    (h0 : readRam s s.PC = 0xED) (h1 : readRam s (s.PC + 1) = 0x44)
    (ha : highReg s.AF = a) :
    ∃ s', z80step fuel s = some s' ∧
      s'.AF = subAF (SethighReg s.AF 0) a 0 ∧
      highReg s'.AF = (256 - a) % 256 ∧
      (testFlag s'.AF CarryFlag = true ↔ a ≠ 0) ∧
      (testFlag s'.AF HalfFlag = true ↔ a % 16 ≠ 0) ∧
      (testFlag s'.AF ParityFlag = true ↔ a = 0x80) ∧
      testFlag s'.AF SubFlag = true := by
  have ha' : a < 256 := ha ▸ highReg_lt s.AF
  have e0 : highReg (SethighReg s.AF 0) = 0 := by rw [highReg_SethighReg]; rfl
  have e1 : negWord a = subAF (SethighReg s.AF 0) a 0 := by
    rw [subAF_eq_raw, e0]
    exact Nat.eq_of_beq_eq_true (allBelow_spec negTable a ha')
  have e2 : subAF (SethighReg s.AF 0) a 0 = subSpec 0 a 0 := by
    rw [subAF_eq_spec _ a ha', e0]
  obtain ⟨f1, f2, f3, f4, f5, _, _⟩ := subSpec_flags 0 a (by decide) ha'
  refine ⟨_, z80step_edPlain fuel s 0x44 h0 h1 (by decide), ?_⟩
  rw [edPlain_44]
  show negWord (highReg s.AF) = _ ∧ highReg (negWord (highReg s.AF)) = _ ∧
    (testFlag (negWord (highReg s.AF)) CarryFlag = true ↔ _) ∧
    (testFlag (negWord (highReg s.AF)) HalfFlag = true ↔ _) ∧
    (testFlag (negWord (highReg s.AF)) ParityFlag = true ↔ _) ∧
    testFlag (negWord (highReg s.AF)) SubFlag = true
  rw [ha, e1, e2]
  refine ⟨rfl, ?_, ?_, ?_, ?_, f5⟩
  · rw [f1]
  · rw [f2]
    omega
  · rw [f3]
    omega
  · rw [f4]
    unfold signed8
    split_ifs <;> omega

/-- C38 at `A = 0x80` (the overflow case) with the flag byte `0x00`. -/
theorem neg_is_sub_witness :
    ∃ s', z80step 0 (edState 0x44 0x8000 0 0 0 0 0 0) = some s' ∧
      s'.AF = subAF (SethighReg (edState 0x44 0x8000 0 0 0 0 0 0).AF 0) 0x80 0 ∧
      highReg s'.AF = (256 - 0x80) % 256 ∧
      (testFlag s'.AF CarryFlag = true ↔ 0x80 ≠ 0) ∧
      (testFlag s'.AF HalfFlag = true ↔ 0x80 % 16 ≠ 0) ∧
      (testFlag s'.AF ParityFlag = true ↔ 0x80 = 0x80) ∧
      testFlag s'.AF SubFlag = true :=
  neg_is_sub 0 (edState 0x44 0x8000 0 0 0 0 0 0) 0x80 (by decide) (by decide) (by decide)

/-! ## C32: `CP` -/

theorem byte_ext (X Y m : Nat) (hm : m < 256)
    (h : ∀ i, i < 8 → (X &&& m).testBit i = (Y &&& m).testBit i) : X &&& m = Y &&& m := by
  apply Nat.eq_of_testBit_eq
  intro i
  by_cases hi : i < 8
  · exact h i hi
  · have hmi : m.testBit i = false :=
      Nat.testBit_lt_two_pow (Nat.lt_of_lt_of_le (by omega : m < 2 ^ 8)
        (Nat.pow_le_pow_right (by decide) (by omega)))
    rw [Nat.testBit_and, Nat.testBit_and, hmi, Bool.and_false, Bool.and_false]

/-- The flag bits of `CP` other than Y and X are those of `SUB`. -/
theorem cp_bits (s c t z p : Nat) :
    ((s &&& 0x80) ||| ((z <<< 6) ||| ((t &&& 0x28) ||| ((p &&& 4) ||| (2 ||| ((c &&& 0x10) |||
        ((c >>> 8) &&& 1))))))) &&& 0xD7 =
      ((s &&& 0xa8) ||| ((z <<< 6) ||| ((c &&& 0x10) ||| ((p &&& 4) ||| (2 |||
        ((c >>> 8) &&& 1)))))) &&& 0xD7 := by
  apply byte_ext _ _ _ (by decide)
  intro i hi
  simp only [Nat.testBit_and, Nat.testBit_or, Nat.testBit_shiftLeft, Nat.testBit_shiftRight]
  cases s.testBit i <;> cases c.testBit i <;> cases t.testBit i <;> cases p.testBit i <;>
    cases z.testBit (i - 6) <;> cases (c.testBit (8 + i)) <;> interval_cases i <;> rfl

/-- The Y and X bits of `CP` are those of the operand. -/
theorem cp_bits35 (s c t z p : Nat) :
    ((s &&& 0x80) ||| ((z <<< 6) ||| ((t &&& 0x28) ||| ((p &&& 4) ||| (2 ||| ((c &&& 0x10) |||
        ((c >>> 8) &&& 1))))))) &&& 0x28 = t &&& 0x28 := by
  rw [← Nat.and_self 0x28, ← Nat.and_assoc t]
  apply byte_ext _ _ _ (by decide)
  intro i hi
  simp only [Nat.testBit_and, Nat.testBit_or, Nat.testBit_shiftLeft, Nat.testBit_shiftRight]
  cases s.testBit i <;> cases c.testBit i <;> cases t.testBit i <;> cases p.testBit i <;>
    cases z.testBit (i - 6) <;> cases (c.testBit (8 + i)) <;> interval_cases i <;> rfl

theorem sub32_sub32_zero (a b : Nat) : sub32 (sub32 a b) 0 = sub32 a b := by
  unfold sub32
  omega

theorem mask_shl8 (h X m : Nat) (hm : m < 256) :
    (((h <<< 8) ||| X) % 65536) &&& m = X &&& m := by
  rw [mod_word_and _ m (by omega)]
  apply byte_ext _ _ _ hm
  intro i hi
  rw [Nat.testBit_and, Nat.testBit_and, Nat.testBit_or, Nat.testBit_shiftLeft]
  have e : decide (i ≥ 8) = false := decide_eq_false (by omega)
  rw [e, Bool.false_and, Bool.false_or]

theorem and_ff00_of_lt (X : Nat) (h : X < 256) : X &&& 0xff00 = 0 := by
  rw [and_ff00, highReg_eq, Nat.div_eq_of_lt h]
  rfl

/-- `CP` against `SUB`: the accumulator is kept, the bits S, Z, H, P/V, N, C
(mask `0xD7`) are those of `SUB`, the bits Y and X (mask `0x28`) are those of
the operand. -/
theorem cpAF_spec (AF b : Nat) :
    highReg (cpAF AF b) = highReg AF ∧ cpAF AF b &&& 0xD7 = subAF AF b 0 &&& 0xD7 ∧
      cpAF AF b &&& 0x28 = b &&& 0x28 := by
  have h28 : (b &&& 0x28) &&& 0xff00 = 0 := by
    rw [Nat.and_assoc, show (0x28 &&& 0xff00 : Nat) = 0 from rfl, Nat.and_zero]
  have hW : (((AF &&& bnot 0x28) ||| (b &&& 0x28)) % 65536) &&& 0xff00 = AF &&& 0xff00 :=
    mask_keep AF _ 0x28 0xff00 (by decide) (by decide) (by decide) h28
  have hA : highReg (((AF &&& bnot 0x28) ||| (b &&& 0x28)) % 65536) = highReg AF :=
    highReg_of_and _ _ hW
  unfold cpAF subAF
  dsimp only
  rw [hA, sub32_sub32_zero]
  simp only [Nat.or_assoc]
  refine ⟨?_, ?_, ?_⟩
  · apply highReg_of_and
    rw [mask_keep _ _ 0xff 0xff00 (by decide) (by decide) (by decide)
      (and_ff00_of_lt _ (or_lt_256 _ _ (and_lt_256 _ _ (by decide))
        (or_lt_256 _ _ (zbit_lt _) (or_lt_256 _ _ (and_lt_256 _ _ (by decide))
          (or_lt_256 _ _ (and_lt_256 _ _ (by decide)) (or_lt_256 _ _ (by decide)
            (or_lt_256 _ _ (and_lt_256 _ _ (by decide)) (and_lt_256 _ _ (by decide)))))))))]
    exact hW
  · rw [mask_or _ _ 0xff 0xD7 (by decide) (by decide) (by decide),
      mask_shl8 _ _ 0xD7 (by decide)]
    exact cp_bits _ _ _ _ _
  · rw [mask_or _ _ 0xff 0x28 (by decide) (by decide) (by decide)]
    exact cp_bits35 _ _ _ _ _

theorem z80main_B8 (s : State) :
    z80main 0xB8 s = { s with AF := cpAF s.AF (highReg s.BC) } := rfl

theorem z80main_B9 (s : State) :
    z80main 0xB9 s = { s with AF := cpAF s.AF (lowReg s.BC) } := rfl

theorem z80main_BA (s : State) :
    z80main 0xBA s = { s with AF := cpAF s.AF (highReg s.DE) } := rfl

theorem z80main_BB (s : State) :
    z80main 0xBB s = { s with AF := cpAF s.AF (lowReg s.DE) } := rfl

theorem z80main_BC (s : State) :
    z80main 0xBC s = { s with AF := cpAF s.AF (highReg s.HL) } := rfl

theorem z80main_BD (s : State) :
    z80main 0xBD s = { s with AF := cpAF s.AF (lowReg s.HL) } := rfl

theorem z80main_BE (s : State) :
    z80main 0xBE s = { s with AF := cpAF s.AF (readRam s s.HL) } := rfl

theorem z80main_BF (s : State) :
    z80main 0xBF s = { s with AF := cpAF s.AF (highReg s.AF) } := rfl

theorem z80main_FE (s : State) :
    z80main 0xFE s =
      { s with AF := cpAF s.AF (readRam s s.PC), PC := (s.PC + 1) % 65536 } := rfl

/-- C32: for every accumulator value, operand `b` (a register or `(HL)`,
numbered `t` = 0..7 as in the opcode `0xB8 + t`, or the immediate operand of
`0xFE`) and prior flag byte, `CP b` leaves A unchanged, sets S, Z, H, P/V, N
and C (the bits of the mask `0xD7`) to exactly the values `SUB b` sets for
the same accumulator and operand, and sets Y and X (the bits of the mask
`0x28`) to bits 5 and 3 of the operand `b`. -/
theorem cp_flags (fuel : Nat) (s : State) :
    (∀ t, t < 8 → readRam s s.PC = 0xB8 + t →
      ∃ s', z80step fuel s = some s' ∧
        highReg s'.AF = highReg s.AF ∧
        s'.AF &&& 0xD7 = subAF s.AF (cbOperand t s s.HL) 0 &&& 0xD7 ∧
        s'.AF &&& 0x28 = cbOperand t s s.HL &&& 0x28) ∧
    (readRam s s.PC = 0xFE →
      ∃ s', z80step fuel s = some s' ∧
        highReg s'.AF = highReg s.AF ∧
        s'.AF &&& 0xD7 = subAF s.AF (readRam s (s.PC + 1)) 0 &&& 0xD7 ∧
        s'.AF &&& 0x28 = readRam s (s.PC + 1) &&& 0x28) := by
  refine ⟨?_, ?_⟩
  · intro t ht h
    interval_cases t
    · have h' : readRam s s.PC = 0xB8 := h
      rw [z80step_main fuel s (by rw [h']; decide), h', z80main_B8]
      exact ⟨_, rfl, cpAF_spec s.AF _⟩
    · have h' : readRam s s.PC = 0xB9 := h
      rw [z80step_main fuel s (by rw [h']; decide), h', z80main_B9]
      exact ⟨_, rfl, cpAF_spec s.AF _⟩
    · have h' : readRam s s.PC = 0xBA := h
      rw [z80step_main fuel s (by rw [h']; decide), h', z80main_BA]
      exact ⟨_, rfl, cpAF_spec s.AF _⟩
    · have h' : readRam s s.PC = 0xBB := h
      rw [z80step_main fuel s (by rw [h']; decide), h', z80main_BB]
      exact ⟨_, rfl, cpAF_spec s.AF _⟩
    · have h' : readRam s s.PC = 0xBC := h
      rw [z80step_main fuel s (by rw [h']; decide), h', z80main_BC]
      exact ⟨_, rfl, cpAF_spec s.AF _⟩
    · have h' : readRam s s.PC = 0xBD := h
      rw [z80step_main fuel s (by rw [h']; decide), h', z80main_BD]
      exact ⟨_, rfl, cpAF_spec s.AF _⟩
    · have h' : readRam s s.PC = 0xBE := h
      rw [z80step_main fuel s (by rw [h']; decide), h', z80main_BE]
      exact ⟨_, rfl, cpAF_spec s.AF _⟩
    · have h' : readRam s s.PC = 0xBF := h
      rw [z80step_main fuel s (by rw [h']; decide), h', z80main_BF]
      exact ⟨_, rfl, cpAF_spec s.AF _⟩
  · intro h
    have e : readRam { s with PC := (s.PC + 1) % 65536 } ((s.PC + 1) % 65536) =
        readRam s (s.PC + 1) := readRam_congr' _ _ _ _ rfl (by omega)
    rw [z80step_main fuel s (by rw [h]; decide), h, z80main_FE]
    refine ⟨_, rfl, ?_⟩
    show highReg (cpAF s.AF (readRam { s with PC := (s.PC + 1) % 65536 } ((s.PC + 1) % 65536))) = _ ∧
      cpAF s.AF (readRam { s with PC := (s.PC + 1) % 65536 } ((s.PC + 1) % 65536)) &&& 0xD7 = _ ∧
      cpAF s.AF (readRam { s with PC := (s.PC + 1) % 65536 } ((s.PC + 1) % 65536)) &&& 0x28 = _
    rw [e]
    exact cpAF_spec s.AF _

/-- C32 at `CP B` with `A = 0x40`, `B = 0x28` and at `CP 0x28` with
`A = 0x28`: the difference `0x18` has Y clear, the operand has it set. -/
theorem cp_flags_witness :
    (∃ s', z80step 0 (aluState 0xB8 0 0x4000 0x2800 0 0) = some s' ∧
      highReg s'.AF = highReg (aluState 0xB8 0 0x4000 0x2800 0 0).AF ∧
      s'.AF &&& 0xD7 = subAF (aluState 0xB8 0 0x4000 0x2800 0 0).AF
        (cbOperand 0 (aluState 0xB8 0 0x4000 0x2800 0 0)
          (aluState 0xB8 0 0x4000 0x2800 0 0).HL) 0 &&& 0xD7 ∧
      s'.AF &&& 0x28 = cbOperand 0 (aluState 0xB8 0 0x4000 0x2800 0 0)
          (aluState 0xB8 0 0x4000 0x2800 0 0).HL &&& 0x28) ∧
    (∃ s', z80step 0 (aluState 0xFE 0x28 0x28FF 0 0 0) = some s' ∧
      highReg s'.AF = highReg (aluState 0xFE 0x28 0x28FF 0 0 0).AF ∧
      s'.AF &&& 0xD7 = subAF (aluState 0xFE 0x28 0x28FF 0 0 0).AF
        (readRam (aluState 0xFE 0x28 0x28FF 0 0 0)
          ((aluState 0xFE 0x28 0x28FF 0 0 0).PC + 1)) 0 &&& 0xD7 ∧
      s'.AF &&& 0x28 = readRam (aluState 0xFE 0x28 0x28FF 0 0 0)
          ((aluState 0xFE 0x28 0x28FF 0 0 0).PC + 1) &&& 0x28) ∧
    (z80step 0 (aluState 0xB8 0 0x4000 0x2800 0 0)).map (fun t => t.AF) = some 0x403A ∧
    subAF 0x4000 0x28 0 = 0x181A ∧
    (z80step 0 (aluState 0xFE 0x28 0x28FF 0 0 0)).map (fun t => t.AF) = some 0x286A :=
  ⟨(cp_flags 0 (aluState 0xB8 0 0x4000 0x2800 0 0)).1 0 (by decide) (by decide),
   (cp_flags 0 (aluState 0xFE 0x28 0x28FF 0 0 0)).2 (by decide),
   by decide, by decide, by decide⟩

/-! ## `RETN` and `RETI` on the opcode already fetched -/

theorem edPlain_ret (op : Nat) (h : op = 0x45 ∨ op = 0x4D) (s : State) :
    edPlain op s =
      { (pop { s with IFF := (s.IFF ||| (s.IFF >>> 1)) % 65536 }).2 with
        PC := (pop { s with IFF := (s.IFF ||| (s.IFF >>> 1)) % 65536 }).1 } := by
  rcases h with rfl | rfl <;> rfl

/-! ## C39: `RRD` and `RLD` -/

theorem lowDigit_mod (x : Nat) : lowDigit x = x % 16 := by
  unfold lowDigit
  have e : (0x0f : Nat) = 2 ^ 4 - 1 := rfl
  rw [e, Nat.and_pow_two_sub_one_eq_mod]
  omega

theorem highDigit_div (x : Nat) : highDigit x = x % 256 / 16 := by
  unfold highDigit
  have e : (0x0f : Nat) = 2 ^ 4 - 1 := rfl
  rw [e, Nat.and_pow_two_sub_one_eq_mod, Nat.shiftRight_eq_div_pow]
  omega

theorem hiNibbleTable : allBelow 256 (fun a => Nat.beq (a &&& 0xf0) (16 * (a / 16))) = true := by
  decide!

theorem hiNibble (a : Nat) (h : a < 256) : a &&& 0xf0 = 16 * (a / 16) :=
  Nat.eq_of_beq_eq_true (allBelow_spec hiNibbleTable a h)

theorem or_nibble (k y : Nat) (hy : y < 16) : 16 * k ||| y = 16 * k + y :=
  (Nat.mul_add_lt_is_or (by omega : y < 2 ^ 4) k).symm

theorem shl4 (x : Nat) : x <<< 4 = 16 * x := by
  rw [Nat.shiftLeft_eq, Nat.mul_comm]

/-- The accumulator and the memory byte after `RRD`, in digits. -/
theorem rrd_digits (a m : Nat) (ha : a < 256) :
    (a &&& 0xf0) ||| lowDigit m = 16 * (a / 16) + m % 16 ∧
    (highDigit m ||| (lowDigit a <<< 4)) % 256 = 16 * (a % 16) + m % 256 / 16 := by
  rw [hiNibble a ha, lowDigit_mod, lowDigit_mod, highDigit_div, shl4, Nat.or_comm (m % 256 / 16),
    or_nibble _ _ (by omega), or_nibble _ _ (by omega)]
  omega

/-- The accumulator and the memory byte after `RLD`, in digits. -/
theorem rld_digits (a m : Nat) (ha : a < 256) :
    (a &&& 0xf0) ||| highDigit m = 16 * (a / 16) + m % 256 / 16 ∧
    ((lowDigit m <<< 4) ||| lowDigit a) % 256 = 16 * (m % 16) + a % 16 := by
  rw [hiNibble a ha, lowDigit_mod, lowDigit_mod, highDigit_div, shl4,
    or_nibble _ _ (by omega), or_nibble _ _ (by omega)]
  omega

theorem parity_le_four (v : Nat) : parity v = 0 ∨ parity v = 4 := by
  unfold parity
  split_ifs
  · exact Or.inr rfl
  · exact Or.inl rfl

/-- Bit 0 of a flag word assembled as `RRD` and `RLD` do is the old carry. -/
theorem rrdWord_bit0 (acu z AF : Nat) :
    testFlag (((acu <<< 8) ||| (acu &&& 0xa8) ||| (z <<< 6) ||| parity acu ||| (AF &&& 1)) %
      65536) CarryFlag = testFlag AF CarryFlag := by
  have e : (65536 : Nat) = 2 ^ 16 := rfl
  have c1 : Nat.testBit 0xa8 0 = false := rfl
  have c2 : Nat.testBit 1 0 = true := rfl
  have hp : (parity acu).testBit 0 = false := by
    rcases parity_le_four acu with h | h <;> rw [h] <;> rfl
  rw [show CarryFlag = 2 ^ 0 from rfl, testFlag_eq_testBit, testFlag_eq_testBit, e,
    Nat.testBit_mod_two_pow]
  simp only [Nat.testBit_or, Nat.testBit_and, Nat.testBit_shiftLeft, c1, c2, hp]
  simp

/-- The high byte of a flag word assembled as `RRD` and `RLD` do. -/
theorem rrdWord_high (acu z AF : Nat) (ha : acu < 256) (hz : z ≤ 1) :
    highReg (((acu <<< 8) ||| (acu &&& 0xa8) ||| (z <<< 6) ||| parity acu ||| (AF &&& 1)) %
      65536) = acu := by
  have hz6 : z <<< 6 < 256 := by rw [Nat.shiftLeft_eq]; omega
  have hp : parity acu < 256 := by rcases parity_le_four acu with h | h <;> omega
  simp only [Nat.or_assoc]
  exact highReg_join acu _ ha
    (or_lt_256 _ _ (and_lt_256 _ _ (by decide)) (or_lt_256 _ _ hz6
      (or_lt_256 _ _ hp (and_lt_256 _ _ (by decide)))))

/-- One step on `RRD`. -/
theorem rrd_step (fuel : Nat) (s : State)
    (h0 : readRam s s.PC = 0xED) (h1 : readRam s (s.PC + 1) = 0x67) :
    ∃ s1, z80step fuel s = some s1 ∧
      highReg s1.AF = (highReg s.AF &&& 0xf0) ||| lowDigit (readRam s s.HL) ∧
      testFlag s1.AF CarryFlag = testFlag s.AF CarryFlag ∧
      s1.HL = s.HL ∧
      (0x0800 ≤ s.HL % 65536 ∧ s.HL % 65536 < 0xE000 →
        readRam s1 s.HL =
          (highDigit (readRam s s.HL) ||| (lowDigit (highReg s.AF) <<< 4)) % 256) := by
  rw [z80step_edPlain fuel s 0x67 h0 h1 (by decide), edPlain_67]
  refine ⟨_, rfl, ?_, ?_, ?_, ?_⟩
  · exact rrdWord_high _ _ _ (or_lt_256 _ _ (and_lt_256 _ _ (by decide)) (lowDigit_lt _))
      (by split_ifs <;> omega)
  · show testFlag (((_ <<< 8) ||| (_ &&& 0xa8) ||| (_ <<< 6) ||| parity _ |||
      ((writeRam _ _ _).AF &&& 1)) % 65536) CarryFlag = _
    rw [writeRam_AF]
    exact rrdWord_bit0 _ _ s.AF
  · show (writeRam _ _ _).HL = _
    rw [writeRam_HL]
  · intro hHL
    show readRam (writeRam _ _ _) s.HL = _
    exact (readRam_writeRam_same _ s.HL _).trans (if_pos hHL)

/-- One step on `RLD`. -/
theorem rld_step (fuel : Nat) (s : State)
    (h0 : readRam s s.PC = 0xED) (h1 : readRam s (s.PC + 1) = 0x6F) :
    ∃ s1, z80step fuel s = some s1 ∧
      highReg s1.AF = (highReg s.AF &&& 0xf0) ||| highDigit (readRam s s.HL) ∧
      testFlag s1.AF CarryFlag = testFlag s.AF CarryFlag ∧
      s1.HL = s.HL ∧
      (0x0800 ≤ s.HL % 65536 ∧ s.HL % 65536 < 0xE000 →
        readRam s1 s.HL =
          ((lowDigit (readRam s s.HL) <<< 4) ||| lowDigit (highReg s.AF)) % 256) := by
  rw [z80step_edPlain fuel s 0x6F h0 h1 (by decide), edPlain_6F]
  refine ⟨_, rfl, ?_, ?_, ?_, ?_⟩
  · exact rrdWord_high _ _ _ (or_lt_256 _ _ (and_lt_256 _ _ (by decide)) (highDigit_lt _))
      (by split_ifs <;> omega)
  · show testFlag (((_ <<< 8) ||| (_ &&& 0xa8) ||| (_ <<< 6) ||| parity _ |||
      ((writeRam _ _ _).AF &&& 1)) % 65536) CarryFlag = _
    rw [writeRam_AF]
    exact rrdWord_bit0 _ _ s.AF
  · show (writeRam _ _ _).HL = _
    rw [writeRam_HL]
  · intro hHL
    show readRam (writeRam _ _ _) s.HL = _
    exact (readRam_writeRam_same _ s.HL _).trans (if_pos hHL)

/-- C39: for every state with `HL` in writable RAM (`0x0800..0xDFFF`), one
step of `RRD` (`ED 67`) leaves the high nibble of A and the C flag unchanged,
and when the next step executes `RLD` (`ED 6F`) both A and the memory byte at
`(HL)` are again what they were before the two steps; the same holds for
`RLD` followed by `RRD`. -/
theorem rrd_rld_inverse (fuel : Nat) (s : State)
    (hHL : 0x0800 ≤ s.HL % 65536 ∧ s.HL % 65536 < 0xE000) :
    (readRam s s.PC = 0xED → readRam s (s.PC + 1) = 0x67 →
      ∃ s1, z80step fuel s = some s1 ∧
        highReg s1.AF &&& 0xf0 = highReg s.AF &&& 0xf0 ∧
        testFlag s1.AF CarryFlag = testFlag s.AF CarryFlag ∧
        (readRam s1 s1.PC = 0xED → readRam s1 (s1.PC + 1) = 0x6F →
          ∃ s2, z80step fuel s1 = some s2 ∧
            highReg s2.AF = highReg s.AF ∧ readRam s2 s.HL = readRam s s.HL ∧
            testFlag s2.AF CarryFlag = testFlag s.AF CarryFlag)) ∧
    (readRam s s.PC = 0xED → readRam s (s.PC + 1) = 0x6F →
      ∃ s1, z80step fuel s = some s1 ∧
        highReg s1.AF &&& 0xf0 = highReg s.AF &&& 0xf0 ∧
        testFlag s1.AF CarryFlag = testFlag s.AF CarryFlag ∧
        (readRam s1 s1.PC = 0xED → readRam s1 (s1.PC + 1) = 0x67 →
          ∃ s2, z80step fuel s1 = some s2 ∧
            highReg s2.AF = highReg s.AF ∧ readRam s2 s.HL = readRam s s.HL ∧
            testFlag s2.AF CarryFlag = testFlag s.AF CarryFlag)) := by
  have ha := highReg_lt s.AF
  have hm := readRam_lt s s.HL
  constructor
  · intro h0 h1
    obtain ⟨s1, e1, a1, c1, l1, m1⟩ := rrd_step fuel s h0 h1
    have d1 := rrd_digits (highReg s.AF) (readRam s s.HL) ha
    have ha1 : highReg s1.AF < 256 := highReg_lt _
    refine ⟨s1, e1, ?_, c1, ?_⟩
    · rw [hiNibble _ ha1, hiNibble _ ha, a1, d1.1]
      omega
    · intro g0 g1
      obtain ⟨s2, e2, a2, c2, l2, m2⟩ := rld_step fuel s1 g0 g1
      have d2 := rld_digits (highReg s1.AF) (readRam s1 s1.HL) ha1
      rw [l1] at m2 d2
      refine ⟨s2, e2, ?_, ?_, c2.trans c1⟩
      · rw [a2, l1, d2.1, a1, d1.1, m1 hHL, d1.2]
        omega
      · rw [m2 hHL, d2.2, a1, d1.1, m1 hHL, d1.2]
        omega
  · intro h0 h1
    obtain ⟨s1, e1, a1, c1, l1, m1⟩ := rld_step fuel s h0 h1
    have d1 := rld_digits (highReg s.AF) (readRam s s.HL) ha
    have ha1 : highReg s1.AF < 256 := highReg_lt _
    refine ⟨s1, e1, ?_, c1, ?_⟩
    · rw [hiNibble _ ha1, hiNibble _ ha, a1, d1.1]
      omega
    · intro g0 g1
      obtain ⟨s2, e2, a2, c2, l2, m2⟩ := rrd_step fuel s1 g0 g1
      have d2 := rrd_digits (highReg s1.AF) (readRam s1 s1.HL) ha1
      rw [l1] at m2 d2
      refine ⟨s2, e2, ?_, ?_, c2.trans c1⟩
      · rw [a2, l1, d2.1, a1, d1.1, m1 hHL, d1.2]
        omega
      · rw [m2 hHL, d2.2, a1, d1.1, m1 hHL, d1.2]
        omega

/-- C39 at `A = 0x12`, `F = 0x01` and the byte `0x34` at `HL = 0x2000`: `RRD`
gives `A = 0x14`, `(HL) = 0x23`, and `RLD` after it restores `0x12` and
`0x34`. -/
theorem rrd_rld_inverse_witness :
    (0x0800 ≤ (digitState 0x67 0x6F 0x1201 0x34).HL % 65536 ∧
      (digitState 0x67 0x6F 0x1201 0x34).HL % 65536 < 0xE000) ∧
    (∃ s1, z80step 0 (digitState 0x67 0x6F 0x1201 0x34) = some s1 ∧
      highReg s1.AF &&& 0xf0 = highReg (digitState 0x67 0x6F 0x1201 0x34).AF &&& 0xf0 ∧
      testFlag s1.AF CarryFlag = testFlag (digitState 0x67 0x6F 0x1201 0x34).AF CarryFlag ∧
      (readRam s1 s1.PC = 0xED → readRam s1 (s1.PC + 1) = 0x6F →
        ∃ s2, z80step 0 s1 = some s2 ∧
          highReg s2.AF = highReg (digitState 0x67 0x6F 0x1201 0x34).AF ∧
          readRam s2 (digitState 0x67 0x6F 0x1201 0x34).HL =
            readRam (digitState 0x67 0x6F 0x1201 0x34) (digitState 0x67 0x6F 0x1201 0x34).HL ∧
          testFlag s2.AF CarryFlag =
            testFlag (digitState 0x67 0x6F 0x1201 0x34).AF CarryFlag)) ∧
    (z80step 0 (digitState 0x67 0x6F 0x1201 0x34)).map
        (fun t => (highReg t.AF, readRam t 0x2000, readRam t t.PC, readRam t (t.PC + 1))) =
      some (0x14, 0x23, 0xED, 0x6F) ∧
    ((z80step 0 (digitState 0x67 0x6F 0x1201 0x34)).bind (z80step 0)).map
        (fun t => (highReg t.AF, readRam t 0x2000)) = some (0x12, 0x34) ∧
    ((z80step 0 (digitState 0x6F 0x67 0x1201 0x34)).bind (z80step 0)).map
        (fun t => (highReg t.AF, readRam t 0x2000)) = some (0x12, 0x34) :=
  ⟨by decide,
   (rrd_rld_inverse 0 (digitState 0x67 0x6F 0x1201 0x34) (by decide)).1 (by decide) (by decide),
   by decide, by decide, by decide⟩

/-! ## C40: what `BIT` leaves alone -/

theorem bitBits_lt (op acu : Nat) : bitBits op acu < 256 := by
  unfold bitBits
  apply or_lt_256
  · split_ifs <;> decide
  · split_ifs
    · exact and_lt_256 _ _ (by decide)
    · decide

/-- The flag word of `BIT` keeps the accumulator. -/
theorem bitWord_high (AF op acu : Nat) :
    highReg (((AF &&& bnot 0xfe) ||| bitBits op acu) % 65536) = highReg AF :=
  highReg_of_and _ _ (mask_keep AF _ 0xfe 0xff00 (by decide) (by decide) (by decide)
    (and_ff00_of_lt _ (bitBits_lt op acu)))

theorem cbStore_ix (t : Nat) (s : State) (adr v : Nat) : (cbStore t s adr v).ix = s.ix := by
  unfold cbStore
  split_ifs <;> first | rfl | exact writeRam_ix _ _ _

theorem cbStore_iy (t : Nat) (s : State) (adr v : Nat) : (cbStore t s adr v).iy = s.iy := by
  unfold cbStore
  split_ifs <;> first | rfl | exact writeRam_iy _ _ _

theorem cbStore_SP (t : Nat) (s : State) (adr v : Nat) : (cbStore t s adr v).SP = s.SP := by
  unfold cbStore
  split_ifs <;> first | rfl | exact writeRam_SP _ _ _

/-- A store to the memory operand changes no register. -/
theorem cbOperand_writeRam (k : Nat) (hk6 : k ≠ 6) (s : State) (adr v a : Nat) :
    cbOperand k (writeRam s adr v) a = cbOperand k s a := by
  unfold cbOperand
  rw [writeRam_BC, writeRam_DE, writeRam_HL, writeRam_AF, if_neg hk6, if_neg hk6]

/-- A store to one operand changes no other register. -/
theorem cbOperand_cbStore_other (k t : Nat) (hk : k < 8) (ht : t < 8) (hkt : k ≠ t)
    (hk6 : k ≠ 6) (s : State) (adr v a : Nat) :
    cbOperand k (cbStore t s adr v) a = cbOperand k s a := by
  by_cases h6 : t = 6
  · rw [h6, cbStore_six]
    exact cbOperand_writeRam k hk6 s adr v a
  · interval_cases t <;> interval_cases k <;>
      first
      | exact absurd rfl hkt
      | exact absurd rfl hk6
      | exact absurd rfl h6
      | simp [cbOperand, cbStore, lowReg_SethighReg, highReg_SetlowReg]

/-- Storing the operand back where it came from changes no register value
and no memory byte. -/
theorem cbStore_keeps (t : Nat) (ht : t < 8) (s s1 : State) (adr : Nat)
    (hAF : highReg s1.AF = highReg s.AF) (hBC : s1.BC = s.BC) (hDE : s1.DE = s.DE)
    (hHL : s1.HL = s.HL) (hix : s1.ix = s.ix) (hiy : s1.iy = s.iy) (hSP : s1.SP = s.SP)
    (hram : s1.ram = s.ram) :
    bitKeeps s (cbStore t s1 adr (cbOperand t s adr)) := by
  have hmem : ∀ a, readRam s1 a = readRam s a := fun a => readRam_congr s1 s hram a
  have hreg : ∀ k, cbOperand k s1 0 = cbOperand k s 0 := by
    intro k
    unfold cbOperand
    rw [hBC, hDE, hHL, hAF, hmem]
  refine ⟨?_, ?_, ?_, ?_, ?_⟩
  · intro k hk hk6
    by_cases e : k = t
    · subst e
      rw [cbOperand_cbStore k s1 adr 0 _ hk (fun h => absurd h hk6) (fun h => absurd h hk6),
        and_ff_of_lt _ (cbOperand_lt k s adr)]
      exact cbOperand_reg k s adr 0 hk6
    · rw [cbOperand_cbStore_other k t hk ht e hk6]
      exact hreg k
  · rw [cbStore_ix, hix]
  · rw [cbStore_iy, hiy]
  · rw [cbStore_SP, hSP]
  · intro a
    by_cases h6 : t = 6
    · subst h6
      show readRam (writeRam s1 adr (readRam s adr)) a = _
      by_cases e : a % 65536 = adr % 65536
      · rw [readRam_congr' _ _ a adr rfl e, readRam_congr' s s a adr rfl e,
          readRam_writeRam_same, hmem]
        split_ifs
        · exact Nat.mod_eq_of_lt (readRam_lt s adr)
        · rfl
      · rw [readRam_writeRam_other _ _ _ _ e, hmem]
    · rw [readRam_cbStore t s1 adr _ a (fun h => absurd h h6), hmem]

/-- C40: for every bit index, every operand selection (every opcode `op` of
`CB 40..7F`) and every state, `BIT` as `CB op`, as `DD CB d op` and as
`FD CB d op` leaves the accumulator, B, C, D, E, H, L, `IX`, `IY`, `SP` and
every memory byte with the value they had before the step (though the code
stores the operand back); `PC` advances by 2, or by 4 in the prefixed
forms. -/
theorem bit_frame (fuel : Nat) (s : State) (op d : Nat) (hop : op &&& 0xc0 = 0x40) :
    (readRam s s.PC = 0xCB → readRam s (s.PC + 1) = op →
      ∃ s', z80step fuel s = some s' ∧ bitKeeps s s' ∧ s'.PC = (s.PC + 2) % 65536) ∧
    (readRam s s.PC = 0xDD → readRam s (s.PC + 1) = 0xCB → readRam s (s.PC + 2) = d →
      readRam s (s.PC + 3) = op →
      ∃ s', z80step fuel s = some s' ∧ bitKeeps s s' ∧ s'.PC = (s.PC + 4) % 65536) ∧
    (readRam s s.PC = 0xFD → readRam s (s.PC + 1) = 0xCB → readRam s (s.PC + 2) = d →
      readRam s (s.PC + 3) = op →
      ∃ s', z80step fuel s = some s' ∧ bitKeeps s s' ∧ s'.PC = (s.PC + 4) % 65536) := by
  refine ⟨?_, ?_, ?_⟩
  · intro h0 h1
    refine ⟨_, z80step_cb fuel s op h0 h1, ?_, ?_⟩
    · rw [cbCompute_bit op _ s.AF hop]
      exact cbStore_keeps _ (and7_lt op) s _ s.HL (bitWord_high _ _ _) rfl rfl rfl rfl rfl rfl rfl
    · rw [cbStore_PC]
      show ((s.PC + 1) % 65536 + 1) % 65536 = _
      omega
  · intro h0 h1 h2 h3
    refine ⟨_, z80step_dd fuel s _ h0 h1, ?_, ?_⟩
    · rw [ddcb_exec s d op s.ix h2 h3, cbStore_ix_comm, cbCompute_bit op _ s.AF hop]
      exact cbStore_keeps _ (and7_lt op) s _ _ (bitWord_high _ _ _) rfl rfl rfl rfl rfl rfl rfl
    · rw [ddcb_exec s d op s.ix h2 h3, cbStore_ix_comm, cbStore_PC]
  · intro h0 h1 h2 h3
    refine ⟨_, z80step_fd fuel s _ h0 h1, ?_, ?_⟩
    · rw [ddcb_exec s d op s.iy h2 h3, cbStore_iy_comm, cbCompute_bit op _ s.AF hop]
      exact cbStore_keeps _ (and7_lt op) s _ _ (bitWord_high _ _ _) rfl rfl rfl rfl rfl rfl rfl
    · rw [ddcb_exec s d op s.iy h2 h3, cbStore_iy_comm, cbStore_PC]

/-- C40 at `BIT 0,(HL)` with `HL = 0x2000` and at `BIT 3,B` as `DD CB 05 58`. -/
theorem bit_frame_witness :
    (∃ s', z80step 0 (bitState 0x46) = some s' ∧ bitKeeps (bitState 0x46) s' ∧
      s'.PC = ((bitState 0x46).PC + 2) % 65536) ∧
    (∃ s', z80step 0 (bitIndexState 0xDD 0x58) = some s' ∧
      bitKeeps (bitIndexState 0xDD 0x58) s' ∧
      s'.PC = ((bitIndexState 0xDD 0x58).PC + 4) % 65536) ∧
    (z80step 0 (bitIndexState 0xDD 0x58)).map (fun t => (t.AF, t.BC, t.DE, t.HL)) =
      some (0x2955, 0x1234, 0x5678, 0x9ABC) ∧
    (z80step 0 (bitIndexState 0xFD 0x6E)).map (fun t => (t.AF, t.PC, readRam t 0x2005)) =
      some (0x2911, 0x1004, 0x29) :=
  ⟨(bit_frame 0 (bitState 0x46) 0x46 0 (by decide)).1 (by decide) (by decide),
   (bit_frame 0 (bitIndexState 0xDD 0x58) 0x58 0x05 (by decide)).2.1 (by decide) (by decide)
     (by decide) (by decide),
   by decide, by decide⟩

/-! ## Fields no instruction of a group writes -/

theorem ite_field (g : State → Nat) (c : Prop) [Decidable c] (a b : State) (x : Nat)
    (h1 : g a = x) (h2 : g b = x) : g (if c then a else b) = x := by
  split_ifs <;> assumption

theorem keepsPair_ite (g : State → Nat) (x : Nat) (c : Prop) [Decidable c]
    (a b : Option (State × Nat)) (h1 : keepsPair g x a) (h2 : keepsPair g x b) :
    keepsPair g x (if c then a else b) := by
  split_ifs <;> assumption

theorem keepsPair_none (g : State → Nat) (x : Nat) : keepsPair g x none :=
  fun _ h => Option.noConfusion h

theorem keepsPair_some (g : State → Nat) (x : Nat) (r : State × Nat) (h : g r.1 = x) :
    keepsPair g x (some r) :=
  fun _ e => Option.some.inj e ▸ h

theorem keepsOpt_ite (P : State → Prop) (c : Prop) [Decidable c]
    (a b : Option State) (h1 : keepsOpt P a) (h2 : keepsOpt P b) :
    keepsOpt P (if c then a else b) := by
  split_ifs <;> assumption

theorem keepsOpt_none (P : State → Prop) : keepsOpt P none :=
  fun _ h => Option.noConfusion h

theorem keepsOpt_some (P : State → Prop) (r : State) (h : P r) : keepsOpt P (some r) :=
  fun _ e => Option.some.inj e ▸ h

theorem iffNext_ite (x : Nat) (c : Prop) [Decidable c] (a b : State)
    (h1 : iffNext x a) (h2 : iffNext x b) : iffNext x (if c then a else b) := by
  split_ifs <;> assumption

theorem iffNext_of_eq (x : Nat) (r : State) (h : r.IFF = x) : iffNext x r := Or.inl h

theorem portOut_ix (s : State) (p v : Nat) : (portOut s p v).ix = s.ix := by
  unfold portOut
  dsimp only
  split_ifs <;> rfl

theorem writeWord_ix (s : State) (a v : Nat) : (writeWord s a v).ix = s.ix := by
  unfold writeWord
  simp only [writeRam_ix]

theorem push_ix (s : State) (v : Nat) : (push s v).ix = s.ix := by
  unfold push
  simp only [writeRam_ix]

theorem pop_ix (s : State) : (pop s).2.ix = s.ix := rfl

theorem conditionalJump_ix (s : State) (c : Bool) : (conditionalJump s c).ix = s.ix := by
  unfold conditionalJump
  split_ifs <;> rfl

theorem conditionalCall_ix (s : State) (c : Bool) : (conditionalCall s c).ix = s.ix := by
  unfold conditionalCall
  split_ifs
  · exact push_ix _ _
  · rfl

theorem storeWordAbs_ix (s : State) (v : Nat) : (storeWordAbs s v).ix = s.ix := by
  unfold storeWordAbs
  exact writeWord_ix _ _ _

theorem loadWordAbs_ix (s : State) : (loadWordAbs s).2.ix = s.ix := rfl

theorem indexAdr_ix (s : State) (IXY : Nat) : (indexAdr s IXY).2.ix = s.ix := rfl

theorem cb_prefix_ix (s : State) (adr : Nat) : ( cb_prefix s adr).ix = s.ix := by
  rw [cb_prefix_eq]
  unfold cbStore
  split_ifs <;> first | rfl | exact writeRam_ix _ _ _

theorem portOut_iy (s : State) (p v : Nat) : (portOut s p v).iy = s.iy := by
  unfold portOut
  dsimp only
  split_ifs <;> rfl

theorem writeWord_iy (s : State) (a v : Nat) : (writeWord s a v).iy = s.iy := by
  unfold writeWord
  simp only [writeRam_iy]

theorem push_iy (s : State) (v : Nat) : (push s v).iy = s.iy := by
  unfold push
  simp only [writeRam_iy]

theorem pop_iy (s : State) : (pop s).2.iy = s.iy := rfl

theorem conditionalJump_iy (s : State) (c : Bool) : (conditionalJump s c).iy = s.iy := by
  unfold conditionalJump
  split_ifs <;> rfl

theorem conditionalCall_iy (s : State) (c : Bool) : (conditionalCall s c).iy = s.iy := by
  unfold conditionalCall
  split_ifs
  · exact push_iy _ _
  · rfl

theorem storeWordAbs_iy (s : State) (v : Nat) : (storeWordAbs s v).iy = s.iy := by
  unfold storeWordAbs
  exact writeWord_iy _ _ _

theorem loadWordAbs_iy (s : State) : (loadWordAbs s).2.iy = s.iy := rfl

theorem indexAdr_iy (s : State) (IXY : Nat) : (indexAdr s IXY).2.iy = s.iy := rfl

theorem cb_prefix_iy (s : State) (adr : Nat) : ( cb_prefix s adr).iy = s.iy := by
  rw [cb_prefix_eq]
  unfold cbStore
  split_ifs <;> first | rfl | exact writeRam_iy _ _ _

theorem portOut_IFF (s : State) (p v : Nat) : (portOut s p v).IFF = s.IFF := by
  unfold portOut
  dsimp only
  split_ifs <;> rfl

theorem writeWord_IFF (s : State) (a v : Nat) : (writeWord s a v).IFF = s.IFF := by
  unfold writeWord
  simp only [writeRam_IFF]

theorem push_IFF (s : State) (v : Nat) : (push s v).IFF = s.IFF := by
  unfold push
  simp only [writeRam_IFF]

theorem pop_IFF (s : State) : (pop s).2.IFF = s.IFF := rfl

theorem conditionalJump_IFF (s : State) (c : Bool) : (conditionalJump s c).IFF = s.IFF := by
  unfold conditionalJump
  split_ifs <;> rfl

theorem conditionalCall_IFF (s : State) (c : Bool) : (conditionalCall s c).IFF = s.IFF := by
  unfold conditionalCall
  split_ifs
  · exact push_IFF _ _
  · rfl

theorem storeWordAbs_IFF (s : State) (v : Nat) : (storeWordAbs s v).IFF = s.IFF := by
  unfold storeWordAbs
  exact writeWord_IFF _ _ _

theorem loadWordAbs_IFF (s : State) : (loadWordAbs s).2.IFF = s.IFF := rfl

theorem indexAdr_IFF (s : State) (IXY : Nat) : (indexAdr s IXY).2.IFF = s.IFF := rfl

theorem cb_prefix_IFF (s : State) (adr : Nat) : ( cb_prefix s adr).IFF = s.IFF := by
  rw [cb_prefix_eq]
  unfold cbStore
  split_ifs <;> first | rfl | exact writeRam_IFF _ _ _

theorem dfd0_ix (op : Nat) (s : State) (IXY : Nat) :
    keepsPair State.ix s.ix (dfd0 op s IXY) := by
  unfold dfd0
  repeat' (first | refine keepsPair_ite _ _ _ _ _ ?_ ?_ | exact keepsPair_none _ _ | refine keepsPair_some _ _ _ ?_ | rfl)

theorem dfd1_ix (op : Nat) (s : State) (IXY : Nat) :
    keepsPair State.ix s.ix (dfd1 op s IXY) := by
  unfold dfd1
  repeat' (first | refine keepsPair_ite _ _ _ _ _ ?_ ?_ | exact keepsPair_none _ _ | refine keepsPair_some _ _ _ ?_ | rfl)

theorem dfd2_ix (op : Nat) (s : State) (IXY : Nat) :
    keepsPair State.ix s.ix (dfd2 op s IXY) := by
  unfold dfd2
  repeat' (first | refine keepsPair_ite _ _ _ _ _ ?_ ?_ | exact keepsPair_none _ _ | refine keepsPair_some _ _ _ ?_ | rfl | simp only [writeRam_ix, push_ix, pop_ix, writeWord_ix, storeWordAbs_ix, loadWordAbs_ix, indexAdr_ix, conditionalJump_ix, conditionalCall_ix, portOut_ix, cb_prefix_ix])

theorem dfd3_ix (op : Nat) (s : State) (IXY : Nat) :
    keepsPair State.ix s.ix (dfd3 op s IXY) := by
  unfold dfd3
  repeat' (first | refine keepsPair_ite _ _ _ _ _ ?_ ?_ | exact keepsPair_none _ _ | refine keepsPair_some _ _ _ ?_ | rfl | simp only [writeRam_ix, push_ix, pop_ix, writeWord_ix, storeWordAbs_ix, loadWordAbs_ix, indexAdr_ix, conditionalJump_ix, conditionalCall_ix, portOut_ix, cb_prefix_ix])

theorem dfd4_ix (op : Nat) (s : State) (IXY : Nat) :
    keepsPair State.ix s.ix (dfd4 op s IXY) := by
  unfold dfd4
  repeat' (first | refine keepsPair_ite _ _ _ _ _ ?_ ?_ | exact keepsPair_none _ _ | refine keepsPair_some _ _ _ ?_ | rfl)

theorem dfd5_ix (op : Nat) (s : State) (IXY : Nat) :
    keepsPair State.ix s.ix (dfd5 op s IXY) := by
  unfold dfd5
  repeat' (first | refine keepsPair_ite _ _ _ _ _ ?_ ?_ | exact keepsPair_none _ _ | refine keepsPair_some _ _ _ ?_ | rfl)

theorem dfd6_ix (op : Nat) (s : State) (IXY : Nat) :
    keepsPair State.ix s.ix (dfd6 op s IXY) := by
  unfold dfd6
  repeat' (first | refine keepsPair_ite _ _ _ _ _ ?_ ?_ | exact keepsPair_none _ _ | refine keepsPair_some _ _ _ ?_ | rfl)

theorem dfd7_ix (op : Nat) (s : State) (IXY : Nat) :
    keepsPair State.ix s.ix (dfd7 op s IXY) := by
  unfold dfd7
  repeat' (first | refine keepsPair_ite _ _ _ _ _ ?_ ?_ | exact keepsPair_none _ _ | refine keepsPair_some _ _ _ ?_ | rfl | simp only [writeRam_ix, push_ix, pop_ix, writeWord_ix, storeWordAbs_ix, loadWordAbs_ix, indexAdr_ix, conditionalJump_ix, conditionalCall_ix, portOut_ix, cb_prefix_ix])

theorem dfd8_ix (op : Nat) (s : State) (IXY : Nat) :
    keepsPair State.ix s.ix (dfd8 op s IXY) := by
  unfold dfd8
  repeat' (first | refine keepsPair_ite _ _ _ _ _ ?_ ?_ | exact keepsPair_none _ _ | refine keepsPair_some _ _ _ ?_ | rfl)

theorem dfd9_ix (op : Nat) (s : State) (IXY : Nat) :
    keepsPair State.ix s.ix (dfd9 op s IXY) := by
  unfold dfd9
  repeat' (first | refine keepsPair_ite _ _ _ _ _ ?_ ?_ | exact keepsPair_none _ _ | refine keepsPair_some _ _ _ ?_ | rfl)

theorem dfdA_ix (op : Nat) (s : State) (IXY : Nat) :
    keepsPair State.ix s.ix (dfdA op s IXY) := by
  unfold dfdA
  repeat' (first | refine keepsPair_ite _ _ _ _ _ ?_ ?_ | exact keepsPair_none _ _ | refine keepsPair_some _ _ _ ?_ | rfl)

theorem dfdB_ix (op : Nat) (s : State) (IXY : Nat) :
    keepsPair State.ix s.ix (dfdB op s IXY) := by
  unfold dfdB
  repeat' (first | refine keepsPair_ite _ _ _ _ _ ?_ ?_ | exact keepsPair_none _ _ | refine keepsPair_some _ _ _ ?_ | rfl)

theorem dfdC_ix (op : Nat) (s : State) (IXY : Nat) :
    keepsPair State.ix s.ix (dfdC op s IXY) := by
  unfold dfdC
  repeat' (first | refine keepsPair_ite _ _ _ _ _ ?_ ?_ | exact keepsPair_none _ _ | refine keepsPair_some _ _ _ ?_ | rfl | simp only [writeRam_ix, push_ix, pop_ix, writeWord_ix, storeWordAbs_ix, loadWordAbs_ix, indexAdr_ix, conditionalJump_ix, conditionalCall_ix, portOut_ix, cb_prefix_ix])

theorem dfdE_ix (op : Nat) (s : State) (IXY : Nat) :
    keepsPair State.ix s.ix (dfdE op s IXY) := by
  unfold dfdE
  repeat' (first | refine keepsPair_ite _ _ _ _ _ ?_ ?_ | exact keepsPair_none _ _ | refine keepsPair_some _ _ _ ?_ | rfl | simp only [writeRam_ix, push_ix, pop_ix, writeWord_ix, storeWordAbs_ix, loadWordAbs_ix, indexAdr_ix, conditionalJump_ix, conditionalCall_ix, portOut_ix, cb_prefix_ix])

theorem dfdF_ix (op : Nat) (s : State) (IXY : Nat) :
    keepsPair State.ix s.ix (dfdF op s IXY) := by
  unfold dfdF
  repeat' (first | refine keepsPair_ite _ _ _ _ _ ?_ ?_ | exact keepsPair_none _ _ | refine keepsPair_some _ _ _ ?_ | rfl)

theorem dfdExec_ix (op : Nat) (s : State) (IXY : Nat) : (dfdExec op s IXY).1.ix = s.ix := by
  have h : ∀ o : Option (State × Nat), keepsPair State.ix s.ix o →
      (match o with
        | some x => x
        | none => ({ s with PC := (65535 + s.PC) % 65536 }, IXY)).1.ix = s.ix := by
    intro o ho
    cases o with
    | none => rfl
    | some x => exact ho x rfl
  unfold dfdExec
  apply h
  refine keepsPair_ite _ _ _ _ _ (dfd0_ix op s IXY) ?_
  refine keepsPair_ite _ _ _ _ _ (dfd1_ix op s IXY) ?_
  refine keepsPair_ite _ _ _ _ _ (dfd2_ix op s IXY) ?_
  refine keepsPair_ite _ _ _ _ _ (dfd3_ix op s IXY) ?_
  refine keepsPair_ite _ _ _ _ _ (dfd4_ix op s IXY) ?_
  refine keepsPair_ite _ _ _ _ _ (dfd5_ix op s IXY) ?_
  refine keepsPair_ite _ _ _ _ _ (dfd6_ix op s IXY) ?_
  refine keepsPair_ite _ _ _ _ _ (dfd7_ix op s IXY) ?_
  refine keepsPair_ite _ _ _ _ _ (dfd8_ix op s IXY) ?_
  refine keepsPair_ite _ _ _ _ _ (dfd9_ix op s IXY) ?_
  refine keepsPair_ite _ _ _ _ _ (dfdA_ix op s IXY) ?_
  refine keepsPair_ite _ _ _ _ _ (dfdB_ix op s IXY) ?_
  refine keepsPair_ite _ _ _ _ _ (dfdC_ix op s IXY) ?_
  refine keepsPair_ite _ _ _ _ _ (keepsPair_none _ _) ?_
  refine keepsPair_ite _ _ _ _ _ (dfdE_ix op s IXY) ?_
  exact dfdF_ix op s IXY

theorem dfd_prefix_ix (s : State) (IXY : Nat) : ( dfd_prefix s IXY).1.ix = s.ix := by
  unfold dfd_prefix
  exact dfdExec_ix _ _ _

theorem dfd0_iy (op : Nat) (s : State) (IXY : Nat) :
    keepsPair State.iy s.iy (dfd0 op s IXY) := by
  unfold dfd0
  repeat' (first | refine keepsPair_ite _ _ _ _ _ ?_ ?_ | exact keepsPair_none _ _ | refine keepsPair_some _ _ _ ?_ | rfl)

theorem dfd1_iy (op : Nat) (s : State) (IXY : Nat) :
    keepsPair State.iy s.iy (dfd1 op s IXY) := by
  unfold dfd1
  repeat' (first | refine keepsPair_ite _ _ _ _ _ ?_ ?_ | exact keepsPair_none _ _ | refine keepsPair_some _ _ _ ?_ | rfl)

theorem dfd2_iy (op : Nat) (s : State) (IXY : Nat) :
    keepsPair State.iy s.iy (dfd2 op s IXY) := by
  unfold dfd2
  repeat' (first | refine keepsPair_ite _ _ _ _ _ ?_ ?_ | exact keepsPair_none _ _ | refine keepsPair_some _ _ _ ?_ | rfl | simp only [writeRam_iy, push_iy, pop_iy, writeWord_iy, storeWordAbs_iy, loadWordAbs_iy, indexAdr_iy, conditionalJump_iy, conditionalCall_iy, portOut_iy, cb_prefix_iy])

theorem dfd3_iy (op : Nat) (s : State) (IXY : Nat) :
    keepsPair State.iy s.iy (dfd3 op s IXY) := by
  unfold dfd3
  repeat' (first | refine keepsPair_ite _ _ _ _ _ ?_ ?_ | exact keepsPair_none _ _ | refine keepsPair_some _ _ _ ?_ | rfl | simp only [writeRam_iy, push_iy, pop_iy, writeWord_iy, storeWordAbs_iy, loadWordAbs_iy, indexAdr_iy, conditionalJump_iy, conditionalCall_iy, portOut_iy, cb_prefix_iy])

theorem dfd4_iy (op : Nat) (s : State) (IXY : Nat) :
    keepsPair State.iy s.iy (dfd4 op s IXY) := by
  unfold dfd4
  repeat' (first | refine keepsPair_ite _ _ _ _ _ ?_ ?_ | exact keepsPair_none _ _ | refine keepsPair_some _ _ _ ?_ | rfl)

theorem dfd5_iy (op : Nat) (s : State) (IXY : Nat) :
    keepsPair State.iy s.iy (dfd5 op s IXY) := by
  unfold dfd5
  repeat' (first | refine keepsPair_ite _ _ _ _ _ ?_ ?_ | exact keepsPair_none _ _ | refine keepsPair_some _ _ _ ?_ | rfl)

theorem dfd6_iy (op : Nat) (s : State) (IXY : Nat) :
    keepsPair State.iy s.iy (dfd6 op s IXY) := by
  unfold dfd6
  repeat' (first | refine keepsPair_ite _ _ _ _ _ ?_ ?_ | exact keepsPair_none _ _ | refine keepsPair_some _ _ _ ?_ | rfl)

theorem dfd7_iy (op : Nat) (s : State) (IXY : Nat) :
    keepsPair State.iy s.iy (dfd7 op s IXY) := by
  unfold dfd7
  repeat' (first | refine keepsPair_ite _ _ _ _ _ ?_ ?_ | exact keepsPair_none _ _ | refine keepsPair_some _ _ _ ?_ | rfl | simp only [writeRam_iy, push_iy, pop_iy, writeWord_iy, storeWordAbs_iy, loadWordAbs_iy, indexAdr_iy, conditionalJump_iy, conditionalCall_iy, portOut_iy, cb_prefix_iy])

theorem dfd8_iy (op : Nat) (s : State) (IXY : Nat) :
    keepsPair State.iy s.iy (dfd8 op s IXY) := by
  unfold dfd8
  repeat' (first | refine keepsPair_ite _ _ _ _ _ ?_ ?_ | exact keepsPair_none _ _ | refine keepsPair_some _ _ _ ?_ | rfl)

theorem dfd9_iy (op : Nat) (s : State) (IXY : Nat) :
    keepsPair State.iy s.iy (dfd9 op s IXY) := by
  unfold dfd9
  repeat' (first | refine keepsPair_ite _ _ _ _ _ ?_ ?_ | exact keepsPair_none _ _ | refine keepsPair_some _ _ _ ?_ | rfl)

theorem dfdA_iy (op : Nat) (s : State) (IXY : Nat) :
    keepsPair State.iy s.iy (dfdA op s IXY) := by
  unfold dfdA
  repeat' (first | refine keepsPair_ite _ _ _ _ _ ?_ ?_ | exact keepsPair_none _ _ | refine keepsPair_some _ _ _ ?_ | rfl)

theorem dfdB_iy (op : Nat) (s : State) (IXY : Nat) :
    keepsPair State.iy s.iy (dfdB op s IXY) := by
  unfold dfdB
  repeat' (first | refine keepsPair_ite _ _ _ _ _ ?_ ?_ | exact keepsPair_none _ _ | refine keepsPair_some _ _ _ ?_ | rfl)

theorem dfdC_iy (op : Nat) (s : State) (IXY : Nat) :
    keepsPair State.iy s.iy (dfdC op s IXY) := by
  unfold dfdC
  repeat' (first | refine keepsPair_ite _ _ _ _ _ ?_ ?_ | exact keepsPair_none _ _ | refine keepsPair_some _ _ _ ?_ | rfl | simp only [writeRam_iy, push_iy, pop_iy, writeWord_iy, storeWordAbs_iy, loadWordAbs_iy, indexAdr_iy, conditionalJump_iy, conditionalCall_iy, portOut_iy, cb_prefix_iy])

theorem dfdE_iy (op : Nat) (s : State) (IXY : Nat) :
    keepsPair State.iy s.iy (dfdE op s IXY) := by
  unfold dfdE
  repeat' (first | refine keepsPair_ite _ _ _ _ _ ?_ ?_ | exact keepsPair_none _ _ | refine keepsPair_some _ _ _ ?_ | rfl | simp only [writeRam_iy, push_iy, pop_iy, writeWord_iy, storeWordAbs_iy, loadWordAbs_iy, indexAdr_iy, conditionalJump_iy, conditionalCall_iy, portOut_iy, cb_prefix_iy])

theorem dfdF_iy (op : Nat) (s : State) (IXY : Nat) :
    keepsPair State.iy s.iy (dfdF op s IXY) := by
  unfold dfdF
  repeat' (first | refine keepsPair_ite _ _ _ _ _ ?_ ?_ | exact keepsPair_none _ _ | refine keepsPair_some _ _ _ ?_ | rfl)

theorem dfdExec_iy (op : Nat) (s : State) (IXY : Nat) : (dfdExec op s IXY).1.iy = s.iy := by
  have h : ∀ o : Option (State × Nat), keepsPair State.iy s.iy o →
      (match o with
        | some x => x
        | none => ({ s with PC := (65535 + s.PC) % 65536 }, IXY)).1.iy = s.iy := by
    intro o ho
    cases o with
    | none => rfl
    | some x => exact ho x rfl
  unfold dfdExec
  apply h
  refine keepsPair_ite _ _ _ _ _ (dfd0_iy op s IXY) ?_
  refine keepsPair_ite _ _ _ _ _ (dfd1_iy op s IXY) ?_
  refine keepsPair_ite _ _ _ _ _ (dfd2_iy op s IXY) ?_
  refine keepsPair_ite _ _ _ _ _ (dfd3_iy op s IXY) ?_
  refine keepsPair_ite _ _ _ _ _ (dfd4_iy op s IXY) ?_
  refine keepsPair_ite _ _ _ _ _ (dfd5_iy op s IXY) ?_
  refine keepsPair_ite _ _ _ _ _ (dfd6_iy op s IXY) ?_
  refine keepsPair_ite _ _ _ _ _ (dfd7_iy op s IXY) ?_
  refine keepsPair_ite _ _ _ _ _ (dfd8_iy op s IXY) ?_
  refine keepsPair_ite _ _ _ _ _ (dfd9_iy op s IXY) ?_
  refine keepsPair_ite _ _ _ _ _ (dfdA_iy op s IXY) ?_
  refine keepsPair_ite _ _ _ _ _ (dfdB_iy op s IXY) ?_
  refine keepsPair_ite _ _ _ _ _ (dfdC_iy op s IXY) ?_
  refine keepsPair_ite _ _ _ _ _ (keepsPair_none _ _) ?_
  refine keepsPair_ite _ _ _ _ _ (dfdE_iy op s IXY) ?_
  exact dfdF_iy op s IXY

theorem dfd_prefix_iy (s : State) (IXY : Nat) : ( dfd_prefix s IXY).1.iy = s.iy := by
  unfold dfd_prefix
  exact dfdExec_iy _ _ _

theorem dfd0_IFF (op : Nat) (s : State) (IXY : Nat) :
    keepsPair State.IFF s.IFF (dfd0 op s IXY) := by
  unfold dfd0
  repeat' (first | refine keepsPair_ite _ _ _ _ _ ?_ ?_ | exact keepsPair_none _ _ | refine keepsPair_some _ _ _ ?_ | rfl)

theorem dfd1_IFF (op : Nat) (s : State) (IXY : Nat) :
    keepsPair State.IFF s.IFF (dfd1 op s IXY) := by
  unfold dfd1
  repeat' (first | refine keepsPair_ite _ _ _ _ _ ?_ ?_ | exact keepsPair_none _ _ | refine keepsPair_some _ _ _ ?_ | rfl)

theorem dfd2_IFF (op : Nat) (s : State) (IXY : Nat) :
    keepsPair State.IFF s.IFF (dfd2 op s IXY) := by
  unfold dfd2
  repeat' (first | refine keepsPair_ite _ _ _ _ _ ?_ ?_ | exact keepsPair_none _ _ | refine keepsPair_some _ _ _ ?_ | rfl | simp only [writeRam_IFF, push_IFF, pop_IFF, writeWord_IFF, storeWordAbs_IFF, loadWordAbs_IFF, indexAdr_IFF, conditionalJump_IFF, conditionalCall_IFF, portOut_IFF, cb_prefix_IFF])

theorem dfd3_IFF (op : Nat) (s : State) (IXY : Nat) :
    keepsPair State.IFF s.IFF (dfd3 op s IXY) := by
  unfold dfd3
  repeat' (first | refine keepsPair_ite _ _ _ _ _ ?_ ?_ | exact keepsPair_none _ _ | refine keepsPair_some _ _ _ ?_ | rfl | simp only [writeRam_IFF, push_IFF, pop_IFF, writeWord_IFF, storeWordAbs_IFF, loadWordAbs_IFF, indexAdr_IFF, conditionalJump_IFF, conditionalCall_IFF, portOut_IFF, cb_prefix_IFF])

theorem dfd4_IFF (op : Nat) (s : State) (IXY : Nat) :
    keepsPair State.IFF s.IFF (dfd4 op s IXY) := by
  unfold dfd4
  repeat' (first | refine keepsPair_ite _ _ _ _ _ ?_ ?_ | exact keepsPair_none _ _ | refine keepsPair_some _ _ _ ?_ | rfl)

theorem dfd5_IFF (op : Nat) (s : State) (IXY : Nat) :
    keepsPair State.IFF s.IFF (dfd5 op s IXY) := by
  unfold dfd5
  repeat' (first | refine keepsPair_ite _ _ _ _ _ ?_ ?_ | exact keepsPair_none _ _ | refine keepsPair_some _ _ _ ?_ | rfl)

theorem dfd6_IFF (op : Nat) (s : State) (IXY : Nat) :
    keepsPair State.IFF s.IFF (dfd6 op s IXY) := by
  unfold dfd6
  repeat' (first | refine keepsPair_ite _ _ _ _ _ ?_ ?_ | exact keepsPair_none _ _ | refine keepsPair_some _ _ _ ?_ | rfl)

theorem dfd7_IFF (op : Nat) (s : State) (IXY : Nat) :
    keepsPair State.IFF s.IFF (dfd7 op s IXY) := by
  unfold dfd7
  repeat' (first | refine keepsPair_ite _ _ _ _ _ ?_ ?_ | exact keepsPair_none _ _ | refine keepsPair_some _ _ _ ?_ | rfl | simp only [writeRam_IFF, push_IFF, pop_IFF, writeWord_IFF, storeWordAbs_IFF, loadWordAbs_IFF, indexAdr_IFF, conditionalJump_IFF, conditionalCall_IFF, portOut_IFF, cb_prefix_IFF])

theorem dfd8_IFF (op : Nat) (s : State) (IXY : Nat) :
    keepsPair State.IFF s.IFF (dfd8 op s IXY) := by
  unfold dfd8
  repeat' (first | refine keepsPair_ite _ _ _ _ _ ?_ ?_ | exact keepsPair_none _ _ | refine keepsPair_some _ _ _ ?_ | rfl)

theorem dfd9_IFF (op : Nat) (s : State) (IXY : Nat) :
    keepsPair State.IFF s.IFF (dfd9 op s IXY) := by
  unfold dfd9
  repeat' (first | refine keepsPair_ite _ _ _ _ _ ?_ ?_ | exact keepsPair_none _ _ | refine keepsPair_some _ _ _ ?_ | rfl)

theorem dfdA_IFF (op : Nat) (s : State) (IXY : Nat) :
    keepsPair State.IFF s.IFF (dfdA op s IXY) := by
  unfold dfdA
  repeat' (first | refine keepsPair_ite _ _ _ _ _ ?_ ?_ | exact keepsPair_none _ _ | refine keepsPair_some _ _ _ ?_ | rfl)

theorem dfdB_IFF (op : Nat) (s : State) (IXY : Nat) :
    keepsPair State.IFF s.IFF (dfdB op s IXY) := by
  unfold dfdB
  repeat' (first | refine keepsPair_ite _ _ _ _ _ ?_ ?_ | exact keepsPair_none _ _ | refine keepsPair_some _ _ _ ?_ | rfl)

theorem dfdC_IFF (op : Nat) (s : State) (IXY : Nat) :
    keepsPair State.IFF s.IFF (dfdC op s IXY) := by
  unfold dfdC
  repeat' (first | refine keepsPair_ite _ _ _ _ _ ?_ ?_ | exact keepsPair_none _ _ | refine keepsPair_some _ _ _ ?_ | rfl | simp only [writeRam_IFF, push_IFF, pop_IFF, writeWord_IFF, storeWordAbs_IFF, loadWordAbs_IFF, indexAdr_IFF, conditionalJump_IFF, conditionalCall_IFF, portOut_IFF, cb_prefix_IFF])

theorem dfdE_IFF (op : Nat) (s : State) (IXY : Nat) :
    keepsPair State.IFF s.IFF (dfdE op s IXY) := by
  unfold dfdE
  repeat' (first | refine keepsPair_ite _ _ _ _ _ ?_ ?_ | exact keepsPair_none _ _ | refine keepsPair_some _ _ _ ?_ | rfl | simp only [writeRam_IFF, push_IFF, pop_IFF, writeWord_IFF, storeWordAbs_IFF, loadWordAbs_IFF, indexAdr_IFF, conditionalJump_IFF, conditionalCall_IFF, portOut_IFF, cb_prefix_IFF])

theorem dfdF_IFF (op : Nat) (s : State) (IXY : Nat) :
    keepsPair State.IFF s.IFF (dfdF op s IXY) := by
  unfold dfdF
  repeat' (first | refine keepsPair_ite _ _ _ _ _ ?_ ?_ | exact keepsPair_none _ _ | refine keepsPair_some _ _ _ ?_ | rfl)

theorem dfdExec_IFF (op : Nat) (s : State) (IXY : Nat) : (dfdExec op s IXY).1.IFF = s.IFF := by
  have h : ∀ o : Option (State × Nat), keepsPair State.IFF s.IFF o →
      (match o with
        | some x => x
        | none => ({ s with PC := (65535 + s.PC) % 65536 }, IXY)).1.IFF = s.IFF := by
    intro o ho
    cases o with
    | none => rfl
    | some x => exact ho x rfl
  unfold dfdExec
  apply h
  refine keepsPair_ite _ _ _ _ _ (dfd0_IFF op s IXY) ?_
  refine keepsPair_ite _ _ _ _ _ (dfd1_IFF op s IXY) ?_
  refine keepsPair_ite _ _ _ _ _ (dfd2_IFF op s IXY) ?_
  refine keepsPair_ite _ _ _ _ _ (dfd3_IFF op s IXY) ?_
  refine keepsPair_ite _ _ _ _ _ (dfd4_IFF op s IXY) ?_
  refine keepsPair_ite _ _ _ _ _ (dfd5_IFF op s IXY) ?_
  refine keepsPair_ite _ _ _ _ _ (dfd6_IFF op s IXY) ?_
  refine keepsPair_ite _ _ _ _ _ (dfd7_IFF op s IXY) ?_
  refine keepsPair_ite _ _ _ _ _ (dfd8_IFF op s IXY) ?_
  refine keepsPair_ite _ _ _ _ _ (dfd9_IFF op s IXY) ?_
  refine keepsPair_ite _ _ _ _ _ (dfdA_IFF op s IXY) ?_
  refine keepsPair_ite _ _ _ _ _ (dfdB_IFF op s IXY) ?_
  refine keepsPair_ite _ _ _ _ _ (dfdC_IFF op s IXY) ?_
  refine keepsPair_ite _ _ _ _ _ (keepsPair_none _ _) ?_
  refine keepsPair_ite _ _ _ _ _ (dfdE_IFF op s IXY) ?_
  exact dfdF_IFF op s IXY

theorem dfd_prefix_IFF (s : State) (IXY : Nat) : ( dfd_prefix s IXY).1.IFF = s.IFF := by
  unfold dfd_prefix
  exact dfdExec_IFF _ _ _

/-! ## C36: the prefix selects the index register -/

theorem dfdExec_E1 (s : State) (IXY : Nat) : dfdExec 0xE1 s IXY = ((pop s).2, (pop s).1) := rfl

theorem dfdExec_E3 (s : State) (IXY : Nat) :
    dfdExec 0xE3 s IXY = (push (pop s).2 IXY, (pop s).1) := rfl

/-- The word `pop` returns, in bytes. -/
theorem pop_word (s : State) : (pop s).1 = readRam s s.SP + 256 * readRam s (s.SP + 1) := by
  rw [pop_val, word_of_bytes _ _ (readRam_lt _ _) (readRam_lt _ _),
    readRam_congr' s s ((s.SP + 1) % 65536) (s.SP + 1) rfl (Nat.mod_mod _ _)]

/-- C36: for every state and every following byte sequence, a step whose
first opcode byte is `0xDD` leaves `IY` unchanged and a step whose first
opcode byte is `0xFD` leaves `IX` unchanged; after `DD E1` (`POP IX`) `IX` is
the word popped from the stack, and after `DD E3` (`EX (SP),IX`) `IX` is the
word that was at the top of the stack; `FD E1` and `FD E3` do the same to
`IY`. -/
theorem prefix_selects_index (fuel : Nat) (s : State) :
    (readRam s s.PC = 0xDD → ∃ s', z80step fuel s = some s' ∧ s'.iy = s.iy) ∧
    (readRam s s.PC = 0xFD → ∃ s', z80step fuel s = some s' ∧ s'.ix = s.ix) ∧
    (readRam s s.PC = 0xDD → readRam s (s.PC + 1) = 0xE1 →
      ∃ s', z80step fuel s = some s' ∧
        s'.ix = readRam s s.SP + 256 * readRam s (s.SP + 1) ∧
        s'.SP = (s.SP + 2) % 65536) ∧
    (readRam s s.PC = 0xDD → readRam s (s.PC + 1) = 0xE3 →
      ∃ s', z80step fuel s = some s' ∧
        s'.ix = readRam s s.SP + 256 * readRam s (s.SP + 1)) ∧
    (readRam s s.PC = 0xFD → readRam s (s.PC + 1) = 0xE1 →
      ∃ s', z80step fuel s = some s' ∧
        s'.iy = readRam s s.SP + 256 * readRam s (s.SP + 1) ∧
        s'.SP = (s.SP + 2) % 65536) ∧
    (readRam s s.PC = 0xFD → readRam s (s.PC + 1) = 0xE3 →
      ∃ s', z80step fuel s = some s' ∧
        s'.iy = readRam s s.SP + 256 * readRam s (s.SP + 1)) := by
  refine ⟨?_, ?_, ?_, ?_, ?_, ?_⟩
  · intro h
    refine ⟨_, z80step_main fuel s (by rw [h]; decide), ?_⟩
    rw [h, z80main_DD]
    show ( dfd_prefix _ _).1.iy = _
    rw [dfd_prefix_iy]
  · intro h
    refine ⟨_, z80step_main fuel s (by rw [h]; decide), ?_⟩
    rw [h, z80main_FD]
    show ( dfd_prefix _ _).1.ix = _
    rw [dfd_prefix_ix]
  · intro h0 h1
    refine ⟨_, z80step_dd fuel s _ h0 h1, ?_, ?_⟩
    · rw [dfdExec_E1]
      exact pop_word { s with PC := ((s.PC + 1) % 65536 + 1) % 65536 }
    · rw [dfdExec_E1]
      show ((s.SP + 1) % 65536 + 1) % 65536 = _
      omega
  · intro h0 h1
    refine ⟨_, z80step_dd fuel s _ h0 h1, ?_⟩
    rw [dfdExec_E3]
    exact pop_word { s with PC := ((s.PC + 1) % 65536 + 1) % 65536 }
  · intro h0 h1
    refine ⟨_, z80step_fd fuel s _ h0 h1, ?_, ?_⟩
    · rw [dfdExec_E1]
      exact pop_word { s with PC := ((s.PC + 1) % 65536 + 1) % 65536 }
    · rw [dfdExec_E1]
      show ((s.SP + 1) % 65536 + 1) % 65536 = _
      omega
  · intro h0 h1
    refine ⟨_, z80step_fd fuel s _ h0 h1, ?_⟩
    rw [dfdExec_E3]
    exact pop_word { s with PC := ((s.PC + 1) % 65536 + 1) % 65536 }

/-- C36 at `DD E1`, `DD E3`, `FD E1` and `FD E3` with `IX = 0x1111`,
`IY = 0x2222` and the word `0xBEEF` on top of the stack. -/
theorem prefix_selects_index_witness :
    (∃ s', z80step 0 (indexState 0xDD 0xE1) = some s' ∧ s'.iy = (indexState 0xDD 0xE1).iy) ∧
    (∃ s', z80step 0 (indexState 0xFD 0xE3) = some s' ∧ s'.ix = (indexState 0xFD 0xE3).ix) ∧
    (∃ s', z80step 0 (indexState 0xDD 0xE1) = some s' ∧
      s'.ix = readRam (indexState 0xDD 0xE1) (indexState 0xDD 0xE1).SP +
        256 * readRam (indexState 0xDD 0xE1) ((indexState 0xDD 0xE1).SP + 1) ∧
      s'.SP = ((indexState 0xDD 0xE1).SP + 2) % 65536) ∧
    (∃ s', z80step 0 (indexState 0xDD 0xE3) = some s' ∧
      s'.ix = readRam (indexState 0xDD 0xE3) (indexState 0xDD 0xE3).SP +
        256 * readRam (indexState 0xDD 0xE3) ((indexState 0xDD 0xE3).SP + 1)) ∧
    (z80step 0 (indexState 0xDD 0xE1)).map (fun t => (t.ix, t.iy, t.SP)) =
      some (0xBEEF, 0x2222, 0x4002) ∧
    (z80step 0 (indexState 0xDD 0xE3)).map
        (fun t => (t.ix, t.iy, t.SP, readRam t 0x4000, readRam t 0x4001)) =
      some (0xBEEF, 0x2222, 0x4000, 0x11, 0x11) ∧
    (z80step 0 (indexState 0xFD 0xE3)).map
        (fun t => (t.ix, t.iy, t.SP, readRam t 0x4000, readRam t 0x4001)) =
      some (0x1111, 0xBEEF, 0x4000, 0x22, 0x22) :=
  ⟨(prefix_selects_index 0 (indexState 0xDD 0xE1)).1 (by decide),
   (prefix_selects_index 0 (indexState 0xFD 0xE3)).2.1 (by decide),
   (prefix_selects_index 0 (indexState 0xDD 0xE1)).2.2.1 (by decide) (by decide),
   (prefix_selects_index 0 (indexState 0xDD 0xE3)).2.2.2.1 (by decide) (by decide),
   by decide, by decide, by decide⟩

/-! ## C37: the interrupt latch -/

theorem ite_IFF (c : Prop) [Decidable c] (a b : State) (x : Nat) (h1 : a.IFF = x)
    (h2 : b.IFF = x) : (if c then a else b).IFF = x := by
  split_ifs <;> assumption

theorem main0_IFF (op : Nat) (s : State) : (main0 op s).IFF = s.IFF := by
  unfold main0
  repeat' (first | with_reducible (refine ite_IFF _ _ _ _ ?_ ?_) | with_reducible rfl | simp only [writeRam_IFF, push_IFF, pop_IFF, writeWord_IFF, storeWordAbs_IFF, loadWordAbs_IFF, indexAdr_IFF, conditionalJump_IFF, conditionalCall_IFF, portOut_IFF, cb_prefix_IFF, dfd_prefix_IFF])

theorem main1_IFF (op : Nat) (s : State) : (main1 op s).IFF = s.IFF := by
  unfold main1
  repeat' (first | with_reducible (refine ite_IFF _ _ _ _ ?_ ?_) | with_reducible rfl | simp only [writeRam_IFF, push_IFF, pop_IFF, writeWord_IFF, storeWordAbs_IFF, loadWordAbs_IFF, indexAdr_IFF, conditionalJump_IFF, conditionalCall_IFF, portOut_IFF, cb_prefix_IFF, dfd_prefix_IFF])

theorem main2_IFF (op : Nat) (s : State) : (main2 op s).IFF = s.IFF := by
  unfold main2
  repeat' (first | with_reducible (refine ite_IFF _ _ _ _ ?_ ?_) | with_reducible rfl | simp only [writeRam_IFF, push_IFF, pop_IFF, writeWord_IFF, storeWordAbs_IFF, loadWordAbs_IFF, indexAdr_IFF, conditionalJump_IFF, conditionalCall_IFF, portOut_IFF, cb_prefix_IFF, dfd_prefix_IFF])

theorem main3_IFF (op : Nat) (s : State) : (main3 op s).IFF = s.IFF := by
  unfold main3
  repeat' (first | with_reducible (refine ite_IFF _ _ _ _ ?_ ?_) | with_reducible rfl | simp only [writeRam_IFF, push_IFF, pop_IFF, writeWord_IFF, storeWordAbs_IFF, loadWordAbs_IFF, indexAdr_IFF, conditionalJump_IFF, conditionalCall_IFF, portOut_IFF, cb_prefix_IFF, dfd_prefix_IFF])

theorem main4_IFF (op : Nat) (s : State) : (main4 op s).IFF = s.IFF := by
  unfold main4
  repeat' (first | with_reducible (refine ite_IFF _ _ _ _ ?_ ?_) | with_reducible rfl)

theorem main5_IFF (op : Nat) (s : State) : (main5 op s).IFF = s.IFF := by
  unfold main5
  repeat' (first | with_reducible (refine ite_IFF _ _ _ _ ?_ ?_) | with_reducible rfl)

theorem main6_IFF (op : Nat) (s : State) : (main6 op s).IFF = s.IFF := by
  unfold main6
  repeat' (first | with_reducible (refine ite_IFF _ _ _ _ ?_ ?_) | with_reducible rfl)

theorem main7_IFF (op : Nat) (s : State) : (main7 op s).IFF = s.IFF := by
  unfold main7
  repeat' (first | with_reducible (refine ite_IFF _ _ _ _ ?_ ?_) | with_reducible rfl | simp only [writeRam_IFF, push_IFF, pop_IFF, writeWord_IFF, storeWordAbs_IFF, loadWordAbs_IFF, indexAdr_IFF, conditionalJump_IFF, conditionalCall_IFF, portOut_IFF, cb_prefix_IFF, dfd_prefix_IFF])

theorem main8_IFF (op : Nat) (s : State) : (main8 op s).IFF = s.IFF := by
  unfold main8
  repeat' (first | with_reducible (refine ite_IFF _ _ _ _ ?_ ?_) | with_reducible rfl)

theorem main9_IFF (op : Nat) (s : State) : (main9 op s).IFF = s.IFF := by
  unfold main9
  repeat' (first | with_reducible (refine ite_IFF _ _ _ _ ?_ ?_) | with_reducible rfl)

theorem mainA_IFF (op : Nat) (s : State) : (mainA op s).IFF = s.IFF := by
  unfold mainA
  repeat' (first | with_reducible (refine ite_IFF _ _ _ _ ?_ ?_) | with_reducible rfl)

theorem mainB_IFF (op : Nat) (s : State) : (mainB op s).IFF = s.IFF := by
  unfold mainB
  repeat' (first | with_reducible (refine ite_IFF _ _ _ _ ?_ ?_) | with_reducible rfl)

theorem mainC_IFF (op : Nat) (s : State) : (mainC op s).IFF = s.IFF := by
  unfold mainC
  repeat' (first | with_reducible (refine ite_IFF _ _ _ _ ?_ ?_) | with_reducible rfl | simp only [writeRam_IFF, push_IFF, pop_IFF, writeWord_IFF, storeWordAbs_IFF, loadWordAbs_IFF, indexAdr_IFF, conditionalJump_IFF, conditionalCall_IFF, portOut_IFF, cb_prefix_IFF, dfd_prefix_IFF])

theorem mainD_IFF (op : Nat) (s : State) : (mainD op s).IFF = s.IFF := by
  unfold mainD
  repeat' (first | with_reducible (refine ite_IFF _ _ _ _ ?_ ?_) | with_reducible rfl | simp only [writeRam_IFF, push_IFF, pop_IFF, writeWord_IFF, storeWordAbs_IFF, loadWordAbs_IFF, indexAdr_IFF, conditionalJump_IFF, conditionalCall_IFF, portOut_IFF, cb_prefix_IFF, dfd_prefix_IFF])

theorem mainE_IFF (op : Nat) (s : State) : (mainE op s).IFF = s.IFF := by
  unfold mainE
  repeat' (first | with_reducible (refine ite_IFF _ _ _ _ ?_ ?_) | with_reducible rfl | simp only [writeRam_IFF, push_IFF, pop_IFF, writeWord_IFF, storeWordAbs_IFF, loadWordAbs_IFF, indexAdr_IFF, conditionalJump_IFF, conditionalCall_IFF, portOut_IFF, cb_prefix_IFF, dfd_prefix_IFF])

theorem mainF_IFF (op : Nat) (s : State) : iffNext s.IFF (mainF op s) := by
  unfold mainF
  repeat' (first | with_reducible (refine iffNext_ite _ _ _ _ ?_ ?_) | exact Or.inl (by with_reducible rfl) | exact Or.inr (Or.inl (by with_reducible rfl)) | exact Or.inr (Or.inr (Or.inl (by with_reducible rfl))) | exact Or.inl (by simp only [writeRam_IFF, push_IFF, pop_IFF, writeWord_IFF, storeWordAbs_IFF, loadWordAbs_IFF, indexAdr_IFF, conditionalJump_IFF, conditionalCall_IFF, portOut_IFF, cb_prefix_IFF, dfd_prefix_IFF]))

theorem z80main_IFF (op : Nat) (s : State) : iffNext s.IFF (z80main op s) := by
  unfold z80main
  refine iffNext_ite _ _ _ _ (Or.inl (main0_IFF op s)) ?_
  refine iffNext_ite _ _ _ _ (Or.inl (main1_IFF op s)) ?_
  refine iffNext_ite _ _ _ _ (Or.inl (main2_IFF op s)) ?_
  refine iffNext_ite _ _ _ _ (Or.inl (main3_IFF op s)) ?_
  refine iffNext_ite _ _ _ _ (Or.inl (main4_IFF op s)) ?_
  refine iffNext_ite _ _ _ _ (Or.inl (main5_IFF op s)) ?_
  refine iffNext_ite _ _ _ _ (Or.inl (main6_IFF op s)) ?_
  refine iffNext_ite _ _ _ _ (Or.inl (main7_IFF op s)) ?_
  refine iffNext_ite _ _ _ _ (Or.inl (main8_IFF op s)) ?_
  refine iffNext_ite _ _ _ _ (Or.inl (main9_IFF op s)) ?_
  refine iffNext_ite _ _ _ _ (Or.inl (mainA_IFF op s)) ?_
  refine iffNext_ite _ _ _ _ (Or.inl (mainB_IFF op s)) ?_
  refine iffNext_ite _ _ _ _ (Or.inl (mainC_IFF op s)) ?_
  refine iffNext_ite _ _ _ _ (Or.inl (mainD_IFF op s)) ?_
  refine iffNext_ite _ _ _ _ (Or.inl (mainE_IFF op s)) ?_
  exact mainF_IFF op s

theorem ed5_IFF (op : Nat) (s : State) : keepsOpt (fun r => r.IFF = s.IFF) (ed5 op s) := by
  unfold ed5
  repeat' (first | with_reducible (refine keepsOpt_ite _ _ _ _ ?_ ?_) | with_reducible (exact keepsOpt_none _) | with_reducible (refine keepsOpt_some _ _ ?_) | with_reducible rfl | simp only [writeRam_IFF, push_IFF, pop_IFF, writeWord_IFF, storeWordAbs_IFF, loadWordAbs_IFF, indexAdr_IFF, conditionalJump_IFF, conditionalCall_IFF, portOut_IFF, cb_prefix_IFF, dfd_prefix_IFF])

theorem ed6_IFF (op : Nat) (s : State) : keepsOpt (fun r => r.IFF = s.IFF) (ed6 op s) := by
  unfold ed6
  repeat' (first | with_reducible (refine keepsOpt_ite _ _ _ _ ?_ ?_) | with_reducible (exact keepsOpt_none _) | with_reducible (refine keepsOpt_some _ _ ?_) | with_reducible rfl | simp only [writeRam_IFF, push_IFF, pop_IFF, writeWord_IFF, storeWordAbs_IFF, loadWordAbs_IFF, indexAdr_IFF, conditionalJump_IFF, conditionalCall_IFF, portOut_IFF, cb_prefix_IFF, dfd_prefix_IFF])

theorem ed7_IFF (op : Nat) (s : State) : keepsOpt (fun r => r.IFF = s.IFF) (ed7 op s) := by
  unfold ed7
  repeat' (first | with_reducible (refine keepsOpt_ite _ _ _ _ ?_ ?_) | with_reducible (exact keepsOpt_none _) | with_reducible (refine keepsOpt_some _ _ ?_) | with_reducible rfl | simp only [writeRam_IFF, push_IFF, pop_IFF, writeWord_IFF, storeWordAbs_IFF, loadWordAbs_IFF, indexAdr_IFF, conditionalJump_IFF, conditionalCall_IFF, portOut_IFF, cb_prefix_IFF, dfd_prefix_IFF])

theorem edA_IFF (op : Nat) (s : State) : keepsOpt (fun r => r.IFF = s.IFF) (edA op s) := by
  unfold edA
  repeat' (first | with_reducible (refine keepsOpt_ite _ _ _ _ ?_ ?_) | with_reducible (exact keepsOpt_none _) | with_reducible (refine keepsOpt_some _ _ ?_) | with_reducible rfl | simp only [writeRam_IFF, push_IFF, pop_IFF, writeWord_IFF, storeWordAbs_IFF, loadWordAbs_IFF, indexAdr_IFF, conditionalJump_IFF, conditionalCall_IFF, portOut_IFF, cb_prefix_IFF, dfd_prefix_IFF])

theorem ed4_IFF (op : Nat) (s : State) : keepsOpt (iffNext s.IFF) (ed4 op s) := by
  unfold ed4
  repeat' (first | with_reducible (refine keepsOpt_ite _ _ _ _ ?_ ?_) | with_reducible (exact keepsOpt_none _) | with_reducible (refine keepsOpt_some _ _ ?_) | exact Or.inl (by with_reducible rfl) | exact Or.inr (Or.inr (Or.inr rfl)) | exact Or.inl (by simp only [writeRam_IFF, push_IFF, pop_IFF, writeWord_IFF, storeWordAbs_IFF, loadWordAbs_IFF, indexAdr_IFF, conditionalJump_IFF, conditionalCall_IFF, portOut_IFF, cb_prefix_IFF, dfd_prefix_IFF]))

theorem keepsOpt_mono (P Q : State → Prop) (h : ∀ r, P r → Q r) (o : Option State)
    (ho : keepsOpt P o) : keepsOpt Q o :=
  fun r e => h r (ho r e)

theorem edPlain_IFF (op : Nat) (s : State) : iffNext s.IFF (edPlain op s) := by
  have h : ∀ o : Option State, keepsOpt (iffNext s.IFF) o →
      iffNext s.IFF (match o with
        | some s1 => s1
        | none =>
          if 0x40 ≤ op ∧ op ≤ 0x7f then { s with PC := (65535 + s.PC) % 65536 } else s) := by
    intro o ho
    cases o with
    | none => exact iffNext_ite _ _ _ _ (Or.inl rfl) (Or.inl rfl)
    | some x => exact ho x rfl
  have w : ∀ o : Option State, keepsOpt (fun r => r.IFF = s.IFF) o →
      keepsOpt (iffNext s.IFF) o := keepsOpt_mono _ _ (fun _ e => Or.inl e)
  unfold edPlain
  apply h
  refine keepsOpt_ite _ _ _ _ (keepsOpt_none _) ?_
  refine keepsOpt_ite _ _ _ _ (ed4_IFF op s) ?_
  refine keepsOpt_ite _ _ _ _ (w _ (ed5_IFF op s)) ?_
  refine keepsOpt_ite _ _ _ _ (w _ (ed6_IFF op s)) ?_
  refine keepsOpt_ite _ _ _ _ (w _ (ed7_IFF op s)) ?_
  refine keepsOpt_ite _ _ _ _ (keepsOpt_none _) ?_
  refine keepsOpt_ite _ _ _ _ (w _ (edA_IFF op s)) ?_
  exact keepsOpt_none _

theorem ldxrRound_IFF (d : Nat) (s : State) : (ldxrRound d s).2.IFF = s.IFF := by
  show (writeRam _ _ _).IFF = _
  rw [writeRam_IFF]

theorem ldxrLoop_IFF (d : Nat) :
    ∀ (fuel : Nat) (s : State) (r : Nat × State), ldxrLoop d fuel s = some r →
      r.2.IFF = s.IFF := by
  intro fuel
  induction fuel with
  | zero => intro s r h; exact Option.noConfusion h
  | succ n ih =>
    intro s r h
    unfold ldxrLoop at h
    dsimp only at h
    split_ifs at h
    · rw [ih _ _ h, ldxrRound_IFF]
    · rw [← Option.some.inj h, ldxrRound_IFF]

theorem ldxr_IFF (d fuel : Nat) (s r : State) (h : ldxr d fuel s = some r) :
    r.IFF = s.IFF := by
  unfold ldxr at h
  dsimp only at h
  cases e : ldxrLoop d fuel { s with BC := s.BC &&& 0xffff } with
  | none => rw [e] at h; exact Option.noConfusion h
  | some x =>
    rw [e] at h
    dsimp only at h
    rw [← Option.some.inj h]
    exact ldxrLoop_IFF d fuel { s with BC := s.BC &&& 0xffff } x e

theorem cpxrLoop_IFF (d acu : Nat) :
    ∀ (fuel : Nat) (s : State) (r : Nat × Nat × State), cpxrLoop d acu fuel s = some r →
      r.2.2.IFF = s.IFF := by
  intro fuel
  induction fuel with
  | zero => intro s r h; exact Option.noConfusion h
  | succ n ih =>
    intro s r h
    unfold cpxrLoop at h
    dsimp only at h
    split_ifs at h
    · rw [ih _ _ h]
      rfl
    · rw [← Option.some.inj h]
      rfl

theorem cpxr_IFF (d fuel : Nat) (s r : State) (h : cpxr d fuel s = some r) :
    r.IFF = s.IFF := by
  unfold cpxr at h
  dsimp only at h
  cases e : cpxrLoop d (highReg s.AF) fuel { s with BC := s.BC &&& 0xffff } with
  | none => rw [e] at h; exact Option.noConfusion h
  | some x =>
    rw [e] at h
    dsimp only at h
    rw [← Option.some.inj h]
    exact cpxrLoop_IFF d _ fuel { s with BC := s.BC &&& 0xffff } x e

theorem inxrRound_IFF (d : Nat) (s : State) : (inxrRound d s).IFF = s.IFF := by
  show (writeRam _ _ _).IFF = _
  rw [writeRam_IFF]

theorem otxrRound_IFF (d : Nat) (s : State) : (otxrRound d s).IFF = s.IFF := by
  show (portOut _ _ _).IFF = _
  rw [portOut_IFF]

theorem inxrLoop_IFF (d : Nat) :
    ∀ (fuel temp : Nat) (s r : State), inxrLoop d fuel temp s = some r → r.IFF = s.IFF := by
  intro fuel
  induction fuel with
  | zero => intro temp s r h; exact Option.noConfusion h
  | succ n ih =>
    intro temp s r h
    unfold inxrLoop at h
    dsimp only at h
    split_ifs at h
    · rw [ih _ _ _ h, inxrRound_IFF]
    · rw [← Option.some.inj h, inxrRound_IFF]

theorem otxrLoop_IFF (d : Nat) :
    ∀ (fuel temp : Nat) (s r : State), otxrLoop d fuel temp s = some r → r.IFF = s.IFF := by
  intro fuel
  induction fuel with
  | zero => intro temp s r h; exact Option.noConfusion h
  | succ n ih =>
    intro temp s r h
    unfold otxrLoop at h
    dsimp only at h
    split_ifs at h
    · rw [ih _ _ _ h, otxrRound_IFF]
    · rw [← Option.some.inj h, otxrRound_IFF]

theorem inxr_IFF (d fuel : Nat) (s r : State) (h : inxr d fuel s = some r) :
    r.IFF = s.IFF := by
  unfold inxr at h
  cases e : inxrLoop d fuel (highReg s.BC) s with
  | none => rw [e] at h; exact Option.noConfusion h
  | some x =>
    rw [e] at h
    rw [← Option.some.inj h]
    exact inxrLoop_IFF d fuel _ s x e

theorem otxr_IFF (d fuel : Nat) (s r : State) (h : otxr d fuel s = some r) :
    r.IFF = s.IFF := by
  unfold otxr at h
  cases e : otxrLoop d fuel (highReg s.BC) s with
  | none => rw [e] at h; exact Option.noConfusion h
  | some x =>
    rw [e] at h
    rw [← Option.some.inj h]
    exact otxrLoop_IFF d fuel _ s x e

theorem edExec_IFF (fuel op : Nat) (s r : State) (h : edExec fuel op s = some r) :
    iffNext s.IFF r := by
  unfold edExec at h
  split_ifs at h
  · exact Or.inl (ldxr_IFF _ _ _ _ h)
  · exact Or.inl (cpxr_IFF _ _ _ _ h)
  · exact Or.inl (inxr_IFF _ _ _ _ h)
  · exact Or.inl (otxr_IFF _ _ _ _ h)
  · exact Or.inl (ldxr_IFF _ _ _ _ h)
  · exact Or.inl (cpxr_IFF _ _ _ _ h)
  · exact Or.inl (inxr_IFF _ _ _ _ h)
  · exact Or.inl (otxr_IFF _ _ _ _ h)
  · rw [← Option.some.inj h]
    exact edPlain_IFF op s

/-- What one step may do to the interrupt latch. -/
theorem z80step_IFF (fuel : Nat) (s r : State) (h : z80step fuel s = some r) :
    iffNext s.IFF r := by
  by_cases hop : readRam s s.PC = 0xED
  · rw [z80step_ed fuel s hop] at h
    unfold ed_prefix at h
    dsimp only at h
    exact edExec_IFF fuel _ { s with PC := ((s.PC + 1) % 65536 + 1) % 65536 } r h
  · rw [z80step_main fuel s hop] at h
    rw [← Option.some.inj h]
    exact z80main_IFF _ _

/-- Each of the four things a step may do to the latch keeps it in `{0, 3}`. -/
theorem iffNext_ok (x : Nat) (r : State) (h : iffNext x r) (hx : x = 0 ∨ x = 3) :
    r.IFF = 0 ∨ r.IFF = 3 := by
  rcases h with h | h | h | h
  · rw [h]; exact hx
  · exact Or.inl h
  · exact Or.inr h
  · rcases hx with rfl | rfl
    · exact Or.inl h
    · exact Or.inr h

theorem run_IFF (fuel : Nat) :
    ∀ (kms : List (Nat → Nat)) (s r : State), (s.IFF = 0 ∨ s.IFF = 3) →
      run fuel kms s = some r → (r.IFF = 0 ∨ r.IFF = 3) := by
  intro kms
  induction kms with
  | nil =>
    intro s r hs h
    rw [← Option.some.inj h]
    exact hs
  | cons km rest ih =>
    intro s r hs h
    unfold run at h
    cases e : z80step fuel { s with keyMatrix := km } with
    | none => rw [e] at h; exact Option.noConfusion h
    | some t =>
      rw [e] at h
      exact ih t r (iffNext_ok _ t (z80step_IFF fuel _ t e) hs) h

theorem run_total :
    ∀ (kms : List (Nat → Nat)) (s : State), ∃ r, run stepFuel kms s = some r := by
  intro kms
  induction kms with
  | nil => intro s; exact ⟨s, rfl⟩
  | cons km rest ih =>
    intro s
    obtain ⟨t, e⟩ := z80step_total stepFuel { s with keyMatrix := km } (Nat.le_refl _)
    obtain ⟨r, er⟩ := ih t
    refine ⟨r, ?_⟩
    unfold run
    rw [e]
    exact er

/-- C37: every run from the zero-initialised CPU, over any memory image
`ram` and any sequence `kms` of keyboard matrices seen by the input port,
ends (with `stepFuel` rounds allowed to each block-repeat loop) in a state
whose interrupt latch `IFF` is 0 or 3; a run with any other bound that ends
does so as well; and on a state with `IFF` 0 or 3 a step of `RETN` (`ED 45`)
or `RETI` (`ED 4D`) leaves `IFF` as it is. -/
theorem iff_invariant (ram : Nat → Nat) (kms : List (Nat → Nat)) :
    (∃ s, run stepFuel kms (cpuInit ram) = some s ∧ (s.IFF = 0 ∨ s.IFF = 3)) ∧
    (∀ fuel s, run fuel kms (cpuInit ram) = some s →
      (s.IFF = 0 ∨ s.IFF = 3) ∧
      ∀ op, op = 0x45 ∨ op = 0x4D → readRam s s.PC = 0xED → readRam s (s.PC + 1) = op →
        ∃ s', z80step fuel s = some s' ∧ s'.IFF = s.IFF) := by
  have h0 : (cpuInit ram).IFF = 0 ∨ (cpuInit ram).IFF = 3 := Or.inl rfl
  constructor
  · obtain ⟨s, e⟩ := run_total kms (cpuInit ram)
    exact ⟨s, e, run_IFF stepFuel kms _ s h0 e⟩
  · intro fuel s e
    have hs := run_IFF fuel kms _ s h0 e
    refine ⟨hs, ?_⟩
    intro op hop g0 g1
    rw [z80step_edPlain fuel s op g0 g1 (by rcases hop with rfl | rfl <;> decide),
      edPlain_ret op hop]
    refine ⟨_, rfl, ?_⟩
    show (s.IFF ||| (s.IFF >>> 1)) % 65536 = s.IFF
    rcases hs with h | h <;> rw [h] <;> rfl

/-- C37 on the program `EI; RETN` run for one step and for two steps. -/
theorem iff_invariant_witness :
    (∃ s, run stepFuel [fun _ => 0] (cpuInit eiRetnRam) = some s ∧ (s.IFF = 0 ∨ s.IFF = 3)) ∧
    (∀ fuel s, run fuel [fun _ => 0] (cpuInit eiRetnRam) = some s →
      (s.IFF = 0 ∨ s.IFF = 3) ∧
      ∀ op, op = 0x45 ∨ op = 0x4D → readRam s s.PC = 0xED → readRam s (s.PC + 1) = op →
        ∃ s', z80step fuel s = some s' ∧ s'.IFF = s.IFF) ∧
    (run 0 [fun _ => 0] (cpuInit eiRetnRam)).map
        (fun t => (t.IFF, readRam t t.PC, readRam t (t.PC + 1))) = some (3, 0xED, 0x45) ∧
    (run 0 [fun _ => 0, fun _ => 0] (cpuInit eiRetnRam)).map (fun t => t.IFF) = some 3 :=
  ⟨(iff_invariant eiRetnRam [fun _ => 0]).1, (iff_invariant eiRetnRam [fun _ => 0]).2,
   by decide, by decide⟩

/-! ## C34: `INIR`, `OTIR`, `INDR`, `OTDR` -/

/-- A step on `ED op`: the `switch` after `0xED` on `op`, with `PC` past both
bytes. -/
theorem z80step_edExec (fuel : Nat) (s : State) (op : Nat)
    (h0 : readRam s s.PC = 0xED) (h1 : readRam s (s.PC + 1) = op) :
    z80step fuel s = edExec fuel op { s with PC := ((s.PC + 1) % 65536 + 1) % 65536 } := by
  rw [z80step_ed fuel s h0]
  unfold ed_prefix
  dsimp only
  rw [fetch_second s op h1]

theorem portOut_HL (s : State) (p v : Nat) : (portOut s p v).HL = s.HL := by
  unfold portOut
  dsimp only
  split_ifs <;> rfl

theorem portOut_BC (s : State) (p v : Nat) : (portOut s p v).BC = s.BC := by
  unfold portOut
  dsimp only
  split_ifs <;> rfl

theorem portOut_AF (s : State) (p v : Nat) : (portOut s p v).AF = s.AF := by
  unfold portOut
  dsimp only
  split_ifs <;> rfl

theorem iterate_field (f : State → State) (g : State → Nat) (hg : ∀ s, g (f s) = g s) :
    ∀ (n : Nat) (s : State), g (Nat.iterate f n s) = g s := by
  intro n
  induction n with
  | zero => intro s; rfl
  | succ n ih => intro s; show g (Nat.iterate f n (f s)) = _; rw [ih, hg]

theorem iterate_HL (f : State → State) (d : Nat)
    (hf : ∀ s, (f s).HL = (d + s.HL) % 65536) :
    ∀ (n : Nat) (s : State), s.HL < 65536 →
      (Nat.iterate f n s).HL = (n * d + s.HL) % 65536 := by
  intro n
  induction n with
  | zero => intro s h; show s.HL = _; omega
  | succ n ih =>
    intro s h
    show (Nat.iterate f n (f s)).HL = _
    rw [ih _ (by rw [hf]; omega), hf, Nat.succ_mul]
    omega

theorem inxrRound_HL (d : Nat) (s : State) : (inxrRound d s).HL = (d + s.HL) % 65536 := by
  show (d + (writeRam _ _ _).HL) % 65536 = _
  rw [writeRam_HL]

theorem inxrRound_BC (d : Nat) (s : State) : (inxrRound d s).BC = s.BC := by
  show (writeRam _ _ _).BC = _
  rw [writeRam_BC]

theorem inxrRound_AF (d : Nat) (s : State) : (inxrRound d s).AF = s.AF := by
  show (writeRam _ _ _).AF = _
  rw [writeRam_AF]

theorem otxrRound_HL (d : Nat) (s : State) : (otxrRound d s).HL = (d + s.HL) % 65536 := by
  show (d + (portOut _ _ _).HL) % 65536 = _
  rw [portOut_HL]

theorem otxrRound_BC (d : Nat) (s : State) : (otxrRound d s).BC = s.BC := by
  show (portOut _ _ _).BC = _
  rw [portOut_BC]

theorem otxrRound_AF (d : Nat) (s : State) : (otxrRound d s).AF = s.AF := by
  show (portOut _ _ _).AF = _
  rw [portOut_AF]

/-- The loop `do … while (--temp)` on the 32-bit counter `temp` makes
`rounds 0x100000000 temp` rounds: `temp` of them, or `2^32` when `temp = 0`. -/
theorem inxrLoop_eq (d : Nat) :
    ∀ (n fuel temp : Nat) (s : State), temp < 0x100000000 →
      rounds 0x100000000 temp = n + 1 → n < fuel →
      inxrLoop d fuel temp s = some (Nat.iterate (inxrRound d) (n + 1) s) := by
  intro n
  induction n with
  | zero =>
    intro fuel temp s hlt hr hf
    obtain ⟨f, rfl⟩ : ∃ f, fuel = f + 1 := ⟨fuel - 1, by omega⟩
    have ht : temp = 1 := by unfold rounds at hr; split_ifs at hr <;> omega
    unfold inxrLoop
    dsimp only
    rw [ht, if_neg (by decide)]
    rfl
  | succ n ih =>
    intro fuel temp s hlt hr hf
    obtain ⟨f, rfl⟩ : ∃ f, fuel = f + 1 := ⟨fuel - 1, by omega⟩
    unfold inxrLoop
    dsimp only
    have hz : sub32 temp 1 ≠ 0 := by
      unfold sub32; unfold rounds at hr; split_ifs at hr <;> omega
    rw [if_pos hz]
    rw [ih f (sub32 temp 1) (inxrRound d s) (by unfold sub32; omega)
      (by unfold rounds at hr ⊢; rw [if_neg hz]; unfold sub32; split_ifs at hr <;> omega)
      (by omega)]
    rfl

theorem otxrLoop_eq (d : Nat) :
    ∀ (n fuel temp : Nat) (s : State), temp < 0x100000000 →
      rounds 0x100000000 temp = n + 1 → n < fuel →
      otxrLoop d fuel temp s = some (Nat.iterate (otxrRound d) (n + 1) s) := by
  intro n
  induction n with
  | zero =>
    intro fuel temp s hlt hr hf
    obtain ⟨f, rfl⟩ : ∃ f, fuel = f + 1 := ⟨fuel - 1, by omega⟩
    have ht : temp = 1 := by unfold rounds at hr; split_ifs at hr <;> omega
    unfold otxrLoop
    dsimp only
    rw [ht, if_neg (by decide)]
    rfl
  | succ n ih =>
    intro fuel temp s hlt hr hf
    obtain ⟨f, rfl⟩ : ∃ f, fuel = f + 1 := ⟨fuel - 1, by omega⟩
    unfold otxrLoop
    dsimp only
    have hz : sub32 temp 1 ≠ 0 := by
      unfold sub32; unfold rounds at hr; split_ifs at hr <;> omega
    rw [if_pos hz]
    rw [ih f (sub32 temp 1) (otxrRound d s) (by unfold sub32; omega)
      (by unfold rounds at hr ⊢; rw [if_neg hz]; unfold sub32; split_ifs at hr <;> omega)
      (by omega)]
    rfl

theorem rounds_pos (w n : Nat) (hw : 0 < w) : 0 < rounds w n := by
  unfold rounds
  split_ifs <;> omega

/-- The statements after the loop: `B = 0`, `C` kept, Z and N set. -/
theorem blockIoEnd_spec (s : State) :
    (blockIoEnd s).HL = s.HL ∧ highReg (blockIoEnd s).BC = 0 ∧
    lowReg (blockIoEnd s).BC = lowReg s.BC ∧
    testFlag (blockIoEnd s).AF ZeroFlag = true ∧ testFlag (blockIoEnd s).AF SubFlag = true := by
  have e : (65536 : Nat) = 2 ^ 16 := rfl
  refine ⟨rfl, highReg_SethighReg _ _, lowReg_SethighReg _ _, ?_, ?_⟩
  · show testFlag (((s.AF ||| 2) % 65536 ||| 64) % 65536) (2 ^ 6) = true
    rw [testFlag_eq_testBit, e, Nat.testBit_mod_two_pow, Nat.testBit_or]
    have c : Nat.testBit 64 6 = true := rfl
    rw [c, Bool.or_true]
    rfl
  · show testFlag (((s.AF ||| 2) % 65536 ||| 64) % 65536) (2 ^ 1) = true
    rw [testFlag_eq_testBit, e, Nat.testBit_mod_two_pow, Nat.testBit_or,
      Nat.testBit_mod_two_pow, Nat.testBit_or]
    have c : Nat.testBit 2 1 = true := rfl
    rw [c, Bool.or_true]
    rfl

/-- The result of a block-repeat I/O step from its loop body. -/
theorem repeatIo_of_loop (f : State → State) (d : Nat) (s : State) (hHL : s.HL < 65536)
    (hH : ∀ s, (f s).HL = (d + s.HL) % 65536) (hB : ∀ s, (f s).BC = s.BC) (n : Nat) :
    repeatIoResult f d n s
      (blockIoEnd (Nat.iterate f n { s with PC := ((s.PC + 1) % 65536 + 1) % 65536 })) := by
  obtain ⟨e1, e2, e3, e4, e5⟩ :=
    blockIoEnd_spec (Nat.iterate f n { s with PC := ((s.PC + 1) % 65536 + 1) % 65536 })
  refine ⟨rfl, ?_, e2, ?_, e4, e5⟩
  · rw [e1]
    exact iterate_HL f d hH n { s with PC := ((s.PC + 1) % 65536 + 1) % 65536 } hHL
  · rw [e3, iterate_field f State.BC hB]

/-- C34 (what the code does, for every state): one step of `INIR` (`ED B2`),
`OTIR` (`ED B3`), `INDR` (`ED BA`) or `OTDR` (`ED BB`) makes
`rounds 0x100000000 B` rounds of its loop, each one transfer and one step of
`HL`, and leaves `B = 0`, `C` unchanged and Z and N set.  The number of
rounds is `B` when `1 <= B <= 255`, but `2^32` (not 256) when `B = 0`,
because the loop counter is a 32-bit variable; `HL` then ends where it
started, not 256 further. -/
theorem block_repeat_io (fuel : Nat) (s : State) (hHL : s.HL < 65536)
    (hf : rounds 0x100000000 (highReg s.BC) ≤ fuel) (h0 : readRam s s.PC = 0xED) :
    (readRam s (s.PC + 1) = 0xB2 →
      ∃ s', z80step fuel s = some s' ∧
        repeatIoResult (inxrRound 1) 1 (rounds 0x100000000 (highReg s.BC)) s s') ∧
    (readRam s (s.PC + 1) = 0xB3 →
      ∃ s', z80step fuel s = some s' ∧
        repeatIoResult (otxrRound 1) 1 (rounds 0x100000000 (highReg s.BC)) s s') ∧
    (readRam s (s.PC + 1) = 0xBA →
      ∃ s', z80step fuel s = some s' ∧
        repeatIoResult (inxrRound 65535) 65535 (rounds 0x100000000 (highReg s.BC)) s s') ∧
    (readRam s (s.PC + 1) = 0xBB →
      ∃ s', z80step fuel s = some s' ∧
        repeatIoResult (otxrRound 65535) 65535 (rounds 0x100000000 (highReg s.BC)) s s') ∧
    (1 ≤ highReg s.BC → rounds 0x100000000 (highReg s.BC) = highReg s.BC) ∧
    (highReg s.BC = 0 → rounds 0x100000000 (highReg s.BC) = 0x100000000 ∧
      (0x100000000 * 1 + s.HL) % 65536 = s.HL ∧
      (0x100000000 * 65535 + s.HL) % 65536 = s.HL) := by
  have hlt : highReg s.BC < 0x100000000 := Nat.lt_trans (highReg_lt _) (by decide)
  obtain ⟨n, hn⟩ : ∃ n, rounds 0x100000000 (highReg s.BC) = n + 1 :=
    ⟨rounds 0x100000000 (highReg s.BC) - 1, by
      have := rounds_pos 0x100000000 (highReg s.BC) (by decide)
      omega⟩
  rw [hn] at hf
  refine ⟨?_, ?_, ?_, ?_, ?_, ?_⟩
  · intro h1
    refine ⟨_, ?_, repeatIo_of_loop (inxrRound 1) 1 s hHL (inxrRound_HL 1) (inxrRound_BC 1) _⟩
    rw [z80step_edExec fuel s 0xB2 h0 h1, hn]
    show (inxrLoop 1 fuel (highReg s.BC) _).map blockIoEnd = _
    rw [inxrLoop_eq 1 n fuel (highReg s.BC) _ hlt hn (by omega)]
    rfl
  · intro h1
    refine ⟨_, ?_, repeatIo_of_loop (otxrRound 1) 1 s hHL (otxrRound_HL 1) (otxrRound_BC 1) _⟩
    rw [z80step_edExec fuel s 0xB3 h0 h1, hn]
    show (otxrLoop 1 fuel (highReg s.BC) _).map blockIoEnd = _
    rw [otxrLoop_eq 1 n fuel (highReg s.BC) _ hlt hn (by omega)]
    rfl
  · intro h1
    refine ⟨_, ?_, repeatIo_of_loop (inxrRound 65535) 65535 s hHL (inxrRound_HL 65535) (inxrRound_BC 65535) _⟩
    rw [z80step_edExec fuel s 0xBA h0 h1, hn]
    show (inxrLoop 65535 fuel (highReg s.BC) _).map blockIoEnd = _
    rw [inxrLoop_eq 65535 n fuel (highReg s.BC) _ hlt hn (by omega)]
    rfl
  · intro h1
    refine ⟨_, ?_, repeatIo_of_loop (otxrRound 65535) 65535 s hHL (otxrRound_HL 65535) (otxrRound_BC 65535) _⟩
    rw [z80step_edExec fuel s 0xBB h0 h1, hn]
    show (otxrLoop 65535 fuel (highReg s.BC) _).map blockIoEnd = _
    rw [otxrLoop_eq 65535 n fuel (highReg s.BC) _ hlt hn (by omega)]
    rfl
  · intro h
    unfold rounds
    rw [if_neg (by omega)]
  · intro h
    refine ⟨?_, ?_, ?_⟩
    · unfold rounds
      rw [if_pos h]
    · omega
    · omega

/-- C34 at the failing input, `OTIR` with `B = 0`: the step makes `2^32`
rounds and leaves `HL = 0x2000`, where 256 transfers would leave `0x2100`;
and at `B = 3`, where the step makes 3 rounds and leaves `HL = 0x2003`. -/
theorem block_repeat_io_witness :
    (∃ s', z80step stepFuel (repeatIoState 0xB3 0) = some s' ∧
      repeatIoResult (otxrRound 1) 1 0x100000000 (repeatIoState 0xB3 0) s' ∧
      s'.HL = 0x2000 ∧ s'.HL ≠ ((repeatIoState 0xB3 0).HL + 256) % 65536) ∧
    (z80step 3 (repeatIoState 0xB3 3)).map (fun t => (t.HL, t.BC, t.AF)) =
      some (0x2003, 0x0010, 0x0042) ∧
    (z80step 3 (repeatIoState 0xBA 3)).map (fun t => (t.HL, t.BC, t.AF)) =
      some (0x1FFD, 0x0010, 0x0042) := by
  have h := block_repeat_io stepFuel (repeatIoState 0xB3 0) (by decide) (by decide) (by decide)
  obtain ⟨s', e, r⟩ := h.2.1 (by decide)
  have hr : rounds 0x100000000 (highReg (repeatIoState 0xB3 0).BC) = 0x100000000 := by decide
  rw [hr] at r
  have hHL : s'.HL = 0x2000 := r.2.1.trans (by decide)
  refine ⟨⟨s', e, r, hHL, ?_⟩, by decide, by decide⟩
  rw [hHL]
  decide

/-! ## C33: `LDIR` and `LDDR` against repeated `LDI` and `LDD` -/

theorem writeRam_AF_comm (s : State) (a v x : Nat) :
    { writeRam s a v with AF := x } = writeRam { s with AF := x } a v := by
  unfold writeRam updateScreen
  dsimp only
  split_ifs <;> rfl

theorem ldxrRound_AF_comm (d : Nat) (s : State) (A : Nat) :
    ldxrRound d { s with AF := A } = ((ldxrRound d s).1, { (ldxrRound d s).2 with AF := A }) := by
  unfold ldxrRound writeRam updateScreen
  dsimp only
  split_ifs <;> rfl

/-- `LDI` is one round of the loop of `LDIR` followed by the flag update. -/
theorem edPlain_A0 (s : State) :
    edPlain 0xA0 s =
      { (ldxrRound 1 s).2 with
        AF := ldiAF s.AF (readRam s s.HL) ((65535 + s.BC) % 65536) } := by
  have e : edPlain 0xA0 s = (let acu := readRam s s.HL; let s1 : State := { s with HL := (s.HL + 1) % 65536 }; let s2 := writeRam s1 s1.DE acu; let s3 : State := { s2 with DE := (s2.DE + 1) % 65536 }; let acu := acu + highReg s3.AF; let BC1 := (65535 + s3.BC) % 65536; { s3 with BC := BC1, AF := ((s3.AF &&& bnot 0x3e) ||| (acu &&& 8) ||| ((acu &&& 2) <<< 4) ||| ((if (BC1 &&& 0xffff) ≠ 0 then 1 else 0) <<< 2)) % 65536 }) := rfl
  rw [e]
  unfold ldxrRound ldiAF
  dsimp only
  rw [Nat.add_comm s.HL 1, Nat.add_comm (writeRam _ _ _).DE 1, writeRam_AF, writeRam_BC]

/-- `LDD` is one round of the loop of `LDDR` followed by the flag update. -/
theorem edPlain_A8 (s : State) :
    edPlain 0xA8 s =
      { (ldxrRound 65535 s).2 with
        AF := ldiAF s.AF (readRam s s.HL) ((65535 + s.BC) % 65536) } := by
  have e : edPlain 0xA8 s = (let acu := readRam s s.HL; let s1 : State := { s with HL := (65535 + s.HL) % 65536 }; let s2 := writeRam s1 s1.DE acu; let s3 : State := { s2 with DE := (65535 + s2.DE) % 65536 }; let acu := acu + highReg s3.AF; let BC1 := (65535 + s3.BC) % 65536; { s3 with BC := BC1, AF := ((s3.AF &&& bnot 0x3e) ||| (acu &&& 8) ||| ((acu &&& 2) <<< 4) ||| ((if (BC1 &&& 0xffff) ≠ 0 then 1 else 0) <<< 2)) % 65536 }) := rfl
  rw [e]
  unfold ldxrRound ldiAF
  dsimp only
  rw [writeRam_AF, writeRam_BC]

theorem ldxrRound_PC_comm (d : Nat) (s : State) (p : Nat) :
    ldxrRound d { s with PC := p } = ((ldxrRound d s).1, { (ldxrRound d s).2 with PC := p }) := by
  unfold ldxrRound writeRam updateScreen
  dsimp only
  split_ifs <;> rfl

/-- The bits `LDI` and `LDD` set lie inside the mask `0x3e` they clear. -/
theorem ldiBits (x p : Nat) (hp : p ≤ 1) :
    ((x &&& 8) ||| (((x &&& 2) <<< 4) ||| (p <<< 2))) &&& 0x3e =
        ((x &&& 8) ||| (((x &&& 2) <<< 4) ||| (p <<< 2))) ∧
      ((x &&& 8) ||| (((x &&& 2) <<< 4) ||| (p <<< 2))) &&& 0xff00 = 0 := by
  have h8 : x &&& 8 = 0 ∨ x &&& 8 = 8 := by
    have e : x &&& 8 = 8 * (x / 8 % 2) := and_two_pow x 3
    omega
  have h2 : x &&& 2 = 0 ∨ x &&& 2 = 2 := by
    have e : x &&& 2 = 2 * (x / 2 % 2) := and_two_pow x 1
    omega
  have h1 : p = 0 ∨ p = 1 := by omega
  rcases h8 with h8 | h8 <;> rcases h2 with h2 | h2 <;> rcases h1 with h1 | h1 <;>
    rw [h8, h2, h1] <;> exact ⟨by decide, by decide⟩

/-- Clearing a mask twice, with bits inside the mask set in between. -/
theorem mask_twice (A Z Y k : Nat) (hk : k < 2 ^ 32) (hZ : Z &&& k = Z) :
    (((((A &&& bnot k) ||| Z) % 65536) &&& bnot k) ||| Y) % 65536 =
      ((A &&& bnot k) ||| Y) % 65536 := by
  apply Nat.eq_of_testBit_eq
  intro i
  have e : (65536 : Nat) = 2 ^ 16 := rfl
  simp only [e, Nat.testBit_mod_two_pow, Nat.testBit_or, Nat.testBit_and]
  by_cases hi : i < 16
  · have hz : Z.testBit i = (Z.testBit i && k.testBit i) := by
      rw [← Nat.testBit_and, hZ]
    rw [testBit_bnot k i hk (by omega), hz]
    cases A.testBit i <;> cases Z.testBit i <;> cases k.testBit i <;> cases Y.testBit i <;>
      simp [hi]
  · simp [hi]

theorem ldiAF_high (A b c : Nat) : highReg (ldiAF A b c) = highReg A := by
  unfold ldiAF
  simp only [Nat.or_assoc]
  exact highReg_of_and _ _ (mask_keep A _ 0x3e 0xff00 (by decide) (by decide) (by decide)
    (ldiBits _ _ (by split_ifs <;> omega)).2)

theorem ldiAF_mask (A b c Y : Nat) :
    ((ldiAF A b c &&& bnot 0x3e) ||| Y) % 65536 = ((A &&& bnot 0x3e) ||| Y) % 65536 := by
  unfold ldiAF
  simp only [Nat.or_assoc]
  exact mask_twice A _ Y 0x3e (by decide) (ldiBits _ _ (by split_ifs <;> omega)).1

/-- `LDI`/`LDD` on a state whose flag word was replaced. -/
theorem ldi_step (f : State → State) (d : Nat)
    (hf : ∀ s, f s = { (ldxrRound d s).2 with
      AF := ldiAF s.AF (readRam s s.HL) ((65535 + s.BC) % 65536) })
    (I : State) (A : Nat) :
    f { I with AF := A } =
      { (ldxrRound d I).2 with AF := ldiAF A (readRam I I.HL) ((65535 + I.BC) % 65536) } := by
  rw [hf, ldxrRound_AF_comm]
  rfl

theorem ldi_PC_comm (f : State → State) (d : Nat)
    (hf : ∀ s, f s = { (ldxrRound d s).2 with
      AF := ldiAF s.AF (readRam s s.HL) ((65535 + s.BC) % 65536) })
    (s : State) (p : Nat) : f { s with PC := p } = { f s with PC := p } := by
  rw [hf, hf, ldxrRound_PC_comm]
  rfl

theorem iterate_PC_comm (f : State → State)
    (hf : ∀ (s : State) (p : Nat), f { s with PC := p } = { f s with PC := p }) (p : Nat) :
    ∀ (n : Nat) (s : State),
      Nat.iterate f n { s with PC := p } = { Nat.iterate f n s with PC := p } := by
  intro n
  induction n with
  | zero => intro s; rfl
  | succ n ih =>
    intro s
    show Nat.iterate f n (f { s with PC := p }) = { Nat.iterate f n (f s) with PC := p }
    rw [hf, ih]

/-- After `k` applications of `LDI` (or `LDD`) the state is that after `k`
rounds of the loop of `LDIR` (`LDDR`) but for the flag word, which has the
accumulator and the bits outside the mask `0x3e` of the original. -/
theorem ldi_iterate (f : State → State) (d : Nat)
    (hf : ∀ s, f s = { (ldxrRound d s).2 with
      AF := ldiAF s.AF (readRam s s.HL) ((65535 + s.BC) % 65536) }) :
    ∀ (k : Nat) (s0 : State), ∃ A,
      Nat.iterate f k s0 = { ldxrIter d k s0 with AF := A } ∧ highReg A = highReg s0.AF ∧
      ∀ Y, ((A &&& bnot 0x3e) ||| Y) % 65536 = ((s0.AF &&& bnot 0x3e) ||| Y) % 65536 := by
  intro k
  induction k with
  | zero => intro s0; exact ⟨s0.AF, rfl, rfl, fun _ => rfl⟩
  | succ k ih =>
    intro s0
    obtain ⟨A, e, h1, h2⟩ := ih s0
    refine ⟨ldiAF A (readRam (ldxrIter d k s0) (ldxrIter d k s0).HL)
      ((65535 + (ldxrIter d k s0).BC) % 65536), ?_, ?_, ?_⟩
    · rw [Function.iterate_succ_apply', e, ldi_step f d hf, ldxrIter_succ_back]
    · rw [ldiAF_high, h1]
    · intro Y
      rw [ldiAF_mask, h2]

/-- `LDIR` and `LDDR` with the byte of the last round named. -/
theorem ldxr_last (d fuel n : Nat) (s : State)
    (hr : rounds 65536 (s.BC &&& 0xffff) = n + 1) (hf : n < fuel) :
    ldxr d fuel s =
      some { ldxrIter d (n + 1) { s with BC := s.BC &&& 0xffff } with
        AF := ((s.AF &&& bnot 0x3e) |||
          ((readRam (ldxrIter d n { s with BC := s.BC &&& 0xffff })
              (ldxrIter d n { s with BC := s.BC &&& 0xffff }).HL + highReg s.AF) &&& 8) |||
          (((readRam (ldxrIter d n { s with BC := s.BC &&& 0xffff })
              (ldxrIter d n { s with BC := s.BC &&& 0xffff }).HL + highReg s.AF) &&& 2) <<< 4)) %
          65536 } := by
  unfold ldxr
  dsimp only
  rw [ldxrLoop_eq d n fuel { s with BC := s.BC &&& 0xffff } (and_ffff_lt s.BC) hr hf]
  dsimp only
  rw [ldxrIter_AF]

/-- The block move against its single-step form: with `BC = n`,
`1 <= n <= 65535`, `LDIR` (`LDDR`) leaves the state that `n` applications of
`f` = `LDI` (`LDD`) leave. -/
theorem ldxr_iterate (f : State → State) (d : Nat)
    (hf : ∀ s, f s = { (ldxrRound d s).2 with
      AF := ldiAF s.AF (readRam s s.HL) ((65535 + s.BC) % 65536) })
    (fuel n : Nat) (s : State) (hn1 : 1 ≤ n) (hn : n ≤ 65535) (hBC : s.BC = n)
    (hfuel : n ≤ fuel) :
    ldxr d fuel s = some (Nat.iterate f n s) := by
  obtain ⟨m, rfl⟩ : ∃ m, n = m + 1 := ⟨n - 1, by omega⟩
  have hand : s.BC &&& 0xffff = s.BC := and_ffff_of_lt _ (by omega)
  have hs : ({ s with BC := s.BC &&& 0xffff } : State) = s := by rw [hand]
  have hr : rounds 65536 (s.BC &&& 0xffff) = m + 1 := by
    rw [hand, hBC]; unfold rounds; rw [if_neg (by omega)]
  rw [ldxr_last d fuel m s hr (by omega), hs]
  obtain ⟨A, e, h1, h2⟩ := ldi_iterate f d hf m s
  have hB : (ldxrIter d m s).BC = 1 := by
    rw [ldxrIter_BC d m s (by omega), hBC]; omega
  rw [Function.iterate_succ_apply', e, ldi_step f d hf, ldxrIter_succ_back, hB]
  unfold ldiAF
  rw [h1]
  have hz : ((if ((65535 + 1) % 65536 &&& 0xffff) ≠ 0 then 1 else 0) <<< 2 : Nat) = 0 := by
    decide
  rw [hz, Nat.or_zero]
  simp only [Nat.or_assoc]
  rw [h2]

/-- C33: for every state with `BC = n`, `1 <= n <= 65535`, one step of `LDIR`
(`ED B0`) leaves the state that `n` applications in succession of the `LDI`
operation (the case `ED A0`) leave from the same state, with `PC` advanced by
2: the registers `AF`, `BC`, `DE`, `HL` and the memory image (and every other
component but `PC`) are equal; likewise `LDDR` (`ED B8`) and `n` applications
of `LDD` (`ED A8`). -/
theorem ldir_is_repeated_ldi (fuel n : Nat) (s : State) (hn1 : 1 ≤ n) (hn : n ≤ 65535)
    (hBC : s.BC = n) (hfuel : n ≤ fuel) (h0 : readRam s s.PC = 0xED) :
    (readRam s (s.PC + 1) = 0xB0 →
      ∃ s', z80step fuel s = some s' ∧
        s' = { Nat.iterate (edPlain 0xA0) n s with PC := (s.PC + 2) % 65536 } ∧
        s'.AF = (Nat.iterate (edPlain 0xA0) n s).AF ∧ s'.BC = (Nat.iterate (edPlain 0xA0) n s).BC ∧
        s'.DE = (Nat.iterate (edPlain 0xA0) n s).DE ∧ s'.HL = (Nat.iterate (edPlain 0xA0) n s).HL ∧
        s'.ram = (Nat.iterate (edPlain 0xA0) n s).ram) ∧
    (readRam s (s.PC + 1) = 0xB8 →
      ∃ s', z80step fuel s = some s' ∧
        s' = { Nat.iterate (edPlain 0xA8) n s with PC := (s.PC + 2) % 65536 } ∧
        s'.AF = (Nat.iterate (edPlain 0xA8) n s).AF ∧ s'.BC = (Nat.iterate (edPlain 0xA8) n s).BC ∧
        s'.DE = (Nat.iterate (edPlain 0xA8) n s).DE ∧ s'.HL = (Nat.iterate (edPlain 0xA8) n s).HL ∧
        s'.ram = (Nat.iterate (edPlain 0xA8) n s).ram) := by
  have hPC : ((s.PC + 1) % 65536 + 1) % 65536 = (s.PC + 2) % 65536 := by omega
  constructor
  · intro h1
    have e : z80step fuel s = some
        { Nat.iterate (edPlain 0xA0) n s with PC := (s.PC + 2) % 65536 } := by
      rw [z80step_edExec fuel s 0xB0 h0 h1, ← hPC,
        ← iterate_PC_comm (edPlain 0xA0) (ldi_PC_comm (edPlain 0xA0) 1 edPlain_A0) _ n s]
      exact ldxr_iterate (edPlain 0xA0) 1 edPlain_A0 fuel n _ hn1 hn hBC hfuel
    exact ⟨_, e, rfl, rfl, rfl, rfl, rfl, rfl⟩
  · intro h1
    have e : z80step fuel s = some
        { Nat.iterate (edPlain 0xA8) n s with PC := (s.PC + 2) % 65536 } := by
      rw [z80step_edExec fuel s 0xB8 h0 h1, ← hPC,
        ← iterate_PC_comm (edPlain 0xA8) (ldi_PC_comm (edPlain 0xA8) 65535 edPlain_A8) _ n s]
      exact ldxr_iterate (edPlain 0xA8) 65535 edPlain_A8 fuel n _ hn1 hn hBC hfuel
    exact ⟨_, e, rfl, rfl, rfl, rfl, rfl, rfl⟩

/-- C33 at `LDIR` and `LDDR` with `BC = 3`, `A = 0x12` and the flag byte
`0xFF`. -/
theorem ldir_is_repeated_ldi_witness :
    (∃ s', z80step 3 (ldirFlagsState 0xB0) = some s' ∧
      s' = { Nat.iterate (edPlain 0xA0) 3 (ldirFlagsState 0xB0) with
        PC := ((ldirFlagsState 0xB0).PC + 2) % 65536 } ∧
      s'.AF = (Nat.iterate (edPlain 0xA0) 3 (ldirFlagsState 0xB0)).AF ∧
      s'.BC = (Nat.iterate (edPlain 0xA0) 3 (ldirFlagsState 0xB0)).BC ∧
      s'.DE = (Nat.iterate (edPlain 0xA0) 3 (ldirFlagsState 0xB0)).DE ∧
      s'.HL = (Nat.iterate (edPlain 0xA0) 3 (ldirFlagsState 0xB0)).HL ∧
      s'.ram = (Nat.iterate (edPlain 0xA0) 3 (ldirFlagsState 0xB0)).ram) ∧
    (z80step 3 (ldirFlagsState 0xB0)).map
        (fun t => (t.AF, t.BC, t.DE, t.HL, readRam t 0x3003)) =
      some (0x12E1, 0, 0x3004, 0x2004, 0x44) ∧
    (fun t : State => (t.AF, t.BC, t.DE, t.HL, readRam t 0x3003))
        (Nat.iterate (edPlain 0xA0) 3 (ldirFlagsState 0xB0)) =
      (0x12E1, 0, 0x3004, 0x2004, 0x44) ∧
    (z80step 3 (ldirFlagsState 0xB8)).map
        (fun t => (t.AF, t.BC, t.DE, t.HL, readRam t 0x3000)) =
      some (0x12E1, 0, 0x2FFE, 0x1FFE, 0x11) ∧
    (fun t : State => (t.AF, t.BC, t.DE, t.HL, readRam t 0x3000))
        (Nat.iterate (edPlain 0xA8) 3 (ldirFlagsState 0xB8)) =
      (0x12E1, 0, 0x2FFE, 0x1FFE, 0x11) :=
  ⟨(ldir_is_repeated_ldi 3 3 (ldirFlagsState 0xB0) (by decide) (by decide) (by decide)
      (by decide) (by decide)).1 (by decide),
   by decide, by decide, by decide, by decide⟩

/-! ## C35: `RETN` and `RETI` on the states the emulator reaches -/

end Nascom
